import Mathlib

/-!
# spftp: the per-connection FTP session

A shallow embedding of `src/FtpServer/FtpServer.cpp`, `src/FtpServer/FtpTask.hpp`,
`src/Coroutine/Coroutine.hpp` and `src/ThreadPool/ThreadPool.hpp`.

* A `std::string` is a list of bytes, each byte written as the character with the same code.
* The operating system is a record `Sys W` of system calls over a hidden world `W`; every call
  takes the world and returns its result with the new world, and `errno` is read from the world.
* The three transfer coroutines are state machines: `Coro` names the `co_await` at which a
  routine is parked, and `task = none` is the empty handle.
* Loops whose length is decided by the operating system (send, recv, read, write) and the
  loop of `Parse` take fuel and return `none` when it runs out; the loop of `Read` draws its
  fuel from the input buffer, which always suffices (`Read_eq`).
-/

namespace HSLL

/-- The bytes of a `std::string`. -/
abbrev Bytes := List Char

/-! ## String helpers of the C++ standard library -/

/-- The scan of `std::string::find`: the text from index `i` on, already cut off. -/
def findAt (pat : Bytes) : Bytes → Nat → Option Nat
  | [], i => if pat.isPrefixOf [] then some i else none
  | c :: cs, i => if pat.isPrefixOf (c :: cs) then some i else findAt pat cs (i + 1)

/-- The call `s.find(pat, pos)`: the lowest index at or after `pos` where `pat` starts,
`none` for `npos`. -/
def find (s pat : Bytes) (pos : Nat) : Option Nat :=
  if s.length < pos then none else findAt pat (s.drop pos) pos

/-- The call `s.substr(pos, n)`. -/
def substr (s : Bytes) (pos n : Nat) : Bytes := (s.drop pos).take n

/-- The scan of `std::string::find_last_of(c)`: `last` is the latest hit before index `i`. -/
def findLastAt (c : Char) : Bytes → Nat → Option Nat → Option Nat
  | [], _, last => last
  | d :: ds, i, last => findLastAt c ds (i + 1) (if d = c then some i else last)

/-- The call `s.find_last_of(c)`. -/
def find_last_of (s : Bytes) (c : Char) : Option Nat := findLastAt c s 0 none

/-- The C `islower` on a byte, in the "C" and UTF-8 locales: the letters a to z. -/
def islower (c : Char) : Bool := c.isLower

/-- The C `toupper` on a lower-case letter. -/
def toupper (c : Char) : Char := c.toUpper

/-- ToUpperCase (FtpServer.cpp 206-217). -/
def ToUpperCase (str : Bytes) : Bytes :=
  str.map fun c => if islower c then toupper c else c

/-- The C `isspace` in the "C" locale. -/
def isspace (c : Char) : Bool :=
  c = Char.ofNat 32 || c = '\t' || c = '\n' || c = Char.ofNat 11 || c = Char.ofNat 12 || c = '\r'

/-- The leading decimal digits of a text, read into the accumulator. -/
def digitsVal : Bytes → Nat → Nat
  | [], acc => acc
  | c :: cs, acc => if c.isDigit then digitsVal cs (acc * 10 + (c.toNat - 48)) else acc

/-- The conversion of a wider integer to `int`: its low 32 bits, read as a signed number. -/
def wrapInt32 (n : Int) : Int := (n + 2 ^ 31) % 2 ^ 32 - 2 ^ 31

/-- The C `atoi` as the GNU C library has it, `(int) strtol(s, NULL, 10)`: blanks, an
optional sign, then digits up to the first other byte; `strtol` keeps the number within the
range of a 64-bit `long`, and the conversion to `int` keeps its low 32 bits. -/
def atoi (s : Bytes) : Int :=
  let v : Int :=
    match s.dropWhile isspace with
    | '-' :: cs => - (digitsVal cs 0 : Int)
    | '+' :: cs => (digitsVal cs 0 : Int)
    | cs => (digitsVal cs 0 : Int)
  wrapInt32 (max (-(2 ^ 63)) (min v (2 ^ 63 - 1)))

/-- The loop `while (std::getline(ss, item, delim)) out.push_back(item)`: `cur` is the item
being read. At the end of the text an item is produced only when bytes were read for it. -/
def getlineAux (delim : Char) : Bytes → Bytes → List Bytes
  | [], cur => if cur = [] then [] else [cur]
  | c :: cs, cur =>
    if c = delim then cur :: getlineAux delim cs [] else getlineAux delim cs (cur ++ [c])

/-- All items `std::getline` reads from a text. -/
def getlineAll (delim : Char) (s : Bytes) : List Bytes := getlineAux delim s []

/-- The conversion `%d` of printf. -/
def fmtInt (n : Int) : Bytes := (toString n).toList

/-- The conversion `%8lld` of printf: right-justified in eight columns. -/
def fmtInt8 (n : Int) : Bytes :=
  let d := fmtInt n
  List.replicate (8 - d.length) (Char.ofNat 32) ++ d

/-! ## Constants of the platform (Linux) -/

/-- The errno value EAGAIN, which is also EWOULDBLOCK. -/
def EAGAIN : Int := 11

/-- The errno value EWOULDBLOCK. -/
def EWOULDBLOCK : Int := 11

/-- The errno value EEXIST. -/
def EEXIST : Int := 17

/-- The errno value EINPROGRESS. -/
def EINPROGRESS : Int := 115

/-- The macro `S_ISDIR`. -/
def S_ISDIR (mode : Nat) : Bool := mode &&& 0o170000 = 0o040000

/-- The macro `S_ISREG`. -/
def S_ISREG (mode : Nat) : Bool := mode &&& 0o170000 = 0o100000

/-- The fields of `struct stat` the server reads. -/
structure Stat where
  st_mode : Nat
  st_size : Int
  st_mtime : Int
deriving DecidableEq, Repr

/-- The socket options the server sets. -/
inductive SockOpt where
  | SO_RCVTIMEO (seconds : Nat)
  | SO_SNDTIMEO (seconds : Nat)
  | SO_REUSEADDR
deriving DecidableEq, Repr

/-- The two ways the server opens a file: `O_RDONLY`, and
`O_WRONLY | O_CREAT | O_TRUNC` with mode 0644. -/
inductive OpenFlags where
  | O_RDONLY
  | O_WRONLY_CREAT_TRUNC
deriving DecidableEq, Repr

/-- The system calls of the server over a world `W`. A call that fails returns what the C call
returns (`-1`, or `none` for a null pointer or a failed read) and leaves its errno in the
world. `opendir` gives the names `readdir` goes on to return, `iconv` is `iconv_open` and
`iconv` together (`none` when either fails), `strftime_local` is
`strftime("%b %d %H:%M", localtime(&t))`, and `evbuffer_add` is `EVBuffer::Write`. -/
structure Sys (W : Type) where
  errno : W → Int
  iconv : Bytes → Bytes → Bytes → Option Bytes
  strftime_local : Int → Bytes
  evbuffer_add : W → Bytes → Int × W
  socket : W → Int × W
  close : W → Int → W
  setsockopt : W → Int → SockOpt → Int × W
  bind : W → Int → Int × W
  listen : W → Int → Nat → Int × W
  getsockname_port : W → Int → Nat × W
  accept : W → Int → Int × W
  fcntl_getfl : W → Int → Int × W
  fcntl_setfl : W → Int → Int → Bool → W
  connect : W → Int → Bytes → Int → Int × W
  select_write : W → Int → Nat → Int × W
  getsockopt_error : W → Int → (Int × Int) × W
  opendir : W → Bytes → Option (List Bytes) × W
  stat : W → Bytes → Option Stat × W
  rmdir : W → Bytes → Int × W
  rename : W → Bytes → Bytes → Int × W
  remove : W → Bytes → Int × W
  mkdir : W → Bytes → Nat → Int × W
  open_ : W → Bytes → OpenFlags → Int × W
  read : W → Int → Nat → Option Bytes × W
  write : W → Int → Bytes → Int × W
  send : W → Int → Bytes → Int × W
  recv : W → Int → Nat → Option Bytes × W

/-! ## Configuration and session state -/

/-- ServerInfo (FtpServer.h 26-43): the configuration, fixed after `LoadConfig`. -/
structure ServerInfo where
  utf8 : Bool
  anonymous : Bool
  rwtimeout : Nat
  port : Nat
  dir : Bytes
  ip : Bytes
  encoding : Bytes
  users : List (Bytes × Bytes)
deriving DecidableEq, Repr

/-- ConnectionInfo (Eventcplus.h 76-80). -/
structure ConnectionInfo where
  port : Int
  ip : Bytes
deriving DecidableEq, Repr

/-- EVBuffer (Eventcplus.h 86-129): the input and output buffers of the reactor and whether
read and write events are enabled. -/
structure EVBuffer where
  input : Bytes
  output : Bytes
  enabled : Bool
deriving DecidableEq, Repr

/-- The enumeration DataConnectionMode (FtpServer.h 107-112). -/
inductive DataConnectionMode where
  | DATA_MODE_NONE
  | DATA_MODE_ACTIVE
  | DATA_MODE_PASSIVE
deriving DecidableEq, Repr

/-- The `co_await` at which a transfer coroutine is parked, with the locals it still needs:
`listFlush`, `uploadFlush`, `downloadFlush` are the await inside `while (!Send())`;
`listSend`, `uploadRecv`, `downloadSend` the await after EAGAIN on the data socket. -/
inductive Coro where
  | listFlush
  | listSend (listing : Bytes) (totalSent : Nat)
  | uploadFlush (filePath : Bytes)
  | uploadRecv (fileHandle : Int)
  | downloadFlush (filePath : Bytes)
  | downloadSend (fileHandle : Int) (buffer : Bytes) (bytesSent : Nat)
deriving DecidableEq, Repr

/-- The class FTPServer (FtpServer.h 49-214): the state of one control connection. `task` is
`none` for an empty coroutine handle and `some k` for a routine parked at `k`; `w` is the
world of the operating system; `cmdLog` is the output of the `HSLL_LOGINFO` line of
`ProcessCommand`, one entry (command, parameter) per call; `overrun` is a ghost flag, set
when the program has written past the end of a buffer (`char ip[32]` of HandlePORT): what
the program does from then on is not defined, and nothing is claimed about it. -/
structure FTPServer (W : Type) where
  evb : EVBuffer
  info : ConnectionInfo
  sWaitParse : Bytes
  sWaitSend : Bytes
  utf8 : Bool
  error : Bool
  certified : Bool
  enableFree : Bool
  user : Bytes
  clientIP : Bytes
  currentDir : Bytes
  renameFromPath : Bytes
  dataSocket : Int
  pasvSocket : Int
  clientPort : Int
  dataMode : DataConnectionMode
  task : Option Coro
  w : W
  cmdLog : List (Bytes × Bytes)
  overrun : Bool := false
deriving DecidableEq, Repr

/-- The constructor FTPServer::FTPServer (FtpServer.cpp 1101-1112); `clientPort`, which the
constructor leaves uninitialised, is zero here. -/
def FTPServer.new {W : Type} (cfg : ServerInfo) (evb : EVBuffer) (info : ConnectionInfo)
    (w : W) : FTPServer W :=
  { evb := evb, info := info, sWaitParse := [], sWaitSend := [], utf8 := false, error := false,
    certified := false, enableFree := true, user := [], clientIP := [], currentDir := cfg.dir,
    renameFromPath := [], dataSocket := -1, pasvSocket := -1, clientPort := 0,
    dataMode := .DATA_MODE_NONE, task := none, w := w, cmdLog := [] }

/-! ## Helpers of the session -/

variable {W : Type}

/-- The call `sWaitSend.append(msg)`. -/
def FTPServer.appendSend (s : FTPServer W) (msg : Bytes) : FTPServer W :=
  { s with sWaitSend := s.sWaitSend ++ msg }

/-- The function convertEncoding (FtpServer.cpp 236-263). -/
def convertEncoding (sys : Sys W) (input fromEncoding toEncoding : Bytes) : Bytes :=
  if input = [] then []
  else if fromEncoding = toEncoding then input
  else
    match sys.iconv fromEncoding toEncoding input with
    | none => input
    | some output => output

/-- FTPServer::SetSocketTimeout (FtpServer.cpp 219-234); the two warnings are not kept. -/
def SetSocketTimeout (sys : Sys W) (w : W) (socket : Int) (seconds : Nat) : W :=
  let r := sys.setsockopt w socket (.SO_RCVTIMEO seconds)
  (sys.setsockopt r.2 socket (.SO_SNDTIMEO seconds)).2

/-- FTPServer::Send (FtpServer.cpp 1061-1072): hand the whole of `sWaitSend` to the reactor. -/
def FTPServer.Send (sys : Sys W) (s : FTPServer W) : Bool × FTPServer W :=
  if s.sWaitSend = [] then (true, s)
  else
    let r := sys.evbuffer_add s.w s.sWaitSend
    if r.1 = 0 then
      (true, { s with w := r.2,
                      evb := { s.evb with output := s.evb.output ++ s.sWaitSend },
                      sWaitSend := [] })
    else (false, { s with w := r.2 })

/-- The loop of FTPServer::Read (FtpServer.cpp 1047-1059): `evb.Read(buf, 1024)` removes up to
1024 bytes from the front of the input buffer and returns how many it removed. -/
def FTPServer.readLoop : Nat → FTPServer W → FTPServer W
  | 0, s => s
  | fuel + 1, s =>
    let buf := s.evb.input.take 1024
    let tSize : Int := buf.length
    if tSize ≤ 0 then s
    else
      let s1 := { s with evb := { s.evb with input := s.evb.input.drop 1024 },
                         sWaitParse := s.sWaitParse ++ buf }
      if tSize < 1024 then s1 else readLoop fuel s1

/-- FTPServer::Read (FtpServer.cpp 1047-1059). The fuel is more than the loop can use. -/
def FTPServer.Read (s : FTPServer W) : FTPServer W :=
  FTPServer.readLoop (s.evb.input.length + 1) s

/-- FTPServer::EnableRW (FtpServer.cpp 1025-1029). -/
def FTPServer.EnableRW (s : FTPServer W) : FTPServer W :=
  { s with enableFree := true, evb := { s.evb with enabled := true } }

/-- FTPServer::DisableRW (FtpServer.cpp 1031-1035). -/
def FTPServer.DisableRW (s : FTPServer W) : FTPServer W :=
  { s with enableFree := false, evb := { s.evb with enabled := false } }

/-- FTPServer::CheakFree (FtpServer.cpp 1037-1040). -/
def FTPServer.CheakFree (s : FTPServer W) : Bool := s.enableFree

/-- FTPServer::CheakError (FtpServer.cpp 1042-1045). -/
def FTPServer.CheakError (s : FTPServer W) : Bool := s.error

/-- FTPServer::Send_And_EnableWR (FtpServer.cpp 1018-1023). -/
def FTPServer.Send_And_EnableWR (sys : Sys W) (s : FTPServer W) : FTPServer W :=
  let s1 := (FTPServer.Send sys s).2
  { s1 with enableFree := true, evb := { s1.evb with enabled := true } }

/-! ## The data channel -/

/-- FTPServer::CloseDataConnection (FtpServer.cpp 344-357). -/
def FTPServer.CloseDataConnection (sys : Sys W) (s : FTPServer W) : FTPServer W :=
  let s1 := if s.dataSocket ≠ -1 then
      { s with w := sys.close s.w s.dataSocket, dataSocket := -1 } else s
  if s1.pasvSocket ≠ -1 then
    { s1 with w := sys.close s1.w s1.pasvSocket, pasvSocket := -1 } else s1

/-- The passive branch of FTPServer::EstablishDataConnection (FtpServer.cpp 267-288). -/
def FTPServer.EstablishPassive (sys : Sys W) (cfg : ServerInfo) (s : FTPServer W) :
    Bool × FTPServer W :=
  if s.pasvSocket = -1 then (false, s)
  else
    let o := sys.setsockopt s.w s.pasvSocket (.SO_RCVTIMEO cfg.rwtimeout)
    let a := sys.accept o.2 s.pasvSocket
    let w1 := sys.close a.2 s.pasvSocket
    let s1 := { s with dataSocket := a.1, pasvSocket := -1, w := w1 }
    if a.1 = -1 ∧ (sys.errno w1 = EAGAIN ∨ sys.errno w1 = EWOULDBLOCK) then (false, s1)
    else (true, { s1 with w := SetSocketTimeout sys w1 a.1 cfg.rwtimeout })

/-- The active branch of FTPServer::EstablishDataConnection (FtpServer.cpp 289-336). The port
handed to `connect` is `htons((short)clientPort)`, the low 16 bits. -/
def FTPServer.EstablishActive (sys : Sys W) (cfg : ServerInfo) (s : FTPServer W) :
    Bool × FTPServer W :=
  if s.dataSocket = -1 then (false, s)
  else
    let f := sys.fcntl_getfl s.w s.dataSocket
    let flags := f.1
    let w1 := sys.fcntl_setfl f.2 s.dataSocket flags true
    let c := sys.connect w1 s.dataSocket s.clientIP (s.clientPort % 65536)
    let connectResult := c.1
    if connectResult < 0 ∧ sys.errno c.2 ≠ EINPROGRESS then
      (false, { s with w := sys.close c.2 s.dataSocket, dataSocket := -1 })
    else
      let fin (w : W) : Bool × FTPServer W :=
        let w2 := sys.fcntl_setfl w s.dataSocket flags false
        (true, { s with w := SetSocketTimeout sys w2 s.dataSocket cfg.rwtimeout })
      if connectResult < 0 then
        let sel := sys.select_write c.2 s.dataSocket cfg.rwtimeout
        if sel.1 ≤ 0 then
          (false, { s with w := sys.close sel.2 s.dataSocket, dataSocket := -1 })
        else
          let g := sys.getsockopt_error sel.2 s.dataSocket
          if g.1.1 ≠ 0 ∨ g.1.2 ≠ 0 then
            (false, { s with w := sys.close g.2 s.dataSocket, dataSocket := -1 })
          else fin g.2
      else fin c.2

/-- FTPServer::EstablishDataConnection (FtpServer.cpp 265-342). -/
def FTPServer.EstablishDataConnection (sys : Sys W) (cfg : ServerInfo) (s : FTPServer W) :
    Bool × FTPServer W :=
  match s.dataMode with
  | .DATA_MODE_PASSIVE => FTPServer.EstablishPassive sys cfg s
  | .DATA_MODE_ACTIVE => FTPServer.EstablishActive sys cfg s
  | .DATA_MODE_NONE => (false, s)

/-- FTPServer::HandlePORT (FtpServer.cpp 359-397). The address is printed into
`char ip[32]`: a text of 32 bytes or more (with its final NUL) is written past the end of
the buffer, which the ghost flag `overrun` records. The port is computed in the 32 bits of
`int`. -/
def FTPServer.HandlePORT (sys : Sys W) (s0 : FTPServer W) (param : Bytes) : FTPServer W :=
  let values := (getlineAll ',' param).map atoi
  if values.length ≠ 6 then
    s0.appendSend "501 Syntax error in parameters or arguments.\r\n".toList
  else
    let ip := fmtInt (values.getD 0 0) ++ ".".toList ++ fmtInt (values.getD 1 0) ++ ".".toList
      ++ fmtInt (values.getD 2 0) ++ ".".toList ++ fmtInt (values.getD 3 0)
    let s := if 32 ≤ ip.length + 1 then { s0 with overrun := true } else s0
    let port := wrapInt32 (values.getD 4 0 * 256 + values.getD 5 0)
    let s1 := if s.dataSocket ≠ -1 then
        { s with w := sys.close s.w s.dataSocket, dataSocket := -1 } else s
    let r := sys.socket s1.w
    let s2 := { s1 with w := r.2, dataSocket := r.1 }
    if r.1 < 0 then s2.appendSend "425 Can't open data connection.\r\n".toList
    else
      { s2 with clientIP := ip, clientPort := port, dataMode := .DATA_MODE_ACTIVE,
                sWaitSend := s2.sWaitSend ++ "200 PORT command successful.\r\n".toList }

/-- FTPServer::HandlePASV (FtpServer.cpp 399-456). The port is `ntohs` of a 16-bit field. -/
def FTPServer.HandlePASV (sys : Sys W) (cfg : ServerInfo) (s : FTPServer W) : FTPServer W :=
  let s1 := if s.dataSocket ≠ -1 then
      { s with w := sys.close s.w s.dataSocket, dataSocket := -1 } else s
  let r := sys.socket s1.w
  let s2 := { s1 with w := r.2, pasvSocket := r.1 }
  if r.1 < 0 then s2.appendSend "425 Can't open passive socket.\r\n".toList
  else
    let o := sys.setsockopt s2.w s2.pasvSocket .SO_REUSEADDR
    let b := sys.bind o.2 s2.pasvSocket
    if b.1 < 0 then
      ({ s2 with w := sys.close b.2 s2.pasvSocket, pasvSocket := -1 }).appendSend
        "425 Can't bind passive socket.\r\n".toList
    else
      let l := sys.listen b.2 s2.pasvSocket 1
      if l.1 < 0 then
        ({ s2 with w := sys.close l.2 s2.pasvSocket, pasvSocket := -1 }).appendSend
          "425 Can't listen on passive socket.\r\n".toList
      else
        let g := sys.getsockname_port l.2 s2.pasvSocket
        let pasvPort : Nat := g.1 % 65536
        let ipParts := getlineAll '.' cfg.ip
        let pasvResponse := ipParts.getD 0 [] ++ ",".toList ++ ipParts.getD 1 [] ++ ",".toList
          ++ ipParts.getD 2 [] ++ ",".toList ++ ipParts.getD 3 [] ++ ",".toList
          ++ fmtInt (pasvPort / 256 : Nat) ++ ",".toList ++ fmtInt (pasvPort % 256 : Nat)
        { s2 with w := g.2, dataMode := .DATA_MODE_PASSIVE,
                  sWaitSend := s2.sWaitSend ++ "227 Entering Passive Mode (".toList
                    ++ pasvResponse ++ ")\r\n".toList }

/-! ## The transfer coroutines

A run of a coroutine gives `none` when the fuel runs out, `some (s, none)` when the routine
reached `co_return`, and `some (s, some k)` when it parked at the await `k`. -/

/-- The ten characters `perm` of a listing line (FtpServer.cpp 497-507). -/
def permString (mode : Nat) : Bytes :=
  [ (if S_ISDIR mode then 'd' else '-'),
    (if mode &&& 0o400 ≠ 0 then 'r' else '-'),
    (if mode &&& 0o200 ≠ 0 then 'w' else '-'),
    (if mode &&& 0o100 ≠ 0 then 'x' else '-'),
    (if mode &&& 0o040 ≠ 0 then 'r' else '-'),
    (if mode &&& 0o020 ≠ 0 then 'w' else '-'),
    (if mode &&& 0o010 ≠ 0 then 'x' else '-'),
    (if mode &&& 0o004 ≠ 0 then 'r' else '-'),
    (if mode &&& 0o002 ≠ 0 then 'w' else '-'),
    (if mode &&& 0o001 ≠ 0 then 'x' else '-') ]

/-- One line of a listing (FtpServer.cpp 509-513): `snprintf` into `char line[512]` keeps at
most 511 bytes. -/
def listLine (sys : Sys W) (name : Bytes) (st : Stat) : Bytes :=
  (permString st.st_mode ++ " 1 owner group ".toList ++ fmtInt8 st.st_size ++ " ".toList
    ++ sys.strftime_local st.st_mtime ++ " ".toList ++ name ++ "\r\n".toList).take 511

/-- The `readdir` loop of HandleList (FtpServer.cpp 488-515) over the names of the directory. -/
def listEntries (sys : Sys W) (currentDir : Bytes) : List Bytes → W → Bytes → Bytes × W
  | [], w, listing => (listing, w)
  | name :: rest, w, listing =>
    if name = ".".toList ∨ name = "..".toList then listEntries sys currentDir rest w listing
    else
      let r := sys.stat w (currentDir ++ "/".toList ++ name)
      match r.1 with
      | none => listEntries sys currentDir rest r.2 listing
      | some st => listEntries sys currentDir rest r.2 (listing ++ listLine sys name st)

/-- The end of HandleList (FtpServer.cpp 543-549). -/
def FTPServer.listFinish (sys : Sys W) (s : FTPServer W) (sendError : Bool) : FTPServer W :=
  FTPServer.CloseDataConnection sys
    (s.appendSend (if sendError then "426 Connection error during transfer.\r\n".toList
                   else "226 Directory send OK.\r\n".toList))

/-- The send loop of HandleList (FtpServer.cpp 524-541). -/
def FTPServer.listSendLoop (sys : Sys W) :
    Nat → FTPServer W → Bytes → Nat → Option (FTPServer W × Option Coro)
  | 0, _, _, _ => none
  | fuel + 1, s, listing, totalSent =>
    if totalSent < listing.length then
      let r := sys.send s.w s.dataSocket (listing.drop totalSent)
      let s1 := { s with w := r.2 }
      if r.1 < 0 then
        if sys.errno r.2 = EAGAIN ∨ sys.errno r.2 = EWOULDBLOCK then
          some (s1, some (.listSend listing totalSent))
        else some (FTPServer.listFinish sys s1 true, none)
      else listSendLoop sys fuel s1 listing (totalSent + r.1.toNat)
    else some (FTPServer.listFinish sys s false, none)

/-- HandleList after the control channel was flushed (FtpServer.cpp 469-541). -/
def FTPServer.listBody (sys : Sys W) (cfg : ServerInfo) (fuel : Nat) (s : FTPServer W) :
    Option (FTPServer W × Option Coro) :=
  let e := FTPServer.EstablishDataConnection sys cfg s
  if e.1 = false then some (e.2.appendSend "425 Can't open data connection.\r\n".toList, none)
  else
    let d := sys.opendir e.2.w e.2.currentDir
    let s1 := { e.2 with w := d.2 }
    match d.1 with
    | none =>
      some (FTPServer.CloseDataConnection sys
        (s1.appendSend "550 Failed to open directory.\r\n".toList), none)
    | some names =>
      let l := listEntries sys s1.currentDir names s1.w []
      let listing := if s1.utf8 then convertEncoding sys l.1 cfg.encoding "UTF-8".toList else l.1
      FTPServer.listSendLoop sys fuel { s1 with w := l.2 } listing 0

/-- The loop `while (!Send()) co_await` of HandleList (FtpServer.cpp 462-467), entered at its
condition. -/
def FTPServer.listFlush (sys : Sys W) (cfg : ServerInfo) (fuel : Nat) (s : FTPServer W) :
    Option (FTPServer W × Option Coro) :=
  let r := FTPServer.Send sys s
  if r.1 then FTPServer.listBody sys cfg fuel r.2 else some (r.2, some .listFlush)

/-- FTPServer::HandleList (FtpServer.cpp 458-550), run up to its first await or its end. -/
def FTPServer.HandleList (sys : Sys W) (cfg : ServerInfo) (fuel : Nat) (s : FTPServer W) :
    Option (FTPServer W × Option Coro) :=
  FTPServer.listFlush sys cfg fuel (s.appendSend "150 Opening data connection.\r\n".toList)

/-- The label `close_` of HandleUpload and HandleDownload. -/
def FTPServer.closeFile (sys : Sys W) (s : FTPServer W) (fileHandle : Int) : FTPServer W :=
  FTPServer.CloseDataConnection sys { s with w := sys.close s.w fileHandle }

/-- The receive loop of HandleUpload (FtpServer.cpp 591-634) together with its inner write
loop: `buffer` holds the bytes of the last `recv` and `bytesWritten` how many of them are in
the file; when all are written the next `recv` is made. -/
def FTPServer.uploadLoop (sys : Sys W) :
    Nat → FTPServer W → Int → Bytes → Nat → Option (FTPServer W × Option Coro)
  | 0, _, _, _, _ => none
  | fuel + 1, s, fileHandle, buffer, bytesWritten =>
    if bytesWritten < buffer.length then
      let r := sys.write s.w fileHandle (buffer.drop bytesWritten)
      let s1 := { s with w := r.2 }
      if r.1 > 0 then uploadLoop sys fuel s1 fileHandle buffer (bytesWritten + r.1.toNat)
      else if r.1 < 0 then
        some (FTPServer.closeFile sys
          (s1.appendSend "552 Storage allocation exceeded.\r\n".toList) fileHandle, none)
      else uploadLoop sys fuel s1 fileHandle buffer bytesWritten
    else
      let r := sys.recv s.w s.dataSocket 8192
      let s1 := { s with w := r.2 }
      match r.1 with
      | some (c :: cs) => uploadLoop sys fuel s1 fileHandle (c :: cs) 0
      | some [] =>
        some (FTPServer.closeFile sys
          (s1.appendSend "226 Transfer complete.\r\n".toList) fileHandle, none)
      | none =>
        if sys.errno r.2 = EAGAIN ∨ sys.errno r.2 = EWOULDBLOCK then
          some (s1, some (.uploadRecv fileHandle))
        else
          some (FTPServer.closeFile sys
            (s1.appendSend "426 Connection error during transfer.\r\n".toList) fileHandle, none)

/-- HandleUpload after the control channel was flushed (FtpServer.cpp 574-642). -/
def FTPServer.uploadBody (sys : Sys W) (cfg : ServerInfo) (fuel : Nat) (s : FTPServer W)
    (filePath : Bytes) : Option (FTPServer W × Option Coro) :=
  let e := FTPServer.EstablishDataConnection sys cfg s
  if e.1 = false then some (e.2.appendSend "425 Can't open data connection.\r\n".toList, none)
  else
    let o := sys.open_ e.2.w filePath .O_WRONLY_CREAT_TRUNC
    let s1 := { e.2 with w := o.2 }
    if o.1 < 0 then
      some (FTPServer.CloseDataConnection sys
        (s1.appendSend "550 Failed to create file.\r\n".toList), none)
    else FTPServer.uploadLoop sys fuel s1 o.1 [] 0

/-- The loop `while (!Send()) co_await` of HandleUpload (FtpServer.cpp 567-572). -/
def FTPServer.uploadFlush (sys : Sys W) (cfg : ServerInfo) (fuel : Nat) (s : FTPServer W)
    (filePath : Bytes) : Option (FTPServer W × Option Coro) :=
  let r := FTPServer.Send sys s
  if r.1 then FTPServer.uploadBody sys cfg fuel r.2 filePath
  else some (r.2, some (.uploadFlush filePath))

/-- FTPServer::HandleUpload (FtpServer.cpp 552-642), run up to its first await or its end. -/
def FTPServer.HandleUpload (sys : Sys W) (cfg : ServerInfo) (fuel : Nat) (s : FTPServer W)
    (filename : Bytes) : Option (FTPServer W × Option Coro) :=
  let tFilenames := match find_last_of filename '/' with
    | some index => filename.drop (index + 1)
    | none => filename
  let filePath := s.currentDir ++ "/".toList ++ tFilenames
  FTPServer.uploadFlush sys cfg fuel
    (s.appendSend ("150 Opening data connection for ".toList ++ tFilenames ++ ".\r\n".toList))
    filePath

/-- The read loop of HandleDownload (FtpServer.cpp 680-710) together with its inner send
loop: `buffer` holds the bytes of the last `read` and `bytesSent` how many of them went out;
when all are sent the next `read` is made, and the loop ends when `read` gives nothing. -/
def FTPServer.downloadLoop (sys : Sys W) :
    Nat → FTPServer W → Int → Bytes → Nat → Option (FTPServer W × Option Coro)
  | 0, _, _, _, _ => none
  | fuel + 1, s, fileHandle, buffer, bytesSent =>
    if bytesSent < buffer.length then
      let r := sys.send s.w s.dataSocket (buffer.drop bytesSent)
      let s1 := { s with w := r.2 }
      if r.1 > 0 then downloadLoop sys fuel s1 fileHandle buffer (bytesSent + r.1.toNat)
      else if r.1 < 0 then
        if sys.errno r.2 = EAGAIN ∨ sys.errno r.2 = EWOULDBLOCK then
          some (s1, some (.downloadSend fileHandle buffer bytesSent))
        else
          some (FTPServer.closeFile sys
            (s1.appendSend "426 Connection error during transfer.\r\n".toList) fileHandle, none)
      else downloadLoop sys fuel s1 fileHandle buffer bytesSent
    else
      let r := sys.read s.w fileHandle 8192
      let s1 := { s with w := r.2 }
      match r.1 with
      | some (c :: cs) => downloadLoop sys fuel s1 fileHandle (c :: cs) 0
      | _ =>
        some (FTPServer.closeFile sys
          (s1.appendSend "226 Transfer complete.\r\n".toList) fileHandle, none)

/-- HandleDownload after the control channel was flushed (FtpServer.cpp 664-718). -/
def FTPServer.downloadBody (sys : Sys W) (cfg : ServerInfo) (fuel : Nat) (s : FTPServer W)
    (filePath : Bytes) : Option (FTPServer W × Option Coro) :=
  let e := FTPServer.EstablishDataConnection sys cfg s
  if e.1 = false then some (e.2.appendSend "425 Can't open data connection.\r\n".toList, none)
  else
    let o := sys.open_ e.2.w filePath .O_RDONLY
    let s1 := { e.2 with w := o.2 }
    if o.1 < 0 then
      some (FTPServer.CloseDataConnection sys
        (s1.appendSend "550 Failed to open file.\r\n".toList), none)
    else FTPServer.downloadLoop sys fuel s1 o.1 [] 0

/-- The loop `while (!Send()) co_await` of HandleDownload (FtpServer.cpp 657-662). -/
def FTPServer.downloadFlush (sys : Sys W) (cfg : ServerInfo) (fuel : Nat) (s : FTPServer W)
    (filePath : Bytes) : Option (FTPServer W × Option Coro) :=
  let r := FTPServer.Send sys s
  if r.1 then FTPServer.downloadBody sys cfg fuel r.2 filePath
  else some (r.2, some (.downloadFlush filePath))

/-- FTPServer::HandleDownload (FtpServer.cpp 644-718), run up to its first await or its end. -/
def FTPServer.HandleDownload (sys : Sys W) (cfg : ServerInfo) (fuel : Nat) (s : FTPServer W)
    (filename : Bytes) : Option (FTPServer W × Option Coro) :=
  let filePath := s.currentDir ++ "/".toList ++ filename
  let st := sys.stat s.w filePath
  let s1 := { s with w := st.2 }
  match st.1 with
  | none => some (s1.appendSend "550 File not found.\r\n".toList, none)
  | some sb =>
    if S_ISREG sb.st_mode = false then some (s1.appendSend "550 File not found.\r\n".toList, none)
    else
      FTPServer.downloadFlush sys cfg fuel
        (s1.appendSend ("150 Opening data connection for ".toList ++ filename ++ ".\r\n".toList))
        filePath

/-- The call `handle.resume()` on a routine parked at `k`: every await is followed by the test
of `error`, then the routine goes on from where it was. -/
def FTPServer.resume (sys : Sys W) (cfg : ServerInfo) (fuel : Nat) (s : FTPServer W) :
    Coro → Option (FTPServer W × Option Coro)
  | .listFlush => if s.error then some (s, none) else FTPServer.listFlush sys cfg fuel s
  | .listSend listing totalSent =>
    if s.error then some (s, none) else FTPServer.listSendLoop sys fuel s listing totalSent
  | .uploadFlush filePath =>
    if s.error then some (s, none) else FTPServer.uploadFlush sys cfg fuel s filePath
  | .uploadRecv fileHandle =>
    if s.error then some ({ s with w := sys.close s.w fileHandle }, none)
    else FTPServer.uploadLoop sys fuel s fileHandle [] 0
  | .downloadFlush filePath =>
    if s.error then some (s, none) else FTPServer.downloadFlush sys cfg fuel s filePath
  | .downloadSend fileHandle buffer bytesSent =>
    if s.error then some ({ s with w := sys.close s.w fileHandle }, none)
    else FTPServer.downloadLoop sys fuel s fileHandle buffer bytesSent

/-! ## The command dispatcher -/

/-- The statements `task = Handle...(); if (!task.hasDone()) return false; task.Destroy();`
of ProcessCommand: the handle is stored, and dropped again when the routine has ended. -/
def FTPServer.startTask (r : Option (FTPServer W × Option Coro)) : Option (FTPServer W × Bool) :=
  match r with
  | none => none
  | some (s, none) => some ({ s with task := none }, true)
  | some (s, some k) => some ({ s with task := some k }, false)

/-- The branch `if (param.empty())` of ProcessCommand (FtpServer.cpp 792-839). -/
def FTPServer.ProcessCommand_noParam (sys : Sys W) (cfg : ServerInfo) (fuel : Nat)
    (s : FTPServer W) (cmd : Bytes) : Option (FTPServer W × Bool) :=
  if cmd = "PWD".toList then
    let convert := "257 \"".toList ++ s.currentDir ++ "\"\r\n".toList
    let convert := if s.utf8 then convertEncoding sys convert cfg.encoding "UTF-8".toList
      else convert
    some (s.appendSend convert, true)
  else if cmd = "SYST".toList then some (s.appendSend "215 UNIX Type: L8\r\n".toList, true)
  else if cmd = "FEAT".toList then
    let s1 := s.appendSend "211-Features:\r\n PASV\r\n SIZE\r\n".toList
    let s2 := if cfg.utf8 then
        { s1 with sWaitParse := s1.sWaitParse ++ " UTF8\r\n OPTS UTF8\r\n".toList } else s1
    some (s2.appendSend " 211 End\r\n".toList, true)
  else if cmd = "QUIT".toList then some (s.appendSend "221 Goodbye\r\n".toList, true)
  else if cmd = "NOOP".toList then some (s.appendSend "200 NOOP ok\r\n".toList, true)
  else if cmd = "TYPE".toList then some (s.appendSend "200 Type set to I\r\n".toList, true)
  else if cmd = "PASV".toList then some (FTPServer.HandlePASV sys cfg s, true)
  else if cmd = "LIST".toList ∨ cmd = "NLST".toList then
    FTPServer.startTask (FTPServer.HandleList sys cfg fuel s)
  else some (s.appendSend "501 Syntax error\r\n".toList, true)

/-- The branch of ProcessCommand for a parameter that is not empty (FtpServer.cpp 840-973). -/
def FTPServer.ProcessCommand_withParam (sys : Sys W) (cfg : ServerInfo) (fuel : Nat)
    (s : FTPServer W) (cmd param : Bytes) : Option (FTPServer W × Bool) :=
  if cmd = "CWD".toList ∨ cmd = "XCWD".toList then
    let targetDir := if param.head? = some '/' then param
      else s.currentDir ++ "/".toList ++ param
    let d := sys.opendir s.w targetDir
    let s1 := { s with w := d.2 }
    if d.1.isSome then
      some ({ s1 with currentDir := targetDir,
                      sWaitSend := s1.sWaitSend
                        ++ ("250 Directory changed to ".toList ++ targetDir ++ ".\r\n".toList) },
            true)
    else
      some (s1.appendSend ("550 Failed to change directory. ".toList
        ++ "Directory does not exist or is not accessible.\r\n".toList), true)
  else if cmd = "RMD".toList then
    let r := sys.rmdir s.w (s.currentDir ++ "/".toList ++ param)
    let s1 := { s with w := r.2 }
    if r.1 = 0 then some (s1.appendSend "250 Directory removed.\r\n".toList, true)
    else some (s1.appendSend "550 Remove failed.\r\n".toList, true)
  else if cmd = "TYPE".toList then
    if param = "A".toList ∨ param = "I".toList then
      some (s.appendSend ("200 Type set to ".toList ++ param ++ "\r\n".toList), true)
    else some (s.appendSend "504 Invalid type.\r\n".toList, true)
  else if cmd = "PORT".toList then some (FTPServer.HandlePORT sys s param, true)
  else if cmd = "SIZE".toList then
    let r := sys.stat s.w (s.currentDir ++ "/".toList ++ param)
    let s1 := { s with w := r.2 }
    match r.1 with
    | some sb =>
      some (s1.appendSend ("213 ".toList ++ fmtInt sb.st_size ++ "\r\n".toList), true)
    | none => some (s1.appendSend "550 File not found.\r\n".toList, true)
  else if cmd = "RNFR".toList then
    let filePath := s.currentDir ++ "/".toList ++ param
    let r := sys.stat s.w filePath
    let s1 := { s with w := r.2 }
    if r.1.isSome then
      some ({ s1 with renameFromPath := filePath,
                      sWaitSend := s1.sWaitSend ++ "350 Ready for RNTO.\r\n".toList }, true)
    else some (s1.appendSend "550 File not found.\r\n".toList, true)
  else if cmd = "RNTO".toList then
    if s.renameFromPath = [] then some (s.appendSend "503 RNFR required.\r\n".toList, true)
    else
      let r := sys.rename s.w s.renameFromPath (s.currentDir ++ "/".toList ++ param)
      let s1 := { s with w := r.2 }
      let s2 := if r.1 = 0 then s1.appendSend "250 Rename ok.\r\n".toList
        else s1.appendSend "550 Rename failed.\r\n".toList
      some ({ s2 with renameFromPath := [] }, true)
  else if cmd = "DELE".toList then
    let r := sys.remove s.w (s.currentDir ++ "/".toList ++ param)
    let s1 := { s with w := r.2 }
    if r.1 = 0 then some (s1.appendSend "250 File deleted.\r\n".toList, true)
    else some (s1.appendSend "550 Delete failed.\r\n".toList, true)
  else if cmd = "RETR".toList then
    FTPServer.startTask (FTPServer.HandleDownload sys cfg fuel s param)
  else if cmd = "STOR".toList then
    FTPServer.startTask (FTPServer.HandleUpload sys cfg fuel s param)
  else if cmd = "MKD".toList ∨ cmd = "XMKD".toList then
    let r := sys.mkdir s.w (s.currentDir ++ "/".toList ++ param) 0o755
    let s1 := { s with w := r.2 }
    if r.1 = 0 then
      some (s1.appendSend ("257 \"".toList ++ param ++ "\" created.\r\n".toList), true)
    else
      some (s1.appendSend (if sys.errno r.2 = EEXIST then "550 Exists\r\n".toList
        else "550 Create failed\r\n".toList), true)
  else some (s.appendSend "500 Command error.\r\n".toList, true)

/-- FTPServer::ProcessCommand (FtpServer.cpp 720-975). The result is the new session and the
returned flag: `true` for a command that is done, `false` for one that left a transfer
parked in `task`. -/
def FTPServer.ProcessCommand (sys : Sys W) (cfg : ServerInfo) (fuel : Nat) (s0 : FTPServer W)
    (cmd0 param0 : Bytes) : Option (FTPServer W × Bool) :=
  let cmd := ToUpperCase cmd0
  let param := if s0.utf8 then convertEncoding sys param0 "UTF-8".toList cfg.encoding else param0
  let s := { s0 with cmdLog := s0.cmdLog ++ [(cmd, param)] }
  if cmd = "USER".toList then
    some ({ s with user := param,
                   sWaitSend := s.sWaitSend ++ "331 User name okay, need password.\r\n".toList },
          true)
  else if cmd = "PASS".toList then
    if s.user = "anonymous".toList then
      if cfg.anonymous then
        some ({ s with certified := true,
                       sWaitSend := s.sWaitSend ++ "230 User logged in.\r\n".toList }, true)
      else some (s.appendSend "530 Anonymous access not allowed.\r\n".toList, true)
    else if (s.user, param) ∈ cfg.users then
      some ({ s with certified := true,
                     sWaitSend := s.sWaitSend ++ "230 User logged in.\r\n".toList }, true)
    else some (s.appendSend "530 Login incorrect.\r\n".toList, true)
  else if cmd = "OPTS".toList then
    if cfg.utf8 then
      if param = "utf8 on".toList ∨ param = "UTF8 ON".toList then
        some ({ s with utf8 := true,
                       sWaitSend := s.sWaitSend ++ "200 UTF-8 mode enabled.\r\n".toList }, true)
      else if param = "utf8 off".toList ∨ param = "UTF8 OFF".toList then
        some ({ s with utf8 := false,
                       sWaitSend := s.sWaitSend ++ "200 UTF-8 mode disabled.\r\n".toList }, true)
      else some (s.appendSend "501 Option not supported.\r\n".toList, true)
    else some (s.appendSend "501 Option not supported.\r\n".toList, true)
  else if s.certified = false then
    some (s.appendSend "550 Permission denied.\r\n".toList, true)
  else if param = [] then FTPServer.ProcessCommand_noParam sys cfg fuel s cmd
  else FTPServer.ProcessCommand_withParam sys cfg fuel s cmd param

/-! ## Parsing and the event handlers -/

/-- The command word of a line (FtpServer.cpp 1086-1087): the text before the first space,
the whole line when it has none. -/
def lineCommand (line : Bytes) : Bytes :=
  match find line " ".toList 0 with
  | some spacePos => substr line 0 spacePos
  | none => line

/-- The parameter of a line (FtpServer.cpp 1086, 1088): the text after the first space,
empty when the line has none. -/
def lineParam (line : Bytes) : Bytes :=
  match find line " ".toList 0 with
  | some spacePos => line.drop (spacePos + 1)
  | none => []

/-- The loop of FTPServer::Parse (FtpServer.cpp 1079-1091): the result is the session and the
final value of `start`. One unit of fuel is one test of the loop. -/
def FTPServer.parseLoop (sys : Sys W) (cfg : ServerInfo) (io : Nat) :
    Nat → FTPServer W → Nat → Bool → Option (FTPServer W × Nat)
  | 0, _, _, _ => none
  | fuel + 1, s, start, parseStop =>
    match find s.sWaitParse "\r\n".toList start with
    | none => some (s, start)
    | some end_ =>
      if parseStop then some (s, start)
      else
        let line := substr s.sWaitParse start (end_ - start)
        match FTPServer.ProcessCommand sys cfg io s (lineCommand line) (lineParam line) with
        | none => none
        | some r => parseLoop sys cfg io fuel r.1 (end_ + 2) (!r.2)

/-- The end of FTPServer::Parse (FtpServer.cpp 1093-1098): cut the consumed bytes off and
compare what is left with 1024. -/
def FTPServer.parseTrim (s : FTPServer W) (start : Nat) : FTPServer W × Bool :=
  let s1 := if start < s.sWaitParse.length then
      { s with sWaitParse := s.sWaitParse.drop start } else { s with sWaitParse := [] }
  (s1, decide (s1.sWaitParse.length ≤ 1024))

/-- FTPServer::Parse (FtpServer.cpp 1074-1099): `fuel` bounds the tests of the loop and `io`
the system calls of one transfer. -/
def FTPServer.Parse (sys : Sys W) (cfg : ServerInfo) (io fuel : Nat) (s : FTPServer W) :
    Option (FTPServer W × Bool) :=
  match FTPServer.parseLoop sys cfg io fuel s 0 false with
  | none => none
  | some r => some (FTPServer.parseTrim r.1 r.2)

/-- FTPServer::DealTask (FtpServer.cpp 977-993). -/
def FTPServer.DealTask (sys : Sys W) (cfg : ServerInfo) (io : Nat) (s : FTPServer W) :
    Option (FTPServer W × Bool) :=
  match s.task with
  | none => some (s, true)
  | some k =>
    match FTPServer.resume sys cfg io s k with
    | none => none
    | some (s1, none) => some ({ s1 with task := none }, true)
    | some (s1, some k1) => some ({ s1 with task := some k1 }, false)

/-- FTPServer::DealRead (FtpServer.cpp 995-1003). -/
def FTPServer.DealRead (sys : Sys W) (cfg : ServerInfo) (io fuel : Nat) (s : FTPServer W) :
    Option (FTPServer W) :=
  match FTPServer.DealTask sys cfg io (FTPServer.Read s) with
  | none => none
  | some (s1, false) => some s1
  | some (s1, true) =>
    match FTPServer.Parse sys cfg io fuel s1 with
    | none => none
    | some (s2, ok) =>
      some (FTPServer.Send_And_EnableWR sys (if ok = false then { s2 with error := true } else s2))

/-- FTPServer::DealWrite (FtpServer.cpp 1005-1010). -/
def FTPServer.DealWrite (sys : Sys W) (cfg : ServerInfo) (io : Nat) (s : FTPServer W) :
    Option (FTPServer W) :=
  match FTPServer.DealTask sys cfg io s with
  | none => none
  | some (s1, false) => some s1
  | some (s1, true) => some (FTPServer.Send_And_EnableWR sys s1)

/-- FTPServer::DealAccept (FtpServer.cpp 1012-1016). -/
def FTPServer.DealAccept (sys : Sys W) (s : FTPServer W) : FTPServer W :=
  FTPServer.Send_And_EnableWR sys (s.appendSend "220 Welcome\r\n".toList)

/-- The destructor FTPServer::~FTPServer (FtpServer.cpp 1114-1123). -/
def FTPServer.destroy (sys : Sys W) (cfg : ServerInfo) (io : Nat) (s : FTPServer W) :
    Option (FTPServer W) :=
  let s1 := { s with error := true }
  match s1.task with
  | none => some (FTPServer.CloseDataConnection sys s1)
  | some k =>
    match FTPServer.resume sys cfg io s1 k with
    | none => none
    | some r => some (FTPServer.CloseDataConnection sys { r.1 with task := none })

/-! ## The worker pool and the reactor callbacks -/

/-- The enumeration FTP_TASK_TYPE (FtpTask.hpp 18-23). -/
inductive FTP_TASK_TYPE where
  | FTP_TASK_TYPE_READ
  | FTP_TASK_TYPE_WRITE
  | FTP_TASK_TYPE_ACCEPT
deriving DecidableEq, Repr

/-- The structure FTPTask (FtpTask.hpp 29-53); `ftpServer` is the address of the session. -/
structure FTPTask where
  type : FTP_TASK_TYPE
  ftpServer : Nat
deriving DecidableEq, Repr

/-- The class ThreadPool (ThreadPool.hpp 17-27) without its threads: the flag, the bound and
the queue, oldest task first. -/
structure ThreadPool where
  flag : Bool
  maxSize : Nat
  tasks : List FTPTask
deriving DecidableEq, Repr

/-- The constructor ThreadPool::ThreadPool (ThreadPool.hpp 33). -/
def ThreadPool.new : ThreadPool := { flag := true, maxSize := 0, tasks := [] }

/-- ThreadPool::Init (ThreadPool.hpp 40-45); `maxSize` is an `unsigned int`. -/
def ThreadPool.Init (p : ThreadPool) (maxSize : Nat) : ThreadPool :=
  { p with maxSize := maxSize % 2 ^ 32 }

/-- ThreadPool::Append (ThreadPool.hpp 53-64). -/
def ThreadPool.Append (p : ThreadPool) (task : FTPTask) : Bool × ThreadPool :=
  if p.tasks.length ≥ p.maxSize then (false, p)
  else (true, { p with tasks := p.tasks ++ [task] })

/-- FTPTask::execute (FtpTask.hpp 38-52) on the session the task points to. -/
def FTPTask.execute (sys : Sys W) (cfg : ServerInfo) (io fuel : Nat) (t : FTP_TASK_TYPE)
    (s : FTPServer W) : Option (FTPServer W) :=
  match t with
  | .FTP_TASK_TYPE_READ => FTPServer.DealRead sys cfg io fuel s
  | .FTP_TASK_TYPE_WRITE => FTPServer.DealWrite sys cfg io s
  | .FTP_TASK_TYPE_ACCEPT => some (FTPServer.DealAccept sys s)

/-- The function FTPConnection (FtpTask.hpp 65-74). -/
def FTPConnection (cfg : ServerInfo) (pool : ThreadPool) (ctx : Nat) (evb : EVBuffer)
    (info : ConnectionInfo) (w : W) : FTPServer W × ThreadPool :=
  let s := (FTPServer.new cfg evb info w).DisableRW
  let r := pool.Append { type := .FTP_TASK_TYPE_ACCEPT, ftpServer := ctx }
  if r.1 = false then (s.EnableRW, r.2) else (s, r.2)

/-- The function FTPRead (FtpTask.hpp 95-106): the flag returned to the reactor, the session
and the pool. -/
def FTPRead (pool : ThreadPool) (ctx : Nat) (s : FTPServer W) :
    Bool × FTPServer W × ThreadPool :=
  if s.CheakError then (false, s, pool)
  else
    let r := pool.Append { type := .FTP_TASK_TYPE_READ, ftpServer := ctx }
    if r.1 = false then (true, s.DisableRW.EnableRW, r.2) else (true, s.DisableRW, r.2)

/-- The function FTPWrite (FtpTask.hpp 114-125). -/
def FTPWrite (pool : ThreadPool) (ctx : Nat) (s : FTPServer W) :
    Bool × FTPServer W × ThreadPool :=
  if s.CheakError then (false, s, pool)
  else
    let r := pool.Append { type := .FTP_TASK_TYPE_WRITE, ftpServer := ctx }
    if r.1 = false then (true, s.DisableRW.EnableRW, r.2) else (true, s.DisableRW, r.2)

/-- The function FTPDisconnection (FtpTask.hpp 81-87) when no worker is running: it waits for
`CheakFree`, so it returns only for a session that is free, which it then destroys. -/
def FTPDisconnection (sys : Sys W) (cfg : ServerInfo) (io : Nat) (s : FTPServer W) :
    Option (FTPServer W) :=
  if s.CheakFree = false then none else FTPServer.destroy sys cfg io s

/-- An event of the reactor on one control connection. -/
inductive Event where
  | READ (bytes : Bytes)
  | WRITE
  | ACCEPT
deriving DecidableEq, Repr

/-- One event as a worker runs it: the reactor has put the bytes that arrived into the input
buffer, the callback has disarmed the session (`DisableRW`) and queued the task, and the
worker executes it. -/
def FTPServer.runEvent (sys : Sys W) (cfg : ServerInfo) (io fuel : Nat) (s : FTPServer W) :
    Event → Option (FTPServer W)
  | .READ bytes =>
    FTPTask.execute sys cfg io fuel .FTP_TASK_TYPE_READ
      ({ s with evb := { s.evb with input := s.evb.input ++ bytes } }).DisableRW
  | .WRITE => FTPTask.execute sys cfg io fuel .FTP_TASK_TYPE_WRITE s.DisableRW
  | .ACCEPT => FTPTask.execute sys cfg io fuel .FTP_TASK_TYPE_ACCEPT s.DisableRW

/-- A sequence of events, one after the other. -/
def FTPServer.runEvents (sys : Sys W) (cfg : ServerInfo) (io fuel : Nat) :
    List Event → FTPServer W → Option (FTPServer W)
  | [], s => some s
  | e :: es, s =>
    match FTPServer.runEvent sys cfg io fuel s e with
    | none => none
    | some s1 => runEvents sys cfg io fuel es s1

/-! ## A small operating system to run the server on -/

/-- The world of `simSys`: the errno, and how many of the coming calls on a data socket time
out with EAGAIN. -/
structure Sim where
  errno : Int
  busy : Nat
deriving DecidableEq, Repr

/-- An operating system in which every call succeeds, except that the first `busy` calls of
`send` and `recv` time out. A directory holds the one regular file `f` of three bytes, the
client of an upload closes at once, and the passive port is 2121. -/
def simSys : Sys Sim where
  errno w := w.errno
  iconv _ _ _ := none
  strftime_local _ := "Jan 01 00:00".toList
  evbuffer_add w _ := (0, w)
  socket w := (3, w)
  close w _ := w
  setsockopt w _ _ := (0, w)
  bind w _ := (0, w)
  listen w _ _ := (0, w)
  getsockname_port w _ := (2121, w)
  accept w _ := (4, w)
  fcntl_getfl w _ := (0, w)
  fcntl_setfl w _ _ _ := w
  connect w _ _ _ := (0, w)
  select_write w _ _ := (1, w)
  getsockopt_error w _ := ((0, 0), w)
  opendir w _ := (some ["f".toList], w)
  stat w _ := (some { st_mode := 0o100644, st_size := 3, st_mtime := 0 }, w)
  rmdir w _ := (0, w)
  rename w _ _ := (0, w)
  remove w _ := (0, w)
  mkdir w _ _ := (0, w)
  open_ w _ _ := (5, w)
  read w _ _ := (some [], w)
  write w _ d := (d.length, w)
  send w _ d :=
    if w.busy = 0 then (d.length, w) else (-1, { errno := EAGAIN, busy := w.busy - 1 })
  recv w _ _ :=
    if w.busy = 0 then (some [], w) else (none, { errno := EAGAIN, busy := w.busy - 1 })

/-- A configuration with the account alice/good, anonymous login as given and the UTF-8
capability as given. -/
def simCfg (anonymous utf8 : Bool) : ServerInfo :=
  { utf8 := utf8, anonymous := anonymous, rwtimeout := 5, port := 4567, dir := "/srv".toList,
    ip := "10.0.0.1".toList, encoding := "UTF-8".toList,
    users := [("alice".toList, "good".toList)] }

/-- A fresh session of `simCfg` on `simSys` whose data socket times out `busy` times. -/
def simFresh (anonymous utf8 : Bool) (busy : Nat) : FTPServer Sim :=
  FTPServer.new (simCfg anonymous utf8) { input := [], output := [], enabled := true }
    { port := 50000, ip := "10.0.0.2".toList } { errno := 0, busy := busy }


/-- A configuration in which anonymous login is off and the account file has an account
named `anonymous` with password `pw`. -/
def anonAccountCfg : ServerInfo :=
  { simCfg false false with users := [("anonymous".toList, "pw".toList)] }

/-- The dispatch of `USER x` followed by the dispatch of `PASS y`. -/
def FTPServer.userThenPass (sys : Sys W) (cfg : ServerInfo) (fuel : Nat) (s : FTPServer W)
    (x y : Bytes) : Option (FTPServer W) :=
  match FTPServer.ProcessCommand sys cfg fuel s "USER".toList x with
  | none => none
  | some r =>
    match FTPServer.ProcessCommand sys cfg fuel r.1 "PASS".toList y with
    | none => none
    | some r2 => some r2.1

/-- A batch of bytes put at the end of the parse buffer (as `Read` does) and parsed. -/
def FTPServer.parseBatch (sys : Sys W) (cfg : ServerInfo) (io fuel : Nat) (s : FTPServer W)
    (bytes : Bytes) : Option (FTPServer W) :=
  match FTPServer.Parse sys cfg io fuel { s with sWaitParse := s.sWaitParse ++ bytes } with
  | none => none
  | some r => some r.1

/-- A session of `simCfg` that has logged in and has nothing else in it. -/
def simLoggedIn (anonymous utf8 : Bool) (busy : Nat) : FTPServer Sim :=
  { simFresh anonymous utf8 busy with certified := true, user := "alice".toList }

/-- A logged-in session of `simCfg` after PASV, with the given bytes in the parse buffer. -/
def simPassive (busy : Nat) (buffer : Bytes) : FTPServer Sim :=
  { simLoggedIn true true busy with
    dataMode := .DATA_MODE_PASSIVE, pasvSocket := 3, sWaitParse := buffer }

/-- A logged-in session of `simCfg` whose listing transfer is parked on the data socket,
with the given bytes in the input buffer of the reactor; it is disarmed, as a session is
while a worker holds it. -/
def simParked (busy : Nat) (input : Bytes) : FTPServer Sim :=
  { simLoggedIn true true busy with
    dataMode := .DATA_MODE_PASSIVE, dataSocket := 4, enableFree := false,
    evb := { input := input, output := [], enabled := false },
    task := some (.listSend "-rw-r--r-- 1 owner group        3 Jan 01 00:00 f\r\n".toList 0) }

/-- A fresh session of `simCfg`, held by a worker, with the given bytes in the parse buffer
and in the input buffer of the reactor. -/
def simReading (buffer input : Bytes) : FTPServer Sim :=
  { simFresh true true 0 with
    sWaitParse := buffer, enableFree := false,
    evb := { input := input, output := [], enabled := false } }

/-! ## The parsing loop in the words of the specification -/

/-- The first line of a buffer in the words of the specification (4.3, "locate the first
`\r\n`; extract the line"): the bytes before the first "\r\n" and the bytes after that
delimiter; `none` when the buffer holds no "\r\n". It is compared with `find` below. -/
def firstLine : Bytes → Option (Bytes × Bytes)
  | [] => none
  | c :: cs =>
    if "\r\n".toList.isPrefixOf (c :: cs) then some ([], cs.drop 1)
    else (firstLine cs).map fun p => (c :: p.1, p.2)

/-- The parsing loop in the words of the specification (4.3): the complete lines of `rest`
are dispatched in order, each split at its first space, and the loop stops after a line
whose dispatch returns suspended. The result is the session and the bytes not consumed. It
is compared with `FTPServer.parseLoop` below. -/
def dispatchLines (sys : Sys W) (cfg : ServerInfo) (io : Nat) :
    Nat → FTPServer W → Bytes → Option (FTPServer W × Bytes)
  | 0, _, _ => none
  | fuel + 1, s, rest =>
    match firstLine rest with
    | none => some (s, rest)
    | some (line, rest1) =>
      match FTPServer.ProcessCommand sys cfg io s (lineCommand line) (lineParam line) with
      | none => none
      | some (s1, true) => dispatchLines sys cfg io fuel s1 rest1
      | some (s1, false) => some (s1, rest1)

/-! ## The receive loop of an upload in the words of the specification -/

/-- A point in a run of the receive loop of `STOR`: the session, the chunk of the last recv
and how many of its bytes are in the file, as the loop holds them, and two records the
specification speaks of: all the bytes received so far, and all the bytes that writes which
succeeded have put into the file. -/
structure UploadState (W : Type) where
  s : FTPServer W
  buffer : Bytes
  bytesWritten : Nat
  received : Bytes
  written : Bytes

/-- The point at which a run of the loop starts: the chunk in hand counts as received, and
its first `bytesWritten` bytes as written. -/
def UploadState.start (s : FTPServer W) (buffer : Bytes) (bytesWritten : Nat) :
    UploadState W :=
  { s := s, buffer := buffer, bytesWritten := bytesWritten, received := buffer,
    written := buffer.take bytesWritten }

/-- One iteration that does not end the run (specification 4.5, STOR): while bytes of the
chunk are left, a write that did not fail, which puts the first bytes of the rest into the
file, as many as it returned; when the chunk is written in full, a recv that brought
data. It is compared with `FTPServer.uploadLoop` below. -/
inductive UploadStep (sys : Sys W) (fh : Int) : UploadState W → UploadState W → Prop
  | write (c : UploadState W) :
      c.bytesWritten < c.buffer.length →
      0 ≤ (sys.write c.s.w fh (c.buffer.drop c.bytesWritten)).1 →
      UploadStep sys fh c
        { s := { c.s with w := (sys.write c.s.w fh (c.buffer.drop c.bytesWritten)).2 },
          buffer := c.buffer,
          bytesWritten := c.bytesWritten
            + (sys.write c.s.w fh (c.buffer.drop c.bytesWritten)).1.toNat,
          received := c.received,
          written := c.written ++ (c.buffer.drop c.bytesWritten).take
            (sys.write c.s.w fh (c.buffer.drop c.bytesWritten)).1.toNat }
  | recv (c : UploadState W) (d : Bytes) :
      ¬ c.bytesWritten < c.buffer.length →
      (sys.recv c.s.w c.s.dataSocket 8192).1 = some d → d ≠ [] →
      UploadStep sys fh c
        { s := { c.s with w := (sys.recv c.s.w c.s.dataSocket 8192).2 },
          buffer := d, bytesWritten := 0, received := c.received ++ d,
          written := c.written }

/-- The points a run of the loop that starts at `c` passes through. -/
def UploadRun (sys : Sys W) (fh : Int) (c d : UploadState W) : Prop :=
  Relation.ReflTransGen (UploadStep sys fh) c d

/-! ## An operating system with files, descriptors and one data connection -/

/-- The world of `osSys`: the errno; the next descriptor to hand out, every descriptor handed
out and every descriptor closed, in order; the directories and the files (path, content);
the open files (descriptor, path, read offset); the bytes the client has still to send on
the data connection (it closes after them) and the bytes sent to it; the sizes the coming
calls of recv, send, read and write will move, 0 standing for a timeout (EAGAIN) of recv
and send; and the errno with which accept and connect fail, if they are to fail. -/
structure Os where
  errno : Int
  nextFd : Int
  opened : List Int
  closed : List Int
  dirs : List Bytes
  files : List (Bytes × Bytes)
  fds : List (Int × Bytes × Nat)
  inbox : Bytes
  outbox : Bytes
  script : List Nat
  refuse : Option Int
deriving DecidableEq, Repr

/-- The size the next call moves when asked for `n` bytes: what the script says, at most
`n`; all of `n` when the script is used up. -/
def Os.chunk (w : Os) (n : Nat) : Nat :=
  match w.script with
  | [] => n
  | c :: _ => min c n

/-- The files with the content of `path` replaced (or the file created). -/
def Os.setFile (w : Os) (path content : Bytes) : List (Bytes × Bytes) :=
  (path, content) :: w.files.filter fun e => e.1 ≠ path

/-- A new descriptor. -/
def Os.newFd (w : Os) : Os :=
  { w with nextFd := w.nextFd + 1, opened := w.opened ++ [w.nextFd] }

/-- The name of `q` inside the directory `p`, when `q` lies directly in it. -/
def childName (p q : Bytes) : Option Bytes :=
  if (p ++ "/".toList).isPrefixOf q then
    let name := q.drop (p.length + 1)
    if name ≠ [] ∧ '/' ∉ name then some name else none
  else none

/-- The last component of a path: the bytes after its last '/'. -/
def lastComponent (p : Bytes) : Bytes := (p.reverse.takeWhile fun c => c ≠ '/').reverse

/-- An operating system without I/O errors other than those its world asks for: sockets and
files get fresh descriptors, `close` is recorded, files are byte strings under their paths,
the data connection delivers `inbox` and collects `outbox`, and recv, send, read and write
move as many bytes as the script says. A path that is a directory, or whose last component
is empty, `.` or `..`, cannot be opened for writing (EISDIR). -/
def osSys : Sys Os where
  errno w := w.errno
  iconv _ _ _ := none
  strftime_local _ := "Jan 01 00:00".toList
  evbuffer_add w _ := (0, w)
  socket w := (w.nextFd, w.newFd)
  close w fd := { w with closed := w.closed ++ [fd], fds := w.fds.filter fun e => e.1 ≠ fd }
  setsockopt w _ _ := (0, w)
  bind w _ := (0, w)
  listen w _ _ := (0, w)
  getsockname_port w _ := (2121, w)
  accept w _ :=
    match w.refuse with
    | some e => (-1, { w with errno := e })
    | none => (w.nextFd, w.newFd)
  fcntl_getfl w _ := (0, w)
  fcntl_setfl w _ _ _ := w
  connect w _ _ _ :=
    match w.refuse with
    | some e => (-1, { w with errno := e })
    | none => (0, w)
  select_write w _ _ := (1, w)
  getsockopt_error w _ := ((0, 0), w)
  opendir w p :=
    if p ∈ w.dirs then
      (some ([".".toList, "..".toList]
        ++ (w.files.map Prod.fst ++ w.dirs).filterMap (childName p)), w)
    else (none, { w with errno := 2 })
  stat w p :=
    match w.files.lookup p with
    | some c => (some { st_mode := 0o100644, st_size := c.length, st_mtime := 0 }, w)
    | none =>
      if p ∈ w.dirs then (some { st_mode := 0o040755, st_size := 4096, st_mtime := 0 }, w)
      else (none, { w with errno := 2 })
  rmdir w p :=
    if p ∈ w.dirs ∧ (w.files.map Prod.fst ++ w.dirs).filterMap (childName p) = [] then
      (0, { w with dirs := w.dirs.filter fun d => d ≠ p })
    else (-1, { w with errno := 2 })
  rename w old new :=
    match w.files.lookup old with
    | some c =>
      (0, { w with files := (new, c) :: w.files.filter fun e => e.1 ≠ old ∧ e.1 ≠ new })
    | none => (-1, { w with errno := 2 })
  remove w p :=
    if (w.files.lookup p).isSome then
      (0, { w with files := w.files.filter fun e => e.1 ≠ p })
    else if p ∈ w.dirs ∧ (w.files.map Prod.fst ++ w.dirs).filterMap (childName p) = [] then
      (0, { w with dirs := w.dirs.filter fun d => d ≠ p })
    else (-1, { w with errno := 2 })
  mkdir w p _ :=
    if p ∈ w.dirs ∨ (w.files.lookup p).isSome then (-1, { w with errno := EEXIST })
    else (0, { w with dirs := w.dirs ++ [p] })
  open_ w p flags :=
    match flags with
    | .O_RDONLY =>
      if (w.files.lookup p).isSome then
        (w.nextFd, { w.newFd with fds := (w.nextFd, p, 0) :: w.fds })
      else (-1, { w with errno := 2 })
    | .O_WRONLY_CREAT_TRUNC =>
      if p ∈ w.dirs ∨ lastComponent p ∈ [[], ".".toList, "..".toList] then
        (-1, { w with errno := 21 })
      else (w.nextFd, { w.newFd with files := w.setFile p [], fds := (w.nextFd, p, 0) :: w.fds })
  read w fd n :=
    match w.fds.lookup fd with
    | none => (none, { w with errno := 9 })
    | some (p, off) =>
      let data := (((w.files.lookup p).getD []).drop off).take (max 1 (w.chunk n))
      (some data, { w with script := w.script.tail, fds := (fd, p, off + data.length) :: w.fds })
  write w fd d :=
    match w.fds.lookup fd with
    | none => (-1, { w with errno := 9 })
    | some (p, _) =>
      ((w.chunk d.length : Nat),
        { w with script := w.script.tail,
                 files := w.setFile p (((w.files.lookup p).getD []) ++ d.take (w.chunk d.length)) })
  send w _ d :=
    match w.script with
    | 0 :: rest => (-1, { w with script := rest, errno := EAGAIN })
    | _ =>
      ((w.chunk d.length : Nat),
        { w with script := w.script.tail, outbox := w.outbox ++ d.take (w.chunk d.length) })
  recv w _ n :=
    match w.script with
    | 0 :: rest => (none, { w with script := rest, errno := EAGAIN })
    | _ =>
      (some (w.inbox.take (w.chunk n)),
        { w with script := w.script.tail, inbox := w.inbox.drop (w.chunk n) })

/-- A world of `osSys` with the one directory /srv, the given files, the bytes the client
will send and the script. -/
def osWorld (files : List (Bytes × Bytes)) (inbox : Bytes) (script : List Nat)
    (refuse : Option Int) : Os :=
  { errno := 0, nextFd := 3, opened := [], closed := [], dirs := ["/srv".toList],
    files := files, fds := [], inbox := inbox, outbox := [], script := script,
    refuse := refuse }

/-- A fresh session of `simCfg` (anonymous login allowed, no UTF-8 capability) on `osSys`. -/
def osFresh (w : Os) : FTPServer Os :=
  FTPServer.new (simCfg true false) { input := [], output := [], enabled := true }
    { port := 50000, ip := "10.0.0.2".toList } w

/-! ## The worker pool as a queue -/

/-- The dequeue of ThreadPool::Worker (ThreadPool.hpp 69-88): with the flag set, a worker that
finds the queue not empty takes the task at the front (`front`, `pop`); `none` when the
worker keeps waiting (empty queue) or returns (flag cleared). -/
def ThreadPool.Worker (p : ThreadPool) : Option (FTPTask × ThreadPool) :=
  if p.flag = false then none
  else
    match p.tasks with
    | [] => none
    | task :: rest => some (task, { p with tasks := rest })

/-- A step on the pool: a submission by the reactor or a dequeue by a worker. -/
inductive PoolOp where
  | submit (task : FTPTask)
  | work
deriving DecidableEq, Repr

/-- A history of the pool: the pool, the tasks Append accepted and the tasks workers took,
both in order of time. -/
structure PoolRun where
  pool : ThreadPool
  accepted : List FTPTask
  taken : List FTPTask
deriving DecidableEq, Repr

/-- One step of the pool, recorded in the history. -/
def PoolRun.step (r : PoolRun) : PoolOp → PoolRun
  | .submit task =>
    let a := r.pool.Append task
    { r with pool := a.2, accepted := if a.1 then r.accepted ++ [task] else r.accepted }
  | .work =>
    match r.pool.Worker with
    | none => r
    | some (task, p) => { r with pool := p, taken := r.taken ++ [task] }

/-- A sequence of steps of the pool. -/
def PoolRun.steps (r : PoolRun) (ops : List PoolOp) : PoolRun := ops.foldl PoolRun.step r


/-! ## Sessions ready for a transfer -/

/-- The session on `osSys` after the greeting, an anonymous login and `PASV`. -/
def osPassive (w : Os) : Option (FTPServer Os) :=
  FTPServer.runEvents osSys (simCfg true false) 100 100
    [.ACCEPT, .READ "USER anonymous\r\nPASS x\r\nPASV\r\n".toList] (osFresh w)

/-! ## The calls of ProcessCommand a session has made -/

/-- One call of ProcessCommand: the session before it, the command word and the parameter of
the line, and the session it returned. -/
structure Dispatch (W : Type) where
  before : FTPServer W
  cmd : Bytes
  param : Bytes
  after : FTPServer W

/-- The call was an `RNFR` that replied "350 Ready for RNTO.\r\n". -/
def Dispatch.rnfr350 (d : Dispatch W) : Prop :=
  ToUpperCase d.cmd = "RNFR".toList ∧
    d.after.sWaitSend = d.before.sWaitSend ++ "350 Ready for RNTO.\r\n".toList

/-- The call was an `RNTO` that reached its handler: the session was authenticated and the
parameter, as the handlers see it (FtpServer.cpp 727-728), was not empty. -/
def Dispatch.rnto (sys : Sys W) (cfg : ServerInfo) (d : Dispatch W) : Prop :=
  ToUpperCase d.cmd = "RNTO".toList ∧ d.before.certified = true ∧
    (if d.before.utf8 then convertEncoding sys d.param "UTF-8".toList cfg.encoding
      else d.param) ≠ []

/-- The sessions a connection can be in, with the calls of ProcessCommand made on it so far:
a session starts in the constructor; `Parse` hands a line to ProcessCommand; and every other
statement that touches a session (the reactor filling the input buffer, `Read`, the
bookkeeping of `Parse`, `DealTask`, `Send`, `EnableRW`, `DisableRW`, the error flag) leaves
`renameFromPath` as it is. -/
inductive History (sys : Sys W) (cfg : ServerInfo) (io : Nat) :
    List (Dispatch W) → FTPServer W → Prop
  | start (evb : EVBuffer) (info : ConnectionInfo) (w : W) :
      History sys cfg io [] (FTPServer.new cfg evb info w)
  | command (H : List (Dispatch W)) (s t : FTPServer W) (cmd param : Bytes) (b : Bool) :
      History sys cfg io H s →
      FTPServer.ProcessCommand sys cfg io s cmd param = some (t, b) →
      History sys cfg io (H ++ [{ before := s, cmd := cmd, param := param, after := t }]) t
  | other (H : List (Dispatch W)) (s t : FTPServer W) :
      History sys cfg io H s → t.renameFromPath = s.renameFromPath →
      History sys cfg io H t

/-- The session on `osSys` after the greeting, an anonymous login and `RNFR a`, in a world
whose directory holds the file `a`. -/
def osRenaming : FTPServer Os :=
  (FTPServer.runEvents osSys (simCfg true false) 100 100
    [.ACCEPT, .READ "USER anonymous\r\nPASS x\r\nRNFR a\r\n".toList]
    (osFresh (osWorld [("/srv/a".toList, "x".toList)] [] [] none))).getD
    (osFresh (osWorld [] [] [] none))

/-! ## Transfers on `osSys` -/

/-- What the calls of a transfer loop (recv, send, read, write, close) leave alone in a world
of `osSys`: the directories, the switch that refuses connections and the descriptor
counter. -/
structure OsBase (w v : Os) : Prop where
  dirs : v.dirs = w.dirs
  refuse : v.refuse = w.refuse
  nextFd : v.nextFd = w.nextFd

/-- The session of `osPassive` in a world whose client sends "hi there" on the data
connection, with a script of partial transfers and one timeout. -/
def osUploading : FTPServer Os :=
  (osPassive (osWorld [] "hi there".toList [3, 2, 1, 0, 100, 4, 5] none)).getD
    (osFresh (osWorld [] [] [] none))

/-- The operating system `osSys` with a disk that fails: `read` on a descriptor that is
already past the start of its file returns -1 with errno EIO (5). -/
def osSysReadError : Sys Os :=
  { osSys with
    read := fun w fd n =>
      match w.fds.lookup fd with
      | some (_, 0) => osSys.read w fd n
      | some (_, _ + 1) => (none, { w with errno := 5 })
      | none => (none, { w with errno := 9 }) }

/-- The errno value ECONNABORTED. -/
def ECONNABORTED : Int := 103

/-- The errno value EBADF. -/
def EBADF : Int := 9

/-- The operating system `osSys` in which `send` and `recv` on a negative descriptor fail
with EBADF, as they do on Linux. -/
def osSysBadFd : Sys Os :=
  { osSys with
    send := fun w fd d => if fd < 0 then (-1, { w with errno := EBADF }) else osSys.send w fd d
    recv := fun w fd n => if fd < 0 then (none, { w with errno := EBADF }) else osSys.recv w fd n }

/-- The file descriptor a routine parked at `k` holds: the routines of `STOR` and `RETR`
have their file open while they wait for the data socket; at the other awaits no file is
open (FtpServer.cpp 464-467, 529-536, 569-572, 622-630, 659-662, 692-700). -/
def Coro.fileHandle : Coro → Option Int
  | .uploadRecv fileHandle => some fileHandle
  | .downloadSend fileHandle _ _ => some fileHandle
  | _ => none

/-- The session on `osSys` after the greeting, an anonymous login, `PASV`, `PORT` and a
`STOR f` whose first `recv` timed out: the upload is parked with its file (descriptor 5),
the data socket (4) and the listener of `PASV` (3) open. -/
def osParkedUpload : FTPServer Os :=
  (FTPServer.runEvents osSys (simCfg true false) 100 100
    [.ACCEPT, .READ "USER anonymous\r\nPASS x\r\nPASV\r\nPORT 10,0,0,2,4,1\r\nSTOR f\r\n".toList]
    (osFresh (osWorld [] "hi".toList [0] none))).getD (osFresh (osWorld [] [] [] none))

/-! ## The coroutine wrapper with its checks -/

/-- The handle of a `Generator` (Coroutine.hpp 229-330): null, a routine parked at an await,
or a routine that has run to its end and rests at its final suspension. -/
inductive Generator where
  | null
  | parked (k : Coro)
  | done
deriving DecidableEq, Repr

/-- The result of a piece of code that may execute the bare `throw` of the wrapper or run
out of fuel. -/
inductive Outcome (α : Type) where
  | thrown
  | fuel
  | ok (a : α)

/-- The handle a call of a transfer routine returns (`get_return_object`, with
`initial_suspend` never suspending): the routine has run to its first await or to its
end. -/
def Generator.ofRun : Option Coro → Generator
  | none => .done
  | some k => .parked k

/-- The handle that the field `task` of the embedding stands for. -/
def Generator.ofTask : Option Coro → Generator
  | none => .null
  | some k => .parked k

/-- The field `task` of the embedding for a handle. -/
def Generator.toTask : Generator → Option Coro
  | .parked k => some k
  | _ => none

/-- Generator::HandleInvalid (Coroutine.hpp 281-284): true when the handle is not null. -/
def Generator.HandleInvalid : Generator → Bool
  | .null => false
  | _ => true

/-- Generator::hasDone (Coroutine.hpp 290-295); `none` is the bare `throw`. -/
def Generator.hasDone : Generator → Option Bool
  | .null => none
  | .parked _ => some false
  | .done => some true

/-- Generator::Destroy (Coroutine.hpp 268-275). -/
def Generator.Destroy (_ : Generator) : Generator := .null

/-- Generator::Resume (Coroutine.hpp 301-309) on the routine of a session: a handle that is
null or done throws; a parked routine runs on to its next await or its end. -/
def Generator.Resume (sys : Sys W) (cfg : ServerInfo) (fuel : Nat) (s : FTPServer W) :
    Generator → Outcome (FTPServer W × Generator)
  | .parked k =>
    match FTPServer.resume sys cfg fuel s k with
    | none => .fuel
    | some r => .ok (r.1, Generator.ofRun r.2)
  | _ => .thrown

/-- The statements `task = Handle...(); if (!task.hasDone()) return false; task.Destroy();`
of ProcessCommand (FtpServer.cpp 831-835, 943-956) with the checks of the wrapper: the
session, the stored handle and the returned flag. -/
def FTPServer.startTaskG (r : Option (FTPServer W × Option Coro)) :
    Outcome (FTPServer W × Generator × Bool) :=
  match r with
  | none => .fuel
  | some (s, k) =>
    let task := Generator.ofRun k
    match task.hasDone with
    | none => .thrown
    | some false => .ok ({ s with task := task.toTask }, task, false)
    | some true => .ok ({ s with task := none }, task.Destroy, true)

/-- FTPServer::DealTask (FtpServer.cpp 977-993) with the checks of the wrapper, on a session
whose stored handle is `task`. -/
def FTPServer.DealTaskG (sys : Sys W) (cfg : ServerInfo) (io : Nat) (s : FTPServer W)
    (task : Generator) : Outcome (FTPServer W × Generator × Bool) :=
  if task.HandleInvalid then
    match task.Resume sys cfg io s with
    | .thrown => .thrown
    | .fuel => .fuel
    | .ok (s1, task1) =>
      match task1.hasDone with
      | none => .thrown
      | some true => .ok ({ s1 with task := none }, task1.Destroy, true)
      | some false => .ok ({ s1 with task := task1.toTask }, task1, false)
  else .ok (s, task, true)

/-- The destructor FTPServer::~FTPServer (FtpServer.cpp 1114-1123) with the checks of the
wrapper, on a session whose stored handle is `task`. -/
def FTPServer.destroyG (sys : Sys W) (cfg : ServerInfo) (io : Nat) (s : FTPServer W)
    (task : Generator) : Outcome (FTPServer W) :=
  let s1 := { s with error := true }
  if task.HandleInvalid then
    match task.Resume sys cfg io s1 with
    | .thrown => .thrown
    | .fuel => .fuel
    | .ok (s2, _) => .ok (FTPServer.CloseDataConnection sys { s2 with task := none })
  else .ok (FTPServer.CloseDataConnection sys s1)

/-- The result of a function of the embedding as an outcome: `none` is the fuel running
out. -/
def Outcome.ofOption {α : Type} : Option α → Outcome α
  | none => .fuel
  | some a => .ok a

/-- Sequencing of pieces of code that may throw or run out of fuel. -/
def Outcome.bind {α β : Type} : Outcome α → (α → Outcome β) → Outcome β
  | .thrown, _ => .thrown
  | .fuel, _ => .fuel
  | .ok a, f => f a

/-- A session with the handle of its field `task` as the wrapper holds it, and a ghost flag
that records a transfer routine assigned to `task` while a routine was still stored there
(the move assignment, Coroutine.hpp 316-326, destroys the stored routine then). -/
structure Checked (W : Type) where
  s : FTPServer W
  task : Generator
  overwritten : Bool

/-- A new session with the handle of `Generator()` (Coroutine.hpp 262): null. -/
def Checked.new (s : FTPServer W) : Checked W :=
  { s := s, task := .null, overwritten := false }

/-- A session of the embedding with the handle its field `task` stands for, and no
assignment over a stored routine recorded. -/
def Checked.of (s : FTPServer W) : Checked W :=
  { s := s, task := Generator.ofTask s.task, overwritten := false }

/-- The call of a transfer routine that ProcessCommand makes for a command, if it makes one
(FtpServer.cpp 831, 943, 950): `HandleList()` for `LIST` and `NLST` without a parameter,
`HandleDownload(param)` for `RETR` and `HandleUpload(param)` for `STOR` with one, in an
authenticated session; `USER`, `PASS`, `OPTS` and the gate `if (!certified)` return before
these statements. The result of the call is the routine run to its first await or its
end. -/
def FTPServer.transferCall (sys : Sys W) (cfg : ServerInfo) (fuel : Nat) (s0 : FTPServer W)
    (cmd0 param0 : Bytes) : Option (Option (FTPServer W × Option Coro)) :=
  let cmd := ToUpperCase cmd0
  let param := if s0.utf8 then convertEncoding sys param0 "UTF-8".toList cfg.encoding else param0
  let s := { s0 with cmdLog := s0.cmdLog ++ [(cmd, param)] }
  if cmd = "USER".toList ∨ cmd = "PASS".toList ∨ cmd = "OPTS".toList then none
  else if s.certified = false then none
  else if param = [] then
    if cmd = "LIST".toList ∨ cmd = "NLST".toList then some (FTPServer.HandleList sys cfg fuel s)
    else none
  else if cmd = "RETR".toList then some (FTPServer.HandleDownload sys cfg fuel s param)
  else if cmd = "STOR".toList then some (FTPServer.HandleUpload sys cfg fuel s param)
  else none

/-- FTPServer::ProcessCommand (FtpServer.cpp 720-975) with the checks of the wrapper. For a
command that starts a transfer the routine runs, the move assignment to `task` is recorded
in `overwritten` when a routine is still stored, and `hasDone` is called on the new handle;
every other command leaves the handle alone. -/
def FTPServer.ProcessCommandG (sys : Sys W) (cfg : ServerInfo) (fuel : Nat) (c : Checked W)
    (cmd param : Bytes) : Outcome (Checked W × Bool) :=
  match FTPServer.transferCall sys cfg fuel c.s cmd param with
  | some run =>
    (FTPServer.startTaskG run).bind fun r =>
      .ok ({ s := r.1, task := r.2.1,
             overwritten := c.overwritten || c.task.HandleInvalid }, r.2.2)
  | none =>
    (Outcome.ofOption (FTPServer.ProcessCommand sys cfg fuel c.s cmd param)).bind fun r =>
      .ok ({ c with s := r.1 }, r.2)

/-- The loop of FTPServer::Parse (FtpServer.cpp 1079-1091) with the checks of the wrapper. -/
def FTPServer.parseLoopG (sys : Sys W) (cfg : ServerInfo) (io : Nat) :
    Nat → Checked W → Nat → Bool → Outcome (Checked W × Nat)
  | 0, _, _, _ => .fuel
  | fuel + 1, c, start, parseStop =>
    match find c.s.sWaitParse "\r\n".toList start with
    | none => .ok (c, start)
    | some end_ =>
      if parseStop then .ok (c, start)
      else
        let line := substr c.s.sWaitParse start (end_ - start)
        (FTPServer.ProcessCommandG sys cfg io c (lineCommand line) (lineParam line)).bind
          fun r => parseLoopG sys cfg io fuel r.1 (end_ + 2) (!r.2)

/-- FTPServer::Parse (FtpServer.cpp 1074-1099) with the checks of the wrapper. -/
def FTPServer.ParseG (sys : Sys W) (cfg : ServerInfo) (io fuel : Nat) (c : Checked W) :
    Outcome (Checked W × Bool) :=
  (FTPServer.parseLoopG sys cfg io fuel c 0 false).bind fun r =>
    .ok ({ r.1 with s := (FTPServer.parseTrim r.1.s r.2).1 }, (FTPServer.parseTrim r.1.s r.2).2)

/-- FTPServer::DealRead (FtpServer.cpp 995-1003) with the checks of the wrapper. -/
def FTPServer.DealReadG (sys : Sys W) (cfg : ServerInfo) (io fuel : Nat) (c : Checked W) :
    Outcome (Checked W) :=
  (FTPServer.DealTaskG sys cfg io (FTPServer.Read c.s) c.task).bind fun r =>
    if r.2.2 = false then .ok { c with s := r.1, task := r.2.1 }
    else
      (FTPServer.ParseG sys cfg io fuel { c with s := r.1, task := r.2.1 }).bind fun p =>
        .ok { p.1 with
              s := FTPServer.Send_And_EnableWR sys
                (if p.2 = false then { p.1.s with error := true } else p.1.s) }

/-- FTPServer::DealWrite (FtpServer.cpp 1005-1010) with the checks of the wrapper. -/
def FTPServer.DealWriteG (sys : Sys W) (cfg : ServerInfo) (io : Nat) (c : Checked W) :
    Outcome (Checked W) :=
  (FTPServer.DealTaskG sys cfg io c.s c.task).bind fun r =>
    if r.2.2 = false then .ok { c with s := r.1, task := r.2.1 }
    else .ok { c with s := FTPServer.Send_And_EnableWR sys r.1, task := r.2.1 }

/-- One event as a worker runs it (`FTPServer.runEvent`) with the checks of the wrapper. -/
def FTPServer.runEventG (sys : Sys W) (cfg : ServerInfo) (io fuel : Nat) (c : Checked W) :
    Event → Outcome (Checked W)
  | .READ bytes =>
    FTPServer.DealReadG sys cfg io fuel
      { c with
        s := ({ c.s with evb := { c.s.evb with input := c.s.evb.input ++ bytes } }).DisableRW }
  | .WRITE => FTPServer.DealWriteG sys cfg io { c with s := c.s.DisableRW }
  | .ACCEPT => .ok { c with s := FTPServer.DealAccept sys c.s.DisableRW }

/-- A sequence of events, one after the other, with the checks of the wrapper. -/
def FTPServer.runEventsG (sys : Sys W) (cfg : ServerInfo) (io fuel : Nat) :
    List Event → Checked W → Outcome (Checked W)
  | [], c => .ok c
  | e :: es, c => (FTPServer.runEventG sys cfg io fuel c e).bind fun c1 =>
      runEventsG sys cfg io fuel es c1

/-! ## Loading the configuration -/

/-- The function trim (FtpServer.cpp 22-31): erase the leading bytes that `std::isspace`
accepts, then the trailing ones. -/
def trim (s : Bytes) : Bytes :=
  ((s.dropWhile isspace).reverse.dropWhile isspace).reverse

/-- The C string `s.c_str()` as a C function reads it: the bytes before the first NUL. -/
def c_str (s : Bytes) : Bytes := s.takeWhile (fun c => c ≠ Char.ofNat 0)

/-- The call `std::stoul(s, &pos)` in base 10 with a 64-bit `unsigned long`: `strtoul`
skips the leading blanks, takes an optional sign and the decimal digits after it. `none` is
an exception (`invalid_argument` when there is no digit, `out_of_range` beyond ULONG_MAX);
otherwise the number, negated modulo 2^64 after a minus sign, and the count `pos` of the
bytes consumed. -/
def stoul (s : Bytes) : Option (Nat × Nat) :=
  let blanks := s.takeWhile isspace
  let r := s.dropWhile isspace
  let neg := decide (r.head? = some '-')
  let sign := if r.head? = some '-' ∨ r.head? = some '+' then 1 else 0
  let ds := (r.drop sign).takeWhile Char.isDigit
  if ds = [] then none
  else
    let n := digitsVal ds 0
    if n > 2 ^ 64 - 1 then none
    else some (if neg then (2 ^ 64 - n) % 2 ^ 64 else n, blanks.length + sign + ds.length)

/-- UINT_MAX with a 32-bit `unsigned int`. -/
def UINT_MAX : Nat := 2 ^ 32 - 1

/-- USHRT_MAX with a 16-bit `unsigned short`. -/
def USHRT_MAX : Nat := 2 ^ 16 - 1

/-- The call `users.insert(p)` on the `std::set` of pairs, kept as a list without
duplicates: only membership is observed. -/
def usersInsert (p : Bytes × Bytes) (users : List (Bytes × Bytes)) : List (Bytes × Bytes) :=
  if p ∈ users then users else users ++ [p]

/-- The local flags and the static fields of ServerInfo while LoadConfig runs. -/
structure LoadState where
  cfg : ServerInfo
  has_ip : Bool
  has_dir : Bool
deriving DecidableEq, Repr

/-- The inner loop of the key `users` (FtpServer.cpp 172-190) on the lines from index `i`
on: the set of users it leaves and, unless it left by `goto exitFalse` (`none`), the lines
from the index at which it stopped. -/
def usersLoop : List (Bytes × Bytes) → List Bytes → List (Bytes × Bytes) × Option (List Bytes)
  | users, [] => (users, some [])
  | users, l :: rest =>
    let user_line := trim l
    if user_line = [] ∨ user_line.head? ≠ some '$' then (users, some (l :: rest))
    else
      let user_entry := trim (user_line.drop 1)
      match find user_entry " ".toList 0 with
      | none => (users, none)
      | some space_pos =>
        if space_pos = 0 ∨ space_pos = user_entry.length - 1 then (users, none)
        else
          let username := substr user_entry 0 space_pos
          let password := user_entry.drop (space_pos + 1)
          usersLoop (usersInsert (username, password) users) rest

/-- The outer loop of LoadConfig (FtpServer.cpp 51-196) on the lines from index `i` on; one
unit of fuel is one test of the loop. The flag of the result is false for `goto exitFalse`;
the static fields keep what was stored before. `inet_pton` tells whether the C library
accepts a text as an IPv4 address. -/
def loadLoop (inet_pton : Bytes → Bool) :
    Nat → LoadState → List Bytes → Option (Bool × LoadState)
  | 0, _, _ => none
  | _ + 1, st, [] => some (true, st)
  | fuel + 1, st, l :: rest =>
    let line := trim l
    if line = [] ∨ line.head? = some '#' then loadLoop inet_pton fuel st rest
    else if line.getLast? ≠ some ':' then some (false, st)
    else
      let param := substr line 0 (line.length - 1)
      match rest with
      | [] => some (false, st)
      | v :: rest1 =>
        let value_line := trim v
        if value_line = [] ∨ value_line.head? ≠ some '$' then some (false, st)
        else
          let value := trim (value_line.drop 1)
          if param = "ip".toList then
            if inet_pton (c_str value) = false then some (false, st)
            else loadLoop inet_pton fuel
              { st with cfg := { st.cfg with ip := (c_str value).take 15 }, has_ip := true } rest1
          else if param = "dir".toList then
            if value.length ≥ 1024 then some (false, st)
            else loadLoop inet_pton fuel
              { st with cfg := { st.cfg with dir := (c_str value).take 1023 }, has_dir := true }
              rest1
          else if param = "rwtimeout".toList then
            match stoul value with
            | none => some (false, st)
            | some (num, pos) =>
              if pos ≠ value.length ∨ num > UINT_MAX then some (false, st)
              else loadLoop inet_pton fuel
                { st with cfg := { st.cfg with rwtimeout := num % 2 ^ 32 } } rest1
          else if param = "anonymous".toList then
            if value = "true".toList then
              loadLoop inet_pton fuel { st with cfg := { st.cfg with anonymous := true } } rest1
            else if value = "false".toList then
              loadLoop inet_pton fuel { st with cfg := { st.cfg with anonymous := false } } rest1
            else some (false, st)
          else if param = "utf-8".toList then
            if value = "true".toList then
              loadLoop inet_pton fuel { st with cfg := { st.cfg with utf8 := true } } rest1
            else if value = "false".toList then
              loadLoop inet_pton fuel { st with cfg := { st.cfg with utf8 := false } } rest1
            else some (false, st)
          else if param = "port".toList then
            match stoul value with
            | none => some (false, st)
            | some (num, pos) =>
              if pos ≠ value.length ∨ num > USHRT_MAX then some (false, st)
              else loadLoop inet_pton fuel
                { st with cfg := { st.cfg with port := num % 2 ^ 16 } } rest1
          else if param = "users".toList then
            match usersLoop st.cfg.users (v :: rest1) with
            | (users, none) => some (false, { st with cfg := { st.cfg with users := users } })
            | (users, some rest2) =>
              loadLoop inet_pton fuel { st with cfg := { st.cfg with users := users } } rest2
          else some (false, st)

/-- ServerInfo::LoadConfig (FtpServer.cpp 33-204): `file` is the content of the file at
`configPath`, `none` when it cannot be opened; `codeset` is `nl_langinfo(CODESET)`; `cfg`
holds the static fields before the call. The result is the value returned and the static
fields after the call. The loop tests its condition at most once per line and once more. -/
def ServerInfo.LoadConfig (inet_pton : Bytes → Bool) (codeset : Bytes) (cfg : ServerInfo)
    (file : Option Bytes) : Option (Bool × ServerInfo) :=
  match file with
  | none => some (false, cfg)
  | some text =>
    let lines := getlineAll '\n' text
    match loadLoop inet_pton (lines.length + 1)
        { cfg := cfg, has_ip := false, has_dir := false } lines with
    | none => none
    | some (false, st) => some (false, st.cfg)
    | some (true, st) =>
      if !st.has_ip || !st.has_dir then some (false, st.cfg)
      else some (true, { st.cfg with encoding := c_str codeset })

/-- The state of the scan of `inet_pton4`: the digit flag, the count of octets and the
octet being read. -/
structure Pton4 where
  saw_digit : Bool
  octets : Nat
  cur : Nat
deriving DecidableEq, Repr

/-- The scan of the IPv4 parser of the GNU C library (`inet_pton4`), the `inet_pton` of the
examples: digits extend the octet, which takes no leading zero and stays at most 255; a dot
after a digit starts the next octet; any other byte is refused. -/
def inet_pton4Loop : Pton4 → Bytes → Bool
  | st, [] => decide (4 ≤ st.octets)
  | st, ch :: src =>
    if ch.isDigit then
      let new := st.cur * 10 + (ch.toNat - 48)
      if st.saw_digit ∧ st.cur = 0 then false
      else if new > 255 then false
      else if st.saw_digit = false then
        if st.octets + 1 > 4 then false
        else inet_pton4Loop { saw_digit := true, octets := st.octets + 1, cur := new } src
      else inet_pton4Loop { st with cur := new } src
    else if ch = '.' ∧ st.saw_digit then
      if st.octets = 4 then false
      else inet_pton4Loop { st with saw_digit := false, cur := 0 } src
    else false

/-- The call `inet_pton(AF_INET, src, &addr) == 1` of the GNU C library. -/
def inet_pton4 (src : Bytes) : Bool :=
  inet_pton4Loop { saw_digit := false, octets := 0, cur := 0 } src

/-! ## The grammar of the configuration file, in the words of the specification -/

/-- A line that is blank or a comment once it is trimmed. -/
def isBlankOrComment (l : Bytes) : Bool :=
  decide (trim l = []) || decide ((trim l).head? = some '#')

/-- A line that starts with `$` once it is trimmed. -/
def isDollarLine (l : Bytes) : Bool := decide ((trim l).head? = some '$')

/-- The value of a `$` line: what follows the `$`, trimmed. -/
def dollarValue (v : Bytes) : Bytes := trim ((trim v).drop 1)

/-- The key line of `key`: trimmed, the line is the key followed by a colon. -/
def keyLine (key : String) : Bytes := key.toList ++ [':']

/-- The keys of the grammar. -/
def configKeys : List String := ["ip", "dir", "rwtimeout", "anonymous", "utf-8", "port", "users"]

/-- The key positions of a text: `KeyPosition lines rest` says that `rest` is the text from
a key position on. The text starts at a key position; the next one comes after a blank line
or a comment at key position, after a key line other than `users:` and the line that
follows it, and after `users:` and the run of `$` lines that follows it. -/
inductive KeyPosition (lines : List Bytes) : List Bytes → Prop
  | start : KeyPosition lines lines
  | skip (l : Bytes) (rest : List Bytes) :
      KeyPosition lines (l :: rest) → isBlankOrComment l = true → KeyPosition lines rest
  | entry (l v : Bytes) (rest : List Bytes) :
      KeyPosition lines (l :: v :: rest) → isBlankOrComment l = false →
      trim l ≠ keyLine "users" → KeyPosition lines rest
  | users (l : Bytes) (us rest : List Bytes) :
      KeyPosition lines (l :: (us ++ rest)) → trim l = keyLine "users" →
      (∀ u ∈ us, isDollarLine u = true) →
      (∀ r, rest.head? = some r → isDollarLine r = false) → KeyPosition lines rest

/-- An entry of two non-empty parts separated by a space. -/
def TwoParts (e : Bytes) : Prop :=
  ∃ a b : Bytes, a ≠ [] ∧ b ≠ [] ∧ e = a ++ Char.ofNat 32 :: b

/-- A decimal numeral: digits only, at least one. -/
def isNumeral (v : Bytes) : Bool := !v.isEmpty && v.all Char.isDigit

/-- The faults of a key line `l` that is followed by the lines `rest`: it does not end with
a colon; it names no key of the grammar; no line starting with `$` follows it; or its value
is invalid (an `ip` the C library does not accept as an IPv4 address, a `dir` of 1024 bytes
or more, an `anonymous` or `utf-8` other than `true` and `false`, a `port` above 65535, a
user line without two non-empty parts separated by a space). -/
def BadKeyLine (inet_pton : Bytes → Bool) (l : Bytes) (rest : List Bytes) : Prop :=
  (trim l).getLast? ≠ some ':' ∨
  (∀ key ∈ configKeys, trim l ≠ keyLine key) ∨
  (∀ v, rest.head? = some v → isDollarLine v = false) ∨
  (∃ v rest1, rest = v :: rest1 ∧ isDollarLine v = true ∧
    ((trim l = keyLine "ip" ∧ inet_pton (c_str (dollarValue v)) = false) ∨
     (trim l = keyLine "dir" ∧ 1024 ≤ (dollarValue v).length) ∨
     ((trim l = keyLine "anonymous" ∨ trim l = keyLine "utf-8") ∧
       dollarValue v ≠ "true".toList ∧ dollarValue v ≠ "false".toList) ∨
     (trim l = keyLine "port" ∧ isNumeral (dollarValue v) = true ∧
       65535 < digitsVal (dollarValue v) 0))) ∨
  (trim l = keyLine "users" ∧ ∃ us u rest1, rest = us ++ u :: rest1 ∧
    (∀ x ∈ us, isDollarLine x = true) ∧ isDollarLine u = true ∧ ¬ TwoParts (dollarValue u))

/-- The text has an entry of `key`: the key line of `key` stands at a key position. -/
def HasEntry (key : String) (lines : List Bytes) : Prop :=
  ∃ l rest, KeyPosition lines (l :: rest) ∧ trim l = keyLine key

/-- A user line with the username and the password it is to give. -/
structure UserLine where
  line : Bytes
  username : Bytes
  password : Bytes
deriving DecidableEq, Repr

/-- A well-formed user line `$<username> <password>`: the value of the `$` line is the
username, a space and the password; both are non-empty and the username, the text before
the first space, holds none. -/
def UserLine.WellFormed (u : UserLine) : Prop :=
  isDollarLine u.line = true ∧
    dollarValue u.line = u.username ++ Char.ofNat 32 :: u.password ∧
    u.username ≠ [] ∧ Char.ofNat 32 ∉ u.username ∧ u.password ≠ []

/-- The items of a configuration text: a blank line or comment, a key line with its value
line, and the key `users` with its user lines. -/
inductive ConfigItem where
  | skip (l : Bytes)
  | entry (l v : Bytes)
  | users (l : Bytes) (us : List UserLine)

/-- The lines of an item. -/
def ConfigItem.lines : ConfigItem → List Bytes
  | .skip l => [l]
  | .entry l v => [l, v]
  | .users l us => l :: us.map fun u => u.line

/-- The pairs an item adds to the set of users. -/
def ConfigItem.pairs : ConfigItem → List (Bytes × Bytes)
  | .users _ us => us.map fun u => (u.username, u.password)
  | _ => []

/-- The item is the entry of `key`. -/
def ConfigItem.isEntry (key : String) : ConfigItem → Prop
  | .entry l _ => trim l = keyLine key
  | _ => False

/-- A valid item of the grammar: a blank line or comment; a key with a valid value on a `$`
line (`ip` an address the C library accepts, `dir` of at most 1023 bytes, `rwtimeout` a
numeral up to UINT_MAX, `anonymous` and `utf-8` one of `true` and `false`, `port` a numeral
up to 65535); `users` with at least one user line, all well-formed. -/
def ConfigItem.Valid (inet_pton : Bytes → Bool) : ConfigItem → Prop
  | .skip l => isBlankOrComment l = true
  | .entry l v => isDollarLine v = true ∧
    ((trim l = keyLine "ip" ∧ inet_pton (c_str (dollarValue v)) = true) ∨
     (trim l = keyLine "dir" ∧ (dollarValue v).length < 1024) ∨
     (trim l = keyLine "rwtimeout" ∧ isNumeral (dollarValue v) = true ∧
       digitsVal (dollarValue v) 0 ≤ UINT_MAX) ∨
     ((trim l = keyLine "anonymous" ∨ trim l = keyLine "utf-8") ∧
       (dollarValue v = "true".toList ∨ dollarValue v = "false".toList)) ∨
     (trim l = keyLine "port" ∧ isNumeral (dollarValue v) = true ∧
       digitsVal (dollarValue v) 0 ≤ 65535))
  | .users l us => trim l = keyLine "users" ∧ us ≠ [] ∧ ∀ u ∈ us, u.WellFormed

/-- The lines of a list of items, one item after the other. -/
def itemLines : List ConfigItem → List Bytes
  | [] => []
  | it :: items => it.lines ++ itemLines items

/-- The branches of LoadConfig for the keys with one value (FtpServer.cpp 77-170), and the
last `else`, as a function of the key and the value: the state the branch leaves, `none`
for `goto exitFalse`. -/
def loadValue (inet_pton : Bytes → Bool) (st : LoadState) (param value : Bytes) :
    Option LoadState :=
  if param = "ip".toList then
    if inet_pton (c_str value) = false then none
    else some { st with cfg := { st.cfg with ip := (c_str value).take 15 }, has_ip := true }
  else if param = "dir".toList then
    if value.length ≥ 1024 then none
    else some { st with cfg := { st.cfg with dir := (c_str value).take 1023 }, has_dir := true }
  else if param = "rwtimeout".toList then
    match stoul value with
    | none => none
    | some (num, pos) =>
      if pos ≠ value.length ∨ num > UINT_MAX then none
      else some { st with cfg := { st.cfg with rwtimeout := num % 2 ^ 32 } }
  else if param = "anonymous".toList then
    if value = "true".toList then some { st with cfg := { st.cfg with anonymous := true } }
    else if value = "false".toList then
      some { st with cfg := { st.cfg with anonymous := false } }
    else none
  else if param = "utf-8".toList then
    if value = "true".toList then some { st with cfg := { st.cfg with utf8 := true } }
    else if value = "false".toList then some { st with cfg := { st.cfg with utf8 := false } }
    else none
  else if param = "port".toList then
    match stoul value with
    | none => none
    | some (num, pos) =>
      if pos ≠ value.length ∨ num > USHRT_MAX then none
      else some { st with cfg := { st.cfg with port := num % 2 ^ 16 } }
  else none

/-- The static fields of ServerInfo when the program starts (FtpServer.cpp 13-20). -/
def ServerInfo.initial : ServerInfo :=
  { utf8 := false, anonymous := false, rwtimeout := 5, port := 4567, dir := [], ip := [],
    encoding := [], users := [] }
set_option maxRecDepth 100000

/-! ## What a transfer leaves alone -/

/-- The fields of the session no transfer routine writes: the routine may change only
`sWaitSend`, the output buffer, the two data sockets and the world. -/
structure Frame (s t : FTPServer W) : Prop where
  input : t.evb.input = s.evb.input
  enabled : t.evb.enabled = s.evb.enabled
  info : t.info = s.info
  sWaitParse : t.sWaitParse = s.sWaitParse
  utf8 : t.utf8 = s.utf8
  error : t.error = s.error
  certified : t.certified = s.certified
  enableFree : t.enableFree = s.enableFree
  user : t.user = s.user
  clientIP : t.clientIP = s.clientIP
  currentDir : t.currentDir = s.currentDir
  renameFromPath : t.renameFromPath = s.renameFromPath
  clientPort : t.clientPort = s.clientPort
  dataMode : t.dataMode = s.dataMode
  task : t.task = s.task
  cmdLog : t.cmdLog = s.cmdLog

theorem Frame.refl (s : FTPServer W) : Frame s s := by
  constructor <;> rfl

theorem Frame.trans {s t u : FTPServer W} (h1 : Frame s t) (h2 : Frame t u) : Frame s u := by
  constructor
  · exact h2.input.trans h1.input
  · exact h2.enabled.trans h1.enabled
  · exact h2.info.trans h1.info
  · exact h2.sWaitParse.trans h1.sWaitParse
  · exact h2.utf8.trans h1.utf8
  · exact h2.error.trans h1.error
  · exact h2.certified.trans h1.certified
  · exact h2.enableFree.trans h1.enableFree
  · exact h2.user.trans h1.user
  · exact h2.clientIP.trans h1.clientIP
  · exact h2.currentDir.trans h1.currentDir
  · exact h2.renameFromPath.trans h1.renameFromPath
  · exact h2.clientPort.trans h1.clientPort
  · exact h2.dataMode.trans h1.dataMode
  · exact h2.task.trans h1.task
  · exact h2.cmdLog.trans h1.cmdLog

theorem frame_world (s : FTPServer W) (w : W) : Frame s { s with w := w } := by
  constructor <;> rfl

theorem frame_appendSend (s : FTPServer W) (msg : Bytes) : Frame s (s.appendSend msg) := by
  constructor <;> rfl

theorem frame_Send (sys : Sys W) (s : FTPServer W) : Frame s (FTPServer.Send sys s).2 := by
  unfold FTPServer.Send
  dsimp only
  repeat' split
  all_goals (constructor <;> rfl)

theorem frame_CloseDataConnection (sys : Sys W) (s : FTPServer W) :
    Frame s (FTPServer.CloseDataConnection sys s) := by
  unfold FTPServer.CloseDataConnection
  dsimp only
  repeat' split
  all_goals (constructor <;> rfl)

theorem frame_EstablishDataConnection (sys : Sys W) (cfg : ServerInfo) (s : FTPServer W) :
    Frame s (FTPServer.EstablishDataConnection sys cfg s).2 := by
  unfold FTPServer.EstablishDataConnection FTPServer.EstablishPassive FTPServer.EstablishActive
  dsimp only
  repeat' split
  all_goals (constructor <;> rfl)

theorem frame_listFinish (sys : Sys W) (s : FTPServer W) (b : Bool) :
    Frame s (FTPServer.listFinish sys s b) :=
  (frame_appendSend s _).trans (frame_CloseDataConnection sys _)

theorem frame_closeFile (sys : Sys W) (s : FTPServer W) (fh : Int) :
    Frame s (FTPServer.closeFile sys s fh) :=
  (frame_world s _).trans (frame_CloseDataConnection sys _)

theorem frame_listSendLoop (sys : Sys W) :
    ∀ (fuel : Nat) (s : FTPServer W) (listing : Bytes) (totalSent : Nat)
      (r : FTPServer W × Option Coro),
      FTPServer.listSendLoop sys fuel s listing totalSent = some r → Frame s r.1 := by
  intro fuel
  induction fuel with
  | zero => intro s listing totalSent r h; simp [FTPServer.listSendLoop] at h
  | succ n ih =>
    intro s listing totalSent r h
    rw [FTPServer.listSendLoop] at h
    dsimp only at h
    split at h
    · split at h
      · split at h
        · cases h; exact frame_world s _
        · cases h; exact (frame_world s _).trans (frame_listFinish sys _ _)
      · exact (frame_world s _).trans (ih _ _ _ _ h)
    · cases h; exact frame_listFinish sys _ _

theorem frame_uploadLoop (sys : Sys W) :
    ∀ (fuel : Nat) (s : FTPServer W) (fh : Int) (buffer : Bytes) (n : Nat)
      (r : FTPServer W × Option Coro),
      FTPServer.uploadLoop sys fuel s fh buffer n = some r → Frame s r.1 := by
  intro fuel
  induction fuel with
  | zero => intro s fh buffer n r h; simp [FTPServer.uploadLoop] at h
  | succ k ih =>
    intro s fh buffer n r h
    rw [FTPServer.uploadLoop] at h
    dsimp only at h
    split at h
    · split at h
      · exact (frame_world s _).trans (ih _ _ _ _ _ h)
      · split at h
        · cases h
          exact ((frame_world s _).trans (frame_appendSend _ _)).trans (frame_closeFile sys _ _)
        · exact (frame_world s _).trans (ih _ _ _ _ _ h)
    · split at h
      · exact (frame_world s _).trans (ih _ _ _ _ _ h)
      · cases h
        exact ((frame_world s _).trans (frame_appendSend _ _)).trans (frame_closeFile sys _ _)
      · split at h
        · cases h; exact frame_world s _
        · cases h
          exact ((frame_world s _).trans (frame_appendSend _ _)).trans (frame_closeFile sys _ _)

theorem frame_downloadLoop (sys : Sys W) :
    ∀ (fuel : Nat) (s : FTPServer W) (fh : Int) (buffer : Bytes) (n : Nat)
      (r : FTPServer W × Option Coro),
      FTPServer.downloadLoop sys fuel s fh buffer n = some r → Frame s r.1 := by
  intro fuel
  induction fuel with
  | zero => intro s fh buffer n r h; simp [FTPServer.downloadLoop] at h
  | succ k ih =>
    intro s fh buffer n r h
    rw [FTPServer.downloadLoop] at h
    dsimp only at h
    split at h
    · split at h
      · exact (frame_world s _).trans (ih _ _ _ _ _ h)
      · split at h
        · split at h
          · cases h; exact frame_world s _
          · cases h
            exact ((frame_world s _).trans (frame_appendSend _ _)).trans
              (frame_closeFile sys _ _)
        · exact (frame_world s _).trans (ih _ _ _ _ _ h)
    · split at h
      · exact (frame_world s _).trans (ih _ _ _ _ _ h)
      · cases h
        exact ((frame_world s _).trans (frame_appendSend _ _)).trans (frame_closeFile sys _ _)

theorem frame_listBody (sys : Sys W) (cfg : ServerInfo) (fuel : Nat) (s : FTPServer W)
    (r : FTPServer W × Option Coro) (h : FTPServer.listBody sys cfg fuel s = some r) :
    Frame s r.1 := by
  have he := frame_EstablishDataConnection sys cfg s
  unfold FTPServer.listBody at h
  dsimp only at h
  split at h
  · cases h; exact he.trans (frame_appendSend _ _)
  · split at h
    · cases h
      exact ((he.trans (frame_world _ _)).trans (frame_appendSend _ _)).trans
        (frame_CloseDataConnection sys _)
    · exact (he.trans (frame_world _ _)).trans (frame_listSendLoop sys _ _ _ _ _ h)

theorem frame_listFlush (sys : Sys W) (cfg : ServerInfo) (fuel : Nat) (s : FTPServer W)
    (r : FTPServer W × Option Coro) (h : FTPServer.listFlush sys cfg fuel s = some r) :
    Frame s r.1 := by
  have hs := frame_Send sys s
  unfold FTPServer.listFlush at h
  dsimp only at h
  split at h
  · exact hs.trans (frame_listBody sys cfg fuel _ _ h)
  · cases h; exact hs

theorem frame_uploadBody (sys : Sys W) (cfg : ServerInfo) (fuel : Nat) (s : FTPServer W)
    (p : Bytes) (r : FTPServer W × Option Coro)
    (h : FTPServer.uploadBody sys cfg fuel s p = some r) : Frame s r.1 := by
  have he := frame_EstablishDataConnection sys cfg s
  unfold FTPServer.uploadBody at h
  dsimp only at h
  split at h
  · cases h; exact he.trans (frame_appendSend _ _)
  · split at h
    · cases h
      exact ((he.trans (frame_world _ _)).trans (frame_appendSend _ _)).trans
        (frame_CloseDataConnection sys _)
    · exact (he.trans (frame_world _ _)).trans (frame_uploadLoop sys _ _ _ _ _ _ h)

theorem frame_uploadFlush (sys : Sys W) (cfg : ServerInfo) (fuel : Nat) (s : FTPServer W)
    (p : Bytes) (r : FTPServer W × Option Coro)
    (h : FTPServer.uploadFlush sys cfg fuel s p = some r) : Frame s r.1 := by
  have hs := frame_Send sys s
  unfold FTPServer.uploadFlush at h
  dsimp only at h
  split at h
  · exact hs.trans (frame_uploadBody sys cfg fuel _ _ _ h)
  · cases h; exact hs

theorem frame_downloadBody (sys : Sys W) (cfg : ServerInfo) (fuel : Nat) (s : FTPServer W)
    (p : Bytes) (r : FTPServer W × Option Coro)
    (h : FTPServer.downloadBody sys cfg fuel s p = some r) : Frame s r.1 := by
  have he := frame_EstablishDataConnection sys cfg s
  unfold FTPServer.downloadBody at h
  dsimp only at h
  split at h
  · cases h; exact he.trans (frame_appendSend _ _)
  · split at h
    · cases h
      exact ((he.trans (frame_world _ _)).trans (frame_appendSend _ _)).trans
        (frame_CloseDataConnection sys _)
    · exact (he.trans (frame_world _ _)).trans (frame_downloadLoop sys _ _ _ _ _ _ h)

theorem frame_downloadFlush (sys : Sys W) (cfg : ServerInfo) (fuel : Nat) (s : FTPServer W)
    (p : Bytes) (r : FTPServer W × Option Coro)
    (h : FTPServer.downloadFlush sys cfg fuel s p = some r) : Frame s r.1 := by
  have hs := frame_Send sys s
  unfold FTPServer.downloadFlush at h
  dsimp only at h
  split at h
  · exact hs.trans (frame_downloadBody sys cfg fuel _ _ _ h)
  · cases h; exact hs

theorem frame_HandleList (sys : Sys W) (cfg : ServerInfo) (fuel : Nat) (s : FTPServer W)
    (r : FTPServer W × Option Coro) (h : FTPServer.HandleList sys cfg fuel s = some r) :
    Frame s r.1 :=
  (frame_appendSend s _).trans (frame_listFlush sys cfg fuel _ _ h)

theorem frame_HandleUpload (sys : Sys W) (cfg : ServerInfo) (fuel : Nat) (s : FTPServer W)
    (p : Bytes) (r : FTPServer W × Option Coro)
    (h : FTPServer.HandleUpload sys cfg fuel s p = some r) : Frame s r.1 :=
  (frame_appendSend s _).trans (frame_uploadFlush sys cfg fuel _ _ _ h)

theorem frame_HandleDownload (sys : Sys W) (cfg : ServerInfo) (fuel : Nat) (s : FTPServer W)
    (p : Bytes) (r : FTPServer W × Option Coro)
    (h : FTPServer.HandleDownload sys cfg fuel s p = some r) : Frame s r.1 := by
  unfold FTPServer.HandleDownload at h
  dsimp only at h
  split at h
  · cases h; exact (frame_world s _).trans (frame_appendSend _ _)
  · split at h
    · cases h; exact (frame_world s _).trans (frame_appendSend _ _)
    · exact ((frame_world s _).trans (frame_appendSend _ _)).trans
        (frame_downloadFlush sys cfg fuel _ _ _ h)

/-- A resumed transfer writes none of the fields of `Frame`. -/
theorem frame_resume (sys : Sys W) (cfg : ServerInfo) (fuel : Nat) (s : FTPServer W) (k : Coro)
    (r : FTPServer W × Option Coro) (h : FTPServer.resume sys cfg fuel s k = some r) :
    Frame s r.1 := by
  cases k with
  | listFlush =>
    simp only [FTPServer.resume] at h
    split at h
    · cases h; exact Frame.refl s
    · exact frame_listFlush sys cfg fuel _ _ h
  | listSend listing totalSent =>
    simp only [FTPServer.resume] at h
    split at h
    · cases h; exact Frame.refl s
    · exact frame_listSendLoop sys _ _ _ _ _ h
  | uploadFlush p =>
    simp only [FTPServer.resume] at h
    split at h
    · cases h; exact Frame.refl s
    · exact frame_uploadFlush sys cfg fuel _ _ _ h
  | uploadRecv fh =>
    simp only [FTPServer.resume] at h
    split at h
    · cases h; exact frame_world s _
    · exact frame_uploadLoop sys _ _ _ _ _ _ h
  | downloadFlush p =>
    simp only [FTPServer.resume] at h
    split at h
    · cases h; exact Frame.refl s
    · exact frame_downloadFlush sys cfg fuel _ _ _ h
  | downloadSend fh buffer n =>
    simp only [FTPServer.resume] at h
    split at h
    · cases h; exact frame_world s _
    · exact frame_downloadLoop sys _ _ _ _ _ _ h

/-! ## Reading drains the input buffer -/

theorem readLoop_eq : ∀ (fuel : Nat) (s : FTPServer W), s.evb.input.length < fuel →
    FTPServer.readLoop fuel s =
      { s with evb := { s.evb with input := [] }, sWaitParse := s.sWaitParse ++ s.evb.input } := by
  intro fuel
  induction fuel with
  | zero => intro s h; omega
  | succ n ih =>
    intro s h
    rw [FTPServer.readLoop]
    dsimp only
    by_cases h0 : s.evb.input = []
    · simp only [h0, List.take_nil, List.length_nil, Nat.cast_zero, le_refl, if_true,
        List.append_nil]
      rcases s with ⟨⟨i, o, e⟩, _⟩
      simp only at h0
      subst h0
      rfl
    · have hpos : 0 < s.evb.input.length := List.length_pos.mpr h0
      have hmin : 0 < min 1024 s.evb.input.length := by omega
      rw [if_neg (by simp only [List.length_take]; omega)]
      by_cases hlt : s.evb.input.length < 1024
      · rw [if_pos (by simp only [List.length_take]; omega)]
        have h1 : List.take 1024 s.evb.input = s.evb.input := List.take_of_length_le (by omega)
        have h2 : List.drop 1024 s.evb.input = [] := List.drop_of_length_le (by omega)
        rw [h1, h2]
      · rw [if_neg (by simp only [List.length_take]; omega)]
        rw [ih _ (by simp only [List.length_drop]; omega)]
        simp only [List.append_assoc, List.take_append_drop]

/-- FTPServer::Read moves the whole input buffer of the reactor to the end of `sWaitParse`
and changes nothing else. -/
theorem Read_eq (s : FTPServer W) :
    FTPServer.Read s =
      { s with evb := { s.evb with input := [] }, sWaitParse := s.sWaitParse ++ s.evb.input } :=
  readLoop_eq _ s (Nat.lt_succ_self _)

/-! ## The claims -/

/-- C1: for a session that is not authenticated, a command word whose upper-case form is not
USER, PASS or OPTS, with any parameter, makes ProcessCommand append exactly
"550 Permission denied.\r\n" to the send buffer and return ready; no transfer is started and
no other field of the session changes (the log line of the call apart). -/
theorem C1_unauthenticated_denied (sys : Sys W) (cfg : ServerInfo) (fuel : Nat)
    (s : FTPServer W) (cmd param : Bytes) (hauth : s.certified = false)
    (hU : ToUpperCase cmd ≠ "USER".toList) (hP : ToUpperCase cmd ≠ "PASS".toList)
    (hO : ToUpperCase cmd ≠ "OPTS".toList) :
    FTPServer.ProcessCommand sys cfg fuel s cmd param =
      some ({ s with
              sWaitSend := s.sWaitSend ++ "550 Permission denied.\r\n".toList,
              cmdLog := s.cmdLog ++ [(ToUpperCase cmd,
                if s.utf8 then convertEncoding sys param "UTF-8".toList cfg.encoding
                else param)] }, true) := by
  unfold FTPServer.ProcessCommand
  dsimp only
  rw [if_neg hU, if_neg hP, if_neg hO, if_pos hauth]
  rfl

/-- The witness of C1: `pwd` on a fresh session. -/
theorem C1_unauthenticated_denied_witness :
    FTPServer.ProcessCommand simSys (simCfg true true) 0 (simFresh true true 0) "pwd".toList []
      = some ({ simFresh true true 0 with
                sWaitSend := "550 Permission denied.\r\n".toList,
                cmdLog := [("PWD".toList, [])] }, true) :=
  C1_unauthenticated_denied simSys (simCfg true true) 0 (simFresh true true 0) "pwd".toList []
    rfl (by decide) (by decide) (by decide)

/-- C2, the claim as stated fails: with anonymous login off and an account
(anonymous, pw) in `users`, `USER anonymous` then `PASS pw` on a fresh session leaves the
session unauthenticated although the pair is in `users`. -/
theorem C2_counterexample :
    ∃ s, FTPServer.userThenPass simSys anonAccountCfg 0
        (FTPServer.new anonAccountCfg { input := [], output := [], enabled := true }
          { port := 50000, ip := "10.0.0.2".toList } { errno := 0, busy := 0 })
        "anonymous".toList "pw".toList = some s ∧
      ¬ (s.certified = true ↔
          (("anonymous".toList, "pw".toList) ∈ anonAccountCfg.users ∨
            ("anonymous".toList = "anonymous".toList ∧ anonAccountCfg.anonymous = true))) := by
  refine ⟨_, rfl, ?_⟩
  decide

/-- C2, amended: from a fresh session, for every configuration, user name x and password y,
after `USER x` and `PASS y` the session is authenticated if and only if x is "anonymous" and
anonymous login is allowed, or x is not "anonymous" and (x, y) is in `users`. -/
theorem C2_login_iff (sys : Sys W) (cfg : ServerInfo) (fuel : Nat) (evb : EVBuffer)
    (info : ConnectionInfo) (w : W) (x y : Bytes) :
    ∃ s, FTPServer.userThenPass sys cfg fuel (FTPServer.new cfg evb info w) x y = some s ∧
      (s.certified = true ↔
        ((x = "anonymous".toList ∧ cfg.anonymous = true) ∨
          (x ≠ "anonymous".toList ∧ (x, y) ∈ cfg.users))) := by
  have hU : ToUpperCase "USER".toList = "USER".toList := by decide
  have hP : ToUpperCase "PASS".toList = "PASS".toList := by decide
  have hPU : ¬ ("PASS".toList = "USER".toList) := by decide
  unfold FTPServer.userThenPass FTPServer.ProcessCommand
  simp only [hU, hP, hPU, FTPServer.new, if_true, if_false, Bool.false_eq_true]
  have hA : "anonymous".toList = ['a', 'n', 'o', 'n', 'y', 'm', 'o', 'u', 's'] := rfl
  rw [hA]
  split_ifs with h1 h2 h3 <;> simp_all [FTPServer.appendSend]

/-- C3, the code at the failing input: with the one account alice/good and anonymous login
off, the lines `USER alice`, `PASS good`, `USER mallory` leave the session authenticated
with `user` = "mallory", which is neither the name of an account nor an allowed
"anonymous": the USER branch stores the name and never clears `certified`. -/
theorem C3_user_after_login_keeps_certified :
    ∃ s, FTPServer.runEvents simSys (simCfg false false) 100 100
        [.ACCEPT, .READ "USER alice\r\nPASS good\r\nUSER mallory\r\n".toList]
        (simFresh false false 0) = some s ∧
      s.certified = true ∧ s.user = "mallory".toList ∧
      s.user ∉ (simCfg false false).users.map Prod.fst ∧
      ¬ (s.user = "anonymous".toList ∧ (simCfg false false).anonymous = true) ∧
      s.cmdLog = [("USER".toList, "alice".toList), ("PASS".toList, "good".toList),
        ("USER".toList, "mallory".toList)] := by
  refine ⟨_, rfl, ?_⟩
  decide

/-- C4, the code at the failing input: on an authenticated session, with the UTF-8
capability set, FEAT with an empty parameter appends only
"211-Features:\r\n PASV\r\n SIZE\r\n 211 End\r\n" to the send buffer; the two feature lines
" UTF8\r\n OPTS UTF8\r\n" are appended to the parse buffer instead. -/
theorem C4_feat_writes_parse_buffer :
    FTPServer.ProcessCommand simSys (simCfg true true) 0
        { simFresh true true 0 with certified := true } "FEAT".toList [] =
      some ({ simFresh true true 0 with
                certified := true,
                sWaitSend := "211-Features:\r\n PASV\r\n SIZE\r\n 211 End\r\n".toList,
                sWaitParse := " UTF8\r\n OPTS UTF8\r\n".toList,
                cmdLog := [("FEAT".toList, [])] }, true) := by
  rfl

/-- C5, the code at the failing input: on an authenticated session, with the UTF-8
capability set, Parse of the buffer "FEAT\r\n", which holds one line, dispatches three
commands: FEAT, and then the two lines FEAT itself put into the parse buffer, as the command
"" with parameters "UTF8" and "OPTS UTF8" (same defect as C4). -/
theorem C5_parse_dispatches_feat_lines :
    ∃ s, FTPServer.Parse simSys (simCfg true true) 100 100
        { simLoggedIn true true 0 with sWaitParse := "FEAT\r\n".toList } = some (s, true) ∧
      s.cmdLog = [("FEAT".toList, []), ([], "UTF8".toList), ([], "OPTS UTF8".toList)] ∧
      s.sWaitSend = ("211-Features:\r\n PASV\r\n SIZE\r\n 211 End\r\n".toList
        ++ "500 Command error.\r\n".toList ++ "500 Command error.\r\n".toList) ∧
      s.sWaitParse = [] ∧ s.task = none := by
  refine ⟨_, rfl, ?_⟩
  decide

/-- C6, the code at the failing input: on an authenticated session, with the UTF-8
capability set, the lines "FEAT\r\n" and "NOOP\r\n" parsed as one batch answer FEAT, NOOP,
500, 500, and parsed as two batches answer FEAT, 500, 500, NOOP: the send buffers differ,
and the two 500 replies answer no line of the input (same defect as C4). -/
theorem C6_batch_split_changes_replies :
    ∃ a b, FTPServer.parseBatch simSys (simCfg true true) 100 100 (simLoggedIn true true 0)
          ("FEAT\r\n".toList ++ "NOOP\r\n".toList) = some a ∧
      ((FTPServer.parseBatch simSys (simCfg true true) 100 100 (simLoggedIn true true 0)
          "FEAT\r\n".toList).bind
        fun s1 => FTPServer.parseBatch simSys (simCfg true true) 100 100 s1 "NOOP\r\n".toList)
        = some b ∧
      a.sWaitSend = ("211-Features:\r\n PASV\r\n SIZE\r\n 211 End\r\n".toList
        ++ "200 NOOP ok\r\n".toList ++ "500 Command error.\r\n".toList
        ++ "500 Command error.\r\n".toList) ∧
      b.sWaitSend = ("211-Features:\r\n PASV\r\n SIZE\r\n 211 End\r\n".toList
        ++ "500 Command error.\r\n".toList ++ "500 Command error.\r\n".toList
        ++ "200 NOOP ok\r\n".toList) ∧
      a.sWaitSend ≠ b.sWaitSend ∧ a.task = none ∧ b.task = none := by
  refine ⟨_, _, rfl, rfl, ?_⟩
  decide

/-! ## The command log counts the calls of ProcessCommand -/

theorem startTask_cmdLog (x : Option (FTPServer W × Option Coro)) (r : FTPServer W × Bool)
    (h : FTPServer.startTask x = some r) :
    ∃ q, x = some q ∧ r.1.cmdLog = q.1.cmdLog ∧ r.1.sWaitParse = q.1.sWaitParse := by
  unfold FTPServer.startTask at h
  split at h
  · cases h
  · cases h; exact ⟨_, rfl, rfl, rfl⟩
  · cases h; exact ⟨_, rfl, rfl, rfl⟩

theorem HandlePASV_cmdLog (sys : Sys W) (cfg : ServerInfo) (s : FTPServer W) :
    (FTPServer.HandlePASV sys cfg s).cmdLog = s.cmdLog ∧
      (FTPServer.HandlePASV sys cfg s).sWaitParse = s.sWaitParse := by
  unfold FTPServer.HandlePASV
  dsimp only
  repeat' split
  all_goals exact ⟨rfl, rfl⟩

theorem HandlePORT_cmdLog (sys : Sys W) (s : FTPServer W) (param : Bytes) :
    (FTPServer.HandlePORT sys s param).cmdLog = s.cmdLog ∧
      (FTPServer.HandlePORT sys s param).sWaitParse = s.sWaitParse := by
  unfold FTPServer.HandlePORT
  dsimp only
  repeat' split
  all_goals exact ⟨rfl, rfl⟩

theorem ProcessCommand_noParam_cmdLog (sys : Sys W) (cfg : ServerInfo) (fuel : Nat)
    (s : FTPServer W) (cmd : Bytes) :
    ∀ r, FTPServer.ProcessCommand_noParam sys cfg fuel s cmd = some r →
      r.1.cmdLog = s.cmdLog ∧ (cfg.utf8 = false → r.1.sWaitParse = s.sWaitParse) := by
  intro r h
  unfold FTPServer.ProcessCommand_noParam at h
  by_cases c1 : cmd = "PWD".toList
  · rw [if_pos c1] at h
    dsimp only at h
    cases h; exact ⟨rfl, fun _ => rfl⟩
  rw [if_neg c1] at h
  by_cases c2 : cmd = "SYST".toList
  · rw [if_pos c2] at h
    cases h; exact ⟨rfl, fun _ => rfl⟩
  rw [if_neg c2] at h
  by_cases c3 : cmd = "FEAT".toList
  · rw [if_pos c3] at h
    dsimp only at h
    cases h
    refine ⟨by split <;> rfl, fun hc => ?_⟩
    rw [if_neg (by rw [hc]; decide)]
    rfl
  rw [if_neg c3] at h
  by_cases c4 : cmd = "QUIT".toList
  · rw [if_pos c4] at h
    cases h; exact ⟨rfl, fun _ => rfl⟩
  rw [if_neg c4] at h
  by_cases c5 : cmd = "NOOP".toList
  · rw [if_pos c5] at h
    cases h; exact ⟨rfl, fun _ => rfl⟩
  rw [if_neg c5] at h
  by_cases c6 : cmd = "TYPE".toList
  · rw [if_pos c6] at h
    cases h; exact ⟨rfl, fun _ => rfl⟩
  rw [if_neg c6] at h
  by_cases c7 : cmd = "PASV".toList
  · rw [if_pos c7] at h
    cases h
    exact ⟨(HandlePASV_cmdLog sys cfg s).1, fun _ => (HandlePASV_cmdLog sys cfg s).2⟩
  rw [if_neg c7] at h
  by_cases c8 : cmd = "LIST".toList ∨ cmd = "NLST".toList
  · rw [if_pos c8] at h
    obtain ⟨q, hq, h1, h2⟩ := startTask_cmdLog _ _ h
    rw [h1, h2]
    exact ⟨(frame_HandleList sys cfg fuel s q hq).cmdLog,
      fun _ => (frame_HandleList sys cfg fuel s q hq).sWaitParse⟩
  rw [if_neg c8] at h
  cases h
  exact ⟨rfl, fun _ => rfl⟩

theorem ProcessCommand_withParam_cmdLog (sys : Sys W) (cfg : ServerInfo) (fuel : Nat)
    (s : FTPServer W) (cmd param : Bytes) :
    ∀ r, FTPServer.ProcessCommand_withParam sys cfg fuel s cmd param = some r →
      r.1.cmdLog = s.cmdLog ∧ r.1.sWaitParse = s.sWaitParse := by
  intro r h
  unfold FTPServer.ProcessCommand_withParam at h
  by_cases c1 : cmd = "CWD".toList ∨ cmd = "XCWD".toList
  · rw [if_pos c1] at h
    dsimp only at h
    split_ifs at h <;> (cases h; exact ⟨rfl, rfl⟩)
  rw [if_neg c1] at h
  by_cases c2 : cmd = "RMD".toList
  · rw [if_pos c2] at h
    dsimp only at h
    split_ifs at h <;> (cases h; exact ⟨rfl, rfl⟩)
  rw [if_neg c2] at h
  by_cases c3 : cmd = "TYPE".toList
  · rw [if_pos c3] at h
    split_ifs at h <;> (cases h; exact ⟨rfl, rfl⟩)
  rw [if_neg c3] at h
  by_cases c4 : cmd = "PORT".toList
  · rw [if_pos c4] at h
    cases h; exact HandlePORT_cmdLog sys s param
  rw [if_neg c4] at h
  by_cases c5 : cmd = "SIZE".toList
  · rw [if_pos c5] at h
    dsimp only at h
    split at h <;> (cases h; exact ⟨rfl, rfl⟩)
  rw [if_neg c5] at h
  by_cases c6 : cmd = "RNFR".toList
  · rw [if_pos c6] at h
    dsimp only at h
    split_ifs at h <;> (cases h; exact ⟨rfl, rfl⟩)
  rw [if_neg c6] at h
  by_cases c7 : cmd = "RNTO".toList
  · rw [if_pos c7] at h
    dsimp only at h
    split_ifs at h <;> (cases h; exact ⟨rfl, rfl⟩)
  rw [if_neg c7] at h
  by_cases c8 : cmd = "DELE".toList
  · rw [if_pos c8] at h
    dsimp only at h
    split_ifs at h <;> (cases h; exact ⟨rfl, rfl⟩)
  rw [if_neg c8] at h
  by_cases c9 : cmd = "RETR".toList
  · rw [if_pos c9] at h
    obtain ⟨q, hq, h1, h2⟩ := startTask_cmdLog _ _ h
    rw [h1, h2]
    exact ⟨(frame_HandleDownload sys cfg fuel s param q hq).cmdLog,
      (frame_HandleDownload sys cfg fuel s param q hq).sWaitParse⟩
  rw [if_neg c9] at h
  by_cases c10 : cmd = "STOR".toList
  · rw [if_pos c10] at h
    obtain ⟨q, hq, h1, h2⟩ := startTask_cmdLog _ _ h
    rw [h1, h2]
    exact ⟨(frame_HandleUpload sys cfg fuel s param q hq).cmdLog,
      (frame_HandleUpload sys cfg fuel s param q hq).sWaitParse⟩
  rw [if_neg c10] at h
  by_cases c11 : cmd = "MKD".toList ∨ cmd = "XMKD".toList
  · rw [if_pos c11] at h
    dsimp only at h
    split_ifs at h <;> (cases h; exact ⟨rfl, rfl⟩)
  rw [if_neg c11] at h
  cases h
  exact ⟨rfl, rfl⟩

/-- Every call of ProcessCommand that returns adds exactly one entry to the command log, and
without the UTF-8 capability it leaves the parse buffer as it is. -/
theorem ProcessCommand_cmdLog (sys : Sys W) (cfg : ServerInfo) (fuel : Nat)
    (s : FTPServer W) (cmd param : Bytes) :
    ∀ r, FTPServer.ProcessCommand sys cfg fuel s cmd param = some r →
      r.1.cmdLog = s.cmdLog ++ [(ToUpperCase cmd,
        if s.utf8 then convertEncoding sys param "UTF-8".toList cfg.encoding else param)] ∧
      (cfg.utf8 = false → r.1.sWaitParse = s.sWaitParse) := by
  unfold FTPServer.ProcessCommand
  dsimp only
  repeat' split
  all_goals intro r h
  all_goals first
    | (cases h; exact ⟨rfl, fun _ => rfl⟩)
    | exact ProcessCommand_noParam_cmdLog sys cfg fuel _ _ r h
    | exact ⟨(ProcessCommand_withParam_cmdLog sys cfg fuel _ _ _ r h).1,
        fun _ => (ProcessCommand_withParam_cmdLog sys cfg fuel _ _ _ r h).2⟩

/-- The handler that resumes a transfer dispatches nothing while doing so. -/
theorem DealTask_frame (sys : Sys W) (cfg : ServerInfo) (io : Nat) (s : FTPServer W)
    (r : FTPServer W × Bool) (h : FTPServer.DealTask sys cfg io s = some r) :
    r.1.cmdLog = s.cmdLog ∧ r.1.sWaitParse = s.sWaitParse ∧ r.1.error = s.error ∧
      r.1.enableFree = s.enableFree ∧ r.1.evb.enabled = s.evb.enabled ∧
      (r.2 = true → r.1.task = none) := by
  unfold FTPServer.DealTask at h
  split at h
  · cases h; simp_all
  · rename_i k hk
    split at h
    · cases h
    · rename_i s1 hr
      cases h
      have f := frame_resume sys cfg io s k _ hr
      exact ⟨f.cmdLog, f.sWaitParse, f.error, f.enableFree, f.enabled, fun _ => rfl⟩
    · rename_i s1 k1 hr
      cases h
      have f := frame_resume sys cfg io s k _ hr
      exact ⟨f.cmdLog, f.sWaitParse, f.error, f.enableFree, f.enabled, fun h => by cases h⟩

theorem Send_And_EnableWR_fields (sys : Sys W) (s : FTPServer W) :
    (FTPServer.Send_And_EnableWR sys s).cmdLog = s.cmdLog ∧
      (FTPServer.Send_And_EnableWR sys s).sWaitParse = s.sWaitParse ∧
      (FTPServer.Send_And_EnableWR sys s).error = s.error ∧
      (FTPServer.Send_And_EnableWR sys s).task = s.task ∧
      (FTPServer.Send_And_EnableWR sys s).enableFree = true ∧
      (FTPServer.Send_And_EnableWR sys s).evb.enabled = true := by
  have f := frame_Send sys s
  unfold FTPServer.Send_And_EnableWR
  exact ⟨f.cmdLog, f.sWaitParse, f.error, f.task, rfl, rfl⟩

/-- The end of Parse only cuts the parse buffer. -/
theorem parseTrim_eq (s : FTPServer W) (start : Nat) :
    (FTPServer.parseTrim s start).1 = { s with sWaitParse := s.sWaitParse.drop start } := by
  unfold FTPServer.parseTrim
  dsimp only
  split
  · rfl
  · rw [List.drop_of_length_le (by omega)]

/-! ## The loop of Parse against the loop of the specification -/

theorem findAt_firstLine : ∀ (l : Bytes) (i : Nat),
    findAt "\r\n".toList l i = (firstLine l).map fun p => i + p.1.length := by
  intro l
  induction l with
  | nil => intro i; rfl
  | cons c cs ih =>
    intro i
    rw [findAt, firstLine]
    split
    · rfl
    · rw [ih, Option.map_map]
      congr 1
      funext p
      simp only [Function.comp, List.length_cons]
      omega

theorem firstLine_split : ∀ (l line rest : Bytes), firstLine l = some (line, rest) →
    l = line ++ "\r\n".toList ++ rest := by
  intro l
  induction l with
  | nil => intro line rest h; simp [firstLine] at h
  | cons c cs ih =>
    intro line rest h
    rw [firstLine] at h
    split at h
    · rename_i hp
      cases h
      cases cs with
      | nil => simp [List.isPrefixOf] at hp
      | cons d ds =>
        have h1 : String.toList "\r\n" = ['\r', '\n'] := rfl
        rw [h1] at hp ⊢
        simp only [List.isPrefixOf, Bool.and_eq_true, beq_iff_eq, and_true] at hp
        obtain ⟨rfl, rfl⟩ := hp
        rfl
    · cases hf : firstLine cs with
      | none => rw [hf] at h; cases h
      | some p =>
        rw [hf] at h
        cases h
        rw [ih p.1 p.2 (by rw [hf])]
        rfl


theorem find_firstLine (b : Bytes) (start e : Nat)
    (h : find b "\r\n".toList start = some e) :
    firstLine (b.drop start) = some (substr b start (e - start), b.drop (e + 2)) := by
  unfold find at h
  split at h
  · cases h
  · rw [findAt_firstLine] at h
    cases hf : firstLine (b.drop start) with
    | none => rw [hf] at h; cases h
    | some p =>
      rw [hf] at h
      simp only [Option.map_some', Option.some.injEq] at h
      have hs := firstLine_split _ _ _ hf
      have he : e - start = p.1.length := by omega
      have h1 : substr b start (e - start) = p.1 := by
        unfold substr
        rw [hs, he, List.append_assoc, List.take_left]
      have h2 : b.drop (e + 2) = p.2 := by
        have : e + 2 = start + (p.1.length + 2) := by omega
        rw [this, ← List.drop_drop, hs]
        have h3 : p.1.length + 2 = (p.1 ++ "\r\n".toList).length := by
          rw [List.length_append]; rfl
        rw [h3, List.drop_left]
      rw [h1, h2]

theorem find_none_firstLine (b : Bytes) (start : Nat)
    (h : find b "\r\n".toList start = none) : firstLine (b.drop start) = none := by
  unfold find at h
  split at h
  · rw [List.drop_of_length_le (by omega)]
    rfl
  · rw [findAt_firstLine] at h
    cases hf : firstLine (b.drop start) with
    | none => rfl
    | some p => rw [hf] at h; cases h

theorem parseLoop_stopped (sys : Sys W) (cfg : ServerInfo) (io n : Nat) (s : FTPServer W)
    (start : Nat) : FTPServer.parseLoop sys cfg io (n + 1) s start true = some (s, start) := by
  rw [FTPServer.parseLoop]
  split <;> rfl

/-- Without the UTF-8 capability the loop of Parse is the loop of the specification: from
any state of the loop it dispatches the complete lines of the bytes not yet consumed, in
order, up to one that suspends, and its final `start` marks the bytes not consumed. -/
theorem parseLoop_refines (sys : Sys W) (cfg : ServerInfo) (io : Nat) (hcap : cfg.utf8 = false) :
    ∀ (fuel : Nat) (s : FTPServer W) (start : Nat) (r : FTPServer W × Nat),
      FTPServer.parseLoop sys cfg io fuel s start false = some r →
      dispatchLines sys cfg io fuel s (s.sWaitParse.drop start)
        = some (r.1, r.1.sWaitParse.drop r.2) := by
  intro fuel
  induction fuel with
  | zero => intro s start r h; simp [FTPServer.parseLoop] at h
  | succ n ih =>
    intro s start r h
    rw [FTPServer.parseLoop] at h
    rw [dispatchLines]
    cases hf : find s.sWaitParse "\r\n".toList start with
    | none =>
      rw [hf] at h
      cases h
      rw [find_none_firstLine _ _ hf]
    | some e =>
      rw [hf] at h
      simp only [Bool.false_eq_true, if_false] at h
      rw [find_firstLine _ _ _ hf]
      dsimp only
      cases hp : FTPServer.ProcessCommand sys cfg io s
          (lineCommand (substr s.sWaitParse start (e - start)))
          (lineParam (substr s.sWaitParse start (e - start))) with
      | none => rw [hp] at h; cases h
      | some q =>
        rw [hp] at h
        dsimp only at h
        have hbuf := (ProcessCommand_cmdLog sys cfg io s _ _ q hp).2 hcap
        obtain ⟨s1, ok⟩ := q
        cases ok with
        | true =>
          dsimp only
          have := ih s1 (e + 2) r h
          rw [← hbuf]
          exact this
        | false =>
          dsimp only
          cases n with
          | zero => simp [FTPServer.parseLoop] at h
          | succ m =>
            rw [show (!false) = true from rfl, parseLoop_stopped] at h
            cases h
            rw [hbuf]

/-- Without the UTF-8 capability Parse does what the specification says: it dispatches the
complete lines of the parse buffer in order, up to one that suspends, and leaves in the
parse buffer exactly the bytes after the last line it dispatched. -/
theorem Parse_refines (sys : Sys W) (cfg : ServerInfo) (io fuel : Nat) (hcap : cfg.utf8 = false)
    (s : FTPServer W) (r : FTPServer W × Bool)
    (h : FTPServer.Parse sys cfg io fuel s = some r) :
    ∃ t rest, dispatchLines sys cfg io fuel s s.sWaitParse = some (t, rest) ∧
      r.1 = { t with sWaitParse := rest } := by
  unfold FTPServer.Parse at h
  split at h
  · cases h
  · rename_i q hq
    cases h
    have := parseLoop_refines sys cfg io hcap fuel s 0 q hq
    rw [List.drop_zero] at this
    exact ⟨_, _, this, parseTrim_eq q.1 q.2⟩

/-- C7: while a transfer is pending no command is dispatched.
(1) From any state of the loop of Parse, when the dispatch of the next line returns
suspended (false), the loop ends with the session that dispatch left and `start` just after
that line: no later line is dispatched and nothing more is appended; the end of Parse only
cuts the parse buffer.
(2) A DealRead that finds the transfer still suspended after resuming it returns with the
command log unchanged (ProcessCommand was not called) and the bytes read appended to the
parse buffer; a DealWrite in the same case returns with the command log and the parse buffer
unchanged.
(3) DealWrite never dispatches a command, and a DealRead on a session with a pending
transfer dispatches one only if the resumed transfer completed in that DealRead.
(4) The command log is a faithful count: every call of ProcessCommand that returns adds
exactly one entry to it. -/
theorem C7_no_dispatch_while_pending (sys : Sys W) (cfg : ServerInfo) (io : Nat) :
    (∀ (fuel : Nat) (s s1 : FTPServer W) (start e : Nat),
        find s.sWaitParse "\r\n".toList start = some e →
        FTPServer.ProcessCommand sys cfg io s
            (lineCommand (substr s.sWaitParse start (e - start)))
            (lineParam (substr s.sWaitParse start (e - start))) = some (s1, false) →
        FTPServer.parseLoop sys cfg io (fuel + 2) s start false = some (s1, e + 2) ∧
          (FTPServer.parseTrim s1 (e + 2)).1
            = { s1 with sWaitParse := s1.sWaitParse.drop (e + 2) }) ∧
    (∀ (fuel : Nat) (s s1 : FTPServer W) (k k1 : Coro),
        s.task = some k →
        FTPServer.resume sys cfg io (FTPServer.Read s) k = some (s1, some k1) →
        ∃ t, FTPServer.DealRead sys cfg io fuel s = some t ∧ t.cmdLog = s.cmdLog ∧
          t.sWaitParse = s.sWaitParse ++ s.evb.input ∧ t.task = some k1) ∧
    (∀ (s s1 : FTPServer W) (k k1 : Coro),
        s.task = some k →
        FTPServer.resume sys cfg io s k = some (s1, some k1) →
        ∃ t, FTPServer.DealWrite sys cfg io s = some t ∧ t.cmdLog = s.cmdLog ∧
          t.sWaitParse = s.sWaitParse ∧ t.task = some k1) ∧
    (∀ (s t : FTPServer W), FTPServer.DealWrite sys cfg io s = some t → t.cmdLog = s.cmdLog) ∧
    (∀ (fuel : Nat) (s t : FTPServer W),
        s.task ≠ none →
        FTPServer.DealRead sys cfg io fuel s = some t →
        t.cmdLog ≠ s.cmdLog →
        ∃ s1, FTPServer.DealTask sys cfg io (FTPServer.Read s) = some (s1, true) ∧
          s1.task = none) ∧
    (∀ (s : FTPServer W) (cmd param : Bytes) (r : FTPServer W × Bool),
        FTPServer.ProcessCommand sys cfg io s cmd param = some r →
        r.1.cmdLog.length = s.cmdLog.length + 1) := by
  refine ⟨?_, ?_, ?_, ?_, ?_, ?_⟩
  · intro fuel s s1 start e hf hp
    refine ⟨?_, parseTrim_eq s1 (e + 2)⟩
    rw [FTPServer.parseLoop]
    simp only [hf, hp, Bool.false_eq_true, if_false, Bool.not_false]
    rw [FTPServer.parseLoop]
    split
    · rfl
    · rfl
  · intro fuel s s1 k k1 hk hr
    have hk' : (FTPServer.Read s).task = some k := by rw [Read_eq]; exact hk
    have f := frame_resume sys cfg io _ k _ hr
    refine ⟨{ s1 with task := some k1 }, ?_, ?_, ?_, rfl⟩
    · unfold FTPServer.DealRead FTPServer.DealTask
      simp only [hk', hr]
    · show s1.cmdLog = s.cmdLog
      rw [f.cmdLog, Read_eq]
    · show s1.sWaitParse = s.sWaitParse ++ s.evb.input
      rw [f.sWaitParse, Read_eq]
  · intro s s1 k k1 hk hr
    have f := frame_resume sys cfg io _ k _ hr
    refine ⟨{ s1 with task := some k1 }, ?_, f.cmdLog, f.sWaitParse, rfl⟩
    unfold FTPServer.DealWrite FTPServer.DealTask
    simp only [hk, hr]
  · intro s t h
    unfold FTPServer.DealWrite at h
    split at h
    · cases h
    · rename_i s1 hd
      cases h
      exact (DealTask_frame sys cfg io s _ hd).1
    · rename_i s1 hd
      cases h
      rw [(Send_And_EnableWR_fields sys s1).1]
      exact (DealTask_frame sys cfg io s _ hd).1
  · intro fuel s t _ h hne
    unfold FTPServer.DealRead at h
    split at h
    · cases h
    · rename_i s1 hd
      cases h
      exfalso
      apply hne
      rw [(DealTask_frame sys cfg io _ _ hd).1, Read_eq]
    · rename_i s1 hd
      exact ⟨s1, hd, (DealTask_frame sys cfg io _ _ hd).2.2.2.2.2 rfl⟩
  · intro s cmd param r h
    rw [(ProcessCommand_cmdLog sys cfg io s cmd param r h).1, List.length_append]
    rfl

/-- The witness of C7 on `simSys`: a LIST whose data socket times out parks in the middle of
the batch "LIST\r\nNOOP\r\n"; a session with a parked listing handles a read and a write
while the socket still times out; and a read in which the listing completes dispatches the
NOOP that was waiting. -/
theorem C7_no_dispatch_while_pending_witness :
    (∃ s1, FTPServer.parseLoop simSys (simCfg true true) 100 2
          (simPassive 10 "LIST\r\nNOOP\r\n".toList) 0 false = some (s1, 6) ∧
        s1.cmdLog = [("LIST".toList, [])] ∧ s1.task.isSome = true) ∧
    (∃ t, FTPServer.DealRead simSys (simCfg true true) 100 100
          (simParked 10 "NOOP\r\n".toList) = some t ∧
        t.cmdLog = [] ∧ t.sWaitParse = "NOOP\r\n".toList ∧ t.task.isSome = true) ∧
    (∃ t, FTPServer.DealWrite simSys (simCfg true true) 100 (simParked 10 []) = some t ∧
        t.cmdLog = [] ∧ t.sWaitParse = [] ∧ t.task.isSome = true) ∧
    (∃ t, FTPServer.DealWrite simSys (simCfg true true) 100 (simParked 0 []) = some t ∧
        t.cmdLog = []) ∧
    (∃ t s1, FTPServer.DealRead simSys (simCfg true true) 100 100
          (simParked 0 "NOOP\r\n".toList) = some t ∧
        t.cmdLog = [("NOOP".toList, [])] ∧
        FTPServer.DealTask simSys (simCfg true true) 100
          (FTPServer.Read (simParked 0 "NOOP\r\n".toList)) = some (s1, true) ∧
        s1.task = none) ∧
    (∃ r, FTPServer.ProcessCommand simSys (simCfg true true) 100
          (simPassive 10 []) "list".toList [] = some r ∧ r.1.cmdLog.length = 1) := by
  have h := C7_no_dispatch_while_pending simSys (simCfg true true) 100
  refine ⟨?_, ?_, ?_, ?_, ?_, ?_⟩
  · exact ⟨_, (h.1 0 (simPassive 10 "LIST\r\nNOOP\r\n".toList) _ 0 4 (by decide) rfl).1,
      by decide, by decide⟩
  · obtain ⟨t, h1, h2, h3, h4⟩ :=
      h.2.1 100 (simParked 10 "NOOP\r\n".toList) _ _ _ rfl rfl
    exact ⟨t, h1, h2, h3, by rw [h4]; rfl⟩
  · obtain ⟨t, h1, h2, h3, h4⟩ := h.2.2.1 (simParked 10 []) _ _ _ rfl rfl
    exact ⟨t, h1, h2, h3, by rw [h4]; rfl⟩
  · exact ⟨_, rfl, h.2.2.2.1 (simParked 0 []) _ rfl⟩
  · have hr : FTPServer.DealRead simSys (simCfg true true) 100 100
        (simParked 0 "NOOP\r\n".toList) = some _ := rfl
    obtain ⟨s1, h1, h2⟩ :=
      h.2.2.2.2.1 100 (simParked 0 "NOOP\r\n".toList) _ (by decide) hr (by decide)
    exact ⟨_, s1, hr, by decide, h1, h2⟩
  · have hp : FTPServer.ProcessCommand simSys (simCfg true true) 100
        (simPassive 10 []) "list".toList [] = some _ := rfl
    exact ⟨_, hp, h.2.2.2.2.2 _ _ _ _ hp⟩

/-- Parse reports failure exactly when the parse buffer it leaves is longer than 1024. -/
theorem Parse_flag (sys : Sys W) (cfg : ServerInfo) (io fuel : Nat) (s : FTPServer W)
    (r : FTPServer W × Bool) (h : FTPServer.Parse sys cfg io fuel s = some r) :
    (r.2 = false ↔ r.1.sWaitParse.length > 1024) := by
  unfold FTPServer.Parse at h
  split at h
  · cases h
  · rename_i q _
    cases h
    have h2 : (FTPServer.parseTrim q.1 q.2).2
        = decide ((FTPServer.parseTrim q.1 q.2).1.sWaitParse.length ≤ 1024) := rfl
    rw [h2]
    simp only [decide_eq_false_iff_not, not_le, gt_iff_lt]

/-- C8, the claim as stated fails: after the events ACCEPT, a READ that logs in, sends PASV
and starts a LIST whose data socket times out, and a READ of 1100 bytes during which the
listing is still suspended, the handler has returned with 1100 bytes in the parse buffer and
`error` not set. The session was armed and free of error when the last READ arrived. -/
theorem C8_counterexample :
    ∃ s2 s3, FTPServer.runEvents simSys (simCfg true true) 100 100
          [.ACCEPT, .READ "USER anonymous\r\nPASS x\r\nPASV\r\nLIST\r\n".toList]
          (simFresh true true 10) = some s2 ∧
      s2.enableFree = true ∧ s2.error = false ∧
      FTPServer.runEvent simSys (simCfg true true) 100 100 s2
          (.READ (List.replicate 1100 'a')) = some s3 ∧
      ¬ (s3.sWaitParse.length > 1024 → s3.error = true) := by
  refine ⟨_, _, rfl, by decide, by decide, rfl, ?_⟩
  decide

/-- C8, amended: whenever a READ handler in which no transfer was left suspended (DealTask
returned true, so Parse ran) has returned, a parse buffer longer than 1024 bytes implies
that `error` is set. -/
theorem C8_read_checks_residual (sys : Sys W) (cfg : ServerInfo) (io fuel : Nat)
    (s s1 t : FTPServer W)
    (hd : FTPServer.DealTask sys cfg io (FTPServer.Read s) = some (s1, true))
    (hr : FTPServer.DealRead sys cfg io fuel s = some t)
    (hlen : t.sWaitParse.length > 1024) : t.error = true := by
  unfold FTPServer.DealRead at hr
  rw [hd] at hr
  dsimp only at hr
  split at hr
  · cases hr
  · rename_i s2 ok hp
    cases hr
    have hflag := Parse_flag sys cfg io fuel s1 _ hp
    obtain ⟨-, h2, h3, -⟩ := Send_And_EnableWR_fields sys
      (if ok = false then { s2 with error := true } else s2)
    rw [h3]
    rw [h2] at hlen
    cases ok with
    | false => rfl
    | true =>
      exfalso
      have : s2.sWaitParse.length > 1024 := hlen
      have hf := hflag.mpr this
      cases hf

/-- The witness of C8 amended: a fresh session that reads 1100 bytes without a line end. -/
theorem C8_read_checks_residual_witness :
    FTPServer.DealRead simSys (simCfg true true) 100 100
        (simReading [] (List.replicate 1100 'a'))
      = some { simFresh true true 0 with
               sWaitParse := List.replicate 1100 'a', error := true } ∧
    ({ simFresh true true 0 with
       sWaitParse := List.replicate 1100 'a',
       error := true } : FTPServer Sim).sWaitParse.length > 1024 ∧
    ({ simFresh true true 0 with
       sWaitParse := List.replicate 1100 'a', error := true } : FTPServer Sim).error = true :=
  have hr : FTPServer.DealRead simSys (simCfg true true) 100 100
      (simReading [] (List.replicate 1100 'a'))
      = some { simFresh true true 0 with
               sWaitParse := List.replicate 1100 'a', error := true } := by rfl
  ⟨hr, by decide, C8_read_checks_residual simSys (simCfg true true) 100 100
    (simReading [] (List.replicate 1100 'a'))
    (FTPServer.Read (simReading [] (List.replicate 1100 'a')))
    { simFresh true true 0 with sWaitParse := List.replicate 1100 'a', error := true }
    (by rfl) hr (by decide)⟩

/-- A parse buffer without a line end is left as it is by the loop of Parse. -/
theorem parseLoop_no_line (sys : Sys W) (cfg : ServerInfo) (io fuel : Nat) (s : FTPServer W)
    (h : find s.sWaitParse "\r\n".toList 0 = none) :
    FTPServer.parseLoop sys cfg io (fuel + 1) s 0 false = some (s, 0) := by
  rw [FTPServer.parseLoop]
  simp only [h]

/-- DealRead on a session without a transfer whose buffer, after the read, has no line end
and more than 1024 bytes: nothing is dispatched and `error` is set. -/
theorem DealRead_overflow (sys : Sys W) (cfg : ServerInfo) (io n : Nat) (s r : FTPServer W)
    (hR : FTPServer.Read s = r) (h1 : r.task = none)
    (h2 : find r.sWaitParse "\r\n".toList 0 = none) (h3 : ¬ (r.sWaitParse.length ≤ 1024)) :
    FTPServer.DealRead sys cfg io (n + 1) s
      = some (FTPServer.Send_And_EnableWR sys { r with error := true }) := by
  have hT : (FTPServer.parseTrim r 0) = (r, false) := by
    have h4 := parseTrim_eq r 0
    rw [List.drop_zero] at h4
    have h5 : (FTPServer.parseTrim r 0).2
        = decide ((FTPServer.parseTrim r 0).1.sWaitParse.length ≤ 1024) := rfl
    rw [h4] at h5
    simp only [h3, decide_False] at h5
    exact Prod.ext h4 h5
  unfold FTPServer.DealRead FTPServer.DealTask FTPServer.Parse
  rw [hR]
  simp only [h1, parseLoop_no_line sys cfg io n r h2, hT, if_true]

/-- C9, the claim as stated fails: a session without a pending transfer holds "NOOP\r" in its
parse buffer (the client sent the line without its last byte), and a READ then delivers 1100
bytes that contain no "\r\n", a line feed and 1099 letters. A command is dispatched (NOOP),
a reply is produced ("550 Permission denied.\r\n" goes out), and `error` is set. -/
theorem C9_counterexample :
    ∃ s2 t, FTPServer.runEvents simSys (simCfg true true) 100 100
          [.ACCEPT, .READ "NOOP\r".toList] (simFresh true true 0) = some s2 ∧
      s2.task = none ∧ s2.sWaitParse = "NOOP\r".toList ∧ s2.error = false ∧
      ('\n' :: List.replicate 1099 'a').length = 1100 ∧
      find ('\n' :: List.replicate 1099 'a') "\r\n".toList 0 = none ∧
      FTPServer.runEvent simSys (simCfg true true) 100 100 s2
          (.READ ('\n' :: List.replicate 1099 'a')) = some t ∧
      t.cmdLog = [("NOOP".toList, [])] ∧
      t.evb.output = "220 Welcome\r\n".toList ++ "550 Permission denied.\r\n".toList ∧
      t.error = true := by
  refine ⟨_, _, rfl, by decide, by decide, by decide, by decide, by decide, rfl, ?_⟩
  decide

/-- C9, amended: Parse returns failure if and only if the parse buffer it leaves is longer
than 1024 bytes (exactly 1024 is accepted). Consequently, on a session with no pending
transfer, a READ event delivering 1100 bytes such that the parse buffer followed by these
bytes contains no "\r\n" dispatches no command, appends nothing to the send buffer and sets
`error`: the session DealRead returns is the old one with the bytes moved to the parse
buffer and `error` set, passed through Send_And_EnableWR. After that FTPRead and FTPWrite
return false and leave the session and the pool as they are. -/
theorem C9_parse_overflow (sys : Sys W) (cfg : ServerInfo) (io fuel : Nat) :
    (∀ (s : FTPServer W) (r : FTPServer W × Bool),
        FTPServer.Parse sys cfg io fuel s = some r →
        (r.2 = false ↔ r.1.sWaitParse.length > 1024)) ∧
    (∀ (s : FTPServer W), s.task = none → s.evb.input.length = 1100 →
        find (s.sWaitParse ++ s.evb.input) "\r\n".toList 0 = none → 0 < fuel →
        ∃ t, FTPServer.DealRead sys cfg io fuel s = some t ∧
          t = FTPServer.Send_And_EnableWR sys
                { s with evb := { s.evb with input := [] },
                         sWaitParse := s.sWaitParse ++ s.evb.input, error := true } ∧
          t.cmdLog = s.cmdLog ∧ t.error = true ∧
          (t.sWaitSend = s.sWaitSend ∨ t.sWaitSend = []) ∧
          ∀ (pool : ThreadPool) (ctx : Nat),
            FTPRead pool ctx t = (false, t, pool) ∧ FTPWrite pool ctx t = (false, t, pool)) := by
  refine ⟨fun s r h => Parse_flag sys cfg io fuel s r h, ?_⟩
  intro s htask hlen hfind hfuel
  obtain ⟨n, rfl⟩ : ∃ n, fuel = n + 1 := ⟨fuel - 1, by omega⟩
  have hbig : ¬ ((s.sWaitParse ++ s.evb.input).length ≤ 1024) := by
    rw [List.length_append, hlen]; omega
  have hD := DealRead_overflow sys cfg io n s _ (Read_eq s) htask hfind hbig
  refine ⟨_, hD, rfl, ?_, ?_, ?_, ?_⟩
  · exact (Send_And_EnableWR_fields sys _).1
  · exact (Send_And_EnableWR_fields sys _).2.2.1
  · unfold FTPServer.Send_And_EnableWR FTPServer.Send
    dsimp only
    split
    · left; rfl
    · split
      · right; rfl
      · left; rfl
  · intro pool ctx
    have he : (FTPServer.Send_And_EnableWR sys
      { s with evb := { s.evb with input := [] },
               sWaitParse := s.sWaitParse ++ s.evb.input, error := true }).CheakError = true :=
      (Send_And_EnableWR_fields sys _).2.2.1
    unfold FTPRead FTPWrite
    rw [he]
    exact ⟨rfl, rfl⟩

/-- The witness of C9 amended on `simSys`: a residual of 1024 bytes is accepted, one of 1025
bytes is refused, and a fresh session that reads 1100 letters dispatches nothing, is left
in error, and is then turned away by FTPRead and FTPWrite. -/
theorem C9_parse_overflow_witness :
    (∃ r, FTPServer.Parse simSys (simCfg true true) 100 100
          (simReading (List.replicate 1024 'a') []) = some r ∧
        r.1.sWaitParse.length = 1024 ∧ ¬ (r.2 = false)) ∧
    (∃ r, FTPServer.Parse simSys (simCfg true true) 100 100
          (simReading (List.replicate 1025 'a') []) = some r ∧ r.2 = false) ∧
    (∃ t, FTPServer.DealRead simSys (simCfg true true) 100 100
          (simReading [] (List.replicate 1100 'a')) = some t ∧
        t.cmdLog = [] ∧ t.error = true ∧ t.sWaitSend = [] ∧ t.evb.output = [] ∧
        FTPRead ThreadPool.new 0 t = (false, t, ThreadPool.new) ∧
        FTPWrite ThreadPool.new 0 t = (false, t, ThreadPool.new)) := by
  have h := C9_parse_overflow simSys (simCfg true true) 100 100
  refine ⟨?_, ?_, ?_⟩
  · have hp : FTPServer.Parse simSys (simCfg true true) 100 100
        (simReading (List.replicate 1024 'a') [])
        = some (simReading (List.replicate 1024 'a') [], true) := by rfl
    refine ⟨_, hp, by decide, ?_⟩
    intro hf
    have := (h.1 _ _ hp).mp hf
    revert this
    decide
  · have hp : FTPServer.Parse simSys (simCfg true true) 100 100
        (simReading (List.replicate 1025 'a') [])
        = some (simReading (List.replicate 1025 'a') [], false) := by rfl
    exact ⟨_, hp, (h.1 _ _ hp).mpr (by decide)⟩
  · obtain ⟨t, h1, h2, h3, h4, -, h6⟩ :=
      h.2 (simReading [] (List.replicate 1100 'a')) rfl (by decide) (by decide) (by decide)
    subst h2
    exact ⟨_, h1, h3, h4, by decide, by decide, (h6 ThreadPool.new 0).1,
      (h6 ThreadPool.new 0).2⟩

/-- C10, the code at the failing input: a session logs in, sends PASV and starts a LIST whose
data socket times out. The next event, a WRITE or a READ, resumes the listing, finds it
still suspended, and the handler returns at once: `enableFree` is false and read and write
events stay disabled, so no later event resumes the transfer, and FTPDisconnection, which
waits for `enableFree`, does not return. -/
theorem C10_suspended_handler_leaves_session_disarmed :
    ∃ s2 t u, FTPServer.runEvents simSys (simCfg true true) 100 100
          [.ACCEPT, .READ "USER anonymous\r\nPASS x\r\nPASV\r\nLIST\r\n".toList]
          (simFresh true true 10) = some s2 ∧
      s2.task.isSome = true ∧ s2.enableFree = true ∧ s2.evb.enabled = true ∧
      FTPServer.runEvent simSys (simCfg true true) 100 100 s2 .WRITE = some t ∧
      t.task.isSome = true ∧ t.enableFree = false ∧ t.evb.enabled = false ∧
      FTPServer.runEvent simSys (simCfg true true) 100 100 s2 (.READ "NOOP\r\n".toList)
        = some u ∧
      u.task.isSome = true ∧ u.enableFree = false ∧ u.evb.enabled = false ∧
      FTPDisconnection simSys (simCfg true true) 100 t = none := by
  refine ⟨_, _, _, rfl, by decide, by decide, by decide, rfl, by decide, by decide, by decide,
    rfl, by decide, by decide, by decide, ?_⟩
  decide

/-! ## Claims C11 to C20 -/

/-- HandlePORT on a parameter in which `std::getline` does not read six fields. -/
theorem HandlePORT_bad_count (sys : Sys W) (s : FTPServer W) (param : Bytes)
    (h : (getlineAll ',' param).length ≠ 6) :
    FTPServer.HandlePORT sys s param
      = s.appendSend "501 Syntax error in parameters or arguments.\r\n".toList := by
  unfold FTPServer.HandlePORT
  dsimp only
  rw [if_pos (by rw [List.length_map]; exact h)]

/-- C11: for every authenticated session and every PORT parameter in which the count of
comma-separated fields, as `std::getline` reads them (a trailing comma adds no field), is not
6, HandlePORT appends exactly "501 Syntax error in parameters or arguments.\r\n" and changes
nothing else: `dataMode`, `clientIP`, `clientPort`, `dataSocket`, `pasvSocket` and the world
stay as they were. Dispatched as `PORT` with that parameter (not empty, session not in UTF-8
mode), the command returns ready with that session and its log line. -/
theorem C11_port_field_count (sys : Sys W) (s : FTPServer W) (param : Bytes)
    (hauth : s.certified = true) (h : (getlineAll ',' param).length ≠ 6) :
    FTPServer.HandlePORT sys s param
        = { s with sWaitSend := s.sWaitSend
              ++ "501 Syntax error in parameters or arguments.\r\n".toList } ∧
      ∀ (cfg : ServerInfo) (io : Nat) (cmd : Bytes),
        ToUpperCase cmd = "PORT".toList → s.utf8 = false → param ≠ [] →
        FTPServer.ProcessCommand sys cfg io s cmd param
          = some ({ s with
                    sWaitSend := s.sWaitSend
                      ++ "501 Syntax error in parameters or arguments.\r\n".toList,
                    cmdLog := s.cmdLog ++ [("PORT".toList, param)] }, true) := by
  refine ⟨HandlePORT_bad_count sys s param h, ?_⟩
  intro cfg io cmd hcmd hmode hne
  unfold FTPServer.ProcessCommand
  simp only [hcmd, hmode, hauth, Bool.false_eq_true, if_false]
  rw [if_neg (by decide), if_neg (by decide), if_neg (by decide), if_neg (by decide),
    if_neg hne]
  unfold FTPServer.ProcessCommand_withParam
  rw [if_neg (by decide), if_neg (by decide), if_neg (by decide), if_pos rfl,
    HandlePORT_bad_count sys _ param h]
  rfl

/-- The witness of C11: `PORT 1,2,3,4,5` on a logged-in session whose data mode is NONE. -/
theorem C11_port_field_count_witness :
    FTPServer.HandlePORT simSys (simLoggedIn true true 0) "1,2,3,4,5".toList
        = { simLoggedIn true true 0 with
            sWaitSend := "501 Syntax error in parameters or arguments.\r\n".toList } ∧
      FTPServer.ProcessCommand simSys (simCfg true true) 0 (simLoggedIn true true 0)
          "port".toList "1,2,3,4,5".toList
        = some ({ simLoggedIn true true 0 with
                  sWaitSend := "501 Syntax error in parameters or arguments.\r\n".toList,
                  cmdLog := [("PORT".toList, "1,2,3,4,5".toList)] }, true) ∧
      (simLoggedIn true true 0).dataMode = .DATA_MODE_NONE :=
  ⟨(C11_port_field_count simSys (simLoggedIn true true 0) "1,2,3,4,5".toList rfl
      (by decide)).1,
    (C11_port_field_count simSys (simLoggedIn true true 0) "1,2,3,4,5".toList rfl
      (by decide)).2 (simCfg true true) 0 "port".toList (by decide) rfl (by decide), rfl⟩

/-- C12, the code at the failing inputs: on a logged-in session HandlePORT accepts
"a,b,c,d,e,f" (target 0.0.0.0, port 0), "256,0,0,1,1,1" (target 256.0.0.1, port 257),
"-1,2,3,4,5,6" (target -1.2.3.4, port 1286) and "1,2,3,4,5,6," (target 1.2.3.4, port 1286):
each sets the data mode to ACTIVE, records the target and replies
"200 PORT command successful.\r\n"; `atoi` reads a field without checking it. -/
theorem C12_port_accepts_malformed :
    (FTPServer.HandlePORT simSys (simLoggedIn true true 0) "a,b,c,d,e,f".toList
      = { simLoggedIn true true 0 with
          dataSocket := 3, clientIP := "0.0.0.0".toList, clientPort := 0,
          dataMode := .DATA_MODE_ACTIVE,
          sWaitSend := "200 PORT command successful.\r\n".toList }) ∧
    (FTPServer.HandlePORT simSys (simLoggedIn true true 0) "256,0,0,1,1,1".toList
      = { simLoggedIn true true 0 with
          dataSocket := 3, clientIP := "256.0.0.1".toList, clientPort := 257,
          dataMode := .DATA_MODE_ACTIVE,
          sWaitSend := "200 PORT command successful.\r\n".toList }) ∧
    (FTPServer.HandlePORT simSys (simLoggedIn true true 0) "-1,2,3,4,5,6".toList
      = { simLoggedIn true true 0 with
          dataSocket := 3, clientIP := "-1.2.3.4".toList, clientPort := 1286,
          dataMode := .DATA_MODE_ACTIVE,
          sWaitSend := "200 PORT command successful.\r\n".toList }) ∧
    (FTPServer.HandlePORT simSys (simLoggedIn true true 0) "1,2,3,4,5,6,".toList
      = { simLoggedIn true true 0 with
          dataSocket := 3, clientIP := "1.2.3.4".toList, clientPort := 1286,
          dataMode := .DATA_MODE_ACTIVE,
          sWaitSend := "200 PORT command successful.\r\n".toList }) := by
  refine ⟨?_, ?_, ?_, ?_⟩ <;> decide

/-- The dispatch of `CWD` with a parameter on an authenticated session not in UTF-8 mode. -/
theorem ProcessCommand_CWD (sys : Sys W) (cfg : ServerInfo) (io : Nat) (s : FTPServer W)
    (A : Bytes) (hauth : s.certified = true) (hmode : s.utf8 = false) (hne : A ≠ []) :
    FTPServer.ProcessCommand sys cfg io s "CWD".toList A =
      FTPServer.ProcessCommand_withParam sys cfg io
        { s with cmdLog := s.cmdLog ++ [("CWD".toList, A)] } "CWD".toList A := by
  unfold FTPServer.ProcessCommand
  have hc : ToUpperCase "CWD".toList = "CWD".toList := by decide
  simp only [hc, hmode, hauth, Bool.false_eq_true, if_false]
  rw [if_neg (by decide), if_neg (by decide), if_neg (by decide), if_neg (by decide),
    if_neg hne]

/-- The dispatch of `PWD` without a parameter on an authenticated session not in UTF-8
mode. -/
theorem ProcessCommand_PWD (sys : Sys W) (cfg : ServerInfo) (io : Nat) (s : FTPServer W)
    (hauth : s.certified = true) (hmode : s.utf8 = false) :
    FTPServer.ProcessCommand sys cfg io s "PWD".toList [] =
      some ({ s with
              sWaitSend := s.sWaitSend ++ ("257 \"".toList ++ s.currentDir ++ "\"\r\n".toList),
              cmdLog := s.cmdLog ++ [("PWD".toList, [])] }, true) := by
  unfold FTPServer.ProcessCommand
  have hc : ToUpperCase "PWD".toList = "PWD".toList := by decide
  simp only [hc, hmode, hauth, Bool.false_eq_true, if_false]
  rw [if_pos trivial]
  unfold FTPServer.ProcessCommand_noParam
  rw [if_pos rfl]
  simp only [Bool.false_eq_true, if_false]
  rfl

/-- C18: on an authenticated session not in UTF-8 mode with current directory D, for every
parameter A that is not empty: when the target directory (A itself if A starts with '/',
D/A otherwise) can be opened, `CWD A` replies "250 Directory changed to <target>.\r\n",
and a following `PWD` replies exactly "257 \"D/A\"\r\n" for a relative A and
"257 \"A\"\r\n" for an absolute one; when the target cannot be opened, `CWD A` replies the
550 line and a following `PWD` replies "257 \"D\"\r\n". -/
theorem C18_cwd_then_pwd (sys : Sys W) (cfg : ServerInfo) (io : Nat) (s : FTPServer W)
    (A : Bytes) (hauth : s.certified = true) (hmode : s.utf8 = false) (hne : A ≠ []) :
    (A.head? ≠ some '/' →
      (sys.opendir s.w (s.currentDir ++ "/".toList ++ A)).1.isSome = true →
      ∃ s1, FTPServer.ProcessCommand sys cfg io s "CWD".toList A = some (s1, true) ∧
        s1.sWaitSend = s.sWaitSend ++ ("250 Directory changed to ".toList
          ++ (s.currentDir ++ "/".toList ++ A) ++ ".\r\n".toList) ∧
        ∃ s2, FTPServer.ProcessCommand sys cfg io s1 "PWD".toList [] = some (s2, true) ∧
          s2.sWaitSend = s1.sWaitSend
            ++ ("257 \"".toList ++ (s.currentDir ++ "/".toList ++ A) ++ "\"\r\n".toList)) ∧
    (A.head? = some '/' →
      (sys.opendir s.w A).1.isSome = true →
      ∃ s1, FTPServer.ProcessCommand sys cfg io s "CWD".toList A = some (s1, true) ∧
        s1.sWaitSend = s.sWaitSend
          ++ ("250 Directory changed to ".toList ++ A ++ ".\r\n".toList) ∧
        ∃ s2, FTPServer.ProcessCommand sys cfg io s1 "PWD".toList [] = some (s2, true) ∧
          s2.sWaitSend = s1.sWaitSend ++ ("257 \"".toList ++ A ++ "\"\r\n".toList)) ∧
    ((sys.opendir s.w
        (if A.head? = some '/' then A else s.currentDir ++ "/".toList ++ A)).1.isSome = false →
      ∃ s1, FTPServer.ProcessCommand sys cfg io s "CWD".toList A = some (s1, true) ∧
        s1.sWaitSend = s.sWaitSend ++ ("550 Failed to change directory. ".toList
          ++ "Directory does not exist or is not accessible.\r\n".toList) ∧
        ∃ s2, FTPServer.ProcessCommand sys cfg io s1 "PWD".toList [] = some (s2, true) ∧
          s2.sWaitSend = s1.sWaitSend
            ++ ("257 \"".toList ++ s.currentDir ++ "\"\r\n".toList)) := by
  have hcwd := ProcessCommand_CWD sys cfg io s A hauth hmode hne
  unfold FTPServer.ProcessCommand_withParam at hcwd
  rw [if_pos (Or.inl rfl)] at hcwd
  dsimp only at hcwd
  refine ⟨?_, ?_, ?_⟩
  · intro hrel hopen
    rw [if_neg hrel] at hcwd
    rw [if_pos hopen] at hcwd
    refine ⟨_, hcwd, rfl, ?_⟩
    exact ⟨_, ProcessCommand_PWD sys cfg io _ hauth hmode, rfl⟩
  · intro habs hopen
    rw [if_pos habs] at hcwd
    rw [if_pos hopen] at hcwd
    refine ⟨_, hcwd, rfl, ?_⟩
    exact ⟨_, ProcessCommand_PWD sys cfg io _ hauth hmode, rfl⟩
  · intro hclosed
    rw [if_neg (by rw [hclosed]; decide)] at hcwd
    refine ⟨_, hcwd, rfl, ?_⟩
    exact ⟨_, ProcessCommand_PWD sys cfg io _ hauth hmode, rfl⟩

/-- The witness of C18 on `osSys`, where /srv exists and /srv/pub and /nowhere do not:
`CWD pub` fails and `PWD` still shows /srv; `CWD /srv` and, from the root directory "",
`CWD srv` succeed and `PWD` shows /srv. -/
theorem C18_cwd_then_pwd_witness :
    (∃ s1 s2, FTPServer.ProcessCommand osSys (simCfg true false) 0
          { osFresh (osWorld [] [] [] none) with certified := true } "CWD".toList
          "pub".toList = some (s1, true) ∧
        FTPServer.ProcessCommand osSys (simCfg true false) 0 s1 "PWD".toList [] = some (s2, true) ∧
        s2.sWaitSend = ("550 Failed to change directory. ".toList
          ++ "Directory does not exist or is not accessible.\r\n".toList)
          ++ "257 \"/srv\"\r\n".toList) ∧
    (∃ s1 s2, FTPServer.ProcessCommand osSys (simCfg true false) 0
          { osFresh (osWorld [] [] [] none) with certified := true } "CWD".toList
          "/srv".toList = some (s1, true) ∧
        FTPServer.ProcessCommand osSys (simCfg true false) 0 s1 "PWD".toList [] = some (s2, true) ∧
        s2.sWaitSend = "250 Directory changed to /srv.\r\n".toList
          ++ "257 \"/srv\"\r\n".toList) ∧
    (∃ s1 s2, FTPServer.ProcessCommand osSys (simCfg true false) 0
          { osFresh (osWorld [] [] [] none) with certified := true, currentDir := [] }
          "CWD".toList "srv".toList = some (s1, true) ∧
        FTPServer.ProcessCommand osSys (simCfg true false) 0 s1 "PWD".toList [] = some (s2, true) ∧
        s2.sWaitSend = "250 Directory changed to /srv.\r\n".toList
          ++ "257 \"/srv\"\r\n".toList) := by
  refine ⟨?_, ?_, ?_⟩
  · obtain ⟨s1, h1, h2, s2, h3, h4⟩ :=
      (C18_cwd_then_pwd osSys (simCfg true false) 0
        { osFresh (osWorld [] [] [] none) with certified := true } "pub".toList
        rfl rfl (by decide)).2.2 (by decide)
    exact ⟨s1, s2, h1, h3, by rw [h4, h2]; rfl⟩
  · obtain ⟨s1, h1, h2, s2, h3, h4⟩ :=
      (C18_cwd_then_pwd osSys (simCfg true false) 0
        { osFresh (osWorld [] [] [] none) with certified := true } "/srv".toList
        rfl rfl (by decide)).2.1 (by decide) (by decide)
    exact ⟨s1, s2, h1, h3, by rw [h4, h2]; rfl⟩
  · obtain ⟨s1, h1, h2, s2, h3, h4⟩ :=
      (C18_cwd_then_pwd osSys (simCfg true false) 0
        { osFresh (osWorld [] [] [] none) with certified := true, currentDir := [] }
        "srv".toList rfl rfl (by decide)).1 (by decide) (by decide)
    exact ⟨s1, s2, h1, h3, by rw [h4, h2]; rfl⟩

/-- C14, the code at the failing input: a session logs in and sends PASV twice, then the
connection is closed and the session destroyed. The two listeners get the descriptors 3 and
4; the second PASV stores 4 over 3 without closing it, and the destructor closes 4 only:
descriptor 3 is never closed. -/
theorem C14_second_pasv_leaks_listener :
    ∃ s t, FTPServer.runEvents osSys (simCfg true false) 100 100
          [.ACCEPT, .READ "USER anonymous\r\nPASS x\r\nPASV\r\nPASV\r\n".toList]
          (osFresh (osWorld [] [] [] none)) = some s ∧
      s.pasvSocket = 4 ∧ s.w.opened = [3, 4] ∧ s.w.closed = [] ∧
      FTPDisconnection osSys (simCfg true false) 100 s = some t ∧
      t.dataSocket = -1 ∧ t.pasvSocket = -1 ∧
      t.w.opened = [3, 4] ∧ t.w.closed = [4] ∧ (3 : Int) ∉ t.w.closed := by
  refine ⟨_, _, rfl, by decide, by decide, by decide, rfl, ?_⟩
  decide

/-- C15, the code at the failing inputs. (1) After PASV, `RETR nofile` for a file that does
not exist completes with "550 File not found.\r\n" and leaves the listener, descriptor 3,
open in `pasvSocket`: nothing was closed. (2) After PASV and PORT, a LIST whose connect is
refused completes with "425 Can't open data connection.\r\n"; the data socket was closed
but the listener, descriptor 3, is still open in `pasvSocket`. -/
theorem C15_completed_transfer_leaves_listener_open :
    (∃ s, FTPServer.runEvents osSys (simCfg true false) 100 100
          [.ACCEPT, .READ "USER anonymous\r\nPASS x\r\nPASV\r\nRETR nofile\r\n".toList]
          (osFresh (osWorld [] [] [] none)) = some s ∧
      s.task = none ∧
      s.evb.output = "220 Welcome\r\n".toList ++ "331 User name okay, need password.\r\n".toList
        ++ "230 User logged in.\r\n".toList
        ++ "227 Entering Passive Mode (10,0,0,1,8,73)\r\n".toList
        ++ "550 File not found.\r\n".toList ∧
      s.pasvSocket = 3 ∧ s.dataSocket = -1 ∧ s.w.opened = [3] ∧ s.w.closed = []) ∧
    (∃ s, FTPServer.runEvents osSys (simCfg true false) 100 100
          [.ACCEPT,
            .READ "USER anonymous\r\nPASS x\r\nPASV\r\nPORT 10,0,0,2,4,1\r\nLIST\r\n".toList]
          (osFresh (osWorld [] [] [] (some 111))) = some s ∧
      s.task = none ∧
      s.evb.output = "220 Welcome\r\n".toList ++ "331 User name okay, need password.\r\n".toList
        ++ "230 User logged in.\r\n".toList
        ++ "227 Entering Passive Mode (10,0,0,1,8,73)\r\n".toList
        ++ "200 PORT command successful.\r\n".toList
        ++ "150 Opening data connection.\r\n".toList
        ++ "425 Can't open data connection.\r\n".toList ∧
      s.pasvSocket = 3 ∧ s.dataSocket = -1 ∧ s.w.opened = [3, 4] ∧ s.w.closed = [4]) := by
  refine ⟨⟨_, rfl, ?_⟩, ⟨_, rfl, ?_⟩⟩ <;> decide

/-- The steps of the pool keep the bound of the queue and the order of the tasks. -/
theorem PoolRun.steps_inv (ops : List PoolOp) :
    ∀ (r : PoolRun), r.pool.tasks.length ≤ r.pool.maxSize →
      r.accepted = r.taken ++ r.pool.tasks →
      (r.steps ops).pool.tasks.length ≤ (r.steps ops).pool.maxSize ∧
        (r.steps ops).accepted = (r.steps ops).taken ++ (r.steps ops).pool.tasks ∧
        (r.steps ops).pool.maxSize = r.pool.maxSize := by
  induction ops with
  | nil => intro r h1 h2; exact ⟨h1, h2, rfl⟩
  | cons op ops ih =>
    intro r h1 h2
    have key : (r.step op).pool.tasks.length ≤ (r.step op).pool.maxSize ∧
        (r.step op).accepted = (r.step op).taken ++ (r.step op).pool.tasks ∧
        (r.step op).pool.maxSize = r.pool.maxSize := by
      cases op with
      | submit task =>
        simp only [PoolRun.step, ThreadPool.Append]
        split
        · exact ⟨h1, by simpa using h2, rfl⟩
        · refine ⟨?_, ?_, rfl⟩
          · simp only [List.length_append, List.length_singleton]; omega
          · simp only [if_true, h2, List.append_assoc]
      | work =>
        simp only [PoolRun.step, ThreadPool.Worker]
        split
        · exact ⟨h1, h2, rfl⟩
        · rename_i task p hw
          split at hw
          · cases hw
          · split at hw
            · cases hw
            · rename_i t rest ht
              cases hw
              refine ⟨?_, ?_, rfl⟩
              · simp only [ht, List.length_cons] at h1 ⊢; omega
              · simp only [h2, ht, List.append_assoc, List.singleton_append]
    obtain ⟨k1, k2, k3⟩ := key
    obtain ⟨i1, i2, i3⟩ := ih (r.step op) k1 k2
    exact ⟨i1, i2, i3.trans k3⟩

/-- C20: in the sequential model of the task queue, Append returns true if and only if the
queue is shorter than `maxSize`; when it returns true the new queue is the old one with the
task at the tail, when it returns false the pool is unchanged. Hence, from a new pool on
which Init was called, after any sequence of submissions and dequeues the queue is no
longer than `maxSize`, and the tasks accepted so far are exactly the tasks the workers took,
in the same order, followed by the queue: tasks are taken in the order of submission. A
worker takes the task at the front; and a pool with `maxSize` 0, as one on which Init was
not called, rejects every task. -/
theorem C20_pool_queue (p : ThreadPool) (task : FTPTask) :
    ((p.Append task).1 = true ↔ p.tasks.length < p.maxSize) ∧
    ((p.Append task).1 = true → (p.Append task).2 = { p with tasks := p.tasks ++ [task] }) ∧
    ((p.Append task).1 = false → (p.Append task).2 = p) ∧
    (∀ (m : Nat) (ops : List PoolOp),
      let r := PoolRun.steps { pool := ThreadPool.new.Init m, accepted := [], taken := [] } ops
      r.pool.tasks.length ≤ r.pool.maxSize ∧ r.pool.maxSize = m % 2 ^ 32 ∧
        r.accepted = r.taken ++ r.pool.tasks) ∧
    (∀ (first : FTPTask) (rest : List FTPTask), p.flag = true → p.tasks = first :: rest →
      p.Worker = some (first, { p with tasks := rest })) ∧
    (p.maxSize = 0 → p.Append task = (false, p)) ∧
    ThreadPool.new.Append task = (false, ThreadPool.new) := by
  refine ⟨?_, ?_, ?_, ?_, ?_, ?_, ?_⟩
  · unfold ThreadPool.Append
    split
    · simp only [Bool.false_eq_true, false_iff, not_lt]; omega
    · simp only [true_iff]; omega
  · unfold ThreadPool.Append
    split
    · intro h; cases h
    · intro _; rfl
  · unfold ThreadPool.Append
    split
    · intro _; rfl
    · intro h; cases h
  · intro m ops
    have := PoolRun.steps_inv ops
      { pool := ThreadPool.new.Init m, accepted := [], taken := [] }
      (Nat.zero_le _) rfl
    exact ⟨this.1, this.2.2, this.2.1⟩
  · intro first rest hf ht
    unfold ThreadPool.Worker
    rw [if_neg (by rw [hf]; decide), ht]
  · intro h0
    unfold ThreadPool.Append
    rw [if_pos (by rw [h0]; exact Nat.zero_le _)]
  · rfl

/-- The witness of C20: a pool of capacity 2 takes the READ and WRITE tasks, rejects the
ACCEPT task, and a worker then takes the READ task first. -/
theorem C20_pool_queue_witness :
    ((ThreadPool.new.Init 2).Append ⟨.FTP_TASK_TYPE_READ, 1⟩).1 = true ∧
    (PoolRun.steps { pool := ThreadPool.new.Init 2, accepted := [], taken := [] }
        [.submit ⟨.FTP_TASK_TYPE_READ, 1⟩, .submit ⟨.FTP_TASK_TYPE_WRITE, 1⟩,
          .submit ⟨.FTP_TASK_TYPE_ACCEPT, 2⟩, .work])
      = { pool := { flag := true, maxSize := 2, tasks := [⟨.FTP_TASK_TYPE_WRITE, 1⟩] },
          accepted := [⟨.FTP_TASK_TYPE_READ, 1⟩, ⟨.FTP_TASK_TYPE_WRITE, 1⟩],
          taken := [⟨.FTP_TASK_TYPE_READ, 1⟩] } ∧
    ThreadPool.Worker
        { flag := true, maxSize := 2,
          tasks := [⟨.FTP_TASK_TYPE_READ, 1⟩, ⟨.FTP_TASK_TYPE_WRITE, 1⟩] }
      = some (⟨.FTP_TASK_TYPE_READ, 1⟩,
          { flag := true, maxSize := 2, tasks := [⟨.FTP_TASK_TYPE_WRITE, 1⟩] }) ∧
    ({ flag := true, maxSize := 0, tasks := [] } : ThreadPool).Append ⟨.FTP_TASK_TYPE_READ, 1⟩
      = (false, { flag := true, maxSize := 0, tasks := [] }) :=
  ⟨(C20_pool_queue (ThreadPool.new.Init 2) ⟨.FTP_TASK_TYPE_READ, 1⟩).1.mpr (by decide),
    by decide,
    (C20_pool_queue
      { flag := true, maxSize := 2,
        tasks := [⟨.FTP_TASK_TYPE_READ, 1⟩, ⟨.FTP_TASK_TYPE_WRITE, 1⟩] }
      ⟨.FTP_TASK_TYPE_READ, 1⟩).2.2.2.2.1 _ _ rfl rfl,
    (C20_pool_queue { flag := true, maxSize := 0, tasks := [] }
      ⟨.FTP_TASK_TYPE_READ, 1⟩).2.2.2.2.2.1 rfl⟩

theorem CloseDataConnection_sWaitSend (sys : Sys W) (s : FTPServer W) :
    (FTPServer.CloseDataConnection sys s).sWaitSend = s.sWaitSend := by
  unfold FTPServer.CloseDataConnection
  dsimp only
  split <;> split <;> rfl

theorem closeFile_sWaitSend (sys : Sys W) (s : FTPServer W) (fh : Int) :
    (FTPServer.closeFile sys s fh).sWaitSend = s.sWaitSend :=
  CloseDataConnection_sWaitSend sys _

theorem EstablishDataConnection_sWaitSend (sys : Sys W) (cfg : ServerInfo) (s : FTPServer W) :
    (FTPServer.EstablishDataConnection sys cfg s).2.sWaitSend = s.sWaitSend := by
  unfold FTPServer.EstablishDataConnection FTPServer.EstablishPassive FTPServer.EstablishActive
  dsimp only
  repeat' split
  all_goals rfl

theorem Send_sWaitSend (sys : Sys W) (s : FTPServer W) :
    ((FTPServer.Send sys s).1 = true → (FTPServer.Send sys s).2.sWaitSend = []) ∧
    ((FTPServer.Send sys s).1 = false → (FTPServer.Send sys s).2.sWaitSend = s.sWaitSend) := by
  unfold FTPServer.Send
  dsimp only
  split
  · rename_i he
    exact ⟨fun _ => he, fun _ => rfl⟩
  · split
    · exact ⟨fun _ => rfl, fun hc => by cases hc⟩
    · exact ⟨fun hc => (by cases hc), fun _ => rfl⟩

/-- An iteration of the specification is an iteration of the loop. -/
theorem uploadLoop_step (sys : Sys W) (fh : Int) (c d : UploadState W)
    (h : UploadStep sys fh c d) (fuel : Nat) :
    FTPServer.uploadLoop sys (fuel + 1) c.s fh c.buffer c.bytesWritten
      = FTPServer.uploadLoop sys fuel d.s fh d.buffer d.bytesWritten := by
  cases h with
  | write hn hw =>
    rw [FTPServer.uploadLoop]
    dsimp only
    rw [if_pos hn]
    by_cases hpos : (sys.write c.s.w fh (c.buffer.drop c.bytesWritten)).1 > 0
    · rw [if_pos hpos]
    · rw [if_neg hpos, if_neg (by omega)]
      have h0 : (sys.write c.s.w fh (c.buffer.drop c.bytesWritten)).1 = 0 := by omega
      rw [h0]
      rfl
  | recv dd hn hr hne =>
    rw [FTPServer.uploadLoop]
    dsimp only
    rw [if_neg hn, hr]
    cases dd with
    | nil => exact absurd rfl hne
    | cons x xs => rfl

/-- The loop started at a point of a run gives what it gives at every later point of the
run, with the fuel that is left there. -/
theorem uploadLoop_along (sys : Sys W) (fh : Int) (c d : UploadState W)
    (h : UploadRun sys fh c d) (t : FTPServer W) (k : Option Coro) :
    ∀ fuel, FTPServer.uploadLoop sys fuel c.s fh c.buffer c.bytesWritten = some (t, k) →
      ∃ fuel1, FTPServer.uploadLoop sys fuel1 d.s fh d.buffer d.bytesWritten
        = some (t, k) := by
  unfold UploadRun at h
  induction h with
  | refl => intro fuel hf; exact ⟨fuel, hf⟩
  | tail _ hstep ih =>
    intro fuel hf
    obtain ⟨fuel1, h1⟩ := ih fuel hf
    cases fuel1 with
    | zero => simp [FTPServer.uploadLoop] at h1
    | succ m =>
      rw [uploadLoop_step sys fh _ _ hstep m] at h1
      exact ⟨m, h1⟩

theorem UploadStep_inv (sys : Sys W) (fh : Int) (c d : UploadState W)
    (h : UploadStep sys fh c d) :
    d.s.sWaitSend = c.s.sWaitSend ∧
      (c.received = c.written ++ c.buffer.drop c.bytesWritten →
        d.received = d.written ++ d.buffer.drop d.bytesWritten) := by
  cases h with
  | write hn hw =>
    refine ⟨rfl, fun hi => ?_⟩
    show c.received = _ ++ _ ++ _
    rw [hi, List.append_assoc, ← List.drop_drop, List.take_append_drop]
  | recv dd hn hr hne =>
    refine ⟨rfl, fun hi => ?_⟩
    show c.received ++ dd = c.written ++ dd.drop 0
    rw [hi, List.drop_of_length_le (by omega), List.append_nil, List.drop_zero]

/-- Along a run the pending replies stay as they are, and the bytes received are the bytes
written followed by the rest of the chunk in hand. -/
theorem UploadRun_inv (sys : Sys W) (fh : Int) (c d : UploadState W)
    (h : UploadRun sys fh c d) :
    d.s.sWaitSend = c.s.sWaitSend ∧
      (c.received = c.written ++ c.buffer.drop c.bytesWritten →
        d.received = d.written ++ d.buffer.drop d.bytesWritten) := by
  unfold UploadRun at h
  induction h with
  | refl => exact ⟨rfl, fun hi => hi⟩
  | tail _ hstep ih =>
    have h1 := UploadStep_inv sys fh _ _ hstep
    exact ⟨h1.1.trans ih.1, fun hi => h1.2 (ih.2 hi)⟩

/-- What the loop gives at a point where the run ends. -/
theorem uploadLoop_end (sys : Sys W) (fh : Int) (c : UploadState W) (fuel : Nat)
    (t : FTPServer W) (k : Option Coro)
    (h : FTPServer.uploadLoop sys fuel c.s fh c.buffer c.bytesWritten = some (t, k)) :
    (c.bytesWritten < c.buffer.length →
      (sys.write c.s.w fh (c.buffer.drop c.bytesWritten)).1 < 0 →
      k = none ∧ t = FTPServer.closeFile sys
        (({ c.s with w := (sys.write c.s.w fh (c.buffer.drop c.bytesWritten)).2 }).appendSend
          "552 Storage allocation exceeded.\r\n".toList) fh) ∧
    (¬ c.bytesWritten < c.buffer.length →
      (sys.recv c.s.w c.s.dataSocket 8192).1 = some [] →
      k = none ∧ t = FTPServer.closeFile sys
        (({ c.s with w := (sys.recv c.s.w c.s.dataSocket 8192).2 }).appendSend
          "226 Transfer complete.\r\n".toList) fh) ∧
    (¬ c.bytesWritten < c.buffer.length →
      (sys.recv c.s.w c.s.dataSocket 8192).1 = none →
      ¬ (sys.errno (sys.recv c.s.w c.s.dataSocket 8192).2 = EAGAIN ∨
          sys.errno (sys.recv c.s.w c.s.dataSocket 8192).2 = EWOULDBLOCK) →
      k = none ∧ t = FTPServer.closeFile sys
        (({ c.s with w := (sys.recv c.s.w c.s.dataSocket 8192).2 }).appendSend
          "426 Connection error during transfer.\r\n".toList) fh) ∧
    (¬ c.bytesWritten < c.buffer.length →
      (sys.recv c.s.w c.s.dataSocket 8192).1 = none →
      (sys.errno (sys.recv c.s.w c.s.dataSocket 8192).2 = EAGAIN ∨
          sys.errno (sys.recv c.s.w c.s.dataSocket 8192).2 = EWOULDBLOCK) →
      k = some (.uploadRecv fh) ∧
        t = { c.s with w := (sys.recv c.s.w c.s.dataSocket 8192).2 }) := by
  cases fuel with
  | zero => simp [FTPServer.uploadLoop] at h
  | succ m =>
    rw [FTPServer.uploadLoop] at h
    dsimp only at h
    refine ⟨fun hn hw => ?_, fun hn hr => ?_, fun hn hr he => ?_, fun hn hr he => ?_⟩
    · rw [if_pos hn, if_neg (by omega), if_pos hw] at h
      cases h
      exact ⟨rfl, rfl⟩
    · rw [if_neg hn, hr] at h
      cases h
      exact ⟨rfl, rfl⟩
    · rw [if_neg hn, hr] at h
      dsimp only at h
      rw [if_neg he] at h
      cases h
      exact ⟨rfl, rfl⟩
    · rw [if_neg hn, hr] at h
      dsimp only at h
      rw [if_pos he] at h
      cases h
      exact ⟨rfl, rfl⟩

/-- A run of the loop that returns reaches a point where it ends: a write that failed, or a
recv that brought no data. -/
theorem uploadLoop_reaches_end (sys : Sys W) (fh : Int) (t : FTPServer W) (k : Option Coro) :
    ∀ (fuel : Nat) (c : UploadState W),
      FTPServer.uploadLoop sys fuel c.s fh c.buffer c.bytesWritten = some (t, k) →
      ∃ d, UploadRun sys fh c d ∧
        ((d.bytesWritten < d.buffer.length ∧
            (sys.write d.s.w fh (d.buffer.drop d.bytesWritten)).1 < 0) ∨
          (¬ d.bytesWritten < d.buffer.length ∧
            ((sys.recv d.s.w d.s.dataSocket 8192).1 = some [] ∨
              (sys.recv d.s.w d.s.dataSocket 8192).1 = none))) := by
  intro fuel
  induction fuel with
  | zero => intro c h; simp [FTPServer.uploadLoop] at h
  | succ m ih =>
    intro c h
    by_cases hn : c.bytesWritten < c.buffer.length
    · by_cases hw : 0 ≤ (sys.write c.s.w fh (c.buffer.drop c.bytesWritten)).1
      · rw [uploadLoop_step sys fh c _ (UploadStep.write c hn hw) m] at h
        obtain ⟨d, hd, he⟩ := ih _ h
        exact ⟨d, Relation.ReflTransGen.head (UploadStep.write c hn hw) hd, he⟩
      · exact ⟨c, Relation.ReflTransGen.refl, Or.inl ⟨hn, by omega⟩⟩
    · cases hr : (sys.recv c.s.w c.s.dataSocket 8192).1 with
      | none => exact ⟨c, Relation.ReflTransGen.refl, Or.inr ⟨hn, Or.inr hr⟩⟩
      | some dd =>
        cases dd with
        | nil => exact ⟨c, Relation.ReflTransGen.refl, Or.inr ⟨hn, Or.inl hr⟩⟩
        | cons x xs =>
          have hs : UploadStep sys fh c _ := UploadStep.recv c (x :: xs) hn hr (by simp)
          rw [uploadLoop_step sys fh c _ hs m] at h
          obtain ⟨d, hd, he⟩ := ih _ h
          exact ⟨d, Relation.ReflTransGen.head hs hd, he⟩

/-- C16: how a STOR run ends. (1) For a run of the receive loop that returns, told over the
points of the run (`UploadRun`: the iterations in which a write did not fail or a recv
brought data after the chunk before it was written in full). The run reaches a point where
a write fails or a recv brings no data. At every point of the run the pending replies are
untouched and the bytes received are the bytes written followed by the rest of the chunk in
hand; a write that fails there ends the routine with exactly
"552 Storage allocation exceeded.\r\n" appended; a recv that returns 0 there, made when the
chunk is written in full, ends it with exactly "226 Transfer complete.\r\n" appended, and
all the bytes received are written; a recv that fails there with an errno other than EAGAIN
ends it with exactly "426 Connection error during transfer.\r\n" appended; a recv that times
out parks the routine and appends nothing; in each case the file and the data connection are
closed as `close_` does. So for a run that completes, the 226 is appended if and only if the
run reached a recv that returned 0 with every byte received written. (2) Before the loop the
routine ends only with "425 Can't open data connection.\r\n" (the data connection failed)
or "550 Failed to create file.\r\n" (the open failed) appended, and else runs the loop on
the opened file. (3) HandleUpload appends the 150 line and either parks before it is flushed,
or goes on with an empty send buffer, so that the send buffer of a STOR that completes at
once holds exactly one final response. (4) A routine parked in the loop and resumed without
the error flag runs the loop again from an empty chunk. (5) A routine parked before the 150
was flushed and resumed without the error flag either parks there again, appending nothing,
or goes on with an empty send buffer as in (3). -/
theorem C16_stor_final_response (sys : Sys W) (cfg : ServerInfo) (fuel : Nat) :
    (∀ (s t : FTPServer W) (fh : Int) (buffer : Bytes) (n : Nat) (k : Option Coro),
      FTPServer.uploadLoop sys fuel s fh buffer n = some (t, k) →
      (∃ c, UploadRun sys fh (UploadState.start s buffer n) c ∧
        ((c.bytesWritten < c.buffer.length ∧
            (sys.write c.s.w fh (c.buffer.drop c.bytesWritten)).1 < 0) ∨
          (¬ c.bytesWritten < c.buffer.length ∧
            ((sys.recv c.s.w c.s.dataSocket 8192).1 = some [] ∨
              (sys.recv c.s.w c.s.dataSocket 8192).1 = none)))) ∧
      (∀ c, UploadRun sys fh (UploadState.start s buffer n) c →
        c.s.sWaitSend = s.sWaitSend ∧
        c.received = c.written ++ c.buffer.drop c.bytesWritten ∧
        (c.bytesWritten < c.buffer.length →
          (sys.write c.s.w fh (c.buffer.drop c.bytesWritten)).1 < 0 →
          k = none ∧
          t.sWaitSend = s.sWaitSend ++ "552 Storage allocation exceeded.\r\n".toList ∧
          t = FTPServer.closeFile sys
            (({ c.s with
                w := (sys.write c.s.w fh (c.buffer.drop c.bytesWritten)).2 }).appendSend
              "552 Storage allocation exceeded.\r\n".toList) fh) ∧
        (¬ c.bytesWritten < c.buffer.length →
          (sys.recv c.s.w c.s.dataSocket 8192).1 = some [] →
          k = none ∧ c.written = c.received ∧
          t.sWaitSend = s.sWaitSend ++ "226 Transfer complete.\r\n".toList ∧
          t = FTPServer.closeFile sys
            (({ c.s with w := (sys.recv c.s.w c.s.dataSocket 8192).2 }).appendSend
              "226 Transfer complete.\r\n".toList) fh) ∧
        (¬ c.bytesWritten < c.buffer.length →
          (sys.recv c.s.w c.s.dataSocket 8192).1 = none →
          ¬ (sys.errno (sys.recv c.s.w c.s.dataSocket 8192).2 = EAGAIN ∨
              sys.errno (sys.recv c.s.w c.s.dataSocket 8192).2 = EWOULDBLOCK) →
          k = none ∧
          t.sWaitSend = s.sWaitSend ++ "426 Connection error during transfer.\r\n".toList ∧
          t = FTPServer.closeFile sys
            (({ c.s with w := (sys.recv c.s.w c.s.dataSocket 8192).2 }).appendSend
              "426 Connection error during transfer.\r\n".toList) fh) ∧
        (¬ c.bytesWritten < c.buffer.length →
          (sys.recv c.s.w c.s.dataSocket 8192).1 = none →
          (sys.errno (sys.recv c.s.w c.s.dataSocket 8192).2 = EAGAIN ∨
              sys.errno (sys.recv c.s.w c.s.dataSocket 8192).2 = EWOULDBLOCK) →
          k = some (.uploadRecv fh) ∧ t.sWaitSend = s.sWaitSend ∧
          t = { c.s with w := (sys.recv c.s.w c.s.dataSocket 8192).2 })) ∧
      (k = none →
        (t.sWaitSend = s.sWaitSend ++ "226 Transfer complete.\r\n".toList ↔
          ∃ c, UploadRun sys fh (UploadState.start s buffer n) c ∧
            ¬ c.bytesWritten < c.buffer.length ∧
            (sys.recv c.s.w c.s.dataSocket 8192).1 = some [] ∧ c.written = c.received))) ∧
    (∀ (s t : FTPServer W) (filePath : Bytes) (k : Option Coro),
      FTPServer.uploadBody sys cfg fuel s filePath = some (t, k) →
      ((FTPServer.EstablishDataConnection sys cfg s).1 = false ∧ k = none ∧
        t.sWaitSend = s.sWaitSend ++ "425 Can't open data connection.\r\n".toList) ∨
      ((FTPServer.EstablishDataConnection sys cfg s).1 = true ∧
        (sys.open_ (FTPServer.EstablishDataConnection sys cfg s).2.w filePath
          .O_WRONLY_CREAT_TRUNC).1 < 0 ∧ k = none ∧
        t.sWaitSend = s.sWaitSend ++ "550 Failed to create file.\r\n".toList) ∨
      ((FTPServer.EstablishDataConnection sys cfg s).1 = true ∧
        0 ≤ (sys.open_ (FTPServer.EstablishDataConnection sys cfg s).2.w filePath
          .O_WRONLY_CREAT_TRUNC).1 ∧
        (FTPServer.EstablishDataConnection sys cfg s).2.sWaitSend = s.sWaitSend ∧
        FTPServer.uploadLoop sys fuel
          { (FTPServer.EstablishDataConnection sys cfg s).2 with
            w := (sys.open_ (FTPServer.EstablishDataConnection sys cfg s).2.w filePath
              .O_WRONLY_CREAT_TRUNC).2 }
          (sys.open_ (FTPServer.EstablishDataConnection sys cfg s).2.w filePath
            .O_WRONLY_CREAT_TRUNC).1 [] 0 = some (t, k))) ∧
    (∀ (s t : FTPServer W) (filename : Bytes) (k : Option Coro),
      FTPServer.HandleUpload sys cfg fuel s filename = some (t, k) →
      ∃ name, (name = filename ∨ ∃ i, name = filename.drop (i + 1)) ∧
        (((FTPServer.Send sys (s.appendSend ("150 Opening data connection for ".toList
              ++ name ++ ".\r\n".toList))).1 = false ∧
            k = some (.uploadFlush (s.currentDir ++ "/".toList ++ name)) ∧
            t.sWaitSend = s.sWaitSend
              ++ ("150 Opening data connection for ".toList ++ name ++ ".\r\n".toList)) ∨
          ((FTPServer.Send sys (s.appendSend ("150 Opening data connection for ".toList
              ++ name ++ ".\r\n".toList))).1 = true ∧
            (FTPServer.Send sys (s.appendSend ("150 Opening data connection for ".toList
              ++ name ++ ".\r\n".toList))).2.sWaitSend = [] ∧
            FTPServer.uploadBody sys cfg fuel
              (FTPServer.Send sys (s.appendSend ("150 Opening data connection for ".toList
                ++ name ++ ".\r\n".toList))).2
              (s.currentDir ++ "/".toList ++ name) = some (t, k)))) ∧
    (∀ (s : FTPServer W) (fh : Int), s.error = false →
      FTPServer.resume sys cfg fuel s (.uploadRecv fh) =
        FTPServer.uploadLoop sys fuel s fh [] 0) ∧
    (∀ (s t : FTPServer W) (filePath : Bytes) (k : Option Coro), s.error = false →
      FTPServer.resume sys cfg fuel s (.uploadFlush filePath) = some (t, k) →
      ((FTPServer.Send sys s).1 = false ∧ k = some (.uploadFlush filePath) ∧
        t.sWaitSend = s.sWaitSend) ∨
      ((FTPServer.Send sys s).1 = true ∧ (FTPServer.Send sys s).2.sWaitSend = [] ∧
        FTPServer.uploadBody sys cfg fuel (FTPServer.Send sys s).2 filePath
          = some (t, k))) := by
  refine ⟨?_, ?_, ?_, ?_, ?_⟩
  rotate_right
  · intro s t filePath k he h
    have hres : FTPServer.resume sys cfg fuel s (.uploadFlush filePath)
        = FTPServer.uploadFlush sys cfg fuel s filePath := by
      unfold FTPServer.resume
      simp [he]
    rw [hres] at h
    unfold FTPServer.uploadFlush at h
    dsimp only at h
    split at h
    · rename_i hsend
      exact Or.inr ⟨hsend, (Send_sWaitSend sys _).1 hsend, h⟩
    · rename_i hsend
      cases h
      exact Or.inl ⟨by simpa using hsend, rfl,
        (Send_sWaitSend sys _).2 (by simpa using hsend)⟩
  · intro s t fh buffer n k h
    have hstart : (UploadState.start s buffer n).received
        = (UploadState.start s buffer n).written
          ++ (UploadState.start s buffer n).buffer.drop
            (UploadState.start s buffer n).bytesWritten :=
      (List.take_append_drop n buffer).symm
    have hex := uploadLoop_reaches_end sys fh t k fuel (UploadState.start s buffer n) h
    have hall : ∀ c, UploadRun sys fh (UploadState.start s buffer n) c →
        c.s.sWaitSend = s.sWaitSend ∧
        c.received = c.written ++ c.buffer.drop c.bytesWritten ∧
        (c.bytesWritten < c.buffer.length →
          (sys.write c.s.w fh (c.buffer.drop c.bytesWritten)).1 < 0 →
          k = none ∧
          t.sWaitSend = s.sWaitSend ++ "552 Storage allocation exceeded.\r\n".toList ∧
          t = FTPServer.closeFile sys
            (({ c.s with
                w := (sys.write c.s.w fh (c.buffer.drop c.bytesWritten)).2 }).appendSend
              "552 Storage allocation exceeded.\r\n".toList) fh) ∧
        (¬ c.bytesWritten < c.buffer.length →
          (sys.recv c.s.w c.s.dataSocket 8192).1 = some [] →
          k = none ∧ c.written = c.received ∧
          t.sWaitSend = s.sWaitSend ++ "226 Transfer complete.\r\n".toList ∧
          t = FTPServer.closeFile sys
            (({ c.s with w := (sys.recv c.s.w c.s.dataSocket 8192).2 }).appendSend
              "226 Transfer complete.\r\n".toList) fh) ∧
        (¬ c.bytesWritten < c.buffer.length →
          (sys.recv c.s.w c.s.dataSocket 8192).1 = none →
          ¬ (sys.errno (sys.recv c.s.w c.s.dataSocket 8192).2 = EAGAIN ∨
              sys.errno (sys.recv c.s.w c.s.dataSocket 8192).2 = EWOULDBLOCK) →
          k = none ∧
          t.sWaitSend = s.sWaitSend ++ "426 Connection error during transfer.\r\n".toList ∧
          t = FTPServer.closeFile sys
            (({ c.s with w := (sys.recv c.s.w c.s.dataSocket 8192).2 }).appendSend
              "426 Connection error during transfer.\r\n".toList) fh) ∧
        (¬ c.bytesWritten < c.buffer.length →
          (sys.recv c.s.w c.s.dataSocket 8192).1 = none →
          (sys.errno (sys.recv c.s.w c.s.dataSocket 8192).2 = EAGAIN ∨
              sys.errno (sys.recv c.s.w c.s.dataSocket 8192).2 = EWOULDBLOCK) →
          k = some (.uploadRecv fh) ∧ t.sWaitSend = s.sWaitSend ∧
          t = { c.s with w := (sys.recv c.s.w c.s.dataSocket 8192).2 }) := by
      intro c hc
      obtain ⟨hs, hi⟩ := UploadRun_inv sys fh _ c hc
      have hs2 : c.s.sWaitSend = s.sWaitSend := hs
      have hi2 := hi hstart
      obtain ⟨fuel1, h1⟩ := uploadLoop_along sys fh _ c hc t k fuel h
      obtain ⟨e1, e2, e3, e4⟩ := uploadLoop_end sys fh c fuel1 t k h1
      refine ⟨hs2, hi2, fun hn hw => ?_, fun hn hr => ?_, fun hn hr he => ?_,
        fun hn hr he => ?_⟩
      · obtain ⟨g1, g2⟩ := e1 hn hw
        refine ⟨g1, ?_, g2⟩
        rw [g2, closeFile_sWaitSend, ← hs2]
        rfl
      · obtain ⟨g1, g2⟩ := e2 hn hr
        refine ⟨g1, ?_, ?_, g2⟩
        · rw [hi2, List.drop_of_length_le (by omega), List.append_nil]
        · rw [g2, closeFile_sWaitSend, ← hs2]
          rfl
      · obtain ⟨g1, g2⟩ := e3 hn hr he
        refine ⟨g1, ?_, g2⟩
        rw [g2, closeFile_sWaitSend, ← hs2]
        rfl
      · obtain ⟨g1, g2⟩ := e4 hn hr he
        refine ⟨g1, ?_, g2⟩
        rw [g2, ← hs2]
    refine ⟨hex, hall, fun hk => ⟨fun hx => ?_, fun hx => ?_⟩⟩
    · obtain ⟨c, hc, hend⟩ := hex
      obtain ⟨_, _, a1, a2, a3, a4⟩ := hall c hc
      rcases hend with ⟨hn, hw⟩ | ⟨hn, hr | hr⟩
      · exfalso
        rw [(a1 hn hw).2.1] at hx
        exact absurd (List.append_cancel_left hx) (by decide)
      · exact ⟨c, hc, hn, hr, (a2 hn hr).2.1⟩
      · exfalso
        by_cases he : sys.errno (sys.recv c.s.w c.s.dataSocket 8192).2 = EAGAIN ∨
            sys.errno (sys.recv c.s.w c.s.dataSocket 8192).2 = EWOULDBLOCK
        · have h4 := (a4 hn hr he).1
          rw [hk] at h4
          cases h4
        · rw [(a3 hn hr he).2.1] at hx
          exact absurd (List.append_cancel_left hx) (by decide)
    · obtain ⟨c, hc, hn, hr, _⟩ := hx
      exact ((hall c hc).2.2.2.1 hn hr).2.2.1
  · intro s t filePath k h
    unfold FTPServer.uploadBody at h
    dsimp only at h
    have he := EstablishDataConnection_sWaitSend sys cfg s
    by_cases h1 : (FTPServer.EstablishDataConnection sys cfg s).1 = false
    · rw [if_pos h1] at h
      cases h
      exact Or.inl ⟨h1, rfl, by show _ ++ _ = _; rw [he]⟩
    · rw [if_neg h1] at h
      have h1t : (FTPServer.EstablishDataConnection sys cfg s).1 = true := by
        simpa using h1
      by_cases h2 : (sys.open_ (FTPServer.EstablishDataConnection sys cfg s).2.w filePath
          .O_WRONLY_CREAT_TRUNC).1 < 0
      · rw [if_pos h2] at h
        cases h
        refine Or.inr (Or.inl ⟨h1t, h2, rfl, ?_⟩)
        rw [CloseDataConnection_sWaitSend]
        show _ ++ _ = _
        rw [← he]
      · rw [if_neg h2] at h
        exact Or.inr (Or.inr ⟨h1t, by omega, he, h⟩)
  · intro s t filename k h
    unfold FTPServer.HandleUpload FTPServer.uploadFlush at h
    dsimp only at h
    refine ⟨(match find_last_of filename '/' with
      | some index => filename.drop (index + 1)
      | none => filename), ?_, ?_⟩
    · split
      · exact Or.inr ⟨_, rfl⟩
      · exact Or.inl rfl
    · split at h
      · rename_i hsend
        exact Or.inr ⟨hsend, (Send_sWaitSend sys _).1 hsend, h⟩
      · rename_i hsend
        cases h
        exact Or.inl ⟨by simpa using hsend, rfl,
          (Send_sWaitSend sys _).2 (by simpa using hsend)⟩
  · intro s fh he
    unfold FTPServer.resume
    simp [he]

/-- The witness of C16: in the session of `osUploading` the receive loop is run on the
descriptor 99, which is not open. The recv brings "hi ", the write fails, and the run ends
with the 552 as the one reply appended. -/
theorem C16_stor_final_response_witness :
    ∃ t, FTPServer.uploadLoop osSys 10 osUploading 99 [] 0 = some (t, none) ∧
      t.sWaitSend = osUploading.sWaitSend ++ "552 Storage allocation exceeded.\r\n".toList := by
  have h0 : ∃ t, FTPServer.uploadLoop osSys 10 osUploading 99 [] 0 = some (t, none) :=
    ⟨_, rfl⟩
  obtain ⟨t, ht⟩ := h0
  have h := ((C16_stor_final_response osSys (simCfg true false) 10).1 osUploading t 99 [] 0
    none ht).2.1 _
    (Relation.ReflTransGen.single
      (UploadStep.recv (UploadState.start osUploading [] 0) "hi ".toList (by decide)
        (by decide) (by decide)))
  exact ⟨t, ht, (h.2.2.1 (by decide) (by decide)).2.1⟩


/-! ## Renaming (C19) -/

theorem HandlePASV_renameFromPath (sys : Sys W) (cfg : ServerInfo) (s : FTPServer W) :
    (FTPServer.HandlePASV sys cfg s).renameFromPath = s.renameFromPath := by
  unfold FTPServer.HandlePASV
  dsimp only
  repeat' split
  all_goals rfl

theorem HandlePORT_renameFromPath (sys : Sys W) (s : FTPServer W) (param : Bytes) :
    (FTPServer.HandlePORT sys s param).renameFromPath = s.renameFromPath := by
  unfold FTPServer.HandlePORT
  dsimp only
  repeat' split
  all_goals rfl

theorem startTask_renameFromPath (x : Option (FTPServer W × Option Coro))
    (r : FTPServer W × Bool) (h : FTPServer.startTask x = some r) :
    ∃ q, x = some q ∧ r.1.renameFromPath = q.1.renameFromPath := by
  unfold FTPServer.startTask at h
  split at h
  · cases h
  · cases h; exact ⟨_, rfl, rfl⟩
  · cases h; exact ⟨_, rfl, rfl⟩

theorem ProcessCommand_noParam_renameFromPath (sys : Sys W) (cfg : ServerInfo) (fuel : Nat)
    (s : FTPServer W) (cmd : Bytes) :
    ∀ r, FTPServer.ProcessCommand_noParam sys cfg fuel s cmd = some r →
      r.1.renameFromPath = s.renameFromPath := by
  intro r h
  unfold FTPServer.ProcessCommand_noParam at h
  by_cases c1 : cmd = "PWD".toList
  · rw [if_pos c1] at h
    dsimp only at h
    cases h; rfl
  rw [if_neg c1] at h
  by_cases c2 : cmd = "SYST".toList
  · rw [if_pos c2] at h
    cases h; rfl
  rw [if_neg c2] at h
  by_cases c3 : cmd = "FEAT".toList
  · rw [if_pos c3] at h
    dsimp only at h
    cases h
    split <;> rfl
  rw [if_neg c3] at h
  by_cases c4 : cmd = "QUIT".toList
  · rw [if_pos c4] at h
    cases h; rfl
  rw [if_neg c4] at h
  by_cases c5 : cmd = "NOOP".toList
  · rw [if_pos c5] at h
    cases h; rfl
  rw [if_neg c5] at h
  by_cases c6 : cmd = "TYPE".toList
  · rw [if_pos c6] at h
    cases h; rfl
  rw [if_neg c6] at h
  by_cases c7 : cmd = "PASV".toList
  · rw [if_pos c7] at h
    cases h
    exact HandlePASV_renameFromPath sys cfg s
  rw [if_neg c7] at h
  by_cases c8 : cmd = "LIST".toList ∨ cmd = "NLST".toList
  · rw [if_pos c8] at h
    obtain ⟨q, hq, h1⟩ := startTask_renameFromPath _ _ h
    rw [h1]
    exact (frame_HandleList sys cfg fuel s q hq).renameFromPath
  rw [if_neg c8] at h
  cases h
  rfl

/-- What a handler with a parameter does to `renameFromPath`: the handler of `RNTO` empties
it, the handler of `RNFR` sets it when it replies 350, and nothing else writes it. -/
theorem ProcessCommand_withParam_rename (sys : Sys W) (cfg : ServerInfo) (fuel : Nat)
    (s : FTPServer W) (cmd param : Bytes) :
    ∀ r, FTPServer.ProcessCommand_withParam sys cfg fuel s cmd param = some r →
      (cmd = "RNTO".toList ∧ r.1.renameFromPath = []) ∨
      (cmd = "RNFR".toList ∧
        r.1.sWaitSend = s.sWaitSend ++ "350 Ready for RNTO.\r\n".toList ∧
        r.1.renameFromPath = s.currentDir ++ "/".toList ++ param) ∨
      (cmd ≠ "RNTO".toList ∧ r.1.renameFromPath = s.renameFromPath) := by
  intro r h
  unfold FTPServer.ProcessCommand_withParam at h
  by_cases c1 : cmd = "CWD".toList ∨ cmd = "XCWD".toList
  · rw [if_pos c1] at h
    dsimp only at h
    have hc : cmd ≠ "RNTO".toList := by rcases c1 with c | c <;> (rw [c]; decide)
    split_ifs at h <;> (cases h; exact Or.inr (Or.inr ⟨hc, rfl⟩))
  rw [if_neg c1] at h
  by_cases c2 : cmd = "RMD".toList
  · rw [if_pos c2] at h
    dsimp only at h
    have hc : cmd ≠ "RNTO".toList := by rw [c2]; decide
    split_ifs at h <;> (cases h; exact Or.inr (Or.inr ⟨hc, rfl⟩))
  rw [if_neg c2] at h
  by_cases c3 : cmd = "TYPE".toList
  · rw [if_pos c3] at h
    have hc : cmd ≠ "RNTO".toList := by rw [c3]; decide
    split_ifs at h <;> (cases h; exact Or.inr (Or.inr ⟨hc, rfl⟩))
  rw [if_neg c3] at h
  by_cases c4 : cmd = "PORT".toList
  · rw [if_pos c4] at h
    have hc : cmd ≠ "RNTO".toList := by rw [c4]; decide
    cases h; exact Or.inr (Or.inr ⟨hc, HandlePORT_renameFromPath sys s param⟩)
  rw [if_neg c4] at h
  by_cases c5 : cmd = "SIZE".toList
  · rw [if_pos c5] at h
    dsimp only at h
    have hc : cmd ≠ "RNTO".toList := by rw [c5]; decide
    split at h <;> (cases h; exact Or.inr (Or.inr ⟨hc, rfl⟩))
  rw [if_neg c5] at h
  by_cases c6 : cmd = "RNFR".toList
  · rw [if_pos c6] at h
    dsimp only at h
    have hc : cmd ≠ "RNTO".toList := by rw [c6]; decide
    split_ifs at h
    · cases h; exact Or.inr (Or.inl ⟨c6, rfl, rfl⟩)
    · cases h; exact Or.inr (Or.inr ⟨hc, rfl⟩)
  rw [if_neg c6] at h
  by_cases c7 : cmd = "RNTO".toList
  · rw [if_pos c7] at h
    dsimp only at h
    by_cases e1 : s.renameFromPath = []
    · rw [if_pos e1] at h; cases h; exact Or.inl ⟨c7, e1⟩
    · rw [if_neg e1] at h; cases h; exact Or.inl ⟨c7, rfl⟩
  rw [if_neg c7] at h
  refine Or.inr (Or.inr ⟨c7, ?_⟩)
  by_cases c8 : cmd = "DELE".toList
  · rw [if_pos c8] at h
    dsimp only at h
    split_ifs at h <;> (cases h; rfl)
  rw [if_neg c8] at h
  by_cases c9 : cmd = "RETR".toList
  · rw [if_pos c9] at h
    obtain ⟨q, hq, h1⟩ := startTask_renameFromPath _ _ h
    rw [h1]
    exact (frame_HandleDownload sys cfg fuel s param q hq).renameFromPath
  rw [if_neg c9] at h
  by_cases c10 : cmd = "STOR".toList
  · rw [if_pos c10] at h
    obtain ⟨q, hq, h1⟩ := startTask_renameFromPath _ _ h
    rw [h1]
    exact (frame_HandleUpload sys cfg fuel s param q hq).renameFromPath
  rw [if_neg c10] at h
  by_cases c11 : cmd = "MKD".toList ∨ cmd = "XMKD".toList
  · rw [if_pos c11] at h
    dsimp only at h
    split_ifs at h <;> (cases h; rfl)
  rw [if_neg c11] at h
  cases h
  rfl

/-- What one call of ProcessCommand does to `renameFromPath`: an `RNTO` that reaches its
handler empties it; an `RNFR` that replies 350 sets it; every other call leaves it as it
is. -/
theorem ProcessCommand_rename (sys : Sys W) (cfg : ServerInfo) (io : Nat)
    (s : FTPServer W) (cmd param : Bytes) :
    ∀ r, FTPServer.ProcessCommand sys cfg io s cmd param = some r →
      (Dispatch.rnto sys cfg { before := s, cmd := cmd, param := param, after := r.1 } ∧
        r.1.renameFromPath = []) ∨
      (Dispatch.rnfr350 { before := s, cmd := cmd, param := param, after := r.1 } ∧
        r.1.renameFromPath ≠ []) ∨
      (¬ Dispatch.rnto sys cfg { before := s, cmd := cmd, param := param, after := r.1 } ∧
        r.1.renameFromPath = s.renameFromPath) := by
  intro r h
  unfold FTPServer.ProcessCommand at h
  dsimp only at h
  unfold Dispatch.rnto Dispatch.rnfr350
  dsimp only
  by_cases c1 : ToUpperCase cmd = "USER".toList
  · rw [if_pos c1] at h
    cases h
    exact Or.inr (Or.inr ⟨fun hx => absurd (c1.symm.trans hx.1) (by decide), rfl⟩)
  rw [if_neg c1] at h
  by_cases c2 : ToUpperCase cmd = "PASS".toList
  · rw [if_pos c2] at h
    refine Or.inr (Or.inr ⟨fun hx => absurd (c2.symm.trans hx.1) (by decide), ?_⟩)
    split_ifs at h <;> (cases h; rfl)
  rw [if_neg c2] at h
  by_cases c3 : ToUpperCase cmd = "OPTS".toList
  · rw [if_pos c3] at h
    refine Or.inr (Or.inr ⟨fun hx => absurd (c3.symm.trans hx.1) (by decide), ?_⟩)
    split_ifs at h <;> (cases h; rfl)
  rw [if_neg c3] at h
  by_cases c4 : s.certified = false
  · rw [if_pos c4] at h
    cases h
    refine Or.inr (Or.inr ⟨fun hx => ?_, rfl⟩)
    rw [c4] at hx
    exact absurd hx.2.1 (by decide)
  rw [if_neg c4] at h
  have hauth : s.certified = true := by
    cases hcer : s.certified
    · exact absurd hcer c4
    · rfl
  by_cases c5 : (if s.utf8 = true then convertEncoding sys param "UTF-8".toList cfg.encoding
      else param) = []
  · rw [if_pos c5] at h
    have hn := ProcessCommand_noParam_renameFromPath sys cfg io _ _ r h
    exact Or.inr (Or.inr ⟨fun hx => hx.2.2 c5, hn⟩)
  rw [if_neg c5] at h
  have hw := ProcessCommand_withParam_rename sys cfg io _ _ _ r h
  rcases hw with ⟨h1, h2⟩ | ⟨h1, h2, h3⟩ | ⟨h1, h2⟩
  · exact Or.inl ⟨⟨h1, hauth, c5⟩, h2⟩
  · refine Or.inr (Or.inl ⟨⟨h1, h2⟩, ?_⟩)
    rw [h3]
    intro hx
    have hl := congrArg List.length hx
    simp at hl
  · exact Or.inr (Or.inr ⟨fun hx => h1 hx.1, h2⟩)

/-- The invariant of the rename source: while it is set, the calls made so far hold an
`RNFR` that replied 350 after which no `RNTO` reached its handler. -/
theorem History.rename_pending (sys : Sys W) (cfg : ServerInfo) (io : Nat)
    (H : List (Dispatch W)) (s : FTPServer W) (h : History sys cfg io H s) :
    s.renameFromPath ≠ [] →
      ∃ (H1 : List (Dispatch W)) (d : Dispatch W) (H2 : List (Dispatch W)),
        H = H1 ++ d :: H2 ∧ d.rnfr350 ∧ ∀ e ∈ H2, ¬ Dispatch.rnto sys cfg e := by
  induction h with
  | start evb info w => intro hx; exact absurd rfl hx
  | command H s t cmd param b _ hc ih =>
    intro hx
    rcases ProcessCommand_rename sys cfg io s cmd param _ hc with ⟨_, h2⟩ | ⟨h1, _⟩ | ⟨h1, h2⟩
    · exact absurd h2 hx
    · exact ⟨H, _, [], rfl, h1, fun e he => by cases he⟩
    · obtain ⟨H1, d, H2, e1, e2, e3⟩ := ih (by rw [← h2]; exact hx)
      refine ⟨H1, d, H2 ++ [{ before := s, cmd := cmd, param := param, after := t }], ?_, e2, ?_⟩
      · rw [e1]; simp
      · intro e he
        rcases List.mem_append.1 he with he | he
        · exact e3 e he
        · rw [List.mem_singleton.1 he]; exact h1
  | other H s t _ hr ih =>
    intro hx
    exact ih (by rw [← hr]; exact hx)

theorem DealTask_renameFromPath (sys : Sys W) (cfg : ServerInfo) (io : Nat) (s : FTPServer W)
    (r : FTPServer W × Bool) (h : FTPServer.DealTask sys cfg io s = some r) :
    r.1.renameFromPath = s.renameFromPath := by
  unfold FTPServer.DealTask at h
  split at h
  · cases h; rfl
  · rename_i k hk
    split at h
    · cases h
    · rename_i s1 hr
      cases h
      exact (frame_resume sys cfg io s k _ hr).renameFromPath
    · rename_i s1 k1 hr
      cases h
      exact (frame_resume sys cfg io s k _ hr).renameFromPath

theorem Send_And_EnableWR_renameFromPath (sys : Sys W) (s : FTPServer W) :
    (FTPServer.Send_And_EnableWR sys s).renameFromPath = s.renameFromPath :=
  (frame_Send sys s).renameFromPath

theorem parseTrim_renameFromPath (s : FTPServer W) (start : Nat) :
    (FTPServer.parseTrim s start).1.renameFromPath = s.renameFromPath := by
  unfold FTPServer.parseTrim
  dsimp only
  split <;> rfl

/-- The loop of Parse only extends the history by the calls of ProcessCommand it makes. -/
theorem parseLoop_History (sys : Sys W) (cfg : ServerInfo) (io : Nat) :
    ∀ (fuel : Nat) (s : FTPServer W) (start : Nat) (stop : Bool) (r : FTPServer W × Nat)
      (H : List (Dispatch W)), History sys cfg io H s →
      FTPServer.parseLoop sys cfg io fuel s start stop = some r →
      ∃ H1, History sys cfg io (H ++ H1) r.1 := by
  intro fuel
  induction fuel with
  | zero => intro s start stop r H _ h; cases h
  | succ n ih =>
    intro s start stop r H hH h
    rw [FTPServer.parseLoop] at h
    split at h
    · cases h; exact ⟨[], by simpa using hH⟩
    · split at h
      · cases h; exact ⟨[], by simpa using hH⟩
      · dsimp only at h
        split at h
        · cases h
        · rename_i q hq
          obtain ⟨H1, h1⟩ := ih _ _ _ _ _ (History.command H s q.1 _ _ q.2 hH hq) h
          exact ⟨_ :: H1, by simpa using h1⟩

/-- Every event a worker runs on a session of the history gives a session of the history:
the sessions of `History` cover all the sessions the reactor produces. -/
theorem runEvent_History (sys : Sys W) (cfg : ServerInfo) (io fuel : Nat) (s t : FTPServer W)
    (e : Event) (H : List (Dispatch W)) (hH : History sys cfg io H s)
    (h : FTPServer.runEvent sys cfg io fuel s e = some t) :
    ∃ H1, History sys cfg io (H ++ H1) t := by
  cases e with
  | READ bytes =>
    simp only [FTPServer.runEvent, FTPTask.execute, FTPServer.DealRead] at h
    split at h
    · cases h
    · rename_i s1 hd
      cases h
      refine ⟨[], ?_⟩
      rw [List.append_nil]
      refine History.other H s _ hH ?_
      rw [DealTask_renameFromPath sys cfg io _ _ hd, Read_eq]
      rfl
    · rename_i s1 hd
      have h0 : History sys cfg io H s1 := by
        refine History.other H s _ hH ?_
        rw [DealTask_renameFromPath sys cfg io _ _ hd, Read_eq]
        rfl
      split at h
      · cases h
      · rename_i s2 ok hp
        cases h
        unfold FTPServer.Parse at hp
        split at hp
        · cases hp
        · rename_i q hq
          obtain ⟨H1, h1⟩ := parseLoop_History sys cfg io fuel _ _ _ _ H h0 hq
          refine ⟨H1, History.other _ q.1 _ h1 ?_⟩
          rw [Send_And_EnableWR_renameFromPath]
          have hs2 : s2 = (FTPServer.parseTrim q.1 q.2).1 := by
            cases hp; rfl
          have ht := parseTrim_renameFromPath q.1 q.2
          rw [← hs2] at ht
          rw [← ht]
          split <;> rfl
  | WRITE =>
    simp only [FTPServer.runEvent, FTPTask.execute, FTPServer.DealWrite] at h
    refine ⟨[], ?_⟩
    rw [List.append_nil]
    refine History.other H s _ hH ?_
    split at h
    · cases h
    · rename_i s1 hd
      cases h
      rw [DealTask_renameFromPath sys cfg io _ _ hd]
      rfl
    · rename_i s1 hd
      cases h
      rw [Send_And_EnableWR_renameFromPath, DealTask_renameFromPath sys cfg io _ _ hd]
      rfl
  | ACCEPT =>
    simp only [FTPServer.runEvent, FTPTask.execute] at h
    cases h
    refine ⟨[], ?_⟩
    rw [List.append_nil]
    refine History.other H s _ hH ?_
    unfold FTPServer.DealAccept
    rw [Send_And_EnableWR_renameFromPath]
    rfl

theorem runEvents_History (sys : Sys W) (cfg : ServerInfo) (io fuel : Nat) :
    ∀ (es : List Event) (s t : FTPServer W) (H : List (Dispatch W)),
      History sys cfg io H s → FTPServer.runEvents sys cfg io fuel es s = some t →
      ∃ H1, History sys cfg io (H ++ H1) t := by
  intro es
  induction es with
  | nil =>
    intro s t H hH h
    rw [FTPServer.runEvents] at h
    cases h
    exact ⟨[], by simpa using hH⟩
  | cons e es ih =>
    intro s t H hH h
    rw [FTPServer.runEvents] at h
    split at h
    · cases h
    · rename_i s1 he
      obtain ⟨H1, h1⟩ := runEvent_History sys cfg io fuel s s1 e H hH he
      obtain ⟨H2, h2⟩ := ih s1 t _ h1 h
      exact ⟨H1 ++ H2, by simpa using h2⟩

/-- The dispatch of `RNTO`, in any letter case, on an authenticated session with a parameter
that is not empty when it reaches the handlers. -/
theorem ProcessCommand_RNTO (sys : Sys W) (cfg : ServerInfo) (io : Nat) (s : FTPServer W)
    (cmd A : Bytes) (hc : ToUpperCase cmd = "RNTO".toList) (hauth : s.certified = true)
    (hne : (if s.utf8 then convertEncoding sys A "UTF-8".toList cfg.encoding else A) ≠ []) :
    FTPServer.ProcessCommand sys cfg io s cmd A =
      if s.renameFromPath = [] then
        some ({ s with
          sWaitSend := s.sWaitSend ++ "503 RNFR required.\r\n".toList,
          cmdLog := s.cmdLog ++ [("RNTO".toList,
            if s.utf8 then convertEncoding sys A "UTF-8".toList cfg.encoding else A)] }, true)
      else
        some ({ s with
          w := (sys.rename s.w s.renameFromPath (s.currentDir ++ "/".toList ++
            (if s.utf8 then convertEncoding sys A "UTF-8".toList cfg.encoding else A))).2,
          sWaitSend := s.sWaitSend ++
            (if (sys.rename s.w s.renameFromPath (s.currentDir ++ "/".toList ++
              (if s.utf8 then convertEncoding sys A "UTF-8".toList cfg.encoding else A))).1 = 0
            then "250 Rename ok.\r\n".toList else "550 Rename failed.\r\n".toList),
          renameFromPath := [],
          cmdLog := s.cmdLog ++ [("RNTO".toList,
            if s.utf8 then convertEncoding sys A "UTF-8".toList cfg.encoding else A)] }, true) := by
  unfold FTPServer.ProcessCommand
  dsimp only
  generalize (if s.utf8 = true then convertEncoding sys A "UTF-8".toList cfg.encoding
    else A) = P at hne ⊢
  rw [hc, if_neg (by decide), if_neg (by decide), if_neg (by decide),
    if_neg (by rw [hauth]; decide), if_neg hne]
  unfold FTPServer.ProcessCommand_withParam
  rw [if_neg (by decide), if_neg (by decide), if_neg (by decide), if_neg (by decide),
    if_neg (by decide), if_neg (by decide), if_pos rfl]
  dsimp only
  by_cases e : s.renameFromPath = []
  · rw [if_pos e, if_pos e]
    rfl
  · rw [if_neg e, if_neg e]
    by_cases e2 : (sys.rename s.w s.renameFromPath (s.currentDir ++ "/".toList ++ P)).1 = 0
    · rw [if_pos e2, if_pos e2]; rfl
    · rw [if_neg e2, if_neg e2]; rfl

theorem ProcessCommand_RNTO_unset (sys : Sys W) (cfg : ServerInfo) (io : Nat)
    (s : FTPServer W) (cmd A : Bytes) (hc : ToUpperCase cmd = "RNTO".toList)
    (hauth : s.certified = true) (hr : s.renameFromPath = [])
    (hne : (if s.utf8 then convertEncoding sys A "UTF-8".toList cfg.encoding else A) ≠ []) :
    ∃ u, FTPServer.ProcessCommand sys cfg io s cmd A = some (u, true) ∧
      u.sWaitSend = s.sWaitSend ++ "503 RNFR required.\r\n".toList ∧
      u.w = s.w ∧ u.renameFromPath = [] := by
  have hrun := ProcessCommand_RNTO sys cfg io s cmd A hc hauth hne
  rw [if_pos hr] at hrun
  exact ⟨_, hrun, rfl, rfl, hr⟩

/-- C19: on an authenticated session, for `RNTO` in any letter case with a parameter that is
not empty when it reaches the handlers, ProcessCommand returns ready with a session `t` such
that: (1) `renameFromPath` of `t` is empty, whatever the reply; (2) when `renameFromPath`
was empty the reply is "503 RNFR required.\r\n" and only the send buffer and the log line
change, so no file is renamed; (3) the reply is "250 Rename ok.\r\n" exactly when
`renameFromPath` was set and `rename` from it to current directory/parameter returned 0;
(4) a second `RNTO` right after it replies 503 and leaves the world alone; (5) if the
session has the history `H` and the reply is 250, then `H` holds an `RNFR` that replied
"350 Ready for RNTO.\r\n" after which no `RNTO` reached its handler; (6) this applies to
every session the events of the reactor produce from a new session. -/
theorem C19_rnto_needs_pending_rnfr (sys : Sys W) (cfg : ServerInfo) (io : Nat)
    (s : FTPServer W) (cmd A : Bytes) (hc : ToUpperCase cmd = "RNTO".toList)
    (hauth : s.certified = true)
    (hne : (if s.utf8 then convertEncoding sys A "UTF-8".toList cfg.encoding else A) ≠ []) :
    ∃ t, FTPServer.ProcessCommand sys cfg io s cmd A = some (t, true) ∧
      t.renameFromPath = [] ∧
      (s.renameFromPath = [] →
        t = { s with
          sWaitSend := s.sWaitSend ++ "503 RNFR required.\r\n".toList,
          cmdLog := s.cmdLog ++ [("RNTO".toList,
            if s.utf8 then convertEncoding sys A "UTF-8".toList cfg.encoding else A)] }) ∧
      (t.sWaitSend = s.sWaitSend ++ "250 Rename ok.\r\n".toList ↔
        (s.renameFromPath ≠ [] ∧
          (sys.rename s.w s.renameFromPath (s.currentDir ++ "/".toList ++
            (if s.utf8 then convertEncoding sys A "UTF-8".toList cfg.encoding else A))).1 = 0)) ∧
      (∀ (cmd2 B : Bytes), ToUpperCase cmd2 = "RNTO".toList →
        (if t.utf8 then convertEncoding sys B "UTF-8".toList cfg.encoding else B) ≠ [] →
        ∃ u, FTPServer.ProcessCommand sys cfg io t cmd2 B = some (u, true) ∧
          u.sWaitSend = t.sWaitSend ++ "503 RNFR required.\r\n".toList ∧
          u.w = t.w ∧ u.renameFromPath = []) ∧
      (∀ (H : List (Dispatch W)), History sys cfg io H s →
        t.sWaitSend = s.sWaitSend ++ "250 Rename ok.\r\n".toList →
        ∃ (H1 : List (Dispatch W)) (d : Dispatch W) (H2 : List (Dispatch W)),
          H = H1 ++ d :: H2 ∧ d.rnfr350 ∧ ∀ e ∈ H2, ¬ Dispatch.rnto sys cfg e) ∧
      (∀ (fuel : Nat) (es : List Event) (evb : EVBuffer) (info : ConnectionInfo) (w : W),
        FTPServer.runEvents sys cfg io fuel es (FTPServer.new cfg evb info w) = some s →
        ∃ H, History sys cfg io H s) := by
  have hiff : ∀ (x : FTPServer W) (P : Bytes),
      (if x.renameFromPath = [] then
        some (({ x with
          sWaitSend := x.sWaitSend ++ "503 RNFR required.\r\n".toList,
          cmdLog := x.cmdLog ++ [("RNTO".toList, P)] } : FTPServer W), true)
      else
        some ({ x with
          w := (sys.rename x.w x.renameFromPath (x.currentDir ++ "/".toList ++ P)).2,
          sWaitSend := x.sWaitSend ++
            (if (sys.rename x.w x.renameFromPath (x.currentDir ++ "/".toList ++ P)).1 = 0
            then "250 Rename ok.\r\n".toList else "550 Rename failed.\r\n".toList),
          renameFromPath := [],
          cmdLog := x.cmdLog ++ [("RNTO".toList, P)] }, true)) =
      some (({ x with
          w := if x.renameFromPath = [] then x.w
            else (sys.rename x.w x.renameFromPath (x.currentDir ++ "/".toList ++ P)).2,
          sWaitSend := x.sWaitSend ++
            (if x.renameFromPath = [] then "503 RNFR required.\r\n".toList
            else if (sys.rename x.w x.renameFromPath (x.currentDir ++ "/".toList ++ P)).1 = 0
            then "250 Rename ok.\r\n".toList else "550 Rename failed.\r\n".toList),
          renameFromPath := [],
          cmdLog := x.cmdLog ++ [("RNTO".toList, P)] } : FTPServer W), true) := by
    intro x P
    by_cases e : x.renameFromPath = []
    · rw [if_pos e, if_pos e, if_pos e]
      rcases x with ⟨_, _, _, _, _, _, _, _, _, _, _, r, _⟩
      simp only at e
      subst e
      rfl
    · rw [if_neg e, if_neg e, if_neg e]
  have hrun := ProcessCommand_RNTO sys cfg io s cmd A hc hauth hne
  generalize (if s.utf8 = true then convertEncoding sys A "UTF-8".toList cfg.encoding
    else A) = P at hne hrun ⊢
  rw [hiff s P] at hrun
  refine ⟨_, hrun, rfl, ?_, ?_, ?_, ?_, ?_⟩
  · intro e
    simp only [e, if_true]
  · show s.sWaitSend ++ _ = s.sWaitSend ++ _ ↔ _
    constructor
    · intro hx
      have hx2 := List.append_cancel_left hx
      by_cases e : s.renameFromPath = []
      · rw [if_pos e] at hx2
        exact absurd hx2 (by decide)
      · rw [if_neg e] at hx2
        refine ⟨e, ?_⟩
        by_contra e2
        rw [if_neg e2] at hx2
        exact absurd hx2 (by decide)
    · rintro ⟨e, e2⟩
      rw [if_neg e, if_pos e2]
  · intro cmd2 B hc2 hne2
    exact ProcessCommand_RNTO_unset sys cfg io _ cmd2 B hc2 hauth rfl hne2
  · intro H hH hx
    refine History.rename_pending sys cfg io H s hH ?_
    intro e
    have hx2 : s.sWaitSend ++ _ = s.sWaitSend ++ _ := hx
    have hx3 := List.append_cancel_left hx2
    rw [if_pos e] at hx3
    exact absurd hx3 (by decide)
  · intro fuel es evb info w h
    obtain ⟨H1, h1⟩ := runEvents_History sys cfg io fuel es _ s [] (History.start evb info w) h
    exact ⟨_, h1⟩

/-- The witness of C19: after `RNFR a` on a directory holding `a`, `rnto b` replies 250 and
empties the rename source, and an `RNTO c` right after it replies 503 and leaves the world
alone. -/
theorem C19_rnto_needs_pending_rnfr_witness :
    (osRenaming.certified = true ∧ osRenaming.renameFromPath = "/srv/a".toList) ∧
    ∃ t, FTPServer.ProcessCommand osSys (simCfg true false) 10 osRenaming "rnto".toList
        "b".toList = some (t, true) ∧
      t.renameFromPath = [] ∧
      t.sWaitSend = osRenaming.sWaitSend ++ "250 Rename ok.\r\n".toList ∧
      ∃ u, FTPServer.ProcessCommand osSys (simCfg true false) 10 t "RNTO".toList
          "c".toList = some (u, true) ∧
        u.sWaitSend = t.sWaitSend ++ "503 RNFR required.\r\n".toList ∧
        u.w = t.w ∧ u.renameFromPath = [] := by
  refine ⟨by decide, ?_⟩
  obtain ⟨t, h1, h2, _, h4, h5, _⟩ :=
    C19_rnto_needs_pending_rnfr osSys (simCfg true false) 10 osRenaming "rnto".toList
      "b".toList (by decide) (by decide) (by decide)
  exact ⟨t, h1, h2, h4.2 ⟨by decide, by decide⟩,
    h5 "RNTO".toList "c".toList (by decide) (by split <;> decide)⟩


/-! ## Decimal numbers in PASV and PORT (C13) -/

theorem digitChar_lt_ten : ∀ m, m < 10 →
    (Nat.digitChar m).isDigit = true ∧ (Nat.digitChar m).toNat - 48 = m := by
  decide

theorem toDigitsCore_isDigit : ∀ (fuel n : Nat) (ds : List Char),
    (∀ c ∈ ds, c.isDigit = true) → ∀ c ∈ Nat.toDigitsCore 10 fuel n ds, c.isDigit = true := by
  intro fuel
  induction fuel with
  | zero => intro n ds h; simpa [Nat.toDigitsCore] using h
  | succ k ih =>
    intro n ds h
    have hd : ∀ c ∈ Nat.digitChar (n % 10) :: ds, c.isDigit = true := by
      intro c hc
      rcases List.mem_cons.1 hc with hc | hc
      · rw [hc]; exact (digitChar_lt_ten _ (Nat.mod_lt _ (by decide))).1
      · exact h c hc
    rw [Nat.toDigitsCore]
    split
    · exact hd
    · exact ih _ _ hd

theorem toDigitsCore_ne_nil : ∀ (fuel n : Nat) (ds : List Char),
    ds ≠ [] → Nat.toDigitsCore 10 fuel n ds ≠ [] := by
  intro fuel
  induction fuel with
  | zero => intro n ds h; simpa [Nat.toDigitsCore] using h
  | succ k ih =>
    intro n ds _
    rw [Nat.toDigitsCore]
    split
    · exact List.cons_ne_nil _ _
    · exact ih _ _ (List.cons_ne_nil _ _)

theorem digitsVal_toDigitsCore : ∀ (fuel n : Nat) (ds : List Char), n < fuel →
    digitsVal (Nat.toDigitsCore 10 fuel n ds) 0 = digitsVal ds n := by
  intro fuel
  induction fuel with
  | zero => intro n ds h; omega
  | succ k ih =>
    intro n ds h
    have hd := digitChar_lt_ten (n % 10) (Nat.mod_lt _ (by decide))
    have hstep : ∀ acc, digitsVal (Nat.digitChar (n % 10) :: ds) acc
        = digitsVal ds (acc * 10 + n % 10) := by
      intro acc
      rw [digitsVal, if_pos hd.1, hd.2]
    rw [Nat.toDigitsCore]
    split
    · rename_i h0
      rw [hstep]
      have : n % 10 = n := by omega
      rw [Nat.zero_mul, Nat.zero_add, this]
    · rename_i h0
      rw [ih _ _ (by omega), hstep]
      congr 1
      omega

theorem wrapInt32_clamp (n : Nat) (h : n < 2 ^ 31) :
    wrapInt32 (max (-(2 ^ 63)) (min (n : Int) (2 ^ 63 - 1))) = (n : Int) := by
  have h0 : n < 2147483648 := by simpa using h
  have h2 : min (n : Int) (2 ^ 63 - 1) = n := min_eq_left (by norm_num; omega)
  have h3 : max (-(2 ^ 63)) (n : Int) = n := max_eq_right (by norm_num; omega)
  rw [h2, h3]
  unfold wrapInt32
  norm_num
  omega

/-- The text `%d` prints for a natural number: digits only, at least one, and `atoi` reads
the number back when it fits an `int`. -/
theorem fmtInt_nat (n : Nat) :
    (∀ c ∈ fmtInt (n : Int), c.isDigit = true) ∧ fmtInt (n : Int) ≠ [] ∧
      (n < 2 ^ 31 → atoi (fmtInt (n : Int)) = (n : Int)) := by
  have e : fmtInt (n : Int) = Nat.toDigitsCore 10 (n + 1) n [] := rfl
  have h1 : ∀ c ∈ fmtInt (n : Int), c.isDigit = true := by
    rw [e]
    exact toDigitsCore_isDigit _ _ _ (fun c hc => by cases hc)
  have h2 : fmtInt (n : Int) ≠ [] := by
    rw [e, Nat.toDigitsCore]
    split
    · exact List.cons_ne_nil _ _
    · exact toDigitsCore_ne_nil _ _ _ (List.cons_ne_nil _ _)
  refine ⟨h1, h2, fun hn => ?_⟩
  have h3 : digitsVal (fmtInt (n : Int)) 0 = n := by
    rw [e, digitsVal_toDigitsCore _ _ _ (Nat.lt_succ_self n)]
    rfl
  unfold atoi
  dsimp only
  cases hf : fmtInt (n : Int) with
  | nil => exact absurd hf h2
  | cons c cs =>
    have hc : c.isDigit = true := h1 c (by rw [hf]; exact List.mem_cons_self _ _)
    have hsp : isspace c = false := by
      cases hs : isspace c
      · rfl
      · exfalso
        simp only [isspace, Bool.or_eq_true, decide_eq_true_eq] at hs
        rcases hs with ((((hs | hs) | hs) | hs) | hs) | hs <;>
          (rw [hs] at hc; revert hc; decide)
    rw [List.dropWhile_cons_of_neg (by rw [hsp]; decide)]
    have hm : c ≠ '-' := by intro hx; rw [hx] at hc; revert hc; decide
    have hp : c ≠ '+' := by intro hx; rw [hx] at hc; revert hc; decide
    rw [hf] at h3
    split
    · rename_i heq; cases heq; exact absurd rfl hm
    · rename_i heq; cases heq; exact absurd rfl hp
    · rw [h3]
      exact wrapInt32_clamp n hn

theorem getlineAux_append (delim : Char) : ∀ (x rest cur : Bytes), delim ∉ x →
    getlineAux delim (x ++ rest) cur = getlineAux delim rest (cur ++ x) := by
  intro x
  induction x with
  | nil => intro rest cur _; simp
  | cons c cs ih =>
    intro rest cur h
    have hc : c ≠ delim := fun e => h (by rw [e]; exact List.mem_cons_self _ _)
    have hcs : delim ∉ cs := fun e => h (List.mem_cons_of_mem _ e)
    rw [List.cons_append, getlineAux, if_neg hc, ih _ _ hcs]
    simp

/-- An item up to a delimiter. -/
theorem getlineAux_item (delim : Char) (x rest : Bytes) (h : delim ∉ x) :
    getlineAux delim (x ++ delim :: rest) [] = x :: getlineAux delim rest [] := by
  rw [getlineAux_append delim x _ _ h, getlineAux, if_pos rfl]
  simp

/-- The last item, which no delimiter follows. -/
theorem getlineAux_last (delim : Char) (x : Bytes) (h : delim ∉ x) (hne : x ≠ []) :
    getlineAux delim x [] = [x] := by
  have := getlineAux_append delim x [] [] h
  rw [List.append_nil] at this
  rw [this, getlineAux]
  simp [hne]

theorem fmtInt_no_delim (n : Nat) (delim : Char) (hd : delim.isDigit = false) :
    delim ∉ fmtInt (n : Int) := by
  intro h
  have := (fmtInt_nat n).1 delim h
  rw [hd] at this
  cases this

theorem getlineAll_four (delim : Char) (x1 x2 x3 x4 : Bytes) (h1 : delim ∉ x1)
    (h2 : delim ∉ x2) (h3 : delim ∉ x3) (h4 : delim ∉ x4) (hne : x4 ≠ []) :
    getlineAll delim (x1 ++ [delim] ++ x2 ++ [delim] ++ x3 ++ [delim] ++ x4)
      = [x1, x2, x3, x4] := by
  have e : x1 ++ [delim] ++ x2 ++ [delim] ++ x3 ++ [delim] ++ x4
      = x1 ++ delim :: (x2 ++ delim :: (x3 ++ delim :: x4)) := by simp
  unfold getlineAll
  rw [e, getlineAux_item delim _ _ h1, getlineAux_item delim _ _ h2,
    getlineAux_item delim _ _ h3, getlineAux_last delim _ h4 hne]

theorem getlineAll_six (delim : Char) (x1 x2 x3 x4 x5 x6 : Bytes) (h1 : delim ∉ x1)
    (h2 : delim ∉ x2) (h3 : delim ∉ x3) (h4 : delim ∉ x4) (h5 : delim ∉ x5)
    (h6 : delim ∉ x6) (hne : x6 ≠ []) :
    getlineAll delim (x1 ++ [delim] ++ x2 ++ [delim] ++ x3 ++ [delim] ++ x4 ++ [delim] ++ x5
      ++ [delim] ++ x6) = [x1, x2, x3, x4, x5, x6] := by
  have e : x1 ++ [delim] ++ x2 ++ [delim] ++ x3 ++ [delim] ++ x4 ++ [delim] ++ x5
      ++ [delim] ++ x6
      = x1 ++ delim :: (x2 ++ delim :: (x3 ++ delim :: (x4 ++ delim :: (x5 ++ delim :: x6)))) := by
    simp
  unfold getlineAll
  rw [e, getlineAux_item delim _ _ h1, getlineAux_item delim _ _ h2,
    getlineAux_item delim _ _ h3, getlineAux_item delim _ _ h4, getlineAux_item delim _ _ h5,
    getlineAux_last delim _ h6 hne]

theorem fmtInt_length (n : Nat) (h : n < 256) : (fmtInt (n : Int)).length ≤ 3 := by
  have key : ∀ m : Fin 256, (fmtInt ((m : Nat) : Int)).length ≤ 3 := by decide
  exact key ⟨n, h⟩

/-- C13: let the configured address be the text b1.b2.b3.b4 of four octets (numbers up to
255) and let P be a port below 65536. (1) p1 = P / 256 and p2 = P % 256 are below 256 and
p1 * 256 + p2 = P. (2) When `socket`, `bind` and `listen` succeed and `getsockname` reports
the port P, HandlePASV appends exactly "227 Entering Passive Mode (b1,b2,b3,b4,p1,p2)\r\n"
and sets the passive mode. (3) On any session on which `socket` succeeds, HandlePORT applied
to the text "b1,b2,b3,b4,p1,p2" records the address "b1.b2.b3.b4" and the port P, sets the
active mode and appends exactly "200 PORT command successful.\r\n"; the address fits the
buffer `ip`. -/
theorem C13_pasv_reply_port_roundtrip (sys : Sys W) (cfg : ServerInfo)
    (b1 b2 b3 b4 P : Nat)
    (hb1 : b1 ≤ 255) (hb2 : b2 ≤ 255) (hb3 : b3 ≤ 255) (hb4 : b4 ≤ 255)
    (hip : cfg.ip = fmtInt b1 ++ ".".toList ++ fmtInt b2 ++ ".".toList ++ fmtInt b3
      ++ ".".toList ++ fmtInt b4)
    (hP : P < 65536) :
    (P / 256 < 256 ∧ P % 256 < 256 ∧ P / 256 * 256 + P % 256 = P) ∧
    (∀ (s : FTPServer W) (w1 : W),
      w1 = (if s.dataSocket ≠ -1 then sys.close s.w s.dataSocket else s.w) →
      0 ≤ (sys.socket w1).1 →
      0 ≤ (sys.bind (sys.setsockopt (sys.socket w1).2 (sys.socket w1).1 .SO_REUSEADDR).2
        (sys.socket w1).1).1 →
      0 ≤ (sys.listen (sys.bind (sys.setsockopt (sys.socket w1).2 (sys.socket w1).1
        .SO_REUSEADDR).2 (sys.socket w1).1).2 (sys.socket w1).1 1).1 →
      (sys.getsockname_port (sys.listen (sys.bind (sys.setsockopt (sys.socket w1).2
        (sys.socket w1).1 .SO_REUSEADDR).2 (sys.socket w1).1).2 (sys.socket w1).1 1).2
        (sys.socket w1).1).1 = P →
      (FTPServer.HandlePASV sys cfg s).sWaitSend = s.sWaitSend
        ++ "227 Entering Passive Mode (".toList
        ++ (fmtInt b1 ++ ",".toList ++ fmtInt b2 ++ ",".toList ++ fmtInt b3 ++ ",".toList
          ++ fmtInt b4 ++ ",".toList ++ fmtInt ((P / 256 : Nat) : Int) ++ ",".toList
          ++ fmtInt ((P % 256 : Nat) : Int))
        ++ ")\r\n".toList ∧
      (FTPServer.HandlePASV sys cfg s).dataMode = .DATA_MODE_PASSIVE ∧
      (FTPServer.HandlePASV sys cfg s).pasvSocket = (sys.socket w1).1) ∧
    (∀ (s : FTPServer W) (w1 : W),
      w1 = (if s.dataSocket ≠ -1 then sys.close s.w s.dataSocket else s.w) →
      0 ≤ (sys.socket w1).1 →
      FTPServer.HandlePORT sys s
        (fmtInt b1 ++ ",".toList ++ fmtInt b2 ++ ",".toList ++ fmtInt b3 ++ ",".toList
          ++ fmtInt b4 ++ ",".toList ++ fmtInt ((P / 256 : Nat) : Int) ++ ",".toList
          ++ fmtInt ((P % 256 : Nat) : Int)) =
        { s with
          w := (sys.socket w1).2, dataSocket := (sys.socket w1).1,
          clientIP := fmtInt b1 ++ ".".toList ++ fmtInt b2 ++ ".".toList ++ fmtInt b3
            ++ ".".toList ++ fmtInt b4,
          clientPort := (P : Int), dataMode := .DATA_MODE_ACTIVE,
          sWaitSend := s.sWaitSend ++ "200 PORT command successful.\r\n".toList }) := by
  have hdot : ∀ n : Nat, '.' ∉ fmtInt (n : Int) := fun n => fmtInt_no_delim n '.' (by decide)
  have hcom : ∀ n : Nat, ',' ∉ fmtInt (n : Int) := fun n => fmtInt_no_delim n ',' (by decide)
  have hparts : getlineAll '.' cfg.ip
      = [fmtInt b1, fmtInt b2, fmtInt b3, fmtInt b4] := by
    rw [hip]
    exact getlineAll_four '.' _ _ _ _ (hdot _) (hdot _) (hdot _) (hdot _) (fmtInt_nat b4).2.1
  have hsix : getlineAll ','
      (fmtInt b1 ++ ",".toList ++ fmtInt b2 ++ ",".toList ++ fmtInt b3 ++ ",".toList
          ++ fmtInt b4 ++ ",".toList ++ fmtInt ((P / 256 : Nat) : Int) ++ ",".toList
          ++ fmtInt ((P % 256 : Nat) : Int))
      = [fmtInt b1, fmtInt b2, fmtInt b3, fmtInt b4, fmtInt ((P / 256 : Nat) : Int),
          fmtInt ((P % 256 : Nat) : Int)] :=
    getlineAll_six ',' _ _ _ _ _ _ (hcom _) (hcom _) (hcom _) (hcom _) (hcom _) (hcom _)
      (fmtInt_nat _).2.1
  refine ⟨⟨by omega, by omega, by omega⟩, ?_, ?_⟩
  · intro s w1 hw h1 h2 h3 h4
    unfold FTPServer.HandlePASV
    dsimp only
    have hs1 : (if s.dataSocket ≠ -1 then
        ({ s with w := sys.close s.w s.dataSocket, dataSocket := -1 } : FTPServer W)
        else s).w = w1 := by
      rw [hw]; split <;> rfl
    have hs2 : (if s.dataSocket ≠ -1 then
        ({ s with w := sys.close s.w s.dataSocket, dataSocket := -1 } : FTPServer W)
        else s).sWaitSend = s.sWaitSend := by
      split <;> rfl
    rw [hs1, if_neg (not_lt.2 h1), if_neg (not_lt.2 h2), if_neg (not_lt.2 h3), h4, hparts]
    have hm : P % 65536 = P := Nat.mod_eq_of_lt hP
    rw [hm]
    refine ⟨?_, rfl, rfl⟩
    show (if s.dataSocket ≠ -1 then
        ({ s with w := sys.close s.w s.dataSocket, dataSocket := -1 } : FTPServer W)
        else s).sWaitSend ++ _ ++ _ ++ _ = _
    rw [hs2]
    simp only [List.getD_cons_zero, List.getD_cons_succ, List.append_assoc]
  · intro s w1 hw h1
    have p31 : (2 : Nat) ^ 31 = 2147483648 := by norm_num
    have a1 := (fmtInt_nat b1).2.2 (by omega)
    have a2 := (fmtInt_nat b2).2.2 (by omega)
    have a3 := (fmtInt_nat b3).2.2 (by omega)
    have a4 := (fmtInt_nat b4).2.2 (by omega)
    have a5 := (fmtInt_nat (P / 256)).2.2 (by omega)
    have a6 := (fmtInt_nat (P % 256)).2.2 (by omega)
    have l1 := fmtInt_length b1 (by omega)
    have l2 := fmtInt_length b2 (by omega)
    have l3 := fmtInt_length b3 (by omega)
    have l4 := fmtInt_length b4 (by omega)
    have hlen : ¬ 32 ≤ (fmtInt (b1 : Int) ++ ".".toList ++ fmtInt (b2 : Int) ++ ".".toList
        ++ fmtInt (b3 : Int) ++ ".".toList ++ fmtInt (b4 : Int)).length + 1 := by
      simp only [List.length_append]
      have hd : ".".toList.length = 1 := rfl
      omega
    have hport : wrapInt32 (((P / 256 : Nat) : Int) * 256 + ((P % 256 : Nat) : Int))
        = (P : Int) := by
      have e : ((P / 256 : Nat) : Int) * 256 + ((P % 256 : Nat) : Int) = (P : Int) := by
        omega
      rw [e]
      unfold wrapInt32
      norm_num
      omega
    unfold FTPServer.HandlePORT
    dsimp only
    rw [hsix]
    simp only [List.map_cons, List.map_nil, List.getD_cons_zero, List.getD_cons_succ,
      a1, a2, a3, a4, a5, a6]
    rw [if_neg (by simp), if_neg hlen, hport]
    have hs1 : (if s.dataSocket ≠ -1 then
        ({ s with w := sys.close s.w s.dataSocket, dataSocket := -1 } : FTPServer W)
        else s).w = w1 := by
      rw [hw]; split <;> rfl
    rw [hs1, if_neg (not_lt.2 h1)]
    split <;> rfl

/-- The witness of C13: the address 10.0.0.1 and the port 2121 = 8 * 256 + 73. -/
theorem C13_pasv_reply_port_roundtrip_witness :
    (FTPServer.HandlePASV osSys (simCfg true false) (osFresh (osWorld [] [] [] none))).sWaitSend
      = "227 Entering Passive Mode (10,0,0,1,8,73)\r\n".toList ∧
    (FTPServer.HandlePORT osSys (osFresh (osWorld [] [] [] none))
      "10,0,0,1,8,73".toList).clientIP = "10.0.0.1".toList ∧
    (FTPServer.HandlePORT osSys (osFresh (osWorld [] [] [] none))
      "10,0,0,1,8,73".toList).clientPort = 2121 := by
  have h := C13_pasv_reply_port_roundtrip osSys (simCfg true false) 10 0 0 1 2121
    (by decide) (by decide) (by decide) (by decide) (by decide) (by decide)
  have h1 := h.2.1 (osFresh (osWorld [] [] [] none)) _ rfl (by decide) (by decide)
    (by decide) (by decide)
  have h2 := h.2.2 (osFresh (osWorld [] [] [] none)) _ rfl (by decide)
  refine ⟨h1.1, ?_, ?_⟩
  · have e := congrArg FTPServer.clientIP h2
    exact e
  · have e := congrArg FTPServer.clientPort h2
    exact e

/-! ## Upload and download over `osSys` (C17) -/

theorem Os.chunk_le (w : Os) (n : Nat) : w.chunk n ≤ n := by
  unfold Os.chunk
  split
  · exact le_refl _
  · exact Nat.min_le_right _ _

theorem os_close (w : Os) (fd : Int) :
    osSys.close w fd
      = { w with closed := w.closed ++ [fd], fds := w.fds.filter fun e => e.1 ≠ fd } := rfl

theorem OsBase_same (w : Os) : OsBase w w := ⟨rfl, rfl, rfl⟩

theorem DealTask_of_resume (sys : Sys W) (cfg : ServerInfo) (io : Nat) (s : FTPServer W)
    (k : Coro) (t : FTPServer W) (r : Option Coro) (ht : s.task = some k)
    (hr : FTPServer.resume sys cfg io s k = some (t, r)) :
    FTPServer.DealTask sys cfg io s
      = some ({ t with task := r }, decide (r = none)) := by
  unfold FTPServer.DealTask
  rw [ht]
  dsimp only
  rw [hr]
  cases r <;> rfl

/-- C21: for a session without the error flag and any pool, FTPRead and FTPWrite return
true. When the queue is full (`maxSize ≤` its length) the pool is unchanged and the session
is the old one with `enableFree = true` and its events enabled; when the queue has room the
pool is the old one with exactly one task of the matching type for this session at the tail,
and the session is the old one with `enableFree = false` and its events disabled. For a
session with the error flag both return false and leave the session and the pool as they
were. -/
theorem C21_event_submission (pool : ThreadPool) (ctx : Nat) (s : FTPServer W) :
    (s.error = false →
      ((FTPRead pool ctx s).1 = true ∧ (FTPWrite pool ctx s).1 = true) ∧
      (pool.maxSize ≤ pool.tasks.length →
        (pool.Append { type := .FTP_TASK_TYPE_READ, ftpServer := ctx }).1 = false ∧
        (pool.Append { type := .FTP_TASK_TYPE_WRITE, ftpServer := ctx }).1 = false ∧
        (FTPRead pool ctx s).2 =
          ({ s with enableFree := true, evb := { s.evb with enabled := true } }, pool) ∧
        (FTPWrite pool ctx s).2 =
          ({ s with enableFree := true, evb := { s.evb with enabled := true } }, pool)) ∧
      (pool.tasks.length < pool.maxSize →
        (FTPRead pool ctx s).2 =
          ({ s with enableFree := false, evb := { s.evb with enabled := false } },
            { pool with
              tasks := pool.tasks ++ [{ type := .FTP_TASK_TYPE_READ, ftpServer := ctx }] }) ∧
        (FTPWrite pool ctx s).2 =
          ({ s with enableFree := false, evb := { s.evb with enabled := false } },
            { pool with
              tasks := pool.tasks
                ++ [{ type := .FTP_TASK_TYPE_WRITE, ftpServer := ctx }] }))) ∧
    (s.error = true →
      FTPRead pool ctx s = (false, s, pool) ∧ FTPWrite pool ctx s = (false, s, pool)) := by
  have hr : s.error = false → FTPRead pool ctx s =
      (if (pool.Append { type := .FTP_TASK_TYPE_READ, ftpServer := ctx }).1 = false then
        (true, s.DisableRW.EnableRW,
          (pool.Append { type := .FTP_TASK_TYPE_READ, ftpServer := ctx }).2)
      else (true, s.DisableRW,
          (pool.Append { type := .FTP_TASK_TYPE_READ, ftpServer := ctx }).2)) := by
    intro he
    unfold FTPRead FTPServer.CheakError
    rw [he]
    rfl
  have hw : s.error = false → FTPWrite pool ctx s =
      (if (pool.Append { type := .FTP_TASK_TYPE_WRITE, ftpServer := ctx }).1 = false then
        (true, s.DisableRW.EnableRW,
          (pool.Append { type := .FTP_TASK_TYPE_WRITE, ftpServer := ctx }).2)
      else (true, s.DisableRW,
          (pool.Append { type := .FTP_TASK_TYPE_WRITE, ftpServer := ctx }).2)) := by
    intro he
    unfold FTPWrite FTPServer.CheakError
    rw [he]
    rfl
  refine ⟨fun he => ⟨?_, ?_, ?_⟩, fun he => ?_⟩
  · rw [hr he, hw he]
    constructor <;> split <;> rfl
  · intro hfull
    have ha : ∀ task, pool.Append task = (false, pool) := by
      intro task
      unfold ThreadPool.Append
      rw [if_pos hfull]
    rw [hr he, hw he, ha, ha]
    exact ⟨rfl, rfl, rfl, rfl⟩
  · intro hroom
    have ha : ∀ task, pool.Append task = (true, { pool with tasks := pool.tasks ++ [task] }) := by
      intro task
      unfold ThreadPool.Append
      rw [if_neg (by omega)]
    rw [hr he, hw he, ha, ha]
    exact ⟨rfl, rfl⟩
  · unfold FTPRead FTPWrite FTPServer.CheakError
    rw [he]
    exact ⟨rfl, rfl⟩

/-- The witness of C21: a fresh session and a pool of capacity 1 holding one task (full),
where the session is left re-armed. -/
theorem C21_event_submission_witness :
    (FTPRead { flag := true, maxSize := 1, tasks := [{ type := .FTP_TASK_TYPE_ACCEPT, ftpServer := 7 }] }
        8 (simFresh true false 0)).1 = true ∧
      (FTPRead { flag := true, maxSize := 1, tasks := [{ type := .FTP_TASK_TYPE_ACCEPT, ftpServer := 7 }] }
        8 (simFresh true false 0)).2.1.enableFree = true ∧
      (FTPRead { flag := true, maxSize := 1, tasks := [{ type := .FTP_TASK_TYPE_ACCEPT, ftpServer := 7 }] }
        8 (simFresh true false 0)).2.2.tasks.length = 1 := by
  have h := (C21_event_submission
    { flag := true, maxSize := 1, tasks := [{ type := .FTP_TASK_TYPE_ACCEPT, ftpServer := 7 }] }
    8 (simFresh true false 0)).1 rfl
  refine ⟨h.1.1, ?_, ?_⟩
  · rw [(h.2.1 (by decide)).2.2.1]
  · rw [(h.2.1 (by decide)).2.2.1]
    rfl


/-- C24, the code at the failing input: on a logged-in session not in UTF-8 mode whose
current directory is the configured root /srv, `PWD` with an empty parameter appends
"257 \"/srv\"\r\n", but `XPWD` (and `xpwd`) with an empty parameter appends
"501 Syntax error\r\n": the branch for an empty parameter tests `cmd == "PWD"` only. -/
theorem C24_xpwd_is_not_recognised :
    (simLoggedIn true false 0).currentDir = (simCfg true false).dir ∧
    FTPServer.ProcessCommand simSys (simCfg true false) 0 (simLoggedIn true false 0)
        "PWD".toList []
      = some ({ simLoggedIn true false 0 with
                sWaitSend := "257 \"/srv\"\r\n".toList,
                cmdLog := [("PWD".toList, [])] }, true) ∧
    FTPServer.ProcessCommand simSys (simCfg true false) 0 (simLoggedIn true false 0)
        "XPWD".toList []
      = some ({ simLoggedIn true false 0 with
                sWaitSend := "501 Syntax error\r\n".toList,
                cmdLog := [("XPWD".toList, [])] }, true) ∧
    FTPServer.ProcessCommand simSys (simCfg true false) 0 (simLoggedIn true false 0)
        "xpwd".toList []
      = some ({ simLoggedIn true false 0 with
                sWaitSend := "501 Syntax error\r\n".toList,
                cmdLog := [("XPWD".toList, [])] }, true) := by
  refine ⟨rfl, ?_, ?_, ?_⟩ <;> decide


/-- A `read` that fails ends the loop of a download like the end of the file does: the
routine appends the 226. -/
theorem downloadLoop_read_error (sys : Sys W) (fuel : Nat) (s : FTPServer W) (fh : Int)
    (buf : Bytes) (k : Nat) (hk : ¬ k < buf.length)
    (hr : (sys.read s.w fh 8192).1 = none) :
    FTPServer.downloadLoop sys (fuel + 1) s fh buf k =
      some (FTPServer.closeFile sys
        (({ s with w := (sys.read s.w fh 8192).2 } : FTPServer W).appendSend
          "226 Transfer complete.\r\n".toList) fh, none) := by
  rw [FTPServer.downloadLoop]
  dsimp only
  rw [if_neg hk, hr]

/-- C27, the code at the failing input: the file /srv/f holds "hello world"; after the
login and `PASV`, `RETR f` reads "hello", sends it, and the next `read` fails with EIO. The
routine ends with "226 Transfer complete.\r\n" although only "hello" went out on the data
channel. -/
theorem C27_read_error_still_replies_226 :
    ∃ s, FTPServer.runEvents osSysReadError (simCfg true false) 100 100
          [.ACCEPT, .READ "USER anonymous\r\nPASS x\r\nPASV\r\nRETR f\r\n".toList]
          (osFresh (osWorld [("/srv/f".toList, "hello world".toList)] [] [5] none)) = some s ∧
      s.task = none ∧ s.w.errno = 5 ∧ s.w.outbox = "hello".toList ∧
      s.w.files = [("/srv/f".toList, "hello world".toList)] ∧
      s.evb.output = "220 Welcome\r\n".toList ++ "331 User name okay, need password.\r\n".toList
        ++ "230 User logged in.\r\n".toList
        ++ "227 Entering Passive Mode (10,0,0,1,8,73)\r\n".toList
        ++ "150 Opening data connection for f.\r\n".toList
        ++ "226 Transfer complete.\r\n".toList := by
  refine ⟨_, rfl, ?_⟩
  decide


/-- In passive mode a failure of `accept` with an errno other than EAGAIN makes
EstablishDataConnection return true with `dataSocket = -1`. -/
theorem EstablishDataConnection_accept_error (sys : Sys W) (cfg : ServerInfo)
    (s : FTPServer W) (hm : s.dataMode = .DATA_MODE_PASSIVE) (hp : s.pasvSocket ≠ -1)
    (ha : (sys.accept (sys.setsockopt s.w s.pasvSocket (.SO_RCVTIMEO cfg.rwtimeout)).2
      s.pasvSocket).1 = -1)
    (he : ¬ (sys.errno (sys.close (sys.accept (sys.setsockopt s.w s.pasvSocket
        (.SO_RCVTIMEO cfg.rwtimeout)).2 s.pasvSocket).2 s.pasvSocket) = EAGAIN ∨
      sys.errno (sys.close (sys.accept (sys.setsockopt s.w s.pasvSocket
        (.SO_RCVTIMEO cfg.rwtimeout)).2 s.pasvSocket).2 s.pasvSocket) = EWOULDBLOCK)) :
    (FTPServer.EstablishDataConnection sys cfg s).1 = true ∧
      (FTPServer.EstablishDataConnection sys cfg s).2.dataSocket = -1 := by
  unfold FTPServer.EstablishDataConnection
  rw [hm]
  dsimp only
  unfold FTPServer.EstablishPassive
  rw [if_neg hp]
  dsimp only
  rw [if_neg (fun hx => he hx.2)]
  exact ⟨rfl, ha⟩

/-- C26, the code at the failing input: after the login and `PASV`, with an `accept` that
fails with ECONNABORTED, EstablishDataConnection returns true with `dataSocket = -1`;
`RETR f` then opens the file (descriptor 4) and ends with the 426 of the failed send, and
`STOR f` creates and truncates the file and ends with the 426 of the failed recv; neither
replies "425 Can't open data connection.\r\n". -/
theorem C26_accept_failure_returns_true :
    (∃ s, FTPServer.runEvents osSysBadFd (simCfg true false) 100 100
          [.ACCEPT, .READ "USER anonymous\r\nPASS x\r\nPASV\r\n".toList]
          (osFresh (osWorld [("/srv/f".toList, "hello world".toList)] [] []
            (some ECONNABORTED))) = some s ∧
      s.dataMode = .DATA_MODE_PASSIVE ∧ s.pasvSocket = 3 ∧
      (FTPServer.EstablishDataConnection osSysBadFd (simCfg true false) s).1 = true ∧
      (FTPServer.EstablishDataConnection osSysBadFd (simCfg true false) s).2.dataSocket = -1 ∧
      (FTPServer.EstablishDataConnection osSysBadFd (simCfg true false) s).2.w.errno
        = ECONNABORTED) ∧
    (∃ s, FTPServer.runEvents osSysBadFd (simCfg true false) 100 100
          [.ACCEPT, .READ "USER anonymous\r\nPASS x\r\nPASV\r\nRETR f\r\n".toList]
          (osFresh (osWorld [("/srv/f".toList, "hello world".toList)] [] []
            (some ECONNABORTED))) = some s ∧
      s.task = none ∧ s.w.opened = [3, 4] ∧
      s.evb.output = "220 Welcome\r\n".toList ++ "331 User name okay, need password.\r\n".toList
        ++ "230 User logged in.\r\n".toList
        ++ "227 Entering Passive Mode (10,0,0,1,8,73)\r\n".toList
        ++ "150 Opening data connection for f.\r\n".toList
        ++ "426 Connection error during transfer.\r\n".toList) ∧
    (∃ s, FTPServer.runEvents osSysBadFd (simCfg true false) 100 100
          [.ACCEPT, .READ "USER anonymous\r\nPASS x\r\nPASV\r\nSTOR f\r\n".toList]
          (osFresh (osWorld [("/srv/f".toList, "hello world".toList)] [] []
            (some ECONNABORTED))) = some s ∧
      s.task = none ∧ s.w.opened = [3, 4] ∧ s.w.files = [("/srv/f".toList, [])] ∧
      s.evb.output = "220 Welcome\r\n".toList ++ "331 User name okay, need password.\r\n".toList
        ++ "230 User logged in.\r\n".toList
        ++ "227 Entering Passive Mode (10,0,0,1,8,73)\r\n".toList
        ++ "150 Opening data connection for f.\r\n".toList
        ++ "426 Connection error during transfer.\r\n".toList) := by
  refine ⟨⟨_, rfl, ?_⟩, ⟨_, rfl, ?_⟩, ⟨_, rfl, ?_⟩⟩ <;> decide


theorem CloseDataConnection_sockets (sys : Sys W) (s : FTPServer W) :
    (FTPServer.CloseDataConnection sys s).dataSocket = -1 ∧
      (FTPServer.CloseDataConnection sys s).pasvSocket = -1 := by
  unfold FTPServer.CloseDataConnection
  dsimp only
  by_cases h1 : s.dataSocket ≠ -1
  · rw [if_pos h1]
    by_cases h2 : s.pasvSocket ≠ -1
    · rw [if_pos h2]; exact ⟨rfl, rfl⟩
    · rw [if_neg h2]; exact ⟨rfl, not_not.1 h2⟩
  · rw [if_neg h1]
    by_cases h2 : s.pasvSocket ≠ -1
    · rw [if_pos h2]; exact ⟨not_not.1 h1, rfl⟩
    · rw [if_neg h2]; exact ⟨not_not.1 h1, not_not.1 h2⟩

/-- C29: (1) a routine parked at any of its awaits and resumed with the error flag set
ends at once; the session it returns is the old one except that the file the routine held,
if it held one, has been closed: nothing is appended to the send buffer and no other system
call is made. (2) Destroying a session that holds a parked routine returns (whatever the
fuel): the routine is resumed once, with the error flag set, so that it closes its file,
then CloseDataConnection runs; in the session that results `dataSocket` and `pasvSocket`
are -1, no routine is stored and the send buffer is as it was. -/
theorem C29_error_resumption_releases (sys : Sys W) (cfg : ServerInfo) (fuel : Nat)
    (s : FTPServer W) (k : Coro) :
    (s.error = true →
      FTPServer.resume sys cfg fuel s k =
        some ({ s with
          w := match k.fileHandle with
            | some fh => sys.close s.w fh
            | none => s.w }, none)) ∧
    (s.task = some k →
      ∃ t, FTPServer.destroy sys cfg fuel s = some t ∧
        t = FTPServer.CloseDataConnection sys
          { s with
            error := true, task := none,
            w := match k.fileHandle with
              | some fh => sys.close s.w fh
              | none => s.w } ∧
        t.dataSocket = -1 ∧ t.pasvSocket = -1 ∧ t.task = none ∧
        t.sWaitSend = s.sWaitSend) := by
  have h1 : ∀ x : FTPServer W, x.error = true →
      FTPServer.resume sys cfg fuel x k =
        some ({ x with
          w := match k.fileHandle with
            | some fh => sys.close x.w fh
            | none => x.w }, none) := by
    intro x he
    cases k <;> (unfold FTPServer.resume; dsimp only; rw [if_pos he]; rfl)
  refine ⟨h1 s, fun ht => ?_⟩
  have hd : FTPServer.destroy sys cfg fuel s = some (FTPServer.CloseDataConnection sys
      { s with
        error := true, task := none,
        w := match k.fileHandle with
          | some fh => sys.close s.w fh
          | none => s.w }) := by
    unfold FTPServer.destroy
    dsimp only
    rw [ht]
    dsimp only
    rw [h1 { s with error := true, task := some k } rfl]
  refine ⟨_, hd, rfl, (CloseDataConnection_sockets sys _).1,
    (CloseDataConnection_sockets sys _).2, (frame_CloseDataConnection sys _).task, ?_⟩
  rw [CloseDataConnection_sWaitSend]

/-- The witness of C29: the parked upload of `osParkedUpload` holds the descriptors 3, 4
and 5; its destruction closes the file, the data socket and the listener. -/
theorem C29_error_resumption_releases_witness :
    osParkedUpload.task = some (.uploadRecv 5) ∧ osParkedUpload.w.opened = [3, 4, 5] ∧
    osParkedUpload.w.closed = [] ∧
    ∃ t, FTPServer.destroy osSys (simCfg true false) 10 osParkedUpload = some t ∧
      t.w.closed = [5, 4, 3] ∧ t.dataSocket = -1 ∧ t.pasvSocket = -1 ∧ t.task = none ∧
      t.sWaitSend = osParkedUpload.sWaitSend := by
  refine ⟨by decide, by decide, by decide, ?_⟩
  obtain ⟨t, g1, g2, g3, g4, g5, g6⟩ :=
    (C29_error_resumption_releases osSys (simCfg true false) 10 osParkedUpload
      (.uploadRecv 5)).2 (by decide)
  refine ⟨t, g1, ?_, g3, g4, g5, g6⟩
  rw [g2]
  decide


/-! ## The parameter shapes of the command table (C25) -/

theorem convertEncoding_nil (sys : Sys W) (a b : Bytes) : convertEncoding sys [] a b = [] := by
  unfold convertEncoding
  rw [if_pos rfl]

/-- A command that is not USER, PASS or OPTS on a session that is not authenticated. -/
theorem ProcessCommand_denied (sys : Sys W) (cfg : ServerInfo) (io : Nat) (s : FTPServer W)
    (cmd param : Bytes)
    (h : ToUpperCase cmd ∉ ["USER".toList, "PASS".toList, "OPTS".toList])
    (hauth : s.certified = false) :
    FTPServer.ProcessCommand sys cfg io s cmd param =
      some ({ s with
        sWaitSend := s.sWaitSend ++ "550 Permission denied.\r\n".toList,
        cmdLog := s.cmdLog ++ [(ToUpperCase cmd,
          if s.utf8 then convertEncoding sys param "UTF-8".toList cfg.encoding else param)] },
        true) := by
  simp only [List.mem_cons, List.not_mem_nil, or_false, not_or] at h
  obtain ⟨h1, h2, h3⟩ := h
  unfold FTPServer.ProcessCommand
  dsimp only
  rw [if_neg h1, if_neg h2, if_neg h3, if_pos hauth]
  rfl

/-- A command without a parameter that no branch for an empty parameter knows, on an
authenticated session. -/
theorem ProcessCommand_empty_unknown (sys : Sys W) (cfg : ServerInfo) (io : Nat)
    (s : FTPServer W) (cmd : Bytes)
    (h : ToUpperCase cmd ∉ ["USER".toList, "PASS".toList, "OPTS".toList, "PWD".toList,
      "SYST".toList, "FEAT".toList, "QUIT".toList, "NOOP".toList, "TYPE".toList,
      "PASV".toList, "LIST".toList, "NLST".toList])
    (hauth : s.certified = true) :
    FTPServer.ProcessCommand sys cfg io s cmd [] =
      some ({ s with
        sWaitSend := s.sWaitSend ++ "501 Syntax error\r\n".toList,
        cmdLog := s.cmdLog ++ [(ToUpperCase cmd, [])] }, true) := by
  simp only [List.mem_cons, List.not_mem_nil, or_false, not_or] at h
  obtain ⟨h1, h2, h3, h4, h5, h6, h7, h8, h9, h10, h11, h12⟩ := h
  unfold FTPServer.ProcessCommand
  dsimp only
  have hP : (if s.utf8 = true then convertEncoding sys [] "UTF-8".toList cfg.encoding
      else []) = [] := by
    split
    · exact convertEncoding_nil sys _ _
    · rfl
  rw [hP, if_neg h1, if_neg h2, if_neg h3, if_neg (by rw [hauth]; decide), if_pos rfl]
  unfold FTPServer.ProcessCommand_noParam
  rw [if_neg h4, if_neg h5, if_neg h6, if_neg h7, if_neg h8, if_neg h9, if_neg h10,
    if_neg (not_or.2 ⟨h11, h12⟩)]
  rfl

/-- A command with a parameter that no branch for a parameter knows, on an authenticated
session. -/
theorem ProcessCommand_param_unknown (sys : Sys W) (cfg : ServerInfo) (io : Nat)
    (s : FTPServer W) (cmd A : Bytes)
    (h : ToUpperCase cmd ∉ ["USER".toList, "PASS".toList, "OPTS".toList, "CWD".toList,
      "XCWD".toList, "RMD".toList, "TYPE".toList, "PORT".toList, "SIZE".toList,
      "RNFR".toList, "RNTO".toList, "DELE".toList, "RETR".toList, "STOR".toList,
      "MKD".toList, "XMKD".toList])
    (hauth : s.certified = true)
    (hne : (if s.utf8 then convertEncoding sys A "UTF-8".toList cfg.encoding else A) ≠ []) :
    FTPServer.ProcessCommand sys cfg io s cmd A =
      some ({ s with
        sWaitSend := s.sWaitSend ++ "500 Command error.\r\n".toList,
        cmdLog := s.cmdLog ++ [(ToUpperCase cmd,
          if s.utf8 then convertEncoding sys A "UTF-8".toList cfg.encoding else A)] },
        true) := by
  simp only [List.mem_cons, List.not_mem_nil, or_false, not_or] at h
  obtain ⟨h1, h2, h3, h4, h5, h6, h7, h8, h9, h10, h11, h12, h13, h14, h15, h16⟩ := h
  unfold FTPServer.ProcessCommand
  dsimp only
  generalize (if s.utf8 = true then convertEncoding sys A "UTF-8".toList cfg.encoding
    else A) = P at hne ⊢
  rw [if_neg h1, if_neg h2, if_neg h3, if_neg (by rw [hauth]; decide), if_neg hne]
  unfold FTPServer.ProcessCommand_withParam
  rw [if_neg (not_or.2 ⟨h4, h5⟩), if_neg h6, if_neg h7, if_neg h8, if_neg h9, if_neg h10,
    if_neg h11, if_neg h12, if_neg h13, if_neg h14, if_neg (not_or.2 ⟨h15, h16⟩)]
  rfl

/-- `OPTS` without a parameter. -/
theorem ProcessCommand_OPTS_empty (sys : Sys W) (cfg : ServerInfo) (io : Nat)
    (s : FTPServer W) (cmd : Bytes) (h : ToUpperCase cmd = "OPTS".toList) :
    FTPServer.ProcessCommand sys cfg io s cmd [] =
      some ({ s with
        sWaitSend := s.sWaitSend ++ "501 Option not supported.\r\n".toList,
        cmdLog := s.cmdLog ++ [("OPTS".toList, [])] }, true) := by
  unfold FTPServer.ProcessCommand
  dsimp only
  have hP : (if s.utf8 = true then convertEncoding sys [] "UTF-8".toList cfg.encoding
      else []) = [] := by
    split
    · exact convertEncoding_nil sys _ _
    · rfl
  rw [hP, h, if_neg (by decide), if_neg (by decide), if_pos rfl]
  by_cases hu : cfg.utf8 = true
  · rw [if_pos hu, if_neg (by decide), if_neg (by decide)]
    rfl
  · rw [if_neg hu]
    rfl

/-- C25 as stated fails. (1) `USER` with an empty parameter on a logged-in session stores
the empty name and replies 331. (2) On a session that is not authenticated a command word
outside the table gets "550 Permission denied.\r\n", with a parameter and without. -/
theorem C25_counterexample :
    FTPServer.ProcessCommand simSys (simCfg true false) 0 (simLoggedIn true false 0)
        "USER".toList []
      = some ({ simLoggedIn true false 0 with
                user := [],
                sWaitSend := "331 User name okay, need password.\r\n".toList,
                cmdLog := [("USER".toList, [])] }, true) ∧
    (simLoggedIn true false 0).user = "alice".toList ∧
    FTPServer.ProcessCommand simSys (simCfg true false) 0 (simFresh true false 0)
        "FOO".toList "x".toList
      = some ({ simFresh true false 0 with
                sWaitSend := "550 Permission denied.\r\n".toList,
                cmdLog := [("FOO".toList, "x".toList)] }, true) ∧
    FTPServer.ProcessCommand simSys (simCfg true false) 0 (simFresh true false 0)
        "FOO".toList []
      = some ({ simFresh true false 0 with
                sWaitSend := "550 Permission denied.\r\n".toList,
                cmdLog := [("FOO".toList, [])] }, true) := by
  refine ⟨?_, rfl, ?_, ?_⟩ <;> decide

/-- C25, amended. (1) For every session, a command marked '+' other than USER (OPTS, PORT,
CWD, XCWD, MKD, XMKD, RMD, DELE, SIZE, RNFR, RNTO, RETR, STOR, in any letter case)
dispatched with an empty parameter returns ready with the old session to which one reply is
appended, "501 Option not supported.\r\n", "550 Permission denied.\r\n" or
"501 Syntax error\r\n", and the log line; nothing else changes. (2) On an authenticated
session a command marked '-' (PWD, SYST, FEAT, QUIT, NOOP, PASV, LIST, NLST) with a
parameter that is not empty when it reaches the handlers appends only
"500 Command error.\r\n". (3) On an authenticated session a command word outside the table
appends only "500 Command error.\r\n" with such a parameter and "501 Syntax error\r\n"
without a parameter. (4) On a session that is not authenticated a command word outside the
table appends only "550 Permission denied.\r\n", with any parameter and without one. -/
theorem C25_parameter_shapes (sys : Sys W) (cfg : ServerInfo) (io : Nat) (s : FTPServer W)
    (cmd A : Bytes) :
    (ToUpperCase cmd ∈ ["OPTS".toList, "PORT".toList, "CWD".toList, "XCWD".toList,
        "MKD".toList, "XMKD".toList, "RMD".toList, "DELE".toList, "SIZE".toList,
        "RNFR".toList, "RNTO".toList, "RETR".toList, "STOR".toList] →
      ∃ reply, reply ∈ ["501 Option not supported.\r\n".toList,
          "550 Permission denied.\r\n".toList, "501 Syntax error\r\n".toList] ∧
        FTPServer.ProcessCommand sys cfg io s cmd [] =
          some ({ s with
            sWaitSend := s.sWaitSend ++ reply,
            cmdLog := s.cmdLog ++ [(ToUpperCase cmd, [])] }, true)) ∧
    (ToUpperCase cmd ∈ ["PWD".toList, "SYST".toList, "FEAT".toList, "QUIT".toList,
        "NOOP".toList, "PASV".toList, "LIST".toList, "NLST".toList] →
      s.certified = true →
      (if s.utf8 then convertEncoding sys A "UTF-8".toList cfg.encoding else A) ≠ [] →
      FTPServer.ProcessCommand sys cfg io s cmd A =
        some ({ s with
          sWaitSend := s.sWaitSend ++ "500 Command error.\r\n".toList,
          cmdLog := s.cmdLog ++ [(ToUpperCase cmd,
            if s.utf8 then convertEncoding sys A "UTF-8".toList cfg.encoding else A)] },
          true)) ∧
    (ToUpperCase cmd ∉ ["USER".toList, "PASS".toList, "OPTS".toList, "PWD".toList,
        "XPWD".toList, "SYST".toList, "FEAT".toList, "QUIT".toList, "NOOP".toList,
        "TYPE".toList, "PASV".toList, "PORT".toList, "CWD".toList, "XCWD".toList,
        "MKD".toList, "XMKD".toList, "RMD".toList, "DELE".toList, "SIZE".toList,
        "RNFR".toList, "RNTO".toList, "LIST".toList, "NLST".toList, "RETR".toList,
        "STOR".toList] →
      s.certified = true →
      ((if s.utf8 then convertEncoding sys A "UTF-8".toList cfg.encoding else A) ≠ [] →
        FTPServer.ProcessCommand sys cfg io s cmd A =
          some ({ s with
            sWaitSend := s.sWaitSend ++ "500 Command error.\r\n".toList,
            cmdLog := s.cmdLog ++ [(ToUpperCase cmd,
              if s.utf8 then convertEncoding sys A "UTF-8".toList cfg.encoding else A)] },
            true)) ∧
      FTPServer.ProcessCommand sys cfg io s cmd [] =
        some ({ s with
          sWaitSend := s.sWaitSend ++ "501 Syntax error\r\n".toList,
          cmdLog := s.cmdLog ++ [(ToUpperCase cmd, [])] }, true)) ∧
    (ToUpperCase cmd ∉ ["USER".toList, "PASS".toList, "OPTS".toList, "PWD".toList,
        "XPWD".toList, "SYST".toList, "FEAT".toList, "QUIT".toList, "NOOP".toList,
        "TYPE".toList, "PASV".toList, "PORT".toList, "CWD".toList, "XCWD".toList,
        "MKD".toList, "XMKD".toList, "RMD".toList, "DELE".toList, "SIZE".toList,
        "RNFR".toList, "RNTO".toList, "LIST".toList, "NLST".toList, "RETR".toList,
        "STOR".toList] →
      s.certified = false →
      FTPServer.ProcessCommand sys cfg io s cmd A =
        some ({ s with
          sWaitSend := s.sWaitSend ++ "550 Permission denied.\r\n".toList,
          cmdLog := s.cmdLog ++ [(ToUpperCase cmd,
            if s.utf8 then convertEncoding sys A "UTF-8".toList cfg.encoding else A)] },
          true) ∧
      FTPServer.ProcessCommand sys cfg io s cmd [] =
        some ({ s with
          sWaitSend := s.sWaitSend ++ "550 Permission denied.\r\n".toList,
          cmdLog := s.cmdLog ++ [(ToUpperCase cmd, [])] }, true)) := by
  have hP : (if s.utf8 = true then convertEncoding sys [] "UTF-8".toList cfg.encoding
      else []) = [] := by
    split
    · exact convertEncoding_nil sys _ _
    · rfl
  refine ⟨fun h => ?_, fun h hauth hne => ?_, fun h hauth => ⟨fun hne => ?_, ?_⟩,
    fun h hauth => ?_⟩
  · by_cases ho : ToUpperCase cmd = "OPTS".toList
    · refine ⟨"501 Option not supported.\r\n".toList, by decide, ?_⟩
      rw [ProcessCommand_OPTS_empty sys cfg io s cmd ho, ho]
    · have hmem : ToUpperCase cmd ∈ ["PORT".toList, "CWD".toList, "XCWD".toList,
          "MKD".toList, "XMKD".toList, "RMD".toList, "DELE".toList, "SIZE".toList,
          "RNFR".toList, "RNTO".toList, "RETR".toList, "STOR".toList] := by
        rcases List.mem_cons.1 h with h | h
        · exact absurd h ho
        · exact h
      have key : ∀ c ∈ ["PORT".toList, "CWD".toList, "XCWD".toList,
          "MKD".toList, "XMKD".toList, "RMD".toList, "DELE".toList, "SIZE".toList,
          "RNFR".toList, "RNTO".toList, "RETR".toList, "STOR".toList],
          c ∉ ["USER".toList, "PASS".toList, "OPTS".toList, "PWD".toList,
            "SYST".toList, "FEAT".toList, "QUIT".toList, "NOOP".toList, "TYPE".toList,
            "PASV".toList, "LIST".toList, "NLST".toList] := by decide
      have hk := key _ hmem
      by_cases hcer : s.certified = true
      · refine ⟨"501 Syntax error\r\n".toList, by decide, ?_⟩
        exact ProcessCommand_empty_unknown sys cfg io s cmd hk hcer
      · refine ⟨"550 Permission denied.\r\n".toList, by decide, ?_⟩
        have hsub : ∀ c ∈ ["USER".toList, "PASS".toList, "OPTS".toList],
            c ∈ ["USER".toList, "PASS".toList, "OPTS".toList, "PWD".toList,
        "SYST".toList, "FEAT".toList, "QUIT".toList, "NOOP".toList, "TYPE".toList,
        "PASV".toList, "LIST".toList, "NLST".toList] := by decide
        rw [ProcessCommand_denied sys cfg io s cmd [] (fun hx => hk (hsub _ hx))
          (Bool.eq_false_iff.2 hcer), hP]
  · have key : ∀ c ∈ ["PWD".toList, "SYST".toList, "FEAT".toList, "QUIT".toList,
        "NOOP".toList, "PASV".toList, "LIST".toList, "NLST".toList],
        c ∉ ["USER".toList, "PASS".toList, "OPTS".toList, "CWD".toList,
          "XCWD".toList, "RMD".toList, "TYPE".toList, "PORT".toList, "SIZE".toList,
          "RNFR".toList, "RNTO".toList, "DELE".toList, "RETR".toList, "STOR".toList,
          "MKD".toList, "XMKD".toList] := by decide
    exact ProcessCommand_param_unknown sys cfg io s cmd A (key _ h) hauth hne
  · have hsub : ∀ c ∈ ["USER".toList, "PASS".toList, "OPTS".toList, "CWD".toList,
        "XCWD".toList, "RMD".toList, "TYPE".toList, "PORT".toList, "SIZE".toList,
        "RNFR".toList, "RNTO".toList, "DELE".toList, "RETR".toList, "STOR".toList,
        "MKD".toList, "XMKD".toList],
        c ∈ ["USER".toList, "PASS".toList, "OPTS".toList, "PWD".toList,
        "XPWD".toList, "SYST".toList, "FEAT".toList, "QUIT".toList, "NOOP".toList,
        "TYPE".toList, "PASV".toList, "PORT".toList, "CWD".toList, "XCWD".toList,
        "MKD".toList, "XMKD".toList, "RMD".toList, "DELE".toList, "SIZE".toList,
        "RNFR".toList, "RNTO".toList, "LIST".toList, "NLST".toList, "RETR".toList,
        "STOR".toList] := by decide
    exact ProcessCommand_param_unknown sys cfg io s cmd A (fun hx => h (hsub _ hx)) hauth hne
  · have hsub : ∀ c ∈ ["USER".toList, "PASS".toList, "OPTS".toList, "PWD".toList,
        "SYST".toList, "FEAT".toList, "QUIT".toList, "NOOP".toList, "TYPE".toList,
        "PASV".toList, "LIST".toList, "NLST".toList],
        c ∈ ["USER".toList, "PASS".toList, "OPTS".toList, "PWD".toList,
        "XPWD".toList, "SYST".toList, "FEAT".toList, "QUIT".toList, "NOOP".toList,
        "TYPE".toList, "PASV".toList, "PORT".toList, "CWD".toList, "XCWD".toList,
        "MKD".toList, "XMKD".toList, "RMD".toList, "DELE".toList, "SIZE".toList,
        "RNFR".toList, "RNTO".toList, "LIST".toList, "NLST".toList, "RETR".toList,
        "STOR".toList] := by decide
    exact ProcessCommand_empty_unknown sys cfg io s cmd (fun hx => h (hsub _ hx)) hauth
  · have hsub : ∀ c ∈ ["USER".toList, "PASS".toList, "OPTS".toList],
        c ∈ ["USER".toList, "PASS".toList, "OPTS".toList, "PWD".toList,
        "XPWD".toList, "SYST".toList, "FEAT".toList, "QUIT".toList, "NOOP".toList,
        "TYPE".toList, "PASV".toList, "PORT".toList, "CWD".toList, "XCWD".toList,
        "MKD".toList, "XMKD".toList, "RMD".toList, "DELE".toList, "SIZE".toList,
        "RNFR".toList, "RNTO".toList, "LIST".toList, "NLST".toList, "RETR".toList,
        "STOR".toList] := by decide
    refine ⟨ProcessCommand_denied sys cfg io s cmd A (fun hx => h (hsub _ hx)) hauth, ?_⟩
    rw [ProcessCommand_denied sys cfg io s cmd [] (fun hx => h (hsub _ hx)) hauth, hP]

/-- The witness of C25: `stor` without a parameter, `pwd x` and `FOO` on a logged-in
session, and `FOO x` on a session that has not logged in. -/
theorem C25_parameter_shapes_witness :
    FTPServer.ProcessCommand simSys (simCfg true false) 0 (simLoggedIn true false 0)
        "pwd".toList "x".toList
      = some ({ simLoggedIn true false 0 with
                sWaitSend := "500 Command error.\r\n".toList,
                cmdLog := [("PWD".toList, "x".toList)] }, true) ∧
    FTPServer.ProcessCommand simSys (simCfg true false) 0 (simLoggedIn true false 0)
        "FOO".toList []
      = some ({ simLoggedIn true false 0 with
                sWaitSend := "501 Syntax error\r\n".toList,
                cmdLog := [("FOO".toList, [])] }, true) ∧
    (∃ reply, FTPServer.ProcessCommand simSys (simCfg true false) 0 (simLoggedIn true false 0)
        "stor".toList []
      = some ({ simLoggedIn true false 0 with
                sWaitSend := reply, cmdLog := [("STOR".toList, [])] }, true)) ∧
    FTPServer.ProcessCommand simSys (simCfg true false) 0 (simFresh true false 0)
        "foo".toList "x".toList
      = some ({ simFresh true false 0 with
                sWaitSend := "550 Permission denied.\r\n".toList,
                cmdLog := [("FOO".toList, "x".toList)] }, true) := by
  have h := C25_parameter_shapes simSys (simCfg true false) 0 (simLoggedIn true false 0)
  refine ⟨(h "pwd".toList "x".toList).2.1 (by decide) rfl (by decide),
    ((h "FOO".toList []).2.2.1 (by decide) rfl).2, ?_,
    ((C25_parameter_shapes simSys (simCfg true false) 0 (simFresh true false 0)
      "foo".toList "x".toList).2.2.2 (by decide) rfl).1⟩
  obtain ⟨reply, _, hr⟩ := (h "stor".toList []).1 (by decide)
  exact ⟨_, hr⟩


/-! ## The stored routine (C30) -/

theorem startTask_task (x : Option (FTPServer W × Option Coro)) (r : FTPServer W × Bool)
    (h : FTPServer.startTask x = some r) : r.2 = true → r.1.task = none := by
  unfold FTPServer.startTask at h
  split at h
  · cases h
  · cases h; exact fun _ => rfl
  · cases h; exact fun h => by cases h

theorem HandlePASV_task (sys : Sys W) (cfg : ServerInfo) (s : FTPServer W) :
    (FTPServer.HandlePASV sys cfg s).task = s.task := by
  unfold FTPServer.HandlePASV
  dsimp only
  repeat' split
  all_goals rfl

theorem HandlePORT_task (sys : Sys W) (s : FTPServer W) (param : Bytes) :
    (FTPServer.HandlePORT sys s param).task = s.task := by
  unfold FTPServer.HandlePORT
  dsimp only
  repeat' split
  all_goals rfl

theorem ProcessCommand_noParam_task (sys : Sys W) (cfg : ServerInfo) (fuel : Nat)
    (s : FTPServer W) (cmd : Bytes) (hs : s.task = none) :
    ∀ r, FTPServer.ProcessCommand_noParam sys cfg fuel s cmd = some r →
      r.2 = true → r.1.task = none := by
  intro r h
  unfold FTPServer.ProcessCommand_noParam at h
  by_cases c1 : cmd = "PWD".toList
  · rw [if_pos c1] at h
    dsimp only at h
    cases h; exact fun _ => hs
  rw [if_neg c1] at h
  by_cases c2 : cmd = "SYST".toList
  · rw [if_pos c2] at h
    cases h; exact fun _ => hs
  rw [if_neg c2] at h
  by_cases c3 : cmd = "FEAT".toList
  · rw [if_pos c3] at h
    dsimp only at h
    cases h
    intro _
    split <;> exact hs
  rw [if_neg c3] at h
  by_cases c4 : cmd = "QUIT".toList
  · rw [if_pos c4] at h
    cases h; exact fun _ => hs
  rw [if_neg c4] at h
  by_cases c5 : cmd = "NOOP".toList
  · rw [if_pos c5] at h
    cases h; exact fun _ => hs
  rw [if_neg c5] at h
  by_cases c6 : cmd = "TYPE".toList
  · rw [if_pos c6] at h
    cases h; exact fun _ => hs
  rw [if_neg c6] at h
  by_cases c7 : cmd = "PASV".toList
  · rw [if_pos c7] at h
    cases h
    exact fun _ => (HandlePASV_task sys cfg s).trans hs
  rw [if_neg c7] at h
  by_cases c8 : cmd = "LIST".toList ∨ cmd = "NLST".toList
  · rw [if_pos c8] at h
    exact startTask_task _ _ h
  rw [if_neg c8] at h
  cases h
  exact fun _ => hs

theorem ProcessCommand_withParam_task (sys : Sys W) (cfg : ServerInfo) (fuel : Nat)
    (s : FTPServer W) (cmd param : Bytes) (hs : s.task = none) :
    ∀ r, FTPServer.ProcessCommand_withParam sys cfg fuel s cmd param = some r →
      r.2 = true → r.1.task = none := by
  intro r h
  unfold FTPServer.ProcessCommand_withParam at h
  by_cases c1 : cmd = "CWD".toList ∨ cmd = "XCWD".toList
  · rw [if_pos c1] at h
    dsimp only at h
    split_ifs at h <;> (cases h; exact fun _ => hs)
  rw [if_neg c1] at h
  by_cases c2 : cmd = "RMD".toList
  · rw [if_pos c2] at h
    dsimp only at h
    split_ifs at h <;> (cases h; exact fun _ => hs)
  rw [if_neg c2] at h
  by_cases c3 : cmd = "TYPE".toList
  · rw [if_pos c3] at h
    split_ifs at h <;> (cases h; exact fun _ => hs)
  rw [if_neg c3] at h
  by_cases c4 : cmd = "PORT".toList
  · rw [if_pos c4] at h
    cases h; exact fun _ => (HandlePORT_task sys s param).trans hs
  rw [if_neg c4] at h
  by_cases c5 : cmd = "SIZE".toList
  · rw [if_pos c5] at h
    dsimp only at h
    split at h <;> (cases h; exact fun _ => hs)
  rw [if_neg c5] at h
  by_cases c6 : cmd = "RNFR".toList
  · rw [if_pos c6] at h
    dsimp only at h
    split_ifs at h <;> (cases h; exact fun _ => hs)
  rw [if_neg c6] at h
  by_cases c7 : cmd = "RNTO".toList
  · rw [if_pos c7] at h
    dsimp only at h
    split_ifs at h <;> (cases h; exact fun _ => hs)
  rw [if_neg c7] at h
  by_cases c8 : cmd = "DELE".toList
  · rw [if_pos c8] at h
    dsimp only at h
    split_ifs at h <;> (cases h; exact fun _ => hs)
  rw [if_neg c8] at h
  by_cases c9 : cmd = "RETR".toList
  · rw [if_pos c9] at h
    exact startTask_task _ _ h
  rw [if_neg c9] at h
  by_cases c10 : cmd = "STOR".toList
  · rw [if_pos c10] at h
    exact startTask_task _ _ h
  rw [if_neg c10] at h
  by_cases c11 : cmd = "MKD".toList ∨ cmd = "XMKD".toList
  · rw [if_pos c11] at h
    dsimp only at h
    split_ifs at h <;> (cases h; exact fun _ => hs)
  rw [if_neg c11] at h
  cases h
  exact fun _ => hs

/-- A call of ProcessCommand on a session without a stored routine that returns true leaves
the session without one: the parse loop goes on only then. -/
theorem ProcessCommand_task (sys : Sys W) (cfg : ServerInfo) (fuel : Nat)
    (s : FTPServer W) (cmd param : Bytes) (hs : s.task = none) :
    ∀ r, FTPServer.ProcessCommand sys cfg fuel s cmd param = some r →
      r.2 = true → r.1.task = none := by
  unfold FTPServer.ProcessCommand
  dsimp only
  repeat' split
  all_goals intro r h
  all_goals first
    | (cases h; exact fun _ => hs)
    | exact ProcessCommand_noParam_task sys cfg fuel _ _ (by exact hs) r h
    | exact ProcessCommand_withParam_task sys cfg fuel _ _ _ (by exact hs) r h

theorem startTaskG_eq (r : Option (FTPServer W × Option Coro)) :
    FTPServer.startTaskG r =
      Outcome.ofOption ((FTPServer.startTask r).map
        fun x => (x.1, Generator.ofTask x.1.task, x.2)) := by
  rcases r with _ | ⟨s, _ | k⟩ <;> rfl

theorem DealTaskG_eq (sys : Sys W) (cfg : ServerInfo) (io : Nat) (s : FTPServer W) :
    FTPServer.DealTaskG sys cfg io s (Generator.ofTask s.task) =
      Outcome.ofOption ((FTPServer.DealTask sys cfg io s).map
        fun x => (x.1, Generator.ofTask x.1.task, x.2)) := by
  unfold FTPServer.DealTaskG FTPServer.DealTask
  cases ht : s.task with
  | none => simp [Generator.ofTask, Generator.HandleInvalid, Outcome.ofOption, ht]
  | some k =>
    simp only [Generator.ofTask, Generator.HandleInvalid, if_true, Generator.Resume]
    cases hr : FTPServer.resume sys cfg io s k with
    | none => rfl
    | some r =>
      rcases r with ⟨s1, _ | k1⟩ <;> rfl

theorem destroyG_eq (sys : Sys W) (cfg : ServerInfo) (io : Nat) (s : FTPServer W) :
    FTPServer.destroyG sys cfg io s (Generator.ofTask s.task) =
      Outcome.ofOption (FTPServer.destroy sys cfg io s) := by
  unfold FTPServer.destroyG FTPServer.destroy
  cases ht : s.task with
  | none => simp only [Generator.ofTask, Generator.HandleInvalid, ht]; rfl
  | some k =>
    simp only [Generator.ofTask, Generator.HandleInvalid, if_true, Generator.Resume, ht]
    cases hr : FTPServer.resume sys cfg io { s with error := true, task := some k } k with
    | none => rfl
    | some r => rfl

/-- DealTask with the checks of the wrapper, on any handle that is not a finished routine:
it does not throw, and the handle it leaves is again null or parked. -/
theorem DealTaskG_safe (sys : Sys W) (cfg : ServerInfo) (io : Nat) (s : FTPServer W)
    (g : Generator) (hg : g ≠ .done) :
    FTPServer.DealTaskG sys cfg io s g ≠ .thrown ∧
      ∀ t g1 b, FTPServer.DealTaskG sys cfg io s g = .ok (t, g1, b) →
        g1 ≠ .done ∧ (b = true → g1 = .null) := by
  cases g with
  | done => exact absurd rfl hg
  | null =>
    refine ⟨(fun h => by cases h), ?_⟩
    intro t g1 b h
    cases h
    exact ⟨(fun h => by cases h), fun _ => rfl⟩
  | parked k =>
    unfold FTPServer.DealTaskG
    simp only [Generator.HandleInvalid, if_true, Generator.Resume]
    cases hr : FTPServer.resume sys cfg io s k with
    | none =>
      refine ⟨(fun h => by cases h), ?_⟩
      intro t g1 b h
      cases h
    | some r =>
      rcases r with ⟨s1, _ | k1⟩
      · refine ⟨(fun h => by cases h), ?_⟩
        intro t g1 b h
        cases h
        exact ⟨(fun h => by cases h), fun _ => rfl⟩
      · refine ⟨(fun h => by cases h), ?_⟩
        intro t g1 b h
        cases h
        exact ⟨(fun h => by cases h), (fun h => by cases h)⟩

theorem destroyG_safe (sys : Sys W) (cfg : ServerInfo) (io : Nat) (s : FTPServer W)
    (g : Generator) (hg : g ≠ .done) : FTPServer.destroyG sys cfg io s g ≠ .thrown := by
  cases g with
  | done => exact absurd rfl hg
  | null => exact fun h => by cases h
  | parked k =>
    unfold FTPServer.destroyG
    simp only [Generator.HandleInvalid, if_true, Generator.Resume]
    cases hr : FTPServer.resume sys cfg io { s with error := true } k with
    | none => exact fun h => by cases h
    | some r => exact fun h => by cases h

/-! ## The checked handlers against the handlers of the embedding (C30) -/

theorem ProcessCommand_noParam_keep (sys : Sys W) (cfg : ServerInfo) (fuel : Nat)
    (s : FTPServer W) (cmd : Bytes) (hc : ¬ (cmd = "LIST".toList ∨ cmd = "NLST".toList)) :
    ∀ r, FTPServer.ProcessCommand_noParam sys cfg fuel s cmd = some r →
      r.1.task = s.task := by
  intro r h
  unfold FTPServer.ProcessCommand_noParam at h
  by_cases c1 : cmd = "PWD".toList
  · rw [if_pos c1] at h
    dsimp only at h
    cases h; rfl
  rw [if_neg c1] at h
  by_cases c2 : cmd = "SYST".toList
  · rw [if_pos c2] at h
    cases h; rfl
  rw [if_neg c2] at h
  by_cases c3 : cmd = "FEAT".toList
  · rw [if_pos c3] at h
    dsimp only at h
    cases h
    split <;> rfl
  rw [if_neg c3] at h
  by_cases c4 : cmd = "QUIT".toList
  · rw [if_pos c4] at h
    cases h; rfl
  rw [if_neg c4] at h
  by_cases c5 : cmd = "NOOP".toList
  · rw [if_pos c5] at h
    cases h; rfl
  rw [if_neg c5] at h
  by_cases c6 : cmd = "TYPE".toList
  · rw [if_pos c6] at h
    cases h; rfl
  rw [if_neg c6] at h
  by_cases c7 : cmd = "PASV".toList
  · rw [if_pos c7] at h
    cases h
    exact HandlePASV_task sys cfg s
  rw [if_neg c7, if_neg hc] at h
  cases h
  rfl

theorem ProcessCommand_withParam_keep (sys : Sys W) (cfg : ServerInfo) (fuel : Nat)
    (s : FTPServer W) (cmd param : Bytes) (hr : cmd ≠ "RETR".toList)
    (hs : cmd ≠ "STOR".toList) :
    ∀ r, FTPServer.ProcessCommand_withParam sys cfg fuel s cmd param = some r →
      r.1.task = s.task := by
  intro r h
  unfold FTPServer.ProcessCommand_withParam at h
  by_cases c1 : cmd = "CWD".toList ∨ cmd = "XCWD".toList
  · rw [if_pos c1] at h
    dsimp only at h
    split_ifs at h <;> (cases h; rfl)
  rw [if_neg c1] at h
  by_cases c2 : cmd = "RMD".toList
  · rw [if_pos c2] at h
    dsimp only at h
    split_ifs at h <;> (cases h; rfl)
  rw [if_neg c2] at h
  by_cases c3 : cmd = "TYPE".toList
  · rw [if_pos c3] at h
    split_ifs at h <;> (cases h; rfl)
  rw [if_neg c3] at h
  by_cases c4 : cmd = "PORT".toList
  · rw [if_pos c4] at h
    cases h; exact HandlePORT_task sys s param
  rw [if_neg c4] at h
  by_cases c5 : cmd = "SIZE".toList
  · rw [if_pos c5] at h
    dsimp only at h
    split at h <;> (cases h; rfl)
  rw [if_neg c5] at h
  by_cases c6 : cmd = "RNFR".toList
  · rw [if_pos c6] at h
    dsimp only at h
    split_ifs at h <;> (cases h; rfl)
  rw [if_neg c6] at h
  by_cases c7 : cmd = "RNTO".toList
  · rw [if_pos c7] at h
    dsimp only at h
    split_ifs at h <;> (cases h; rfl)
  rw [if_neg c7] at h
  by_cases c8 : cmd = "DELE".toList
  · rw [if_pos c8] at h
    dsimp only at h
    split_ifs at h <;> (cases h; rfl)
  rw [if_neg c8, if_neg hr, if_neg hs] at h
  by_cases c11 : cmd = "MKD".toList ∨ cmd = "XMKD".toList
  · rw [if_pos c11] at h
    dsimp only at h
    split_ifs at h <;> (cases h; rfl)
  rw [if_neg c11] at h
  cases h
  rfl

/-- A command for which ProcessCommand calls no transfer routine leaves the field `task` as
it is. -/
theorem transferCall_none (sys : Sys W) (cfg : ServerInfo) (fuel : Nat) (s : FTPServer W)
    (cmd param : Bytes) (ht : FTPServer.transferCall sys cfg fuel s cmd param = none) :
    ∀ r, FTPServer.ProcessCommand sys cfg fuel s cmd param = some r → r.1.task = s.task := by
  intro r h
  unfold FTPServer.transferCall at ht
  unfold FTPServer.ProcessCommand at h
  dsimp only at h ht
  generalize (if s.utf8 = true then convertEncoding sys param "UTF-8".toList cfg.encoding
    else param) = p at h ht
  generalize ToUpperCase cmd = c at h ht
  by_cases u1 : c = "USER".toList
  · rw [if_pos u1] at h
    cases h; rfl
  rw [if_neg u1] at h
  by_cases u2 : c = "PASS".toList
  · rw [if_pos u2] at h
    split_ifs at h <;> (cases h; rfl)
  rw [if_neg u2] at h
  by_cases u3 : c = "OPTS".toList
  · rw [if_pos u3] at h
    split_ifs at h <;> (cases h; rfl)
  rw [if_neg u3] at h
  rw [if_neg (by tauto)] at ht
  by_cases u4 : s.certified = false
  · rw [if_pos u4] at h
    cases h; rfl
  rw [if_neg u4] at h ht
  by_cases u5 : p = []
  · rw [if_pos u5] at h ht
    by_cases u6 : c = "LIST".toList ∨ c = "NLST".toList
    · rw [if_pos u6] at ht
      cases ht
    · exact ProcessCommand_noParam_keep sys cfg fuel
        { s with cmdLog := s.cmdLog ++ [(c, p)] } c u6 r h
  · rw [if_neg u5] at h ht
    by_cases u6 : c = "RETR".toList
    · rw [if_pos u6] at ht
      cases ht
    rw [if_neg u6] at ht
    by_cases u7 : c = "STOR".toList
    · rw [if_pos u7] at ht
      cases ht
    exact ProcessCommand_withParam_keep sys cfg fuel
      { s with cmdLog := s.cmdLog ++ [(c, p)] } c p u6 u7 r h

/-- A command for which ProcessCommand calls a transfer routine: what it returns is what the
statements that store the handle make of the routine. -/
theorem transferCall_some (sys : Sys W) (cfg : ServerInfo) (fuel : Nat) (s : FTPServer W)
    (cmd param : Bytes) (run : Option (FTPServer W × Option Coro))
    (ht : FTPServer.transferCall sys cfg fuel s cmd param = some run) :
    FTPServer.ProcessCommand sys cfg fuel s cmd param = FTPServer.startTask run := by
  unfold FTPServer.transferCall at ht
  unfold FTPServer.ProcessCommand
  dsimp only at ht ⊢
  generalize (if s.utf8 = true then convertEncoding sys param "UTF-8".toList cfg.encoding
    else param) = p at ht ⊢
  generalize ToUpperCase cmd = c at ht ⊢
  by_cases u0 : c = "USER".toList ∨ c = "PASS".toList ∨ c = "OPTS".toList
  · rw [if_pos u0] at ht
    cases ht
  rw [if_neg u0] at ht
  rw [if_neg (fun e => u0 (Or.inl e)), if_neg (fun e => u0 (Or.inr (Or.inl e))),
    if_neg (fun e => u0 (Or.inr (Or.inr e)))]
  by_cases u4 : s.certified = false
  · rw [if_pos u4] at ht
    cases ht
  rw [if_neg u4] at ht ⊢
  by_cases u5 : p = []
  · rw [if_pos u5] at ht ⊢
    by_cases u6 : c = "LIST".toList ∨ c = "NLST".toList
    · rw [if_pos u6] at ht
      cases ht
      unfold FTPServer.ProcessCommand_noParam
      rw [if_neg (by rcases u6 with e | e <;> rw [e] <;> decide),
        if_neg (by rcases u6 with e | e <;> rw [e] <;> decide),
        if_neg (by rcases u6 with e | e <;> rw [e] <;> decide),
        if_neg (by rcases u6 with e | e <;> rw [e] <;> decide),
        if_neg (by rcases u6 with e | e <;> rw [e] <;> decide),
        if_neg (by rcases u6 with e | e <;> rw [e] <;> decide),
        if_neg (by rcases u6 with e | e <;> rw [e] <;> decide), if_pos u6]
    · rw [if_neg u6] at ht
      cases ht
  · rw [if_neg u5] at ht ⊢
    by_cases u6 : c = "RETR".toList
    · rw [if_pos u6] at ht
      cases ht
      unfold FTPServer.ProcessCommand_withParam
      rw [u6, if_neg (by decide), if_neg (by decide), if_neg (by decide), if_neg (by decide),
        if_neg (by decide), if_neg (by decide), if_neg (by decide), if_neg (by decide),
        if_pos rfl]
    rw [if_neg u6] at ht
    by_cases u7 : c = "STOR".toList
    · rw [if_pos u7] at ht
      cases ht
      unfold FTPServer.ProcessCommand_withParam
      rw [u7, if_neg (by decide), if_neg (by decide), if_neg (by decide), if_neg (by decide),
        if_neg (by decide), if_neg (by decide), if_neg (by decide), if_neg (by decide),
        if_neg (by decide), if_pos rfl]
    rw [if_neg u7] at ht
    cases ht

/-- ProcessCommand with the checks of the wrapper, on a session without a stored routine: it
is `ProcessCommand`, it does not throw and records no assignment over a stored routine. -/
theorem ProcessCommandG_eq (sys : Sys W) (cfg : ServerInfo) (fuel : Nat) (s : FTPServer W)
    (cmd param : Bytes) (hs : s.task = none) :
    FTPServer.ProcessCommandG sys cfg fuel (Checked.of s) cmd param =
      Outcome.ofOption ((FTPServer.ProcessCommand sys cfg fuel s cmd param).map
        fun x => (Checked.of x.1, x.2)) := by
  unfold FTPServer.ProcessCommandG
  dsimp only [Checked.of]
  cases ht : FTPServer.transferCall sys cfg fuel s cmd param with
  | some run =>
    dsimp only
    rw [transferCall_some sys cfg fuel s cmd param run ht, startTaskG_eq, hs]
    cases FTPServer.startTask run with
    | none => rfl
    | some x => rfl
  | none =>
    dsimp only
    cases hp : FTPServer.ProcessCommand sys cfg fuel s cmd param with
    | none => rfl
    | some r =>
      have hk := transferCall_none sys cfg fuel s cmd param ht r hp
      show Outcome.ok _ = Outcome.ok _
      rw [← hk]

theorem parseTrim_task (s : FTPServer W) (start : Nat) :
    (FTPServer.parseTrim s start).1.task = s.task := by
  unfold FTPServer.parseTrim
  dsimp only
  split <;> rfl

theorem Send_And_EnableWR_task (sys : Sys W) (s : FTPServer W) :
    (FTPServer.Send_And_EnableWR sys s).task = s.task :=
  (frame_Send sys s).task

theorem Checked.of_eq (s t : FTPServer W) (h : t.task = s.task) :
    ({ Checked.of s with s := t } : Checked W) = Checked.of t := by
  unfold Checked.of
  rw [h]

/-- The loop of Parse with the checks of the wrapper is the loop of the embedding, when it
starts on a session without a stored routine or with the stop flag set. -/
theorem parseLoopG_eq (sys : Sys W) (cfg : ServerInfo) (io : Nat) :
    ∀ (fuel : Nat) (s : FTPServer W) (start : Nat) (stop : Bool),
      (stop = false → s.task = none) →
      FTPServer.parseLoopG sys cfg io fuel (Checked.of s) start stop =
        Outcome.ofOption ((FTPServer.parseLoop sys cfg io fuel s start stop).map
          fun x => (Checked.of x.1, x.2)) := by
  intro fuel
  induction fuel with
  | zero => intro s start stop _; rfl
  | succ n ih =>
    intro s start stop hs
    rw [FTPServer.parseLoopG, FTPServer.parseLoop]
    have e : (Checked.of s).s = s := rfl
    rw [e]
    cases hf : find s.sWaitParse "\r\n".toList start with
    | none => rfl
    | some end_ =>
      dsimp only
      by_cases hstop : stop = true
      · rw [if_pos hstop, if_pos hstop]
        rfl
      · rw [if_neg hstop, if_neg hstop]
        have hs0 : s.task = none := hs (by simpa using hstop)
        rw [ProcessCommandG_eq sys cfg io s _ _ hs0]
        cases hp : FTPServer.ProcessCommand sys cfg io s
            (lineCommand (substr s.sWaitParse start (end_ - start)))
            (lineParam (substr s.sWaitParse start (end_ - start))) with
        | none => rfl
        | some r =>
          exact ih r.1 _ _ (fun hb =>
            ProcessCommand_task sys cfg io s _ _ hs0 r hp (by simpa using hb))

theorem ParseG_eq (sys : Sys W) (cfg : ServerInfo) (io fuel : Nat) (s : FTPServer W)
    (hs : s.task = none) :
    FTPServer.ParseG sys cfg io fuel (Checked.of s) =
      Outcome.ofOption ((FTPServer.Parse sys cfg io fuel s).map
        fun x => (Checked.of x.1, x.2)) := by
  unfold FTPServer.ParseG FTPServer.Parse
  rw [parseLoopG_eq sys cfg io fuel s 0 false (fun _ => hs)]
  cases FTPServer.parseLoop sys cfg io fuel s 0 false with
  | none => rfl
  | some r =>
    have h := Checked.of_eq r.1 _ (parseTrim_task r.1 r.2)
    exact congrArg (fun c => Outcome.ok (c, (FTPServer.parseTrim r.1 r.2).2)) h

theorem DealReadG_eq (sys : Sys W) (cfg : ServerInfo) (io fuel : Nat) (s : FTPServer W) :
    FTPServer.DealReadG sys cfg io fuel (Checked.of s) =
      Outcome.ofOption ((FTPServer.DealRead sys cfg io fuel s).map Checked.of) := by
  unfold FTPServer.DealReadG FTPServer.DealRead
  have e : (Checked.of s).s = s := rfl
  have e2 : (Checked.of s).task = Generator.ofTask (FTPServer.Read s).task := by
    rw [Read_eq]
    rfl
  rw [e, e2, DealTaskG_eq]
  cases hd : FTPServer.DealTask sys cfg io (FTPServer.Read s) with
  | none => rfl
  | some r =>
    rcases r with ⟨s1, b⟩
    cases b with
    | false => rfl
    | true =>
      have hidle : s1.task = none := (DealTask_frame sys cfg io _ _ hd).2.2.2.2.2 rfl
      dsimp only
      show (FTPServer.ParseG sys cfg io fuel (Checked.of s1)).bind _ = _
      rw [ParseG_eq sys cfg io fuel s1 hidle]
      cases FTPServer.Parse sys cfg io fuel s1 with
      | none => rfl
      | some p =>
        rcases p with ⟨s2, ok⟩
        have ht : (FTPServer.Send_And_EnableWR sys
            (if ok = false then { s2 with error := true } else s2)).task = s2.task :=
          (Send_And_EnableWR_task sys _).trans (by split <;> rfl)
        exact congrArg Outcome.ok (Checked.of_eq s2 _ ht)

theorem DealWriteG_eq (sys : Sys W) (cfg : ServerInfo) (io : Nat) (s : FTPServer W) :
    FTPServer.DealWriteG sys cfg io (Checked.of s) =
      Outcome.ofOption ((FTPServer.DealWrite sys cfg io s).map Checked.of) := by
  unfold FTPServer.DealWriteG FTPServer.DealWrite
  have e : (Checked.of s).s = s := rfl
  have e2 : (Checked.of s).task = Generator.ofTask s.task := rfl
  rw [e, e2, DealTaskG_eq]
  cases hd : FTPServer.DealTask sys cfg io s with
  | none => rfl
  | some r =>
    rcases r with ⟨s1, b⟩
    cases b with
    | false => rfl
    | true =>
      show Outcome.ok _ = Outcome.ok _
      have h := Checked.of_eq s1 _ (Send_And_EnableWR_task sys s1)
      exact congrArg Outcome.ok h

/-- One event with the checks of the wrapper, on a session with the handle its field `task`
stands for, is the event of the embedding. -/
theorem runEventG_eq (sys : Sys W) (cfg : ServerInfo) (io fuel : Nat) (s : FTPServer W)
    (e : Event) :
    FTPServer.runEventG sys cfg io fuel (Checked.of s) e =
      Outcome.ofOption ((FTPServer.runEvent sys cfg io fuel s e).map Checked.of) := by
  cases e with
  | READ bytes =>
    exact DealReadG_eq sys cfg io fuel
      ({ s with evb := { s.evb with input := s.evb.input ++ bytes } }).DisableRW
  | WRITE => exact DealWriteG_eq sys cfg io s.DisableRW
  | ACCEPT =>
    have ht : (FTPServer.DealAccept sys s.DisableRW).task = s.task := by
      unfold FTPServer.DealAccept
      exact Send_And_EnableWR_task sys _
    exact congrArg Outcome.ok (Checked.of_eq s _ ht)

theorem runEventsG_eq (sys : Sys W) (cfg : ServerInfo) (io fuel : Nat) :
    ∀ (es : List Event) (s : FTPServer W),
      FTPServer.runEventsG sys cfg io fuel es (Checked.of s) =
        Outcome.ofOption ((FTPServer.runEvents sys cfg io fuel es s).map Checked.of) := by
  intro es
  induction es with
  | nil => intro s; rfl
  | cons e es ih =>
    intro s
    rw [FTPServer.runEventsG, FTPServer.runEvents, runEventG_eq]
    cases FTPServer.runEvent sys cfg io fuel s e with
    | none => rfl
    | some s1 => exact ih s1

theorem Outcome.ofOption_ne_thrown {α : Type} (o : Option α) :
    Outcome.ofOption o ≠ .thrown := by
  cases o <;> exact fun h => by cases h

theorem Generator.ofTask_cases (t : Option Coro) :
    (Generator.ofTask t = .null ∨ ∃ k, Generator.ofTask t = .parked k) ∧
      Generator.ofTask t ≠ .done := by
  cases t with
  | none => exact ⟨Or.inl rfl, fun h => by cases h⟩
  | some k => exact ⟨Or.inr ⟨k, rfl⟩, fun h => by cases h⟩

/-- C30: the bare `throw` of the coroutine wrapper is never executed. The handlers are
written once more with the handle of `task` as the wrapper holds it (null, parked at an
await, or done), with `hasDone` and `Resume` throwing where Coroutine.hpp 290-309 throws,
and with a flag that records a transfer routine assigned to `task` while a routine is still
stored there. (1) For every run of events on a new session (DealAccept, DealRead with the
commands it parses and dispatches, DealWrite), with the checks: no handler throws; the run
is the run of the embedding; and in the state it reaches the stored handle is null or a
routine parked at an await, never a finished routine, it is the handle the field `task` of
the embedding stands for, no transfer was started over a stored routine, and DealTask, the
destructor and every further event run there do not throw. (2) The checks are there:
DealTask and the destructor on a finished routine throw, `hasDone` on a null handle throws,
and ProcessCommand on a state whose handle is not null, for a command that calls a transfer
routine, records the assignment over the stored routine. (3) The checked ProcessCommand
runs a transfer routine for the commands for which `ProcessCommand` does: where
`transferCall` names a routine, `ProcessCommand` is the statements that store its handle,
and where it names none, `ProcessCommand` leaves the field `task` as it is. -/
theorem C30_wrapper_never_throws (sys : Sys W) (cfg : ServerInfo) (io fuel : Nat) :
    (∀ (es : List Event) (evb : EVBuffer) (info : ConnectionInfo) (w : W),
      FTPServer.runEventsG sys cfg io fuel es (Checked.new (FTPServer.new cfg evb info w))
        ≠ .thrown ∧
      FTPServer.runEventsG sys cfg io fuel es (Checked.new (FTPServer.new cfg evb info w)) =
        Outcome.ofOption ((FTPServer.runEvents sys cfg io fuel es
          (FTPServer.new cfg evb info w)).map Checked.of) ∧
      ∀ c, FTPServer.runEventsG sys cfg io fuel es
          (Checked.new (FTPServer.new cfg evb info w)) = .ok c →
        (c.task = .null ∨ ∃ k, c.task = .parked k) ∧ c.task ≠ .done ∧
        c.task = Generator.ofTask c.s.task ∧ c.overwritten = false ∧
        (∀ io2, FTPServer.DealTaskG sys cfg io2 c.s c.task ≠ .thrown ∧
          FTPServer.destroyG sys cfg io2 c.s c.task ≠ .thrown) ∧
        (∀ io2 fuel2 e, FTPServer.runEventG sys cfg io2 fuel2 c e ≠ .thrown)) ∧
    (∀ s : FTPServer W, FTPServer.DealTaskG sys cfg io s .done = .thrown ∧
      FTPServer.destroyG sys cfg io s .done = .thrown) ∧
    Generator.hasDone .null = none ∧
    (∀ (c : Checked W) (cmd param : Bytes) (run : Option (FTPServer W × Option Coro))
      (r : Checked W × Bool), c.task ≠ .null →
      FTPServer.transferCall sys cfg io c.s cmd param = some run →
      FTPServer.ProcessCommandG sys cfg io c cmd param = .ok r →
      r.1.overwritten = true) ∧
    (∀ (s : FTPServer W) (cmd param : Bytes),
      (∀ run, FTPServer.transferCall sys cfg io s cmd param = some run →
        FTPServer.ProcessCommand sys cfg io s cmd param = FTPServer.startTask run) ∧
      (FTPServer.transferCall sys cfg io s cmd param = none →
        ∀ r, FTPServer.ProcessCommand sys cfg io s cmd param = some r →
          r.1.task = s.task)) := by
  refine ⟨?_, fun s => ⟨rfl, rfl⟩, rfl, ?_, fun s cmd param =>
    ⟨fun run ht => transferCall_some sys cfg io s cmd param run ht,
      fun ht => transferCall_none sys cfg io s cmd param ht⟩⟩
  · intro es evb info w
    have e : Checked.new (FTPServer.new cfg evb info w)
        = Checked.of (FTPServer.new cfg evb info w) := rfl
    rw [e, runEventsG_eq]
    refine ⟨Outcome.ofOption_ne_thrown _, rfl, ?_⟩
    intro c hc
    cases hr : FTPServer.runEvents sys cfg io fuel es (FTPServer.new cfg evb info w) with
    | none => rw [hr] at hc; cases hc
    | some t =>
      rw [hr] at hc
      have hct : c = Checked.of t := by
        cases hc
        rfl
      subst hct
      have hg := Generator.ofTask_cases t.task
      refine ⟨hg.1, hg.2, rfl, rfl, fun io2 => ?_, fun io2 fuel2 e => ?_⟩
      · exact ⟨(DealTaskG_safe sys cfg io2 t _ hg.2).1, destroyG_safe sys cfg io2 t _ hg.2⟩
      · rw [runEventG_eq]
        exact Outcome.ofOption_ne_thrown _
  · intro c cmd param run r hn ht hp
    unfold FTPServer.ProcessCommandG at hp
    rw [ht] at hp
    dsimp only at hp
    have hi : c.task.HandleInvalid = true := by
      cases hc : c.task with
      | null => exact absurd hc hn
      | parked k => rfl
      | done => rfl
    cases hs : FTPServer.startTaskG run with
    | thrown => rw [hs] at hp; cases hp
    | fuel => rw [hs] at hp; cases hp
    | ok x =>
      rw [hs] at hp
      cases hp
      show (c.overwritten || c.task.HandleInvalid) = true
      rw [hi, Bool.or_true]

/-- The witness of C30: the events that log in, open the data channel and park the upload of
`osParkedUpload`, run with the checks, do not throw; the handle they leave is the parked
upload, and no transfer was started over a stored routine. A `STOR` dispatched on that state
would be one. -/
theorem C30_wrapper_never_throws_witness :
    ∃ c, FTPServer.runEventsG osSys (simCfg true false) 100 100
        [.ACCEPT,
          .READ "USER anonymous\r\nPASS x\r\nPASV\r\nPORT 10,0,0,2,4,1\r\nSTOR f\r\n".toList]
        (Checked.new (osFresh (osWorld [] "hi".toList [0] none))) = .ok c ∧
      c.task = .parked (.uploadRecv 5) ∧ c.overwritten = false ∧
      FTPServer.destroyG osSys (simCfg true false) 100 c.s c.task ≠ .thrown ∧
      ∀ r, FTPServer.ProcessCommandG osSys (simCfg true false) 100 c "STOR".toList
        "g".toList = .ok r → r.1.overwritten = true := by
  have h0 : ∃ c, FTPServer.runEventsG osSys (simCfg true false) 100 100
      [.ACCEPT,
        .READ "USER anonymous\r\nPASS x\r\nPASV\r\nPORT 10,0,0,2,4,1\r\nSTOR f\r\n".toList]
      (Checked.new (osFresh (osWorld [] "hi".toList [0] none))) = .ok c ∧
      c.task = .parked (.uploadRecv 5) ∧
      ∃ run, FTPServer.transferCall osSys (simCfg true false) 100 c.s "STOR".toList
        "g".toList = some run := by
    refine ⟨_, rfl, ?_, _, rfl⟩
    decide
  obtain ⟨c, hc, htask, run, hrun⟩ := h0
  have hC := C30_wrapper_never_throws osSys (simCfg true false) 100 100
  have h1 := (hC.1 _ { input := [], output := [], enabled := true }
    { port := 50000, ip := "10.0.0.2".toList } (osWorld [] "hi".toList [0] none)).2.2 c hc
  exact ⟨c, hc, htask, h1.2.2.2.1, (h1.2.2.2.2.1 100).2,
    fun r hr => hC.2.2.2.1 c _ _ run r (by rw [htask]; decide) hrun hr⟩

/-! ## Loading the configuration (C22, C23) -/

theorem findAt_space : ∀ (e : Bytes) (i sp : Nat), findAt " ".toList e i = some sp →
    ∃ a b : Bytes, e = a ++ Char.ofNat 32 :: b ∧ sp = i + a.length ∧ Char.ofNat 32 ∉ a := by
  intro e
  induction e with
  | nil => intro i sp h; simp [findAt] at h
  | cons c cs ih =>
    intro i sp h
    rw [findAt] at h
    by_cases hc : c = Char.ofNat 32
    · subst hc
      rw [if_pos (by simp [String.toList, List.isPrefixOf])] at h
      cases h
      exact ⟨[], cs, rfl, rfl, List.not_mem_nil _⟩
    · have hp : (" ".toList.isPrefixOf (c :: cs)) = false := by
        simp only [String.toList, List.isPrefixOf, Bool.and_eq_false_imp]
        intro h1
        exact absurd (by simpa using h1) (Ne.symm hc)
      rw [if_neg (by rw [hp]; decide)] at h
      obtain ⟨a, b, h1, h2, h3⟩ := ih (i + 1) sp h
      refine ⟨c :: a, b, by rw [h1]; rfl, by rw [h2, List.length_cons]; omega, ?_⟩
      intro hm
      rcases List.mem_cons.1 hm with hm | hm
      · exact hc hm.symm
      · exact h3 hm

theorem findAt_space_of : ∀ (a b : Bytes) (i : Nat), Char.ofNat 32 ∉ a →
    findAt " ".toList (a ++ Char.ofNat 32 :: b) i = some (i + a.length) := by
  intro a
  induction a with
  | nil =>
    intro b i _
    rw [List.nil_append, findAt, if_pos (by simp [String.toList, List.isPrefixOf])]
    rfl
  | cons c cs ih =>
    intro b i h
    have hc : c ≠ Char.ofNat 32 := fun hc => h (by rw [hc]; exact List.mem_cons_self _ _)
    have hp : (" ".toList.isPrefixOf (c :: (cs ++ Char.ofNat 32 :: b))) = false := by
      simp only [String.toList, List.isPrefixOf, Bool.and_eq_false_imp]
      intro h1
      exact absurd (by simpa using h1) (Ne.symm hc)
    rw [List.cons_append, findAt, if_neg (by rw [hp]; decide),
      ih b (i + 1) (fun hm => h (List.mem_cons_of_mem _ hm)), List.length_cons]
    congr 1
    omega

theorem find_space (e : Bytes) (sp : Nat) (h : find e " ".toList 0 = some sp) :
    ∃ a b : Bytes, e = a ++ Char.ofNat 32 :: b ∧ sp = a.length ∧ Char.ofNat 32 ∉ a := by
  unfold find at h
  rw [if_neg (by omega), List.drop_zero] at h
  obtain ⟨a, b, h1, h2, h3⟩ := findAt_space e 0 sp h
  exact ⟨a, b, h1, by omega, h3⟩

theorem find_space_of (a b : Bytes) (h : Char.ofNat 32 ∉ a) :
    find (a ++ Char.ofNat 32 :: b) " ".toList 0 = some a.length := by
  unfold find
  rw [if_neg (by omega), List.drop_zero, findAt_space_of a b 0 h, Nat.zero_add]

theorem trim_keyLine_split (line : Bytes) (h : line.getLast? = some ':') :
    line = substr line 0 (line.length - 1) ++ [':'] := by
  unfold substr
  rw [List.drop_zero, ← List.dropLast_eq_take]
  exact (List.dropLast_append_getLast? _ h).symm

theorem keyLine_param (line : Bytes) (key : String) (h : line = keyLine key) :
    line.getLast? = some ':' ∧ substr line 0 (line.length - 1) = key.toList := by
  subst h
  unfold keyLine substr
  rw [List.drop_zero, List.getLast?_append, List.length_append]
  simp

theorem isBlankOrComment_false (l : Bytes) (h : isBlankOrComment l = false) :
    ¬ (trim l = [] ∨ (trim l).head? = some '#') := by
  unfold isBlankOrComment at h
  simpa using h

theorem isDollarLine_true (v : Bytes) (h : isDollarLine v = true) :
    ¬ (trim v = [] ∨ (trim v).head? ≠ some '$') := by
  unfold isDollarLine at h
  have h1 : (trim v).head? = some '$' := by simpa using h
  intro hc
  rcases hc with hc | hc
  · rw [hc] at h1; cases h1
  · exact hc h1

theorem isDollarLine_false (v : Bytes) (h : isDollarLine v = false) :
    trim v = [] ∨ (trim v).head? ≠ some '$' := by
  unfold isDollarLine at h
  exact Or.inr (by simpa using h)

/-- A blank line or a comment at key position is passed over. -/
theorem loadLoop_skip (ip : Bytes → Bool) (fuel : Nat) (st : LoadState) (l : Bytes)
    (rest : List Bytes) (h : isBlankOrComment l = true) :
    loadLoop ip (fuel + 1) st (l :: rest) = loadLoop ip fuel st rest := by
  rw [loadLoop]
  dsimp only
  rw [if_pos]
  unfold isBlankOrComment at h
  simpa using h

/-- A line at key position that does not end with a colon ends the load. -/
theorem loadLoop_noColon (ip : Bytes → Bool) (fuel : Nat) (st : LoadState) (l : Bytes)
    (rest : List Bytes) (hb : isBlankOrComment l = false)
    (h : (trim l).getLast? ≠ some ':') :
    loadLoop ip (fuel + 1) st (l :: rest) = some (false, st) := by
  rw [loadLoop]
  dsimp only
  rw [if_neg (isBlankOrComment_false l hb), if_pos h]

/-- A key line that no `$` line follows ends the load. -/
theorem loadLoop_noValue (ip : Bytes → Bool) (fuel : Nat) (st : LoadState) (l : Bytes)
    (rest : List Bytes) (hb : isBlankOrComment l = false)
    (h : ∀ v, rest.head? = some v → isDollarLine v = false) :
    loadLoop ip (fuel + 1) st (l :: rest) = some (false, st) := by
  by_cases hc : (trim l).getLast? ≠ some ':'
  · exact loadLoop_noColon ip fuel st l rest hb hc
  cases rest with
  | nil =>
    rw [loadLoop]
    dsimp only
    rw [if_neg (isBlankOrComment_false l hb), if_neg hc]
  | cons v rest1 =>
    rw [loadLoop]
    dsimp only
    rw [if_neg (isBlankOrComment_false l hb), if_neg hc,
      if_pos (isDollarLine_false v (h v rfl))]

/-- A key line other than `users:` with its `$` line: the branch of the key, then the loop
goes on after the two lines. -/
theorem loadLoop_entry (ip : Bytes → Bool) (fuel : Nat) (st : LoadState) (l v : Bytes)
    (rest1 : List Bytes) (hb : isBlankOrComment l = false)
    (hc : (trim l).getLast? = some ':') (hv : isDollarLine v = true)
    (hu : trim l ≠ keyLine "users") :
    loadLoop ip (fuel + 1) st (l :: v :: rest1) =
      match loadValue ip st (substr (trim l) 0 ((trim l).length - 1)) (dollarValue v) with
      | none => some (false, st)
      | some st1 => loadLoop ip fuel st1 rest1 := by
  have hne : substr (trim l) 0 ((trim l).length - 1) ≠ "users".toList := by
    intro he
    apply hu
    rw [trim_keyLine_split (trim l) hc, he]
    rfl
  rw [loadLoop]
  dsimp only
  rw [if_neg (isBlankOrComment_false l hb), if_neg (by simpa using hc),
    if_neg (isDollarLine_true v hv)]
  unfold loadValue dollarValue
  generalize substr (trim l) 0 ((trim l).length - 1) = p at hne ⊢
  generalize trim (List.drop 1 (trim v)) = value
  by_cases c1 : p = "ip".toList
  · rw [if_pos c1, if_pos c1]
    split_ifs <;> rfl
  rw [if_neg c1, if_neg c1]
  by_cases c2 : p = "dir".toList
  · rw [if_pos c2, if_pos c2]
    split_ifs <;> rfl
  rw [if_neg c2, if_neg c2]
  by_cases c3 : p = "rwtimeout".toList
  · rw [if_pos c3, if_pos c3]
    cases stoul value with
    | none => rfl
    | some r =>
      dsimp only
      split_ifs <;> rfl
  rw [if_neg c3, if_neg c3]
  by_cases c4 : p = "anonymous".toList
  · rw [if_pos c4, if_pos c4]
    split_ifs <;> rfl
  rw [if_neg c4, if_neg c4]
  by_cases c5 : p = "utf-8".toList
  · rw [if_pos c5, if_pos c5]
    split_ifs <;> rfl
  rw [if_neg c5, if_neg c5]
  by_cases c6 : p = "port".toList
  · rw [if_pos c6, if_pos c6]
    cases stoul value with
    | none => rfl
    | some r =>
      dsimp only
      split_ifs <;> rfl
  rw [if_neg c6, if_neg c6, if_neg hne]

/-- The key line `users:` with a `$` line after it: the inner loop runs from that line on. -/
theorem loadLoop_users (ip : Bytes → Bool) (fuel : Nat) (st : LoadState) (l v : Bytes)
    (rest1 : List Bytes) (hu : trim l = keyLine "users") (hv : isDollarLine v = true) :
    loadLoop ip (fuel + 1) st (l :: v :: rest1) =
      match usersLoop st.cfg.users (v :: rest1) with
      | (users, none) => some (false, { st with cfg := { st.cfg with users := users } })
      | (users, some rest2) =>
        loadLoop ip fuel { st with cfg := { st.cfg with users := users } } rest2 := by
  rw [loadLoop]
  dsimp only
  rw [hu]
  rw [if_neg (by decide), if_neg (by decide), if_neg (isDollarLine_true v hv)]
  have hp : substr (keyLine "users") 0 ((keyLine "users").length - 1) = "users".toList := by
    decide
  rw [hp]
  rw [if_neg (by decide), if_neg (by decide), if_neg (by decide), if_neg (by decide),
    if_neg (by decide), if_neg (by decide), if_pos rfl]

theorem isDollarLine_of (l : Bytes) (h : ¬ (trim l = [] ∨ (trim l).head? ≠ some '$')) :
    isDollarLine l = true := by
  unfold isDollarLine
  have h1 : (trim l).head? = some '$' := by
    by_contra hc
    exact h (Or.inr hc)
  simpa using h1

/-- One user line in the inner loop. -/
theorem usersLoop_step (users : List (Bytes × Bytes)) (l : Bytes) (rest : List Bytes)
    (h : isDollarLine l = true) :
    usersLoop users (l :: rest) =
      match find (dollarValue l) " ".toList 0 with
      | none => (users, none)
      | some sp =>
        if sp = 0 ∨ sp = (dollarValue l).length - 1 then (users, none)
        else usersLoop
          (usersInsert (substr (dollarValue l) 0 sp, (dollarValue l).drop (sp + 1)) users) rest := by
  rw [usersLoop]
  dsimp only
  rw [if_neg (isDollarLine_true l h)]
  rfl

/-- The inner loop stops without a fault at the end of the text or at a line that is no `$`
line. -/
theorem usersLoop_stop (users : List (Bytes × Bytes)) (more : List Bytes)
    (h : ∀ r, more.head? = some r → isDollarLine r = false) :
    usersLoop users more = (users, some more) := by
  cases more with
  | nil => rfl
  | cons r rest =>
    rw [usersLoop]
    dsimp only
    rw [if_pos (isDollarLine_false r (h r rfl))]

/-- A user line whose entry has no two non-empty parts ends the load. -/
theorem usersLoop_bad (users : List (Bytes × Bytes)) (l : Bytes) (rest : List Bytes)
    (h : isDollarLine l = true) (hb : ¬ TwoParts (dollarValue l)) :
    usersLoop users (l :: rest) = (users, none) := by
  rw [usersLoop_step users l rest h]
  cases hf : find (dollarValue l) " ".toList 0 with
  | none => rfl
  | some sp =>
    dsimp only
    by_cases hc : sp = 0 ∨ sp = (dollarValue l).length - 1
    · rw [if_pos hc]
    · exfalso
      apply hb
      obtain ⟨a, b, h1, h2, _⟩ := find_space _ sp hf
      refine ⟨a, b, ?_, ?_, h1⟩
      · intro ha
        apply hc
        left
        rw [h2, ha]
        rfl
      · intro hb0
        apply hc
        right
        rw [h1, h2, hb0, List.length_append]
        simp

/-- A well-formed user line adds its pair, the text before the first space and the text
after it. -/
theorem usersLoop_good (users : List (Bytes × Bytes)) (u : UserLine) (rest : List Bytes)
    (h : u.WellFormed) :
    usersLoop users (u.line :: rest) =
      usersLoop (usersInsert (u.username, u.password) users) rest := by
  obtain ⟨h1, h2, h3, h4, h5⟩ := h
  rw [usersLoop_step users u.line rest h1, h2, find_space_of _ _ h4]
  dsimp only
  have hl : u.username.length ≠ 0 := fun h0 => h3 (List.length_eq_zero.1 h0)
  have hp : u.password.length ≠ 0 := fun h0 => h5 (List.length_eq_zero.1 h0)
  have hs : substr (u.username ++ Char.ofNat 32 :: u.password) 0 u.username.length =
      u.username := by
    unfold substr
    rw [List.drop_zero, List.take_left]
  have hd : (u.username ++ Char.ofNat 32 :: u.password).drop (u.username.length + 1) =
      u.password := by
    have e1 : u.username ++ Char.ofNat 32 :: u.password =
        (u.username ++ [Char.ofNat 32]) ++ u.password := by simp
    have e2 : u.username.length + 1 = (u.username ++ [Char.ofNat 32]).length := by simp
    rw [e1, e2, List.drop_left]
  rw [if_neg, hs, hd]
  intro hc
  rcases hc with hc | hc
  · exact hl hc
  · rw [List.length_append, List.length_cons] at hc
    omega

/-- Where the inner loop stops without a fault: after a run of `$` lines, at the end of the
text or at a line that is no `$` line. -/
theorem usersLoop_shape : ∀ (ls : List Bytes) (users users1 : List (Bytes × Bytes))
    (rest1 : List Bytes), usersLoop users ls = (users1, some rest1) →
    ∃ us, ls = us ++ rest1 ∧ (∀ u ∈ us, isDollarLine u = true) ∧
      (∀ r, rest1.head? = some r → isDollarLine r = false) := by
  intro ls
  induction ls with
  | nil =>
    intro users users1 rest1 h
    rw [usersLoop] at h
    cases h
    exact ⟨[], rfl, by simp, by simp⟩
  | cons l rest ih =>
    intro users users1 rest1 h
    by_cases hd : isDollarLine l = true
    · rw [usersLoop_step users l rest hd] at h
      cases hf : find (dollarValue l) " ".toList 0 with
      | none => rw [hf] at h; cases h
      | some sp =>
        rw [hf] at h
        dsimp only at h
        by_cases hc : sp = 0 ∨ sp = (dollarValue l).length - 1
        · rw [if_pos hc] at h; cases h
        · rw [if_neg hc] at h
          obtain ⟨us, h1, h2, h3⟩ := ih _ _ _ h
          refine ⟨l :: us, by rw [h1]; rfl, ?_, h3⟩
          intro u hu
          rcases List.mem_cons.1 hu with hu | hu
          · rw [hu]; exact hd
          · exact h2 u hu
    · have hd0 : isDollarLine l = false := by simpa using hd
      rw [usersLoop_stop users (l :: rest) (fun r hr => by cases hr; exact hd0)] at h
      cases h
      exact ⟨[], rfl, by simp, fun r hr => by cases hr; exact hd0⟩

/-- A malformed user line after a run of `$` lines ends the load. -/
theorem usersLoop_malformed : ∀ (us : List Bytes) (u : Bytes) (rest1 : List Bytes)
    (users : List (Bytes × Bytes)), (∀ x ∈ us, isDollarLine x = true) →
    isDollarLine u = true → ¬ TwoParts (dollarValue u) →
    ∃ users1, usersLoop users (us ++ u :: rest1) = (users1, none) := by
  intro us
  induction us with
  | nil =>
    intro u rest1 users _ hu hb
    exact ⟨users, usersLoop_bad users u rest1 hu hb⟩
  | cons x xs ih =>
    intro u rest1 users hx hu hb
    rw [List.cons_append, usersLoop_step users x _ (hx x (List.mem_cons_self _ _))]
    cases hf : find (dollarValue x) " ".toList 0 with
    | none => exact ⟨users, rfl⟩
    | some sp =>
      dsimp only
      by_cases hc : sp = 0 ∨ sp = (dollarValue x).length - 1
      · rw [if_pos hc]; exact ⟨users, rfl⟩
      · rw [if_neg hc]
        exact ih u rest1 _ (fun y hy => hx y (List.mem_cons_of_mem _ hy)) hu hb

theorem isspace_of_isDigit (c : Char) (h : c.isDigit = true) : isspace c = false := by
  by_contra hc
  have hs : isspace c = true := by simpa using hc
  unfold isspace at hs
  simp only [Bool.or_eq_true, decide_eq_true_eq] at hs
  rcases hs with ((((hs | hs) | hs) | hs) | hs) | hs <;> (rw [hs] at h; revert h; decide)

/-- The call `std::stoul` on a decimal numeral: its value and its whole length, or
`out_of_range` beyond ULONG_MAX. -/
theorem stoul_numeral (v : Bytes) (h : isNumeral v = true) :
    stoul v = if digitsVal v 0 > 2 ^ 64 - 1 then none else some (digitsVal v 0, v.length) := by
  unfold isNumeral at h
  simp only [Bool.and_eq_true, Bool.not_eq_true', List.all_eq_true] at h
  obtain ⟨hne, hall⟩ := h
  cases v with
  | nil => simp at hne
  | cons c cs =>
    have hc : c.isDigit = true := hall c (List.mem_cons_self _ _)
    have hsp : isspace c = false := isspace_of_isDigit c hc
    have h1 : (c :: cs).takeWhile isspace = [] := by
      rw [List.takeWhile_cons, hsp]; rfl
    have h2 : (c :: cs).dropWhile isspace = c :: cs := by
      rw [List.dropWhile_cons, hsp]; rfl
    have h3 : c ≠ '-' := by
      intro hc1; rw [hc1] at hc; revert hc; decide
    have h4 : c ≠ '+' := by
      intro hc1; rw [hc1] at hc; revert hc; decide
    have h5 : (c :: cs).takeWhile Char.isDigit = c :: cs :=
      List.takeWhile_eq_self_iff.2 hall
    unfold stoul
    simp only [h1, h2, List.head?_cons, Option.some.injEq, h3, h4, or_self, if_false,
      List.drop_zero, h5, decide_False, List.length_nil, Nat.zero_add, Bool.false_eq_true]
    rw [if_neg (by simp)]

theorem loadValue_unknown (ip : Bytes → Bool) (st : LoadState) (p value : Bytes)
    (h : ∀ key ∈ ["ip", "dir", "rwtimeout", "anonymous", "utf-8", "port"], p ≠ key.toList) :
    loadValue ip st p value = none := by
  unfold loadValue
  rw [if_neg (h "ip" (by decide)), if_neg (h "dir" (by decide)),
    if_neg (h "rwtimeout" (by decide)), if_neg (h "anonymous" (by decide)),
    if_neg (h "utf-8" (by decide)), if_neg (h "port" (by decide))]

/-- The branch of a key sets the flag of `ip` only for `ip`, the flag of `dir` only for
`dir`, and leaves the set of users as it is. -/
theorem loadValue_flags (ip : Bytes → Bool) (st st1 : LoadState) (p value : Bytes)
    (h : loadValue ip st p value = some st1) :
    (st1.has_ip = true → st.has_ip = true ∨ p = "ip".toList) ∧
      (st1.has_dir = true → st.has_dir = true ∨ p = "dir".toList) ∧
      (st.has_ip = true → st1.has_ip = true) ∧ (st.has_dir = true → st1.has_dir = true) ∧
      st1.cfg.users = st.cfg.users := by
  unfold loadValue at h
  by_cases c1 : p = "ip".toList
  · rw [if_pos c1] at h
    split_ifs at h
    cases h
    exact ⟨fun _ => Or.inr c1, fun h => Or.inl h, fun _ => rfl, fun h => h, rfl⟩
  rw [if_neg c1] at h
  by_cases c2 : p = "dir".toList
  · rw [if_pos c2] at h
    split_ifs at h
    cases h
    exact ⟨fun h => Or.inl h, fun _ => Or.inr c2, fun h => h, fun _ => rfl, rfl⟩
  rw [if_neg c2] at h
  by_cases c3 : p = "rwtimeout".toList
  · rw [if_pos c3] at h
    cases hs : stoul value with
    | none => rw [hs] at h; cases h
    | some r =>
      rw [hs] at h
      dsimp only at h
      split_ifs at h
      cases h
      exact ⟨fun h => Or.inl h, fun h => Or.inl h, fun h => h, fun h => h, rfl⟩
  rw [if_neg c3] at h
  by_cases c4 : p = "anonymous".toList
  · rw [if_pos c4] at h
    split_ifs at h <;>
      (cases h; exact ⟨fun h => Or.inl h, fun h => Or.inl h, fun h => h, fun h => h, rfl⟩)
  rw [if_neg c4] at h
  by_cases c5 : p = "utf-8".toList
  · rw [if_pos c5] at h
    split_ifs at h <;>
      (cases h; exact ⟨fun h => Or.inl h, fun h => Or.inl h, fun h => h, fun h => h, rfl⟩)
  rw [if_neg c5] at h
  by_cases c6 : p = "port".toList
  · rw [if_pos c6] at h
    cases hs : stoul value with
    | none => rw [hs] at h; cases h
    | some r =>
      rw [hs] at h
      dsimp only at h
      split_ifs at h
      cases h
      exact ⟨fun h => Or.inl h, fun h => Or.inl h, fun h => h, fun h => h, rfl⟩
  rw [if_neg c6] at h
  cases h

theorem keyLine_users_notBlank (l : Bytes) (h : trim l = keyLine "users") :
    isBlankOrComment l = false := by
  unfold isBlankOrComment
  rw [h]
  decide

/-- The inner loop on a run of `$` lines that ends at the end of the text or at a line that
is no `$` line: a fault, or the loop stops at the end of the run. -/
theorem usersLoop_run : ∀ (us rest : List Bytes) (users : List (Bytes × Bytes)),
    (∀ x ∈ us, isDollarLine x = true) →
    (∀ r, rest.head? = some r → isDollarLine r = false) →
    (∃ users1, usersLoop users (us ++ rest) = (users1, none)) ∨
      ∃ users1, usersLoop users (us ++ rest) = (users1, some rest) := by
  intro us
  induction us with
  | nil =>
    intro rest users _ hr
    exact Or.inr ⟨users, usersLoop_stop users rest hr⟩
  | cons x xs ih =>
    intro rest users hx hr
    rw [List.cons_append, usersLoop_step users x _ (hx x (List.mem_cons_self _ _))]
    cases hf : find (dollarValue x) " ".toList 0 with
    | none => exact Or.inl ⟨users, rfl⟩
    | some sp =>
      dsimp only
      by_cases hc : sp = 0 ∨ sp = (dollarValue x).length - 1
      · rw [if_pos hc]; exact Or.inl ⟨users, rfl⟩
      · rw [if_neg hc]
        exact ih rest _ (fun y hy => hx y (List.mem_cons_of_mem _ hy)) hr

theorem head_dollar (rest : List Bytes)
    (h : ¬ ∀ v, rest.head? = some v → isDollarLine v = false) :
    ∃ v rest1, rest = v :: rest1 ∧ isDollarLine v = true := by
  cases rest with
  | nil => exact absurd (fun v hv => by cases hv) h
  | cons v rest1 =>
    refine ⟨v, rest1, rfl, ?_⟩
    by_contra hc
    exact h (fun w hw => by cases hw; simpa using hc)

/-- The outer loop returns with one unit of fuel for each line and one more. -/
theorem loadLoop_total (ip : Bytes → Bool) : ∀ (fuel : Nat) (st : LoadState)
    (rest : List Bytes), rest.length < fuel → ∃ r, loadLoop ip fuel st rest = some r := by
  intro fuel
  induction fuel with
  | zero => intro st rest h; omega
  | succ n ih =>
    intro st rest h
    cases rest with
    | nil => exact ⟨_, by rw [loadLoop]⟩
    | cons l rest =>
      rw [List.length_cons] at h
      by_cases hb : isBlankOrComment l = true
      · rw [loadLoop_skip ip n st l rest hb]
        exact ih st rest (by omega)
      have hb0 : isBlankOrComment l = false := by simpa using hb
      by_cases hc : (trim l).getLast? = some ':'
      swap
      · exact ⟨_, loadLoop_noColon ip n st l rest hb0 hc⟩
      by_cases hv : ∀ v, rest.head? = some v → isDollarLine v = false
      · exact ⟨_, loadLoop_noValue ip n st l rest hb0 hv⟩
      obtain ⟨v, rest1, hr, hd⟩ := head_dollar rest hv
      subst hr
      rw [List.length_cons] at h
      by_cases hu : trim l = keyLine "users"
      · rw [loadLoop_users ip n st l v rest1 hu hd]
        rcases hU : usersLoop st.cfg.users (v :: rest1) with ⟨users, _ | rest2⟩
        · exact ⟨_, rfl⟩
        · obtain ⟨us, h1, _, _⟩ := usersLoop_shape _ _ _ _ hU
          have hl : rest2.length ≤ (v :: rest1).length := by
            rw [h1, List.length_append]; omega
          rw [List.length_cons] at hl
          exact ih _ rest2 (by omega)
      · rw [loadLoop_entry ip n st l v rest1 hb0 hc hd hu]
        cases loadValue ip st (substr (trim l) 0 ((trim l).length - 1)) (dollarValue v) with
        | none => exact ⟨_, rfl⟩
        | some st1 => exact ih st1 rest1 (by omega)

/-- The lines before a key position are passed or end the load: when the loop fails from a
key position on, it fails on the whole text. -/
theorem loadLoop_prefix (ip : Bytes → Bool) (lines : List Bytes) :
    ∀ rest, KeyPosition lines rest →
    (∀ fuel st, rest.length < fuel → ∃ st1, loadLoop ip fuel st rest = some (false, st1)) →
    ∀ fuel st, lines.length < fuel → ∃ st1, loadLoop ip fuel st lines = some (false, st1) := by
  intro rest hk
  induction hk with
  | start => exact fun h => h
  | skip l rest _ hb ih =>
    intro h
    apply ih
    intro fuel st hf
    cases fuel with
    | zero => omega
    | succ n =>
      rw [List.length_cons] at hf
      rw [loadLoop_skip ip n st l rest hb]
      exact h n st (by omega)
  | entry l v rest _ hb hu ih =>
    intro h
    apply ih
    intro fuel st hf
    cases fuel with
    | zero => omega
    | succ n =>
      rw [List.length_cons, List.length_cons] at hf
      by_cases hc : (trim l).getLast? = some ':'
      swap
      · exact ⟨_, loadLoop_noColon ip n st l _ hb hc⟩
      by_cases hd : isDollarLine v = true
      swap
      · exact ⟨_, loadLoop_noValue ip n st l _ hb
          (fun w hw => by cases hw; simpa using hd)⟩
      rw [loadLoop_entry ip n st l v rest hb hc hd hu]
      cases loadValue ip st (substr (trim l) 0 ((trim l).length - 1)) (dollarValue v) with
      | none => exact ⟨_, rfl⟩
      | some st1 => exact h n st1 (by omega)
  | users l us rest _ hu hus hr ih =>
    intro h
    apply ih
    intro fuel st hf
    cases fuel with
    | zero => omega
    | succ n =>
      rw [List.length_cons, List.length_append] at hf
      have hb := keyLine_users_notBlank l hu
      cases us with
      | nil => exact ⟨_, loadLoop_noValue ip n st l _ hb hr⟩
      | cons x xs =>
        rw [List.cons_append,
          loadLoop_users ip n st l x _ hu (hus x (List.mem_cons_self _ _)),
          ← List.cons_append]
        rcases usersLoop_run (x :: xs) rest st.cfg.users hus hr with ⟨users1, h1⟩ | ⟨users1, h1⟩
        · rw [h1]; exact ⟨_, rfl⟩
        · rw [h1]; exact h n _ (by omega)

/-- A faulty key line at key position ends the load. -/
theorem loadLoop_bad (ip : Bytes → Bool) (fuel : Nat) (st : LoadState) (l : Bytes)
    (rest : List Bytes) (hb : isBlankOrComment l = false) (h : BadKeyLine ip l rest) :
    ∃ st1, loadLoop ip (fuel + 1) st (l :: rest) = some (false, st1) := by
  by_cases hc : (trim l).getLast? = some ':'
  swap
  · exact ⟨_, loadLoop_noColon ip fuel st l rest hb hc⟩
  by_cases hv : ∀ v, rest.head? = some v → isDollarLine v = false
  · exact ⟨_, loadLoop_noValue ip fuel st l rest hb hv⟩
  obtain ⟨v, rest1, hr, hd⟩ := head_dollar rest hv
  have hsplit := trim_keyLine_split (trim l) hc
  have hkey : ∀ key : String, trim l = keyLine key →
      substr (trim l) 0 ((trim l).length - 1) = key.toList :=
    fun key hk => (keyLine_param (trim l) key hk).2
  have hfail : trim l ≠ keyLine "users" →
      loadValue ip st (substr (trim l) 0 ((trim l).length - 1)) (dollarValue v) = none →
      ∃ st1, loadLoop ip (fuel + 1) st (l :: rest) = some (false, st1) := by
    intro hu hn
    rw [hr, loadLoop_entry ip fuel st l v rest1 hb hc hd hu, hn]
    exact ⟨_, rfl⟩
  rcases h with h | h | h | h | h
  · exact absurd hc h
  · refine hfail (h "users" (by decide)) (loadValue_unknown ip st _ _ ?_)
    intro key hk he
    refine h key ?_ ?_
    · revert hk
      generalize key = k
      simp only [configKeys, List.mem_cons, List.not_mem_nil, or_false]
      intro hk
      rcases hk with hk | hk | hk | hk | hk | hk <;> simp [hk]
    · rw [hsplit, he]; rfl
  · exact absurd h hv
  · obtain ⟨v1, rest2, hr1, _, hbad⟩ := h
    rw [hr] at hr1
    cases hr1
    rcases hbad with ⟨hk, hi⟩ | ⟨hk, hi⟩ | ⟨hk, hi1, hi2⟩ | ⟨hk, hi1, hi2⟩
    · refine hfail (by rw [hk]; decide) ?_
      rw [hkey "ip" hk]
      unfold loadValue
      rw [if_pos rfl, if_pos hi]
    · refine hfail (by rw [hk]; decide) ?_
      rw [hkey "dir" hk]
      unfold loadValue
      rw [if_neg (by decide), if_pos rfl, if_pos hi]
    · rcases hk with hk | hk
      · refine hfail (by rw [hk]; decide) ?_
        rw [hkey "anonymous" hk]
        unfold loadValue
        rw [if_neg (by decide), if_neg (by decide), if_neg (by decide), if_pos rfl,
          if_neg hi1, if_neg hi2]
      · refine hfail (by rw [hk]; decide) ?_
        rw [hkey "utf-8" hk]
        unfold loadValue
        rw [if_neg (by decide), if_neg (by decide), if_neg (by decide), if_neg (by decide),
          if_pos rfl, if_neg hi1, if_neg hi2]
    · refine hfail (by rw [hk]; decide) ?_
      rw [hkey "port" hk]
      unfold loadValue
      rw [if_neg (by decide), if_neg (by decide), if_neg (by decide), if_neg (by decide),
        if_neg (by decide), if_pos rfl, stoul_numeral _ hi1]
      by_cases hbig : digitsVal (dollarValue v) 0 > 2 ^ 64 - 1
      · rw [if_pos hbig]
      · rw [if_neg hbig]
        dsimp only
        rw [if_pos]
        right
        unfold USHRT_MAX
        omega
  · obtain ⟨hu, us, u, rest2, hr1, hus, hdu, hbad⟩ := h
    rw [hr] at hr1
    rw [hr, loadLoop_users ip fuel st l v rest1 hu hd, hr1]
    obtain ⟨users1, h1⟩ := usersLoop_malformed us u rest2 st.cfg.users hus hdu hbad
    rw [h1]
    exact ⟨_, rfl⟩

theorem KeyPosition_suffix (lines : List Bytes) :
    ∀ rest, KeyPosition lines rest → rest <:+ lines := by
  intro rest hk
  induction hk with
  | start => exact List.suffix_refl _
  | skip l rest _ _ ih => exact (List.suffix_cons l rest).trans ih
  | entry l v rest _ _ _ ih =>
    exact ((List.suffix_cons v rest).trans (List.suffix_cons l _)).trans ih
  | users l us rest _ _ _ _ ih =>
    exact ((List.suffix_append us rest).trans (List.suffix_cons l _)).trans ih

/-- A text without the key line of `key` has no entry of it. -/
theorem not_HasEntry (key : String) (lines : List Bytes)
    (h : ∀ l ∈ lines, trim l ≠ keyLine key) : ¬ HasEntry key lines := by
  rintro ⟨l, rest, hk, hl⟩
  exact h l ((KeyPosition_suffix lines _ hk).subset (List.mem_cons_self _ _)) hl

/-- The flags of `ip` and `dir` are set only at their entries. -/
theorem loadLoop_flags (ip : Bytes → Bool) (lines : List Bytes) :
    ∀ (fuel : Nat) (st : LoadState) (rest : List Bytes) (r : LoadState),
      KeyPosition lines rest → loadLoop ip fuel st rest = some (true, r) →
      (r.has_ip = true → st.has_ip = true ∨ HasEntry "ip" lines) ∧
        (r.has_dir = true → st.has_dir = true ∨ HasEntry "dir" lines) := by
  intro fuel
  induction fuel with
  | zero => intro st rest r _ h; rw [loadLoop] at h; cases h
  | succ n ih =>
    intro st rest r hk h
    cases rest with
    | nil =>
      rw [loadLoop] at h
      cases h
      exact ⟨Or.inl, Or.inl⟩
    | cons l rest =>
      by_cases hb : isBlankOrComment l = true
      · rw [loadLoop_skip ip n st l rest hb] at h
        exact ih st rest r (KeyPosition.skip l rest hk hb) h
      have hb0 : isBlankOrComment l = false := by simpa using hb
      by_cases hc : (trim l).getLast? = some ':'
      swap
      · rw [loadLoop_noColon ip n st l rest hb0 hc] at h; cases h
      by_cases hv : ∀ v, rest.head? = some v → isDollarLine v = false
      · rw [loadLoop_noValue ip n st l rest hb0 hv] at h; cases h
      obtain ⟨v, rest1, hr, hd⟩ := head_dollar rest hv
      subst hr
      by_cases hu : trim l = keyLine "users"
      · rw [loadLoop_users ip n st l v rest1 hu hd] at h
        rcases hU : usersLoop st.cfg.users (v :: rest1) with ⟨users, _ | rest2⟩
        · rw [hU] at h; cases h
        · rw [hU] at h
          obtain ⟨us, h1, h2, h3⟩ := usersLoop_shape _ _ _ _ hU
          rw [h1] at hk
          have hi := ih { st with cfg := { st.cfg with users := users } } rest2 r
            (KeyPosition.users l us rest2 hk hu h2 h3) h
          exact hi
      · rw [loadLoop_entry ip n st l v rest1 hb0 hc hd hu] at h
        cases hL : loadValue ip st (substr (trim l) 0 ((trim l).length - 1))
            (dollarValue v) with
        | none => rw [hL] at h; cases h
        | some st1 =>
          rw [hL] at h
          obtain ⟨f1, f2, _, _, _⟩ := loadValue_flags ip st st1 _ _ hL
          obtain ⟨g1, g2⟩ := ih st1 rest1 r (KeyPosition.entry l v rest1 hk hb0 hu) h
          have hsplit := trim_keyLine_split (trim l) hc
          constructor
          · intro hr
            rcases g1 hr with g | g
            · rcases f1 g with f | f
              · exact Or.inl f
              · exact Or.inr ⟨l, v :: rest1, hk, by rw [hsplit, f]; rfl⟩
            · exact Or.inr g
          · intro hr
            rcases g2 hr with g | g
            · rcases f2 g with f | f
              · exact Or.inl f
              · exact Or.inr ⟨l, v :: rest1, hk, by rw [hsplit, f]; rfl⟩
            · exact Or.inr g

/-- C22: LoadConfig returns, and it returns false (1) for every text in which a key line at
key position, blank lines and comments passed over, does not end with a colon, names no key
of the grammar, is not followed by a line starting with `$`, or carries an invalid value,
and (2) for every text that has no `ip` entry or no `dir` entry. -/
theorem C22_LoadConfig_rejects (inet_pton : Bytes → Bool) (codeset : Bytes) (cfg : ServerInfo)
    (text : Bytes) :
    (∃ r, ServerInfo.LoadConfig inet_pton codeset cfg (some text) = some r) ∧
    ((∃ l rest, KeyPosition (getlineAll '\n' text) (l :: rest) ∧
        isBlankOrComment l = false ∧ BadKeyLine inet_pton l rest) →
      ∃ cfg1, ServerInfo.LoadConfig inet_pton codeset cfg (some text) = some (false, cfg1)) ∧
    ((¬ HasEntry "ip" (getlineAll '\n' text) ∨ ¬ HasEntry "dir" (getlineAll '\n' text)) →
      ∃ cfg1, ServerInfo.LoadConfig inet_pton codeset cfg (some text) = some (false, cfg1)) := by
  unfold ServerInfo.LoadConfig
  dsimp only
  generalize getlineAll '\n' text = lines
  obtain ⟨r, hr⟩ := loadLoop_total inet_pton (lines.length + 1)
    { cfg := cfg, has_ip := false, has_dir := false } lines (by omega)
  refine ⟨?_, ?_, ?_⟩
  · rw [hr]
    rcases r with ⟨_ | _, st⟩
    · exact ⟨_, rfl⟩
    · dsimp only
      split_ifs <;> exact ⟨_, rfl⟩
  · rintro ⟨l, rest, hk, hb, hbad⟩
    obtain ⟨st1, h1⟩ := loadLoop_prefix inet_pton lines (l :: rest) hk
      (fun fuel st hf => by
        cases fuel with
        | zero => omega
        | succ n => exact loadLoop_bad inet_pton n st l rest hb hbad)
      (lines.length + 1) { cfg := cfg, has_ip := false, has_dir := false } (by omega)
    rw [h1]
    exact ⟨_, rfl⟩
  · intro hno
    rw [hr]
    rcases r with ⟨_ | _, st⟩
    · exact ⟨_, rfl⟩
    · dsimp only
      obtain ⟨g1, g2⟩ := loadLoop_flags inet_pton lines _ _ lines st KeyPosition.start hr
      rw [if_pos]
      · exact ⟨_, rfl⟩
      · rcases hno with hno | hno
        · have : st.has_ip = false := by
            by_contra hc
            rcases g1 (by simpa using hc) with g | g
            · cases g
            · exact hno g
          simp [this]
        · have : st.has_dir = false := by
            by_contra hc
            rcases g2 (by simpa using hc) with g | g
            · cases g
            · exact hno g
          simp [this]

/-- The witness of C22: a text whose `port` is 65536 and a text without an `ip` entry are
refused. -/
theorem C22_LoadConfig_rejects_witness :
    (∃ cfg1, ServerInfo.LoadConfig inet_pton4 "UTF-8".toList (simCfg false false)
      (some "# server\nip:\n$10.0.0.1\ndir:\n$/srv\nport:\n$65536\n".toList) =
        some (false, cfg1)) ∧
    (∃ cfg1, ServerInfo.LoadConfig inet_pton4 "UTF-8".toList (simCfg false false)
      (some "dir:\n$/srv\n".toList) = some (false, cfg1)) := by
  constructor
  · refine (C22_LoadConfig_rejects inet_pton4 "UTF-8".toList (simCfg false false) _).2.1
      ⟨"port:".toList, ["$65536".toList], ?_, by decide, ?_⟩
    · have hl : getlineAll '\n' "# server\nip:\n$10.0.0.1\ndir:\n$/srv\nport:\n$65536\n".toList =
          ["# server".toList, "ip:".toList, "$10.0.0.1".toList, "dir:".toList,
            "$/srv".toList, "port:".toList, "$65536".toList] := by decide
      rw [hl]
      exact KeyPosition.entry "dir:".toList "$/srv".toList _
        (KeyPosition.entry "ip:".toList "$10.0.0.1".toList _
          (KeyPosition.skip "# server".toList _ KeyPosition.start (by decide))
          (by decide) (by decide)) (by decide) (by decide)
    · right; right; right; left
      exact ⟨"$65536".toList, [], rfl, by decide, Or.inr (Or.inr (Or.inr
        ⟨by decide, by decide, by decide⟩))⟩
  · refine (C22_LoadConfig_rejects inet_pton4 "UTF-8".toList (simCfg false false) _).2.2
      (Or.inl (not_HasEntry "ip" _ ?_))
    decide

theorem usersInsert_mem (p q : Bytes × Bytes) (users : List (Bytes × Bytes)) :
    q ∈ usersInsert p users ↔ q ∈ users ∨ q = p := by
  unfold usersInsert
  by_cases h : p ∈ users
  · rw [if_pos h]
    constructor
    · exact Or.inl
    · rintro (hq | hq)
      · exact hq
      · rw [hq]; exact h
  · rw [if_neg h, List.mem_append, List.mem_singleton]

/-- The inner loop on well-formed user lines that end at the end of the text or at a line
that is no `$` line: it stops there, and the set of users has gained exactly their pairs. -/
theorem usersLoop_wellFormed : ∀ (us : List UserLine) (users : List (Bytes × Bytes))
    (more : List Bytes), (∀ u ∈ us, u.WellFormed) →
    (∀ r, more.head? = some r → isDollarLine r = false) →
    ∃ users1, usersLoop users ((us.map fun u => u.line) ++ more) = (users1, some more) ∧
      ∀ p, p ∈ users1 ↔ p ∈ users ∨ p ∈ us.map fun u => (u.username, u.password) := by
  intro us
  induction us with
  | nil =>
    intro users more _ hm
    exact ⟨users, usersLoop_stop users more hm, by simp⟩
  | cons u us ih =>
    intro users more hu hm
    obtain ⟨users1, h1, h2⟩ := ih (usersInsert (u.username, u.password) users) more
      (fun x hx => hu x (List.mem_cons_of_mem _ hx)) hm
    refine ⟨users1, ?_, ?_⟩
    · rw [List.map_cons, List.cons_append,
        usersLoop_good users u _ (hu u (List.mem_cons_self _ _))]
      exact h1
    · intro p
      rw [h2 p, usersInsert_mem, List.map_cons, List.mem_cons]
      tauto

theorem isDollarLine_keyLine (l : Bytes) (key : String) (hk : key ∈ configKeys)
    (h : trim l = keyLine key) : isDollarLine l = false ∧ isBlankOrComment l = false := by
  unfold isDollarLine isBlankOrComment
  rw [h]
  revert hk
  generalize key = k
  simp only [configKeys, List.mem_cons, List.not_mem_nil, or_false]
  intro hk
  rcases hk with hk | hk | hk | hk | hk | hk | hk <;> (subst hk; decide)

theorem isDollarLine_blank (l : Bytes) (h : isBlankOrComment l = true) :
    isDollarLine l = false := by
  unfold isBlankOrComment at h
  unfold isDollarLine
  simp only [Bool.or_eq_true, decide_eq_true_eq] at h
  rcases h with h | h
  · rw [h]; rfl
  · rw [h]; decide

/-- The key of a valid entry is a key of the grammar other than `users`. -/
theorem Valid_entry_key (ip : Bytes → Bool) (l v : Bytes)
    (h : (ConfigItem.entry l v).Valid ip) :
    ∃ key, key ∈ configKeys ∧ key ≠ "users" ∧ trim l = keyLine key := by
  obtain ⟨_, h | h | h | h | h⟩ := h
  · exact ⟨"ip", by decide, by decide, h.1⟩
  · exact ⟨"dir", by decide, by decide, h.1⟩
  · exact ⟨"rwtimeout", by decide, by decide, h.1⟩
  · rcases h.1 with h1 | h1
    · exact ⟨"anonymous", by decide, by decide, h1⟩
    · exact ⟨"utf-8", by decide, by decide, h1⟩
  · exact ⟨"port", by decide, by decide, h.1⟩

/-- The first line of a valid item is no `$` line. -/
theorem itemLines_head (ip : Bytes → Bool) (items : List ConfigItem)
    (hv : ∀ it ∈ items, it.Valid ip) :
    ∀ r, (itemLines items).head? = some r → isDollarLine r = false := by
  intro r hr
  cases items with
  | nil => cases hr
  | cons it items =>
    have hit := hv it (List.mem_cons_self _ _)
    cases it with
    | skip l =>
      cases hr
      exact isDollarLine_blank _ hit
    | entry l v =>
      cases hr
      obtain ⟨key, hk, _, hl⟩ := Valid_entry_key ip _ v hit
      exact (isDollarLine_keyLine _ key hk hl).1
    | users l us =>
      cases hr
      exact (isDollarLine_keyLine _ "users" (by decide) hit.1).1

theorem itemLines_length (items : List ConfigItem) :
    items.length ≤ (itemLines items).length := by
  induction items with
  | nil => exact Nat.le_refl _
  | cons it items ih =>
    rw [itemLines, List.length_append, List.length_cons]
    have : 1 ≤ it.lines.length := by
      cases it <;> simp [ConfigItem.lines]
    omega

/-- The branch of a key on a valid value stores it: the branch of `ip` sets the flag of
`ip`, the branch of `dir` the flag of `dir`. -/
theorem loadValue_valid (ip : Bytes → Bool) (st : LoadState) (l v : Bytes)
    (h : (ConfigItem.entry l v).Valid ip) :
    ∃ st1, loadValue ip st (substr (trim l) 0 ((trim l).length - 1)) (dollarValue v) =
        some st1 ∧ (trim l = keyLine "ip" → st1.has_ip = true) ∧
      (trim l = keyLine "dir" → st1.has_dir = true) := by
  obtain ⟨_, h | h | h | h | h⟩ := h
  · obtain ⟨hk, hi⟩ := h
    rw [(keyLine_param _ "ip" hk).2]
    unfold loadValue
    rw [if_pos rfl, if_neg (by rw [hi]; decide)]
    exact ⟨_, rfl, fun _ => rfl, fun hd => absurd (hk.symm.trans hd) (by decide)⟩
  · obtain ⟨hk, hi⟩ := h
    rw [(keyLine_param _ "dir" hk).2]
    unfold loadValue
    rw [if_neg (by decide), if_pos rfl, if_neg (by omega)]
    exact ⟨_, rfl, fun hd => absurd (hk.symm.trans hd) (by decide), fun _ => rfl⟩
  · obtain ⟨hk, hn, hi⟩ := h
    rw [(keyLine_param _ "rwtimeout" hk).2]
    unfold loadValue
    unfold UINT_MAX at hi
    rw [if_neg (by decide), if_neg (by decide), if_pos rfl, stoul_numeral _ hn,
      if_neg (by omega)]
    dsimp only
    rw [if_neg (by unfold UINT_MAX; omega)]
    exact ⟨_, rfl, fun hd => absurd (hk.symm.trans hd) (by decide),
      fun hd => absurd (hk.symm.trans hd) (by decide)⟩
  · obtain ⟨hk, hi⟩ := h
    rcases hk with hk | hk
    · rw [(keyLine_param _ "anonymous" hk).2]
      unfold loadValue
      rw [if_neg (by decide), if_neg (by decide), if_neg (by decide), if_pos rfl]
      rcases hi with hi | hi
      · rw [if_pos hi]
        exact ⟨_, rfl, fun hd => absurd (hk.symm.trans hd) (by decide),
          fun hd => absurd (hk.symm.trans hd) (by decide)⟩
      · rw [if_neg (by rw [hi]; decide), if_pos hi]
        exact ⟨_, rfl, fun hd => absurd (hk.symm.trans hd) (by decide),
          fun hd => absurd (hk.symm.trans hd) (by decide)⟩
    · rw [(keyLine_param _ "utf-8" hk).2]
      unfold loadValue
      rw [if_neg (by decide), if_neg (by decide), if_neg (by decide), if_neg (by decide),
        if_pos rfl]
      rcases hi with hi | hi
      · rw [if_pos hi]
        exact ⟨_, rfl, fun hd => absurd (hk.symm.trans hd) (by decide),
          fun hd => absurd (hk.symm.trans hd) (by decide)⟩
      · rw [if_neg (by rw [hi]; decide), if_pos hi]
        exact ⟨_, rfl, fun hd => absurd (hk.symm.trans hd) (by decide),
          fun hd => absurd (hk.symm.trans hd) (by decide)⟩
  · obtain ⟨hk, hn, hi⟩ := h
    rw [(keyLine_param _ "port" hk).2]
    unfold loadValue
    rw [if_neg (by decide), if_neg (by decide), if_neg (by decide), if_neg (by decide),
      if_neg (by decide), if_pos rfl, stoul_numeral _ hn, if_neg (by omega)]
    dsimp only
    rw [if_neg (by unfold USHRT_MAX; omega)]
    exact ⟨_, rfl, fun hd => absurd (hk.symm.trans hd) (by decide),
      fun hd => absurd (hk.symm.trans hd) (by decide)⟩

/-- The outer loop on the lines of valid items: it passes them all, the set of users gains
exactly the pairs of the user lines, and the entries of `ip` and `dir` set their flags. -/
theorem loadLoop_items (ip : Bytes → Bool) :
    ∀ (items : List ConfigItem) (fuel : Nat) (st : LoadState),
      (∀ it ∈ items, it.Valid ip) → items.length < fuel →
      ∃ st1, loadLoop ip fuel st (itemLines items) = some (true, st1) ∧
        (∀ p, p ∈ st1.cfg.users ↔ p ∈ st.cfg.users ∨ ∃ it ∈ items, p ∈ it.pairs) ∧
        ((st.has_ip = true ∨ ∃ it ∈ items, it.isEntry "ip") → st1.has_ip = true) ∧
        ((st.has_dir = true ∨ ∃ it ∈ items, it.isEntry "dir") → st1.has_dir = true) := by
  intro items
  induction items with
  | nil =>
    intro fuel st _ hf
    cases fuel with
    | zero => simp at hf
    | succ n =>
      refine ⟨st, by rw [itemLines, loadLoop], by simp, ?_, ?_⟩
      · rintro (h | ⟨it, hit, _⟩)
        · exact h
        · cases hit
      · rintro (h | ⟨it, hit, _⟩)
        · exact h
        · cases hit
  | cons it items ih =>
    intro fuel st hv hf
    have hv1 : ∀ x ∈ items, x.Valid ip := fun x hx => hv x (List.mem_cons_of_mem _ hx)
    have hit := hv it (List.mem_cons_self _ _)
    cases fuel with
    | zero => simp at hf
    | succ n =>
      rw [List.length_cons] at hf
      cases it with
      | skip l =>
        obtain ⟨st1, h1, h2, h3, h4⟩ := ih n st hv1 (by omega)
        refine ⟨st1, ?_, ?_, ?_, ?_⟩
        · show loadLoop ip (n + 1) st (l :: itemLines items) = _
          rw [loadLoop_skip ip n st l _ hit]
          exact h1
        · intro p
          rw [h2 p]
          constructor
          · rintro (h | ⟨x, hx, hp⟩)
            · exact Or.inl h
            · exact Or.inr ⟨x, List.mem_cons_of_mem _ hx, hp⟩
          · rintro (h | ⟨x, hx, hp⟩)
            · exact Or.inl h
            · rcases List.mem_cons.1 hx with hx | hx
              · subst hx; cases hp
              · exact Or.inr ⟨x, hx, hp⟩
        · rintro (h | ⟨x, hx, hp⟩)
          · exact h3 (Or.inl h)
          · rcases List.mem_cons.1 hx with hx | hx
            · subst hx; cases hp
            · exact h3 (Or.inr ⟨x, hx, hp⟩)
        · rintro (h | ⟨x, hx, hp⟩)
          · exact h4 (Or.inl h)
          · rcases List.mem_cons.1 hx with hx | hx
            · subst hx; cases hp
            · exact h4 (Or.inr ⟨x, hx, hp⟩)
      | entry l v =>
        obtain ⟨key, hk, hku, hl⟩ := Valid_entry_key ip l v hit
        have hb := (isDollarLine_keyLine l key hk hl).2
        have hc := (keyLine_param (trim l) key hl).1
        have hu : trim l ≠ keyLine "users" := by
          rw [hl]
          intro he
          apply hku
          have he1 : (keyLine key).dropLast = (keyLine "users").dropLast := by rw [he]
          unfold keyLine at he1
          rw [List.dropLast_concat, List.dropLast_concat] at he1
          exact String.ext he1
        obtain ⟨st0, hL, hi, hd⟩ := loadValue_valid ip st l v hit
        obtain ⟨f1, f2, f3, f4, f5⟩ := loadValue_flags ip st st0 _ _ hL
        obtain ⟨st1, h1, h2, h3, h4⟩ := ih n st0 hv1 (by omega)
        refine ⟨st1, ?_, ?_, ?_, ?_⟩
        · show loadLoop ip (n + 1) st (l :: v :: itemLines items) = _
          rw [loadLoop_entry ip n st l v _ hb hc hit.1 hu, hL]
          exact h1
        · intro p
          rw [h2 p, f5]
          constructor
          · rintro (h | ⟨x, hx, hp⟩)
            · exact Or.inl h
            · exact Or.inr ⟨x, List.mem_cons_of_mem _ hx, hp⟩
          · rintro (h | ⟨x, hx, hp⟩)
            · exact Or.inl h
            · rcases List.mem_cons.1 hx with hx | hx
              · subst hx; cases hp
              · exact Or.inr ⟨x, hx, hp⟩
        · rintro (h | ⟨x, hx, hp⟩)
          · exact h3 (Or.inl (f3 h))
          · rcases List.mem_cons.1 hx with hx | hx
            · subst hx; exact h3 (Or.inl (hi hp))
            · exact h3 (Or.inr ⟨x, hx, hp⟩)
        · rintro (h | ⟨x, hx, hp⟩)
          · exact h4 (Or.inl (f4 h))
          · rcases List.mem_cons.1 hx with hx | hx
            · subst hx; exact h4 (Or.inl (hd hp))
            · exact h4 (Or.inr ⟨x, hx, hp⟩)
      | users l us =>
        obtain ⟨hu, hne, hwf⟩ := hit
        cases us with
        | nil => exact absurd rfl hne
        | cons u us1 =>
          obtain ⟨users1, hU, hmem⟩ := usersLoop_wellFormed (u :: us1) st.cfg.users
            (itemLines items) hwf (itemLines_head ip items hv1)
          obtain ⟨st1, h1, h2, h3, h4⟩ :=
            ih n { st with cfg := { st.cfg with users := users1 } } hv1 (by omega)
          refine ⟨st1, ?_, ?_, ?_, ?_⟩
          · show loadLoop ip (n + 1) st
              (l :: u.line :: ((us1.map fun x => x.line) ++ itemLines items)) = _
            rw [loadLoop_users ip n st l u.line _ hu (hwf u (List.mem_cons_self _ _)).1]
            have hU1 : usersLoop st.cfg.users
                (u.line :: ((us1.map fun x => x.line) ++ itemLines items)) =
                (users1, some (itemLines items)) := hU
            rw [hU1]
            exact h1
          · intro p
            rw [h2 p]
            have hm : p ∈ users1 ↔ p ∈ st.cfg.users ∨
                p ∈ (ConfigItem.users l (u :: us1)).pairs := hmem p
            constructor
            · rintro (h | ⟨x, hx, hp⟩)
              · rcases hm.1 h with h | h
                · exact Or.inl h
                · exact Or.inr ⟨_, List.mem_cons_self _ _, h⟩
              · exact Or.inr ⟨x, List.mem_cons_of_mem _ hx, hp⟩
            · rintro (h | ⟨x, hx, hp⟩)
              · exact Or.inl (hm.2 (Or.inl h))
              · rcases List.mem_cons.1 hx with hx | hx
                · subst hx; exact Or.inl (hm.2 (Or.inr hp))
                · exact Or.inr ⟨x, hx, hp⟩
          · rintro (h | ⟨x, hx, hp⟩)
            · exact h3 (Or.inl h)
            · rcases List.mem_cons.1 hx with hx | hx
              · subst hx; cases hp
              · exact h3 (Or.inr ⟨x, hx, hp⟩)
          · rintro (h | ⟨x, hx, hp⟩)
            · exact h4 (Or.inl h)
            · rcases List.mem_cons.1 hx with hx | hx
              · subst hx; cases hp
              · exact h4 (Or.inr ⟨x, hx, hp⟩)

/-- C23, counterexample: with valid `ip` and `dir` entries, a `users:` key that is the last
line, or is followed by a blank line, a comment or another key, makes LoadConfig return
false; the same text without the key, or with one user line after it, loads. -/
theorem C23_counterexample :
    ServerInfo.LoadConfig inet_pton4 "UTF-8".toList ServerInfo.initial
        (some "ip:\n$10.0.0.1\ndir:\n$/srv\nusers:\n".toList) =
      some (false, { ServerInfo.initial with ip := "10.0.0.1".toList, dir := "/srv".toList }) ∧
    ServerInfo.LoadConfig inet_pton4 "UTF-8".toList ServerInfo.initial
        (some "ip:\n$10.0.0.1\ndir:\n$/srv\nusers:\n\n".toList) =
      some (false, { ServerInfo.initial with ip := "10.0.0.1".toList, dir := "/srv".toList }) ∧
    ServerInfo.LoadConfig inet_pton4 "UTF-8".toList ServerInfo.initial
        (some "ip:\n$10.0.0.1\ndir:\n$/srv\nusers:\n# none\n".toList) =
      some (false, { ServerInfo.initial with ip := "10.0.0.1".toList, dir := "/srv".toList }) ∧
    ServerInfo.LoadConfig inet_pton4 "UTF-8".toList ServerInfo.initial
        (some "ip:\n$10.0.0.1\ndir:\n$/srv\nusers:\nport:\n$21\n".toList) =
      some (false, { ServerInfo.initial with ip := "10.0.0.1".toList, dir := "/srv".toList }) ∧
    ServerInfo.LoadConfig inet_pton4 "UTF-8".toList ServerInfo.initial
        (some "ip:\n$10.0.0.1\ndir:\n$/srv\n".toList) =
      some (true, { ServerInfo.initial with
        ip := "10.0.0.1".toList, dir := "/srv".toList, encoding := "UTF-8".toList }) ∧
    ServerInfo.LoadConfig inet_pton4 "UTF-8".toList ServerInfo.initial
        (some "ip:\n$10.0.0.1\ndir:\n$/srv\nusers:\n$bob pw\n".toList) =
      some (true, { ServerInfo.initial with
        ip := "10.0.0.1".toList, dir := "/srv".toList, encoding := "UTF-8".toList,
        users := [("bob".toList, "pw".toList)] }) := by
  decide

/-- C23, as the code has it: (1) for every text made of valid items, among them an `ip` and a
`dir` entry, in which each `users:` key is followed by at least one well-formed user line,
LoadConfig succeeds, and the set of users holds, besides what it held, exactly the pairs of
the user lines, the username being the text before the first space and the password the
text after it; (2) a `users:` key at key position that no `$` line follows makes LoadConfig
return false. -/
theorem C23_users_need_a_line (inet_pton : Bytes → Bool) (codeset : Bytes) (cfg : ServerInfo)
    (text : Bytes) :
    (∀ items : List ConfigItem, getlineAll '\n' text = itemLines items →
      (∀ it ∈ items, it.Valid inet_pton) →
      (∃ it ∈ items, it.isEntry "ip") → (∃ it ∈ items, it.isEntry "dir") →
      ∃ cfg1, ServerInfo.LoadConfig inet_pton codeset cfg (some text) = some (true, cfg1) ∧
        ∀ p, p ∈ cfg1.users ↔ p ∈ cfg.users ∨ ∃ it ∈ items, p ∈ it.pairs) ∧
    (∀ l rest, KeyPosition (getlineAll '\n' text) (l :: rest) → trim l = keyLine "users" →
      (∀ v, rest.head? = some v → isDollarLine v = false) →
      ∃ cfg1, ServerInfo.LoadConfig inet_pton codeset cfg (some text) = some (false, cfg1)) := by
  unfold ServerInfo.LoadConfig
  dsimp only
  generalize getlineAll '\n' text = lines
  constructor
  · intro items hl hv hip hdir
    subst hl
    obtain ⟨st1, h1, h2, h3, h4⟩ := loadLoop_items inet_pton items
      ((itemLines items).length + 1) { cfg := cfg, has_ip := false, has_dir := false } hv
      (by have := itemLines_length items; omega)
    rw [h1]
    dsimp only
    rw [h3 (Or.inr hip), h4 (Or.inr hdir)]
    exact ⟨_, rfl, h2⟩
  · intro l rest hk hu hn
    obtain ⟨st1, h1⟩ := loadLoop_prefix inet_pton lines (l :: rest) hk
      (fun fuel st hf => by
        cases fuel with
        | zero => omega
        | succ n =>
          exact ⟨_, loadLoop_noValue inet_pton n st l rest (keyLine_users_notBlank l hu) hn⟩)
      (lines.length + 1) { cfg := cfg, has_ip := false, has_dir := false } (by omega)
    rw [h1]
    exact ⟨_, rfl⟩

/-- The witness of C23: a text with two user lines loads and gives their two pairs; the
text that ends with `users:` is refused. -/
theorem C23_users_need_a_line_witness :
    (∃ cfg1, ServerInfo.LoadConfig inet_pton4 "UTF-8".toList ServerInfo.initial
        (some "ip:\n$10.0.0.1\ndir:\n$/srv\nusers:\n$bob pw\n$al x y\n".toList) =
          some (true, cfg1) ∧
      ∀ p, p ∈ cfg1.users ↔ p ∈ ServerInfo.initial.users ∨
        ∃ it ∈ [ConfigItem.entry "ip:".toList "$10.0.0.1".toList,
            ConfigItem.entry "dir:".toList "$/srv".toList,
            ConfigItem.users "users:".toList
              [{ line := "$bob pw".toList, username := "bob".toList, password := "pw".toList },
               { line := "$al x y".toList, username := "al".toList,
                 password := "x y".toList }]], p ∈ it.pairs) ∧
    (∃ cfg1, ServerInfo.LoadConfig inet_pton4 "UTF-8".toList ServerInfo.initial
        (some "ip:\n$10.0.0.1\ndir:\n$/srv\nusers:\n".toList) = some (false, cfg1)) := by
  constructor
  · refine (C23_users_need_a_line inet_pton4 "UTF-8".toList ServerInfo.initial _).1 _
      (by decide) ?_
      ⟨_, List.mem_cons_self _ _, (by decide : trim "ip:".toList = keyLine "ip")⟩
      ⟨_, List.mem_cons_of_mem _ (List.mem_cons_self _ _),
        (by decide : trim "dir:".toList = keyLine "dir")⟩
    intro it hit
    simp only [List.mem_cons, List.mem_singleton, List.not_mem_nil, or_false] at hit
    rcases hit with hit | hit | hit
    · subst hit
      exact ⟨by decide, Or.inl ⟨by decide, by decide⟩⟩
    · subst hit
      exact ⟨by decide, Or.inr (Or.inl ⟨by decide, by decide⟩)⟩
    · subst hit
      refine ⟨by decide, by simp, ?_⟩
      intro u hu
      simp only [List.mem_cons, List.mem_singleton, List.not_mem_nil, or_false] at hu
      rcases hu with hu | hu
      · subst hu
        exact ⟨by decide, by decide, by decide, by decide, by decide⟩
      · subst hu
        exact ⟨by decide, by decide, by decide, by decide, by decide⟩
  · refine (C23_users_need_a_line inet_pton4 "UTF-8".toList ServerInfo.initial _).2
      "users:".toList [] ?_ (by decide) (fun v hv => by cases hv)
    have hl : getlineAll '\n' "ip:\n$10.0.0.1\ndir:\n$/srv\nusers:\n".toList =
        ["ip:".toList, "$10.0.0.1".toList, "dir:".toList, "$/srv".toList,
          "users:".toList] := by decide
    rw [hl]
    exact KeyPosition.entry "dir:".toList "$/srv".toList _
      (KeyPosition.entry "ip:".toList "$10.0.0.1".toList _ KeyPosition.start
        (by decide) (by decide)) (by decide) (by decide)
end HSLL
